import Mathlib

/-!
# libq2: schema-driven query compiler

A shallow embedding of `src/libq2.c` in Lean 4, followed by theorems about it.

Conventions of the embedding

* A C string (`const char*`) is an `Option String`; `none` is the NULL pointer.
* An APR table (`apr_table_t`) is an association list whose keys are compared
  without regard to ASCII case, as `apr_table_get` does.
* A record set (`apr_array_header_t*` of `apr_table_t*`) is an `Option (List AprTable)`.
* Code that dereferences NULL, reads past an array, reads an uninitialised
  local or loops for ever ends in `Run.fault`; everything else ends in `Run.ok`.
* The request state `q2_t` is the structure `Q2`; functions that write to it
  return the new state.  The function pointers of `q2_t` are the structure
  `Driver`; the database connection is the structure `Dbd`.
* `Q2.trace` is a ghost field: the list of calls made to the database, oldest first.
-/

set_option autoImplicit false

namespace LibQ2

/-! ## Outcomes of C code -/

/-- The ways in which the C code can leave defined behaviour. -/
inductive Fault where
  | null_deref
  | out_of_bounds
  | uninit_read
  | diverges
  deriving DecidableEq, Repr

/-- Result of running a piece of C code: a value, or a fault. -/
inductive Run (α : Type) where
  | ok (a : α)
  | fault (f : Fault)
  deriving DecidableEq, Repr

/-- Sequencing of runs: a fault stops the computation. -/
def Run.bind {α β : Type} (x : Run α) (f : α → Run β) : Run β :=
  match x with
  | Run.ok a => f a
  | Run.fault e => Run.fault e

instance : Monad Run where
  pure := Run.ok
  bind := Run.bind

/-- A C string; `none` is NULL. -/
abbrev CStr := Option String

/-! ## The C library -/

/-- The function `isspace` of the C locale. -/
def c_isspace (c : Char) : Bool :=
  c = ' ' || c = '\t' || c = '\n' || c = '\x0b' || c = '\x0c' || c = '\r'

/-- The function `isdigit`. -/
def c_isdigit (c : Char) : Bool :=
  decide ('0' ≤ c) && decide (c ≤ '9')

/-- Value of a decimal digit. -/
def c_digit_val (c : Char) : Nat := c.toNat - '0'.toNat

/-- The function `tolower` on ASCII. -/
def c_tolower (c : Char) : Char :=
  if 'A' ≤ c ∧ c ≤ 'Z' then Char.ofNat (c.toNat + 32) else c

/-- Reads the leading decimal digits of a string, most significant first. -/
def strtol_digits : List Char → Nat → Nat
  | [], acc => acc
  | c :: cs, acc => if c_isdigit c then strtol_digits cs (acc * 10 + c_digit_val c) else acc

/-- The constant `LONG_MAX` of an LP64 platform. -/
def LONG_MAX : Int := 9223372036854775807

/-- The function `strtol(s, NULL, 10)`: white space, an optional sign, digits;
the result is clamped to the range of `long`. -/
def strtol (s : String) : Int :=
  match s.data.dropWhile c_isspace with
  | '-' :: r => max (-(strtol_digits r 0 : Int)) (-LONG_MAX - 1)
  | '+' :: r => min (strtol_digits r 0 : Int) LONG_MAX
  | r => min (strtol_digits r 0 : Int) LONG_MAX

/-- Conversion of a `long` to `int`: the low 32 bits, two's complement. -/
def c_int_of_long (l : Int) : Int := (l + 2147483648) % 4294967296 - 2147483648

/-- The function `atoi`, which is `(int) strtol(s, NULL, 10)`. -/
def atoi (s : String) : Int := c_int_of_long (strtol s)

/-- The function `atoi` on a pointer that may be NULL. -/
def atoi_p (s : CStr) : Run Int :=
  match s with
  | some v => Run.ok (atoi v)
  | none => Run.fault Fault.null_deref

/-- The cast `(unsigned char)` of an `int`. -/
def c_uchar (i : Int) : Nat := (i % 256).toNat

/-- The expression `(unsigned char)atoi(s)` read as a truth value. -/
def flag_p (s : CStr) : Run Bool :=
  match s with
  | some v => Run.ok (c_uchar (atoi v) != 0)
  | none => Run.fault Fault.null_deref

/-- The conversion `%d` of `sprintf`. -/
def fmt_d (i : Int) : String := toString i

/-- The conversion `%s` of `apr_psprintf`, which prints `(null)` for NULL. -/
def fmt_s (s : CStr) : String := s.getD "(null)"

/-- Equality under `strcasecmp`. -/
def strcasecmp_eq (a b : String) : Bool :=
  a.data.map c_tolower == b.data.map c_tolower

/-- The test `strncasecmp(s, p, n) == 0` for a string `p` of length `n`. -/
def strncasecmp_eq (s p : String) (n : Nat) : Bool :=
  (s.data.take n).map c_tolower == (p.data.take n).map c_tolower

/-- The test `strcmp(a, b) == 0`; `strcmp` dereferences both pointers. -/
def strcmp_eq (a b : CStr) : Run Bool :=
  match a, b with
  | some x, some y => Run.ok (x == y)
  | _, _ => Run.fault Fault.null_deref

/-- Source: `q2_is_empty_s`. -/
def q2_is_empty_s (s : CStr) : Bool :=
  match s with
  | none => true
  | some v => v.length ≤ 0 || v.data.take 1 == [' ']

/-- Source: `q2_is_null_s`. -/
def q2_is_null_s (s : CStr) : Bool :=
  match s with
  | none => true
  | some v => strncasecmp_eq v "null" 4 || strncasecmp_eq v "NULL" 4

/-- Source: `q2_is_integer`. -/
def q2_is_integer (v : CStr) : Bool :=
  match v with
  | none => false
  | some s => atoi s != 0 && (fmt_d (atoi s)).length == s.length

/-- Source: `q2_in_string`. -/
def q2_in_string (s : String) (v : Char) : Bool := s.data.contains v

/-! ## APR tables and arrays -/

/-- An `apr_table_t`: entries in insertion order. -/
abbrev AprTable := List (String × CStr)

/-- The function `apr_table_get`: value of the first entry whose key matches. -/
def apr_table_get : AprTable → String → CStr
  | [], _ => none
  | (k, v) :: r, key => if strcasecmp_eq k key then v else apr_table_get r key

/-- Removes every entry with the given key (`apr_table_unset`). -/
def apr_table_unset (t : AprTable) (key : String) : AprTable :=
  t.filter (fun e => !strcasecmp_eq e.1 key)

/-- The functions `apr_table_set` and `apr_table_setn`: the first matching
entry gets the new value and later matching entries are removed; without a
match the entry is added at the end. -/
def apr_table_set : AprTable → String → CStr → AprTable
  | [], key, val => [(key, val)]
  | (k, v) :: r, key, val =>
    if strcasecmp_eq k key then (k, val) :: apr_table_unset r key
    else (k, v) :: apr_table_set r key val

/-- A record set as returned by `q2_dbd_select`. -/
abbrev Rset := List AprTable

/-- The function `apr_array_pstrcat(p, arr, sep)` on an array of strings. -/
def apr_array_pstrcat (arr : List String) (sep : String) : String :=
  String.intercalate sep arr

/-- Source: `q2_join`, on an array without NULL elements. -/
def q2_join (arr : Option (List String)) (sep : String) : CStr :=
  match arr with
  | none => none
  | some [] => none
  | some l => some (String.intercalate sep l)

/-- Source: `q2_dbd_get_value`. -/
def q2_dbd_get_value (rset : Option Rset) (i : Nat) (key : String) : CStr :=
  match rset with
  | none => none
  | some rows =>
    match rows.get? i with
    | none => none
    | some t => apr_table_get t key

/-- Source: `q2_dbd_set_value`. -/
def q2_dbd_set_value (rset : Rset) (i : Nat) (key : String) (val : CStr) : Rset :=
  match rset.get? i with
  | none => rset
  | some t => rset.set i (apr_table_set t key val)

/-- Source: `q2_dbd_get_entry`. -/
def q2_dbd_get_entry (rset : Option Rset) (i : Nat) : Option AprTable :=
  match rset with
  | none => none
  | some rows => rows.get? i

/-! ## The request state and the database -/

/-- Constant of the source. -/
abbrev Q2_HT_METHOD_GET : Nat := 1
/-- Constant of the source. -/
abbrev Q2_HT_METHOD_POST : Nat := 2
/-- Constant of the source. -/
abbrev Q2_HT_METHOD_PUT : Nat := 3
/-- Constant of the source. -/
abbrev Q2_HT_METHOD_PATCH : Nat := 4
/-- Constant of the source. -/
abbrev Q2_HT_METHOD_DELETE : Nat := 5
/-- Constant of the source. -/
abbrev Q2_DBD_MYSQL : Nat := 1
/-- Constant of the source. -/
abbrev Q2_DBD_PGSQL : Nat := 2
/-- Constant of the source. -/
abbrev Q2_DBD_SQLT3 : Nat := 3
/-- Constant of the source. -/
abbrev Q2_DBD_MSSQL : Nat := 4
/-- Constant of the source. -/
abbrev Q2_RL_11REL : Nat := 1
/-- Constant of the source. -/
abbrev Q2_RL_1MREL : Nat := 2
/-- Constant of the source. -/
abbrev Q2_RL_MMREL : Nat := 3

/-- One message written by the `q2_log_error` macro: the values of `__LINE__`
and `__func__` at the call and the formatted text (`__FILE__` is left out). -/
structure LogMsg where
  line : Nat
  func : String
  msg : String
  deriving DecidableEq, Repr

/-- A call made to the database: the catalog functions of the driver, and the
execution of a statement by `q2_dbd_select` or `q2_dbd_query`. -/
inductive DbCall where
  | tb_name (tb : CStr)
  | cl_name (tb cl : CStr)
  | cl_attr (tb : CStr)
  | pk_attr (tb : CStr)
  | un_attr (tb : CStr)
  | fk_tabs (tb : CStr)
  | fk_attr (tb : CStr)
  | id_last
  | db_vers
  | select (sql : String)
  | query (sql : String)
  deriving DecidableEq, Repr

/-- Answer of a catalog function: the record set and the value left in `*er`. -/
structure DbRes where
  rset : Option Rset
  er : Int
  deriving DecidableEq, Repr

/-- The function pointers of `q2_t`, each applied to the pool, driver and handle. -/
structure Driver where
  tb_name_fn : CStr → DbRes
  cl_name_fn : CStr → CStr → DbRes
  cl_attr_fn : CStr → DbRes
  pk_attr_fn : CStr → DbRes
  fk_tabs_fn : CStr → DbRes
  fk_attr_fn : CStr → DbRes
  un_attr_fn : CStr → DbRes
  id_last_fn : DbRes
  db_vers_fn : CStr × Int

/-- The database connection: the APR DBD driver and handle.  The four catalog
function tables stand for the `q2_mysql_*`, `q2_pgsql_*`, `q2_sqlt3_*` and
`q2_mssql_*` functions evaluated on this connection. -/
structure Dbd where
  name : String
  mysql : Driver
  pgsql : Driver
  sqlt3 : Driver
  mssql : Driver
  error : Int → String
  escape : String → String
  select : String → DbRes
  query : String → Int × Int

/-- The structure `q2_t` without its pool and pointers to code; `dbd_driver`
and `dbd_handle` record whether the pointer is set; `trace` is a ghost field. -/
structure Q2 where
  error : Int := 0
  log : Option LogMsg := none
  dbd_driver : Bool := false
  dbd_handle : Bool := false
  dbd_server_type : Nat := 0
  attributes : Option Rset := none
  sql : CStr := none
  results : Option Rset := none
  affected_rows : Int := 0
  last_insert_id : CStr := none
  dbd_server_version : CStr := none
  next_page : Int := 0
  next : CStr := none
  uri_tables : Option (List String) := none
  uri_keys : Option (List String) := none
  table : CStr := none
  request_uri : CStr := none
  tab_relation : Nat := 0
  column : CStr := none
  pk_attrs : Option Rset := none
  unsigned_attrs : Option Rset := none
  refs_attrs : Option Rset := none
  request_params : Option AprTable := none
  request_query : CStr := none
  request_rawdata : CStr := none
  request_rawdata_len : Int := 0
  r_params : Option AprTable := none
  r_others : Option AprTable := none
  request_method : Nat := 0
  request_method_name : CStr := none
  pagination_ppg : Int := 0
  query_num_rows : Int := 0
  single_entity : Int := 0
  trace : List DbCall := []
  deriving DecidableEq, Repr

/-- Source: the macro `q2_log_error`.  The flag is set by every report and
the message only by the first. -/
def q2_log_error (q2 : Q2) (line : Nat) (func msg : String) : Q2 :=
  { q2 with
    error := 1
    log := match q2.log with
      | none => some { line := line, func := func, msg := msg }
      | some l => some l }

/-- The statement `if (er) q2_log_error(q2, "%s", apr_dbd_error(...))`. -/
def log_if_er (db : Dbd) (q2 : Q2) (er : Int) (line : Nat) (func : String) : Q2 :=
  if er ≠ 0 then q2_log_error q2 line func (db.error er) else q2

/-- Adds a call to the ghost trace. -/
def Q2.called (q2 : Q2) (c : DbCall) : Q2 :=
  { q2 with trace := q2.trace ++ [c] }

/-- Element `i` of an APR array; reading past the end is a fault. -/
def apr_array_idx {α : Type} (arr : List α) (i : Nat) : Run α :=
  match arr.get? i with
  | some a => Run.ok a
  | none => Run.fault Fault.out_of_bounds

/-- Number of elements of a loop body that hold, in order; a fault stops the loop. -/
def count_hits {α : Type} (hit : α → Run Bool) : List α → Run Nat
  | [] => Run.ok 0
  | x :: r =>
    match hit x with
    | Run.fault e => Run.fault e
    | Run.ok b =>
      match count_hits hit r with
      | Run.fault e => Run.fault e
      | Run.ok n => Run.ok (if b then n + 1 else n)

/-- The pairs `(i, j)` visited by two nested `for` loops, in order. -/
def nested_range (n m : Nat) : List (Nat × Nat) :=
  (List.range n).flatMap (fun i => (List.range m).map (fun j => (i, j)))

/-- The pairs visited by a `for` loop over `xs` with an inner loop over `ys`. -/
def nested_pairs {α β : Type} (xs : List α) (ys : List β) : List (α × β) :=
  xs.flatMap (fun x => ys.map (fun y => (x, y)))

/-! ## Strings: splitting -/

/-- The function `apr_strtok` on the rest of a string: leading separators are
skipped; the result is the next token and what follows its terminating
separator, or `none` when nothing but separators is left (the function then
returns NULL and leaves `*last` as it was). -/
def apr_strtok (sep : List Char) (str : List Char) : Option (List Char × List Char) :=
  match str.dropWhile (fun c => sep.contains c) with
  | [] => none
  | c :: cs =>
    some (c :: cs.takeWhile (fun d => !sep.contains d),
          (cs.dropWhile (fun d => !sep.contains d)).drop 1)

/-- Source: `q2_split`, the `while (*last)` loop and the final push.  When
`apr_strtok` finds no further token although `*last` is not the end of the
string, `last` stays where it is and the loop does not end. -/
def q2_split_loop (sep : List Char) :
    Nat → List Char → List Char → List String → Run (List String)
  | 0, _, _, _ => Run.fault Fault.diverges
  | fuel + 1, tok, last, acc =>
    match last with
    | [] => Run.ok (acc ++ [String.mk tok])
    | _ :: _ =>
      match apr_strtok sep last with
      | none => Run.fault Fault.diverges
      | some (tok2, last2) => q2_split_loop sep fuel tok2 last2 (acc ++ [String.mk tok])

/-- Source: `q2_split`.  With no token at all `last` is still NULL when the
loop condition reads it. -/
def q2_split (s : CStr) (sep : String) : Run (Option (List String)) :=
  match s with
  | none => Run.ok none
  | some v =>
    match apr_strtok sep.data v.data with
    | none => Run.fault Fault.null_deref
    | some (tok, last) =>
      match q2_split_loop sep.data (last.length + 1) tok last [] with
      | Run.fault e => Run.fault e
      | Run.ok a => Run.ok (some a)

/-! ## URI resolver -/

/-- Source: `q2_uri_get_pages`.  Every path of the function returns 0. -/
def q2_uri_get_pages (arr : Option (List String)) : Run Int :=
  match arr with
  | none => Run.fault Fault.null_deref
  | some a =>
    if a.length < 5 then Run.ok 0
    else
      match a.getLast? with
      | none => Run.ok 0
      | some page_s =>
        if q2_is_integer (some page_s) then
          if atoi page_s > 0 then
            match a.get? (a.length - 2) with
            | none => Run.fault Fault.out_of_bounds
            | some next => if strncasecmp_eq next "next" 4 then Run.ok 0 else Run.ok 0
          else Run.ok 0
        else Run.ok 0

/-- Source: `q2_uri_get_tabs`, the loop from index `i` on. -/
def uri_tabs_loop : Nat → List String → List String
  | _, [] => []
  | i, path_i :: rest =>
    if q2_is_integer (some path_i) then uri_tabs_loop (i + 1) rest
    else if (i - 1) % 2 = 0 then uri_tabs_loop (i + 1) rest
    else path_i :: uri_tabs_loop (i + 1) rest

/-- An APR array that is created at the first push: NULL when nothing was pushed. -/
def array_or_null {α : Type} (l : List α) : Option (List α) :=
  match l with
  | [] => none
  | _ => some l

/-- Source: `q2_uri_get_tabs`. -/
def q2_uri_get_tabs (arr : Option (List String)) : Option (List String) :=
  match arr with
  | none => none
  | some a => if a.length < 3 then none else array_or_null (uri_tabs_loop 2 (a.drop 2))

/-- Source: `q2_uri_get_keys`, the loop from index `i` on. -/
def uri_keys_loop : Nat → List String → List String
  | _, [] => []
  | i, path_i :: rest =>
    if (i - 1) % 2 = 0 then path_i :: uri_keys_loop (i + 1) rest
    else uri_keys_loop (i + 1) rest

/-- Source: `q2_uri_get_keys`. -/
def q2_uri_get_keys (arr : Option (List String)) : Option (List String) :=
  match arr with
  | none => none
  | some a => if a.length < 3 then none else array_or_null (uri_keys_loop 2 (a.drop 2))

/-! ## Relation resolver -/

/-- Source: `q2_ischema_pgsql_get_target_table_mm`, the loop over the tables
that have foreign keys. -/
def pgsql_mm_loop (db : Dbd) (fn : Driver) (uri_tables : Option (List String)) :
    Q2 → List AprTable → Run (Q2 × CStr)
  | q2, [] => Run.ok (q2, none)
  | q2, row :: rest =>
    match atoi_p (apr_table_get row "count") with
    | Run.fault e => Run.fault e
    | Run.ok tab_n_fk =>
      if tab_n_fk < 2 then pgsql_mm_loop db fn uri_tables q2 rest
      else
        let mul_fk_tab_name := apr_table_get row "name"
        let res := fn.fk_attr_fn mul_fk_tab_name
        let q2a := log_if_er db (q2.called (DbCall.fk_attr mul_fk_tab_name)) res.er 1405
          "q2_ischema_pgsql_get_target_table_mm"
        match res.rset with
        | none => Run.ok (q2a, none)
        | some ref_tabs =>
          match uri_tables with
          | none => Run.fault Fault.null_deref
          | some tabs =>
            if ref_tabs.length < tabs.length then pgsql_mm_loop db fn uri_tables q2a rest
            else
              match count_hits
                  (fun p => strcmp_eq (apr_table_get p.1 "referenced_table") (some p.2))
                  (nested_pairs ref_tabs tabs) with
              | Run.fault e => Run.fault e
              | Run.ok count =>
                if count = tabs.length then Run.ok (q2a, mul_fk_tab_name)
                else pgsql_mm_loop db fn uri_tables q2a rest

/-- Source: `q2_ischema_pgsql_get_target_table_mm`. -/
def q2_ischema_pgsql_get_target_table_mm (db : Dbd) (fn : Driver) (q2 : Q2) :
    Run (Q2 × CStr) :=
  let res := fn.fk_tabs_fn none
  let q2a := log_if_er db (q2.called (DbCall.fk_tabs none)) res.er 1395
    "q2_ischema_pgsql_get_target_table_mm"
  match res.rset with
  | none => Run.ok (q2a, none)
  | some mul_fk_tabs => pgsql_mm_loop db fn q2a.uri_tables q2a mul_fk_tabs

/-- Source: `q2_ischema_get_target_table`, branch `Q2_RL_11REL`. -/
def target_table_11 (db : Dbd) (fn : Driver) (q2 : Q2) (tabs : List String) :
    Run (Q2 × CStr) :=
  if tabs.length ≤ 1 then Run.ok (q2, none)
  else
    match tabs.getLast? with
    | none => Run.ok (q2, none)
    | some table =>
      let rpk := fn.pk_attr_fn (some table)
      let q2a := q2.called (DbCall.pk_attr (some table))
      match rpk.rset with
      | none => Run.ok (log_if_er db q2a rpk.er 1441 "q2_ischema_get_target_table", none)
      | some rset_pk =>
        if rset_pk.length ≤ 0 then Run.ok (q2a, none)
        else
          let rfk := fn.fk_attr_fn (some table)
          let q2b := log_if_er db (q2a.called (DbCall.fk_attr (some table))) rfk.er 1449
            "q2_ischema_get_target_table"
          match rfk.rset with
          | none => Run.ok (q2b, none)
          | some rset_fk =>
            if rset_fk.length ≤ 0 then Run.ok (q2b, none)
            else
              match count_hits
                  (fun p => strcmp_eq (q2_dbd_get_value (some rset_pk) p.1 "column_name")
                                      (q2_dbd_get_value (some rset_fk) p.1 "column_name"))
                  (nested_range rset_pk.length rset_fk.length) with
              | Run.fault e => Run.fault e
              | Run.ok count =>
                if count ≠ rset_pk.length ∨ count ≠ rset_fk.length then Run.ok (q2b, none)
                else
                  match count_hits
                      (fun p => strcmp_eq (apr_table_get p.1 "referenced_table") (some p.2))
                      (nested_pairs rset_fk (tabs.take (tabs.length - 1))) with
                  | Run.fault e => Run.fault e
                  | Run.ok count2 =>
                    if count2 ≠ rset_fk.length then Run.ok (q2b, none)
                    else Run.ok (q2b, some table)

/-- Source: `q2_ischema_get_target_table`, branch `Q2_RL_1MREL`. -/
def target_table_1m (db : Dbd) (fn : Driver) (q2 : Q2) (tabs : List String) :
    Run (Q2 × CStr) :=
  if tabs.length ≤ 1 then Run.ok (q2, none)
  else
    match tabs.getLast? with
    | none => Run.ok (q2, none)
    | some table =>
      let res := fn.fk_attr_fn (some table)
      let q2a := log_if_er db (q2.called (DbCall.fk_attr (some table))) res.er 1483
        "q2_ischema_get_target_table"
      match res.rset with
      | none => Run.ok (q2a, none)
      | some rset =>
        match count_hits
            (fun p =>
              match strcmp_eq (apr_table_get p.1 "referenced_table") (some table) with
              | Run.fault e => Run.fault e
              | Run.ok true => Run.ok false
              | Run.ok false => strcmp_eq (apr_table_get p.1 "referenced_table") (some p.2))
            (nested_pairs rset tabs) with
        | Run.fault e => Run.fault e
        | Run.ok count =>
          if count ≠ tabs.length - 1 then Run.ok (q2a, none)
          else Run.ok (q2a, some table)

/-- Source: `q2_ischema_get_target_table`, branch `Q2_RL_MMREL`, the loop over
the tables that reference the last table of the path. -/
def target_table_mm_loop (db : Dbd) (fn : Driver) (tabs : List String) :
    Q2 → List AprTable → Run (Q2 × CStr)
  | q2, [] => Run.ok (q2, none)
  | q2, row :: rest =>
    let tname := apr_table_get row "table_name"
    let res := fn.fk_attr_fn tname
    let q2a := log_if_er db (q2.called (DbCall.fk_attr tname)) res.er 1519
      "q2_ischema_get_target_table"
    match res.rset with
    | none => Run.fault Fault.null_deref
    | some rset_ =>
      if rset_.length ≠ tabs.length then target_table_mm_loop db fn tabs q2a rest
      else
        match count_hits
            (fun p => strcmp_eq (apr_table_get p.1 "referenced_table") (some p.2))
            (nested_pairs rset_ tabs) with
        | Run.fault e => Run.fault e
        | Run.ok count =>
          if count = tabs.length then Run.ok (q2a, tname)
          else target_table_mm_loop db fn tabs q2a rest

/-- Source: `q2_ischema_get_target_table`, branch `Q2_RL_MMREL`. -/
def target_table_mm (db : Dbd) (fn : Driver) (q2 : Q2) (tabs : List String) :
    Run (Q2 × CStr) :=
  if tabs.length ≤ 1 then Run.ok (q2, none)
  else if q2.dbd_server_type = Q2_DBD_PGSQL then q2_ischema_pgsql_get_target_table_mm db fn q2
  else
    match tabs.getLast? with
    | none => Run.ok (q2, none)
    | some table =>
      let res := fn.fk_tabs_fn (some table)
      let q2a := log_if_er db (q2.called (DbCall.fk_tabs (some table))) res.er 1512
        "q2_ischema_get_target_table"
      match res.rset with
      | none => Run.ok (q2a, none)
      | some rset => target_table_mm_loop db fn tabs q2a rset

/-- Source: `q2_ischema_get_target_table`, the final `else` branch (single table). -/
def target_table_single (db : Dbd) (fn : Driver) (q2 : Q2) (tabs : List String) :
    Run (Q2 × CStr) :=
  if tabs.length ≤ 1 then
    match apr_array_idx tabs 0 with
    | Run.fault e => Run.fault e
    | Run.ok t0 =>
      let res := fn.tb_name_fn (some t0)
      let q2a := q2.called (DbCall.tb_name (some t0))
      match res.rset with
      | none =>
        Run.ok (q2_log_error q2a 1543 "q2_ischema_get_target_table"
          (if res.er ≠ 0 then db.error res.er else "Invalid table name"), none)
      | some rset => Run.ok (q2a, q2_dbd_get_value (some rset) 0 "table_name")
  else
    match tabs with
    | table :: cname :: _ =>
      let res := fn.tb_name_fn (some table)
      let q2a := q2.called (DbCall.tb_name (some table))
      match res.rset with
      | none => Run.ok (log_if_er db q2a res.er 1558 "q2_ischema_get_target_table", none)
      | some rset =>
        let tname := q2_dbd_get_value (some rset) 0 "table_name"
        let res2 := fn.cl_name_fn tname (some cname)
        let q2b := q2a.called (DbCall.cl_name tname (some cname))
        match res2.rset with
        | none => Run.ok (log_if_er db q2b res2.er 1567 "q2_ischema_get_target_table", none)
        | some _ => Run.ok (q2b, tname)
    | _ => Run.ok (q2, none)

/-- Source: `q2_ischema_get_target_table`. -/
def q2_ischema_get_target_table (db : Dbd) (fn : Driver) (q2 : Q2) (rel : Nat) :
    Run (Q2 × CStr) :=
  match q2.uri_tables with
  | none => Run.ok (q2, none)
  | some tabs =>
    if rel = Q2_RL_11REL then target_table_11 db fn q2 tabs
    else if rel = Q2_RL_1MREL then target_table_1m db fn q2 tabs
    else if rel = Q2_RL_MMREL then target_table_mm db fn q2 tabs
    else target_table_single db fn q2 tabs

/-! ## Catalog rows of SQLite -/

/-- Source: `q2_sqlt3_fk_attr`, the body of the loop for one row of
`PRAGMA foreign_key_list`. -/
def sqlt3_fk_row (tab : AprTable) : AprTable :=
  if tab.length ≤ 0 then tab
  else
    match apr_table_get tab "from" with
    | none => tab
    | some from_c =>
      let t1 := apr_table_set tab "column_name" (some from_c)
      let t2 := apr_table_set t1 "is_foreign_key" (some "1")
      let t3 := apr_table_set t2 "referenced_schema" (some "null")
      match apr_table_get t3 "table" with
      | none => t3
      | some table_c =>
        let t4 := apr_table_set t3 "referenced_table" (some table_c)
        match apr_table_get t4 "to" with
        | none => t4
        | some to_c =>
          let t5 := apr_table_set t4 "referenced_column" (some to_c)
          ["id", "seq", "table", "from", "to", "table", "on_update", "on_delete", "match"].foldl
            apr_table_unset t5

/-- Source: `q2_sqlt3_fk_attr`, applied to the answer of `q2_dbd_select` to the
`PRAGMA foreign_key_list` statement. -/
def q2_sqlt3_fk_attr (res : DbRes) : DbRes :=
  match res.rset with
  | none => { rset := none, er := res.er }
  | some [] => { rset := none, er := res.er }
  | some rows => { rset := some (rows.map sqlt3_fk_row), er := res.er }

/-! ## Attribute enricher -/

/-- Source: `q2_ischema_get_col_attrs`. -/
def q2_ischema_get_col_attrs (db : Dbd) (fn : Driver) (q2 : Q2) (tab : CStr) :
    Q2 × Option Rset :=
  let res := fn.cl_attr_fn tab
  let q2a := q2.called (DbCall.cl_attr tab)
  if res.er ≠ 0 then (q2_log_error q2a 1582 "q2_ischema_get_col_attrs" (db.error res.er), none)
  else (q2a, res.rset)

/-- Source: `q2_ischema_get_pk_attrs`. -/
def q2_ischema_get_pk_attrs (db : Dbd) (fn : Driver) (q2 : Q2) (tab : CStr) :
    Q2 × Option Rset :=
  let res := fn.pk_attr_fn tab
  let q2a := q2.called (DbCall.pk_attr tab)
  if res.er ≠ 0 then (q2_log_error q2a 1595 "q2_ischema_get_pk_attrs" (db.error res.er), none)
  else (q2a, res.rset)

/-- Source: `q2_ischema_get_unsig_attrs`. -/
def q2_ischema_get_unsig_attrs (db : Dbd) (fn : Driver) (q2 : Q2) (tab : CStr) :
    Q2 × Option Rset :=
  if q2.dbd_server_type = Q2_DBD_MYSQL then (q2, none)
  else
    let res := fn.un_attr_fn tab
    (log_if_er db (q2.called (DbCall.un_attr tab)) res.er 1608 "q2_ischema_get_unsig_attrs",
     res.rset)

/-- Source: `q2_ischema_get_refs_attrs`. -/
def q2_ischema_get_refs_attrs (db : Dbd) (fn : Driver) (q2 : Q2) (tab : CStr) :
    Q2 × Option Rset :=
  let res := fn.fk_attr_fn tab
  (log_if_er db (q2.called (DbCall.fk_attr tab)) res.er 1618 "q2_ischema_get_refs_attrs",
   res.rset)

/-- The function `apr_array_pstrcat` on an array that may hold NULL elements,
which contribute nothing but keep their separator. -/
def apr_array_pstrcat_p (arr : List CStr) (sep : String) : String :=
  String.intercalate sep (arr.map (fun e => e.getD ""))

/-- Source: `q2_ischema_update_attrs`, the loop over the primary-key (or
unsigned) attributes for one attribute row: the flag is set to 1 on a match. -/
def mark_matching (names : Option Rset) (c_name : String) (flag : String)
    (row : AprTable) : AprTable :=
  match names with
  | none => row
  | some rows =>
    rows.foldl
      (fun acc r =>
        match apr_table_get r "column_name" with
        | none => acc
        | some n => if c_name == n then apr_table_set acc flag (some "1") else acc)
      row

/-- Source: `q2_ischema_update_attrs`, the loop over the foreign-key
attributes for one attribute row. -/
def mark_refs (db : Dbd) (fn : Driver) (c_name : String) :
    Q2 → AprTable → List AprTable → Q2 × AprTable
  | q2, row, [] => (q2, row)
  | q2, row, r :: rest =>
    match apr_table_get r "column_name" with
    | none => mark_refs db fn c_name q2 row rest
    | some n =>
      if c_name != n then mark_refs db fn c_name q2 row rest
      else
        let row1 := apr_table_set row "is_foreign_key" (some "1")
        let row2 := apr_table_set row1 "referenced_schema" (apr_table_get r "referenced_schema")
        let row3 := apr_table_set row2 "referenced_table" (apr_table_get r "referenced_table")
        let row4 := apr_table_set row3 "referenced_column" (apr_table_get r "referenced_column")
        let rk := q2_ischema_get_pk_attrs db fn q2 (apr_table_get r "referenced_table")
        match rk.2 with
        | none => mark_refs db fn c_name rk.1 row4 rest
        | some [] => mark_refs db fn c_name rk.1 row4 rest
        | some [k] =>
          mark_refs db fn c_name rk.1
            (apr_table_set row4 "referenced_pk" (apr_table_get k "column_name")) rest
        | some ks =>
          let row5 := apr_table_set row4 "referenced_pk"
            (some (apr_array_pstrcat_p (ks.map (fun k => apr_table_get k "column_name")) ","))
          mark_refs db fn c_name rk.1
            (apr_table_set row5 "is_referenced_pk_multi" (some "1")) rest

/-- Source: `q2_ischema_update_attrs`, the outer loop. -/
def update_attrs_loop (db : Dbd) (fn : Driver) :
    Q2 → List AprTable → Q2 × List AprTable
  | q2, [] => (q2, [])
  | q2, row :: rest =>
    match apr_table_get row "column_name" with
    | none =>
      let r := update_attrs_loop db fn q2 rest
      (r.1, row :: r.2)
    | some c_name =>
      let row1 := mark_matching q2.pk_attrs c_name "is_primary_key" row
      let row2 := mark_matching q2.unsigned_attrs c_name "is_unsigned" row1
      let m := match q2.refs_attrs with
        | none => (q2, row2)
        | some refs => mark_refs db fn c_name q2 row2 refs
      let r := update_attrs_loop db fn m.1 rest
      (r.1, m.2 :: r.2)

/-- Source: `q2_ischema_update_attrs`. -/
def q2_ischema_update_attrs (db : Dbd) (fn : Driver) (q2 : Q2) : Run Q2 :=
  match q2.attributes with
  | none => Run.fault Fault.null_deref
  | some attrs =>
    let r := update_attrs_loop db fn q2 attrs
    Run.ok { r.1 with attributes := some r.2 }

/-- The test `strcmp(a, b) != 0` as a condition. -/
def strcmp_ne (a : CStr) (b : String) : Run Bool :=
  match a with
  | none => Run.fault Fault.null_deref
  | some x => Run.ok (x != b)

/-- A left-to-right `&&` of conditions that may fault. -/
def all_true : List (Unit → Run Bool) → Run Bool
  | [] => Run.ok true
  | c :: rest =>
    match c () with
    | Run.fault e => Run.fault e
    | Run.ok false => Run.ok false
    | Run.ok true => all_true rest

/-- Source: `q2_ischema_update_options_attr`, the two loops that collect the
`key=value` pairs of the other request parameters. -/
def options_pairs (r_others : AprTable) (ref_pk_arr : List String) (ref_column : String) :
    List String :=
  r_others.flatMap (fun e =>
    (ref_pk_arr.filter (fun item => e.1 == item && e.1 != ref_column)).map
      (fun item => item ++ "=" ++ e.2.getD ""))

/-- Source: `q2_ischema_update_options_attr`, the body of the loop for one attribute. -/
def update_options_row (q2 : Q2) (row : AprTable) : Run AprTable :=
  let ref_schema := apr_table_get row "referenced_schema"
  let ref_table := apr_table_get row "referenced_table"
  let ref_column := apr_table_get row "referenced_column"
  let ref_pk := apr_table_get row "referenced_pk"
  match atoi_p (apr_table_get row "is_foreign_key") with
  | Run.fault e => Run.fault e
  | Run.ok fk =>
    match atoi_p (apr_table_get row "is_referenced_pk_multi") with
    | Run.fault e => Run.fault e
    | Run.ok ref_pk_multi =>
      match all_true
          [fun _ => Run.ok (match q2.r_others with
              | none => false
              | some o => decide (o.length > 0)),
           fun _ => Run.ok (decide (fk ≠ 0)),
           fun _ => Run.ok (decide (ref_pk_multi ≠ 0)),
           fun _ => strcmp_ne ref_pk "null",
           fun _ => strcmp_ne ref_schema "null",
           fun _ => strcmp_ne ref_table "null",
           fun _ => strcmp_ne ref_column "null"] with
      | Run.fault e => Run.fault e
      | Run.ok true =>
        match q2_split ref_pk "," with
        | Run.fault e => Run.fault e
        | Run.ok ref_pk_arr =>
          let qs_cmps := options_pairs (q2.r_others.getD []) (ref_pk_arr.getD [])
            (ref_column.getD "")
          if qs_cmps.length > 0 then
            Run.ok (apr_table_set row "column_options"
              (some ("/" ++ ref_table.getD "" ++ "/" ++ ref_column.getD "" ++ "?"
                ++ apr_array_pstrcat qs_cmps "&")))
          else Run.ok row
      | Run.ok false =>
        match all_true
            [fun _ => Run.ok (decide (fk ≠ 0)),
             fun _ => strcmp_ne ref_schema "null",
             fun _ => strcmp_ne ref_table "null",
             fun _ => strcmp_ne ref_column "null"] with
        | Run.fault e => Run.fault e
        | Run.ok true =>
          Run.ok (apr_table_set row "column_options"
            (some ("/" ++ ref_table.getD "" ++ "/" ++ ref_column.getD "")))
        | Run.ok false => Run.ok row

/-- Applies a loop body to every row in order; a fault stops the loop. -/
def map_rows (f : AprTable → Run AprTable) : List AprTable → Run (List AprTable)
  | [] => Run.ok []
  | row :: rest =>
    match f row with
    | Run.fault e => Run.fault e
    | Run.ok r =>
      match map_rows f rest with
      | Run.fault e => Run.fault e
      | Run.ok rs => Run.ok (r :: rs)

/-- Source: `q2_ischema_update_options_attr`; the return value is not used by the caller. -/
def q2_ischema_update_options_attr (q2 : Q2) : Run Q2 :=
  match q2.attributes with
  | none => Run.ok q2
  | some [] => Run.ok q2
  | some attrs =>
    match map_rows (update_options_row q2) attrs with
    | Run.fault e => Run.fault e
    | Run.ok rows => Run.ok { q2 with attributes := some rows }

/-- Source: `q2_ischema_get_last_id`. -/
def q2_ischema_get_last_id (fn : Driver) (q2 : Q2) : Q2 × CStr :=
  if q2.dbd_server_type = Q2_DBD_MYSQL then
    let res := fn.id_last_fn
    let q2a : Q2 := { q2.called DbCall.id_last with error := res.er }
    match res.rset with
    | none => (q2a, none)
    | some [] => (q2a, none)
    | some (tab :: _) => (q2a, apr_table_get tab "last_id")
  else (q2, none)

/-! ## Request parameters -/

/-- Source: `q2_args_to_table`, the loop over the `key=value` items; the
result is the table built so far and the return value. -/
def args_to_table_loop : Option AprTable → List String → Run (Option AprTable × Int)
  | tab, [] => Run.ok (tab, 0)
  | tab, item :: rest =>
    match q2_split (some item) "=" with
    | Run.fault e => Run.fault e
    | Run.ok none => Run.fault Fault.null_deref
    | Run.ok (some (key :: val :: _)) =>
      args_to_table_loop (some (apr_table_set (tab.getD []) key (some val))) rest
    | Run.ok (some _) => Run.ok (tab, 1)

/-- Source: `q2_args_to_table`. -/
def q2_args_to_table (args : CStr) : Run (Option AprTable × Int) :=
  match args with
  | none => Run.ok (none, 1)
  | some a =>
    if a.length ≤ 0 then Run.ok (none, 1)
    else
      match q2_split (some a) "&" with
      | Run.fault e => Run.fault e
      | Run.ok none => Run.fault Fault.null_deref
      | Run.ok (some qs_arr) =>
        if qs_arr.length ≤ 0 then Run.ok (none, 1)
        else args_to_table_loop none qs_arr

/-- Source: `q2_table_to_args`: the entries as `key=value`, joined by `&`;
NULL for a table that is NULL or empty. -/
def q2_table_to_args (table : Option AprTable) : CStr :=
  let retv : List String :=
    match table with
    | none => []
    | some t => t.map (fun e => e.1 ++ "=" ++ fmt_s e.2)
  if retv.length > 0 then q2_join (some retv) "&" else none

/-- Source: `q2_request_parse_params`, the loop that keeps the request
parameters named like a column of `attrs`. -/
def bind_columns (request_params : AprTable) (attrs : List AprTable) (retv : AprTable) :
    AprTable :=
  attrs.foldl
    (fun acc row =>
      match apr_table_get row "column_name" with
      | none => acc
      | some ckey =>
        match apr_table_get request_params ckey with
        | none => acc
        | some cval => apr_table_set acc ckey (some cval))
    retv

/-- Source: `q2_request_parse_params`, the loop over the path tables of a
many-to-many request. -/
def parse_params_mm_loop (db : Dbd) (fn : Driver) (request_params : AprTable) :
    Q2 → AprTable → List String → Run (Q2 × AprTable)
  | q2, retv, [] => Run.ok (q2, retv)
  | q2, retv, t_name :: rest =>
    match strcmp_eq (some t_name) q2.table with
    | Run.fault e => Run.fault e
    | Run.ok true => parse_params_mm_loop db fn request_params q2 retv rest
    | Run.ok false =>
      let r := q2_ischema_get_col_attrs db fn q2 (some t_name)
      match r.2 with
      | none => parse_params_mm_loop db fn request_params r.1 retv rest
      | some col_attrs_merge =>
        parse_params_mm_loop db fn request_params r.1
          (bind_columns request_params col_attrs_merge retv) rest

/-- Source: `q2_request_parse_params`. -/
def q2_request_parse_params (db : Dbd) (fn : Driver) (q2 : Q2) :
    Run (Q2 × Option AprTable) :=
  match q2.attributes, q2.request_params with
  | some attrs, some request_params =>
    let retv := bind_columns request_params attrs []
    if q2.tab_relation ≠ Q2_RL_MMREL then Run.ok (q2, some retv)
    else
      match q2.uri_tables with
      | none => Run.ok (q2, some retv)
      | some tabs =>
        if tabs.length ≤ 0 then Run.ok (q2, some retv)
        else
          match parse_params_mm_loop db fn request_params q2 retv tabs with
          | Run.fault e => Run.fault e
          | Run.ok r => Run.ok (r.1, some r.2)
  | _, _ => Run.ok (q2, none)

/-- Source: `q2_acquire`, lines 3138 to 3155: the request parameters that were
not bound to a column. -/
def q2_acquire_others (q2 : Q2) : Q2 :=
  match q2.r_params, q2.request_params with
  | some r_params, some request_params =>
    if r_params.length < request_params.length then
      { q2 with r_others := some (request_params.foldl
          (fun acc e =>
            match apr_table_get r_params e.1 with
            | some _ => acc
            | none => apr_table_set acc e.1 e.2)
          []) }
    else q2
  | _, _ => q2

/-! ## Value parser -/

/-- Parts of the program that the source file leaves open: the path that
`apr_uri_parse` extracts from a request URI (`none` when parsing fails), and
the `return` expression of the two table-scan builders, whose argument list is
cut off in the source (it is given the statement and the pagination clause). -/
structure Ext where
  uri_path : String → Option CStr
  scan_result : String → CStr → CStr

/-- Source: `q2_sql_encode_value`. -/
def q2_sql_encode_value (db : Dbd) (q2 : Q2) (attrs : AprTable) (val : CStr) : Run CStr :=
  match val with
  | none => Run.ok none
  | some v =>
    match flag_p (apr_table_get attrs "is_numeric") with
    | Run.fault e => Run.fault e
    | Run.ok is_numeric =>
      match flag_p (apr_table_get attrs "is_date") with
      | Run.fault e => Run.fault e
      | Run.ok is_date =>
        let character_set_name : CStr :=
          if !is_numeric && !is_date then apr_table_get attrs "character_set_name" else none
        let tmp_v := String.mk (v.data.map (fun c => if c = '*' then '%' else c))
        if is_numeric || q2_is_null_s (some tmp_v) then Run.ok (some tmp_v)
        else
          Run.ok (some (
            (if q2.dbd_server_type = Q2_DBD_MYSQL then
              match character_set_name with
              | none => ""
              | some cs => "_" ++ cs
             else "")
            ++ "'" ++ db.escape tmp_v ++ "'"))

/-- Source: `q2_sql_parse_value`, the choice of the pattern and its
formatting for one encoded value. -/
def value_predicate (key : String) (character_set_name : CStr) (encoded_v : CStr) : String :=
  if q2_is_null_s encoded_v then key ++ " IS NULL"
  else if character_set_name.isSome then "(" ++ key ++ " LIKE " ++ fmt_s encoded_v ++ ")"
  else "(" ++ key ++ "=" ++ fmt_s encoded_v ++ ")"

/-- Source: `q2_sql_parse_value`, the loop over the tokens of a set. -/
def set_predicates (db : Dbd) (q2 : Q2) (attrs : AprTable) (key : String)
    (character_set_name : CStr) : List String → Run (List String)
  | [] => Run.ok []
  | cur_v :: rest =>
    match q2_sql_encode_value db q2 attrs (some cur_v) with
    | Run.fault e => Run.fault e
    | Run.ok encoded_v =>
      match set_predicates db q2 attrs key character_set_name rest with
      | Run.fault e => Run.fault e
      | Run.ok ps => Run.ok (value_predicate key character_set_name encoded_v :: ps)

/-- Pushes an element on an array that is created at the first push. -/
def push_new {α : Type} (arr : Option (List α)) (x : α) : Option (List α) :=
  some (arr.getD [] ++ [x])

/-- Source: `q2_sql_parse_value`, the ORDER BY fragment of a filter. -/
def order_by_filter (filter key : String) (order_by : Option (List String)) :
    Option (List String) :=
  if q2_in_string filter 'a' then push_new order_by (key ++ " ASC")
  else if q2_in_string filter 'd' then push_new order_by (key ++ " DESC")
  else if q2_in_string filter 'A' then
    push_new order_by ("CAST(" ++ key ++ " AS UNSIGNED) ASC, " ++ key ++ " ASC")
  else if q2_in_string filter 'D' then
    push_new order_by ("CAST(" ++ key ++ " AS UNSIGNED) DESC, " ++ key ++ " DESC")
  else order_by

/-- Source: `q2_sql_parse_value`, the part after the value was split at `:`. -/
def parse_value_body (db : Dbd) (q2 : Q2) (attrs : AprTable) (key : String)
    (character_set_name : CStr) (filter : CStr) (value_v : String)
    (order_by : Option (List String)) : Run (CStr × Option (List String)) :=
  let bare : Option (List String) → Run (CStr × Option (List String)) := fun ob =>
    if value_v.length = 1 ∧ value_v.data.head? = some '*' then Run.ok (none, ob)
    else
      match q2_sql_encode_value db q2 attrs (some value_v) with
      | Run.fault e => Run.fault e
      | Run.ok encoded_v => Run.ok (some (value_predicate key character_set_name encoded_v), ob)
  match filter with
  | none => bare order_by
  | some f =>
    let ob := order_by_filter f key order_by
    if q2_in_string f 'r' then
      match q2_split (some value_v) "," with
      | Run.fault e => Run.fault e
      | Run.ok none => Run.fault Fault.null_deref
      | Run.ok (some [sfrom, sto]) =>
        match q2_sql_encode_value db q2 attrs (some sfrom) with
        | Run.fault e => Run.fault e
        | Run.ok efrom =>
          match q2_sql_encode_value db q2 attrs (some sto) with
          | Run.fault e => Run.fault e
          | Run.ok eto =>
            Run.ok (some ("(" ++ key ++ ">=" ++ fmt_s efrom ++ ") AND (" ++ key ++ "<="
              ++ fmt_s eto ++ ")"), ob)
      | Run.ok (some [sfrom]) =>
        match q2_sql_encode_value db q2 attrs (some sfrom) with
        | Run.fault e => Run.fault e
        | Run.ok efrom =>
          if value_v.data.head? = some ',' then
            Run.ok (some ("(" ++ key ++ "<=" ++ fmt_s efrom ++ ")"), ob)
          else Run.ok (some ("(" ++ key ++ ">=" ++ fmt_s efrom ++ ")"), ob)
      | Run.ok (some _) => Run.ok (none, ob)
    else if q2_in_string f 's' then
      match q2_split (some value_v) "," with
      | Run.fault e => Run.fault e
      | Run.ok none => Run.fault Fault.null_deref
      | Run.ok (some set_toks) =>
        match set_predicates db q2 attrs key character_set_name set_toks with
        | Run.fault e => Run.fault e
        | Run.ok tmp =>
          Run.ok (some ("(" ++
            (match q2_join (some tmp) " OR " with
              | none => ""
              | some parsed_v => parsed_v ++ ")")), ob)
    else bare ob

/-- Source: `q2_sql_parse_value`; the second component is `*order_by` after the call. -/
def q2_sql_parse_value (db : Dbd) (q2 : Q2) (attrs : Option AprTable) (key val : CStr)
    (order_by : Option (List String)) : Run (CStr × Option (List String)) :=
  match attrs, key, val with
  | some tab, some k, some v =>
    match flag_p (apr_table_get tab "is_numeric") with
    | Run.fault e => Run.fault e
    | Run.ok is_numeric =>
      match flag_p (apr_table_get tab "is_date") with
      | Run.fault e => Run.fault e
      | Run.ok is_date =>
        let character_set_name : CStr :=
          if !is_numeric && !is_date then apr_table_get tab "character_set_name" else none
        match q2_split (some v) ":" with
        | Run.fault e => Run.fault e
        | Run.ok none => Run.ok (none, order_by)
        | Run.ok (some (filter :: value_v :: _)) =>
          parse_value_body db q2 tab k character_set_name (some filter) value_v order_by
        | Run.ok (some [value_v]) =>
          parse_value_body db q2 tab k character_set_name none value_v order_by
        | Run.ok (some []) => Run.fault Fault.out_of_bounds
  | _, _, _ => Run.ok (none, order_by)

/-! ## SQL synthesizer: conditions -/

/-- Collects the strings a loop body pushes, in order; a fault stops the loop. -/
def collect_some {α : Type} (f : α → Run (Option String)) : List α → Run (List String)
  | [] => Run.ok []
  | x :: rest =>
    match f x with
    | Run.fault e => Run.fault e
    | Run.ok r =>
      match collect_some f rest with
      | Run.fault e => Run.fault e
      | Run.ok rs =>
        match r with
        | none => Run.ok rs
        | some c => Run.ok (c :: rs)

/-- Source: `q2_sql_key_conds`, the formatting of one condition. -/
def key_cond (pk_name pk_val : String) : String :=
  if q2_is_integer (some pk_val) then "(" ++ pk_name ++ "=" ++ pk_val ++ ")"
  else "(" ++ pk_name ++ "='" ++ pk_val ++ "')"

/-- Source: `q2_sql_key_conds`, the body of the inner loop of the branch for
more than one path table: `p.1` is the index and name of a path table, `p.2`
an attribute. -/
def key_cond_multi (uri_keys : List String) (p : (Nat × String) × AprTable) :
    Run (Option String) :=
  match apr_table_get p.2 "referenced_table" with
  | none => Run.ok none
  | some ref_table =>
    if p.1.2 != ref_table then Run.ok none
    else
      match apr_table_get p.2 "is_primary_key" with
      | none => Run.ok none
      | some is_pk =>
        if c_uchar (atoi is_pk) = 0 then Run.ok none
        else
          match apr_table_get p.2 "column_name" with
          | none => Run.ok none
          | some pk_name =>
            match apr_array_idx uri_keys p.1.1 with
            | Run.fault e => Run.fault e
            | Run.ok pk_val => Run.ok (some (key_cond pk_name pk_val))

/-- Source: `q2_sql_key_conds`, the loop of the branch for one path table.
Every round reads the attribute of index 0; `pk_name` has no initial value. -/
def key_cond_single_name (attrs : List AprTable) : Run CStr :=
  match attrs with
  | [] => Run.fault Fault.uninit_read
  | row0 :: _ =>
    match apr_table_get row0 "is_primary_key" with
    | none => Run.fault Fault.uninit_read
    | some is_pk =>
      if c_uchar (atoi is_pk) = 0 then Run.fault Fault.uninit_read
      else Run.ok (apr_table_get row0 "column_name")

/-- Source: `q2_sql_key_conds`. -/
def q2_sql_key_conds (q2 : Q2) : Run CStr :=
  match q2.uri_keys with
  | none => Run.ok none
  | some uri_keys =>
    match q2.uri_tables with
    | none => Run.fault Fault.null_deref
    | some tabs =>
      if tabs.length > 1 then
        match q2.attributes with
        | none => Run.fault Fault.null_deref
        | some attrs =>
          match collect_some (key_cond_multi uri_keys)
              (nested_pairs ((tabs.take (tabs.length - 1)).enum) attrs) with
          | Run.fault e => Run.fault e
          | Run.ok pk_conds => Run.ok (q2_join (array_or_null pk_conds) " AND ")
      else if tabs.length = 1 then
        match q2.attributes with
        | none => Run.fault Fault.null_deref
        | some attrs =>
          match key_cond_single_name attrs with
          | Run.fault e => Run.fault e
          | Run.ok none => Run.ok none
          | Run.ok (some pk_name) =>
            match apr_array_idx uri_keys 0 with
            | Run.fault e => Run.fault e
            | Run.ok pk_val => Run.ok (q2_join (some [key_cond pk_name pk_val]) " AND ")
      else Run.ok none

/-- Source: the loop, common to the parameterised SELECT builders, that turns
every bound parameter of a column of `attrs` into a condition and collects
the ORDER BY fragments. -/
def conds_loop (db : Dbd) (q2 : Q2) (r_params : AprTable) :
    List AprTable → Option (List String) → Option (List String) →
    Run (Option (List String) × Option (List String))
  | [], conds_ar, ordby_ar => Run.ok (conds_ar, ordby_ar)
  | row :: rest, conds_ar, ordby_ar =>
    match apr_table_get row "column_name" with
    | none => conds_loop db q2 r_params rest conds_ar ordby_ar
    | some c_name =>
      match apr_table_get r_params c_name with
      | none => conds_loop db q2 r_params rest conds_ar ordby_ar
      | some c_val =>
        match q2_sql_parse_value db q2 (some row) (some c_name) (some c_val) ordby_ar with
        | Run.fault e => Run.fault e
        | Run.ok (none, ob) => conds_loop db q2 r_params rest conds_ar ob
        | Run.ok (some pars_v, ob) =>
          conds_loop db q2 r_params rest (push_new conds_ar pars_v) ob

/-- The clause ` ORDER BY ...` built from the collected fragments, or NULL. -/
def ordby_clause (ordby_ar : Option (List String)) : CStr :=
  match ordby_ar with
  | none => none
  | some l => some (" ORDER BY " ++ apr_array_pstrcat l ",")

/-- Source: `q2_count_rows`. -/
def q2_count_rows (db : Dbd) (q2 : Q2) (sql : String) : Q2 × Int :=
  let sql_c := "select count(*) as c from (" ++ sql ++ ") as t"
  let res := db.select sql_c
  let q2a := q2.called (DbCall.select sql_c)
  match res.rset with
  | some (tab :: _) =>
    match apr_table_get tab "c" with
    | some count_s => (q2a, atoi count_s)
    | none => (q2a, 0)
  | _ => (q2a, 0)

/-- Source: the search, in the table-scan builders on MSSQL, for the name of
a primary-key column: the last attribute flagged as primary key wins. -/
def last_pk_name : List AprTable → CStr → Run CStr
  | [], pk_name => Run.ok pk_name
  | row :: rest, pk_name =>
    match flag_p (apr_table_get row "is_primary_key") with
    | Run.fault e => Run.fault e
    | Run.ok true => last_pk_name rest (apr_table_get row "column_name")
    | Run.ok false => last_pk_name rest pk_name

/-- Source: the computation of `limit` in `q2_sql_select_tab` and
`q2_sql_select_tab_prm`.  The outer `none` means that the builder returns NULL. -/
def scan_limit (q2 : Q2) (line : Nat) (func : String) : Run (Q2 × Option CStr) :=
  let l2 : CStr → CStr := fun l =>
    if q2.dbd_server_type = Q2_DBD_PGSQL ∨ q2.dbd_server_type = Q2_DBD_SQLT3 then
      some ("LIMIT " ++ fmt_d q2.pagination_ppg ++ " OFFSET " ++ fmt_d q2.next_page)
    else l
  let l3 : CStr → CStr := fun l =>
    if q2.dbd_server_type = Q2_DBD_MYSQL ∧ q2.pagination_ppg ≠ 0 then
      some ("LIMIT " ++ fmt_d q2.next_page ++ "," ++ fmt_d q2.pagination_ppg)
    else l
  if q2.dbd_server_type = Q2_DBD_MSSQL then
    match q2.attributes with
    | none => Run.fault Fault.null_deref
    | some attrs =>
      match last_pk_name attrs none with
      | Run.fault e => Run.fault e
      | Run.ok none => Run.ok (q2_log_error q2 line func "Primary key not found", none)
      | Run.ok (some pk_name) =>
        Run.ok (q2, some (l3 (l2 (some ("ORDER BY " ++ pk_name ++ " OFFSET "
          ++ fmt_d q2.next_page ++ " ROWS FETCH NEXT " ++ fmt_d q2.pagination_ppg
          ++ " ROWS ONLY")))))
  else Run.ok (q2, some (l3 (l2 none)))

/-- Number of elements of `uri_tables`, when the pointer is not NULL. -/
def Q2.n_tables (q2 : Q2) : Option Nat := q2.uri_tables.map List.length

/-! ## SQL synthesizer: SELECT -/

/-- Source: `q2_sql_select_tab`. -/
def q2_sql_select_tab (db : Dbd) (ext : Ext) (q2 : Q2) : Run (Q2 × CStr) :=
  if q2.n_tables = some 1 ∧ q2.uri_keys = none ∧ q2.table ≠ none ∧ q2.column = none
      ∧ q2.r_params = none then
    match scan_limit q2 2047 "q2_sql_select_tab" with
    | Run.fault e => Run.fault e
    | Run.ok (q2a, none) => Run.ok (q2a, none)
    | Run.ok (q2a, some limit) =>
      let sql := "SELECT * FROM " ++ fmt_s q2a.table
      let c := q2_count_rows db q2a sql
      Run.ok ({ c.1 with query_num_rows := c.2 }, ext.scan_result sql limit)
  else Run.ok (q2, none)

/-- Source: `q2_sql_select_tab_key`. -/
def q2_sql_select_tab_key (q2 : Q2) : Run (Q2 × CStr) :=
  if q2.n_tables = some 1 ∧ q2.uri_keys ≠ none ∧ q2.table ≠ none ∧ q2.column = none
      ∧ q2.r_params = none then
    let q2a : Q2 := { q2 with single_entity := 1 }
    match q2_sql_key_conds q2a with
    | Run.fault e => Run.fault e
    | Run.ok none => Run.ok (q2a, none)
    | Run.ok (some key_conds_s) =>
      Run.ok (q2a, some ("SELECT * FROM " ++ fmt_s q2a.table ++ " WHERE " ++ key_conds_s))
  else Run.ok (q2, none)

/-- Source: `q2_sql_select_tab_col`, the loop over the attributes: the names
of the primary-key columns and whether the bare column is one of them; the
outer `none` means that the builder returns NULL. -/
def pk_names_loop (column : String) :
    List AprTable → List String → Bool → Run (Option (List String × Bool))
  | [], pks_ar, is_pk_col => Run.ok (some (pks_ar, is_pk_col))
  | row :: rest, pks_ar, is_pk_col =>
    match flag_p (apr_table_get row "is_primary_key") with
    | Run.fault e => Run.fault e
    | Run.ok false => pk_names_loop column rest pks_ar is_pk_col
    | Run.ok true =>
      match apr_table_get row "column_name" with
      | none => Run.ok none
      | some pk_name =>
        pk_names_loop column rest (pks_ar ++ [pk_name]) (is_pk_col || pk_name == column)

/-- The select list of the single-column builders: the primary-key columns
and, unless it is one of them, the bare column. -/
def column_list (pks_ar : List String) (uri_column_is_pk : Bool) (column : String) : String :=
  let pks_s : CStr := match pks_ar with
    | [] => none
    | _ => some (apr_array_pstrcat pks_ar ",")
  pks_s.getD "" ++ (if pks_s.isNone || uri_column_is_pk then "" else ",")
    ++ (if uri_column_is_pk then "" else column)

/-- Source: `q2_sql_select_tab_col`. -/
def q2_sql_select_tab_col (q2 : Q2) : Run (Q2 × CStr) :=
  match q2.column with
  | none => Run.ok (q2, none)
  | some column =>
    if q2.n_tables = some 1 ∧ q2.uri_keys = none ∧ q2.table ≠ none ∧ q2.r_params = none then
      match q2.attributes with
      | none => Run.fault Fault.null_deref
      | some attrs =>
        match pk_names_loop column attrs [] false with
        | Run.fault e => Run.fault e
        | Run.ok none => Run.ok (q2, none)
        | Run.ok (some r) =>
          Run.ok (q2, some ("SELECT " ++ column_list r.1 r.2 column ++ " FROM "
            ++ fmt_s q2.table))
    else Run.ok (q2, none)

/-- The loop state of `q2_sql_select_tab_col_prm`. -/
structure ColPrmState where
  conds_ar : Option (List String)
  ordby_ar : Option (List String)
  pks_ar : List String
  uri_column_is_pk : Bool

/-- Source: `q2_sql_select_tab_col_prm`, the loop over the attributes. -/
def col_prm_loop (db : Dbd) (q2 : Q2) (r_params : AprTable) (column : String) :
    List AprTable → ColPrmState → Run ColPrmState
  | [], st => Run.ok st
  | row :: rest, st =>
    match apr_table_get row "column_name" with
    | none => col_prm_loop db q2 r_params column rest st
    | some c_name =>
      let parsed : Run ColPrmState :=
        match apr_table_get r_params c_name with
        | none => Run.ok st
        | some c_val =>
          match q2_sql_parse_value db q2 (some row) (some c_name) (some c_val) st.ordby_ar with
          | Run.fault e => Run.fault e
          | Run.ok (none, ob) => Run.ok { st with ordby_ar := ob }
          | Run.ok (some pars_v, ob) =>
            Run.ok { st with conds_ar := push_new st.conds_ar pars_v, ordby_ar := ob }
      match parsed with
      | Run.fault e => Run.fault e
      | Run.ok st1 =>
        match flag_p (apr_table_get row "is_primary_key") with
        | Run.fault e => Run.fault e
        | Run.ok false => col_prm_loop db q2 r_params column rest st1
        | Run.ok true =>
          col_prm_loop db q2 r_params column rest
            { st1 with pks_ar := st1.pks_ar ++ [c_name],
                       uri_column_is_pk := st1.uri_column_is_pk || c_name == column }

/-- Source: `q2_sql_select_tab_col_prm`. -/
def q2_sql_select_tab_col_prm (db : Dbd) (q2 : Q2) : Run (Q2 × CStr) :=
  match q2.column, q2.r_params with
  | some column, some r_params =>
    if q2.n_tables = some 1 ∧ q2.uri_keys = none ∧ q2.table ≠ none then
      match q2.attributes with
      | none => Run.fault Fault.null_deref
      | some attrs =>
        match col_prm_loop db q2 r_params column attrs
            { conds_ar := none, ordby_ar := none, pks_ar := [], uri_column_is_pk := false } with
        | Run.fault e => Run.fault e
        | Run.ok st =>
          let conds_s := q2_join st.conds_ar " AND "
          Run.ok (q2, some ("SELECT " ++ column_list st.pks_ar st.uri_column_is_pk column
            ++ " FROM " ++ fmt_s q2.table
            ++ (match conds_s with
                | none => ""
                | some c => " WHERE " ++ c)
            ++ (ordby_clause st.ordby_ar).getD ""))
    else Run.ok (q2, none)
  | _, _ => Run.ok (q2, none)

/-- Source: `q2_sql_select_tab_prm`. -/
def q2_sql_select_tab_prm (db : Dbd) (ext : Ext) (q2 : Q2) : Run (Q2 × CStr) :=
  match q2.r_params with
  | none => Run.ok (q2, none)
  | some r_params =>
    if q2.n_tables = some 1 ∧ q2.table ≠ none ∧ q2.column = none ∧ q2.uri_keys = none then
      match q2.attributes with
      | none => Run.fault Fault.null_deref
      | some attrs =>
        match conds_loop db q2 r_params attrs none none with
        | Run.fault e => Run.fault e
        | Run.ok (conds_ar, ordby_ar) =>
          let ordby_s := (ordby_clause ordby_ar).getD ""
          let sql := match q2_join conds_ar " AND " with
            | none => "SELECT * FROM " ++ fmt_s q2.table ++ ordby_s
            | some conds_s => "SELECT * FROM " ++ fmt_s q2.table ++ " WHERE " ++ conds_s ++ ordby_s
          match scan_limit q2 2237 "q2_sql_select_tab_prm" with
          | Run.fault e => Run.fault e
          | Run.ok (q2a, none) => Run.ok (q2a, none)
          | Run.ok (q2a, some limit) =>
            let c := q2_count_rows db q2a sql
            Run.ok ({ c.1 with query_num_rows := c.2 }, ext.scan_result sql limit)
    else Run.ok (q2, none)

/-- Source: `q2_sql_select_tab_key_prm`. -/
def q2_sql_select_tab_key_prm (db : Dbd) (q2 : Q2) : Run (Q2 × CStr) :=
  match q2.r_params with
  | none => Run.ok (q2, none)
  | some r_params =>
    if q2.n_tables = some 1 ∧ q2.table ≠ none ∧ q2.column = none ∧ q2.uri_keys ≠ none then
      match q2_sql_key_conds q2 with
      | Run.fault e => Run.fault e
      | Run.ok none => Run.ok (q2, none)
      | Run.ok (some key_conds_s) =>
        match q2.attributes with
        | none => Run.ok (q2, none)
        | some [] => Run.ok (q2, none)
        | some attrs =>
          match conds_loop db q2 r_params attrs none none with
          | Run.fault e => Run.fault e
          | Run.ok (conds_ar, ordby_ar) =>
            let ordby_s := (ordby_clause ordby_ar).getD ""
            match q2_join conds_ar " AND " with
            | none =>
              Run.ok (q2, some ("SELECT * FROM " ++ fmt_s q2.table ++ " WHERE "
                ++ key_conds_s ++ ordby_s))
            | some conds_s =>
              Run.ok (q2, some ("SELECT * FROM " ++ fmt_s q2.table ++ " WHERE "
                ++ conds_s ++ " AND " ++ key_conds_s ++ ordby_s))
    else Run.ok (q2, none)

/-- Source: `q2_sql_select_tab_key_col`. -/
def q2_sql_select_tab_key_col (q2 : Q2) : Run (Q2 × CStr) :=
  if q2.n_tables = some 1 ∧ q2.table ≠ none ∧ q2.uri_keys ≠ none ∧ q2.r_params = none then
    match q2_sql_key_conds q2 with
    | Run.fault e => Run.fault e
    | Run.ok none => Run.ok (q2, none)
    | Run.ok (some key_conds_s) =>
      Run.ok (q2, some ("SELECT " ++ fmt_s q2.column ++ " FROM " ++ fmt_s q2.table
        ++ " WHERE " ++ key_conds_s))
  else Run.ok (q2, none)

/-- Source: `q2_sql_select_tab_key_col_prm`. -/
def q2_sql_select_tab_key_col_prm (q2 : Q2) : Run (Q2 × CStr) :=
  if q2.n_tables = some 1 ∧ q2.table ≠ none ∧ q2.uri_keys ≠ none ∧ q2.r_params ≠ none then
    Run.ok (q2_log_error q2 2346 "q2_sql_select_tab_key_col_prm"
      "Function temporarily unavailable", none)
  else Run.ok (q2, none)

/-- The test `q2->uri_tables != NULL && q2->uri_tables->nelts > 1`. -/
def Q2.many_tables (q2 : Q2) : Bool :=
  match q2.uri_tables with
  | none => false
  | some tabs => decide (tabs.length > 1)

/-- Source: `q2_sql_select_tabs_key_mm`. -/
def q2_sql_select_tabs_key_mm (q2 : Q2) : Run (Q2 × CStr) :=
  if q2.many_tables = true ∧ q2.table ≠ none ∧ q2.uri_keys ≠ none ∧ q2.r_params = none
      ∧ q2.tab_relation = Q2_RL_MMREL then
    match q2_sql_key_conds q2 with
    | Run.fault e => Run.fault e
    | Run.ok none => Run.ok (q2, none)
    | Run.ok (some key_conds_s) =>
      Run.ok (q2, some ("SELECT * FROM " ++ fmt_s q2.table ++ " WHERE " ++ key_conds_s))
  else Run.ok (q2, none)

/-- Source: `q2_sql_select_tabs_key`, the loop over the attributes; the
outer `none` means that the function returns NULL. -/
def tabs_key_loop (first_uri_tab : String) (uri_keys : Option (List String)) :
    List AprTable → CStr → CStr → Run (Option (CStr × CStr))
  | [], c_name, c_val => Run.ok (some (c_name, c_val))
  | row :: rest, c_name, c_val =>
    match apr_table_get row "referenced_table" with
    | none => tabs_key_loop first_uri_tab uri_keys rest c_name c_val
    | some t_name =>
      if t_name != first_uri_tab then tabs_key_loop first_uri_tab uri_keys rest c_name c_val
      else if c_name.isSome then tabs_key_loop first_uri_tab uri_keys rest c_name c_val
      else
        match apr_table_get row "column_name" with
        | none => Run.ok none
        | some n =>
          match uri_keys with
          | none => Run.fault Fault.null_deref
          | some keys =>
            match apr_array_idx keys 0 with
            | Run.fault e => Run.fault e
            | Run.ok v => tabs_key_loop first_uri_tab uri_keys rest (some n) (some v)

/-- Source: `q2_sql_select_tabs_key`. -/
def q2_sql_select_tabs_key (q2 : Q2) : Run (Q2 × CStr) :=
  match q2.uri_tables with
  | none => Run.fault Fault.null_deref
  | some tabs =>
    match apr_array_idx tabs 0 with
    | Run.fault e => Run.fault e
    | Run.ok first_uri_tab =>
      match q2.attributes with
      | none => Run.fault Fault.null_deref
      | some [] => Run.ok (q2, none)
      | some attrs =>
        match tabs_key_loop first_uri_tab q2.uri_keys attrs none none with
        | Run.fault e => Run.fault e
        | Run.ok none => Run.ok (q2, none)
        | Run.ok (some (c_name, c_val)) =>
          if q2_is_integer c_val then
            Run.ok (q2, some ("SELECT * FROM " ++ fmt_s q2.table ++ " WHERE " ++ fmt_s c_name
              ++ "=" ++ fmt_s c_val))
          else
            Run.ok (q2, some ("SELECT * FROM " ++ fmt_s q2.table ++ " WHERE " ++ fmt_s c_name
              ++ "='" ++ fmt_s c_val ++ "'"))

/-- Source: `q2_sql_select_tabs_key_11`. -/
def q2_sql_select_tabs_key_11 (q2 : Q2) : Run (Q2 × CStr) :=
  if q2.many_tables = true ∧ q2.table ≠ none ∧ q2.uri_keys ≠ none ∧ q2.r_params = none
      ∧ q2.tab_relation = Q2_RL_11REL then q2_sql_select_tabs_key q2
  else Run.ok (q2, none)

/-- Source: `q2_sql_select_tabs_key_1m`. -/
def q2_sql_select_tabs_key_1m (q2 : Q2) : Run (Q2 × CStr) :=
  if q2.many_tables = true ∧ q2.table ≠ none ∧ q2.uri_keys ≠ none ∧ q2.r_params = none
      ∧ q2.tab_relation = Q2_RL_1MREL then q2_sql_select_tabs_key q2
  else Run.ok (q2, none)

/-- Source: `q2_sql_select_tabs_key_prm_11`. -/
def q2_sql_select_tabs_key_prm_11 (db : Dbd) (q2 : Q2) : Run (Q2 × CStr) :=
  match q2.r_params with
  | none => Run.ok (q2, none)
  | some r_params =>
    if q2.many_tables = true ∧ q2.table ≠ none ∧ q2.uri_keys ≠ none
        ∧ q2.tab_relation = Q2_RL_11REL then
      match q2_sql_key_conds q2 with
      | Run.fault e => Run.fault e
      | Run.ok none => Run.ok (q2, none)
      | Run.ok (some key_conds_s) =>
        match q2.attributes with
        | none => Run.fault Fault.null_deref
        | some [] => Run.ok (q2, none)
        | some attrs =>
          match conds_loop db q2 r_params attrs none none with
          | Run.fault e => Run.fault e
          | Run.ok (conds_ar, _) =>
            Run.ok (q2, some ("SELECT * FROM " ++ fmt_s q2.table ++ " WHERE "
              ++ fmt_s (q2_join conds_ar " AND ") ++ " AND " ++ key_conds_s))
    else Run.ok (q2, none)

/-- The loop state of `q2_sql_select_tabs_key_prm_1m`. -/
structure Prm1mState where
  k_name : CStr
  k_val : CStr
  conds_ar : Option (List String)
  ordby_ar : Option (List String)

/-- Source: `q2_sql_select_tabs_key_prm_1m`, the loop over the attributes;
the outer `none` means that the builder returns NULL. -/
def prm_1m_loop (db : Dbd) (q2 : Q2) (r_params : AprTable) (first_uri_tab : String)
    (uri_keys : List String) : List AprTable → Prm1mState → Run (Option Prm1mState)
  | [], st => Run.ok (some st)
  | row :: rest, st =>
    match apr_table_get row "referenced_table" with
    | none => prm_1m_loop db q2 r_params first_uri_tab uri_keys rest st
    | some t_name =>
      if t_name == first_uri_tab then
        match apr_array_idx uri_keys 0 with
        | Run.fault e => Run.fault e
        | Run.ok v =>
          match apr_table_get row "column_name" with
          | none => Run.ok none
          | some n =>
            prm_1m_loop db q2 r_params first_uri_tab uri_keys rest
              { st with k_name := some n, k_val := some v }
      else
        match apr_table_get row "column_name" with
        | none => prm_1m_loop db q2 r_params first_uri_tab uri_keys rest st
        | some c_name =>
          match apr_table_get r_params c_name with
          | none => prm_1m_loop db q2 r_params first_uri_tab uri_keys rest st
          | some c_val =>
            match q2_sql_parse_value db q2 (some row) (some c_name) (some c_val)
                st.ordby_ar with
            | Run.fault e => Run.fault e
            | Run.ok (none, ob) =>
              prm_1m_loop db q2 r_params first_uri_tab uri_keys rest { st with ordby_ar := ob }
            | Run.ok (some pars_v, ob) =>
              prm_1m_loop db q2 r_params first_uri_tab uri_keys rest
                { st with conds_ar := push_new st.conds_ar pars_v, ordby_ar := ob }

/-- Source: `q2_sql_select_tabs_key_prm_1m`. -/
def q2_sql_select_tabs_key_prm_1m (db : Dbd) (q2 : Q2) : Run (Q2 × CStr) :=
  match q2.r_params, q2.uri_keys with
  | some r_params, some uri_keys =>
    if q2.many_tables = true ∧ q2.table ≠ none ∧ q2.tab_relation = Q2_RL_1MREL then
      match apr_array_idx (q2.uri_tables.getD []) 0 with
      | Run.fault e => Run.fault e
      | Run.ok first_uri_tab =>
        match q2.attributes with
        | none => Run.fault Fault.null_deref
        | some [] => Run.ok (q2, none)
        | some attrs =>
          match prm_1m_loop db q2 r_params first_uri_tab uri_keys attrs
              { k_name := none, k_val := none, conds_ar := none, ordby_ar := none } with
          | Run.fault e => Run.fault e
          | Run.ok none => Run.ok (q2, none)
          | Run.ok (some st) =>
            match st.k_name, st.k_val, q2_join st.conds_ar " AND " with
            | some k_name, some k_val, some conds_s =>
              Run.ok (q2, some ("SELECT * FROM " ++ fmt_s q2.table ++ " WHERE " ++ conds_s
                ++ " AND (" ++ k_name ++ "=" ++ k_val ++ ")"
                ++ (ordby_clause st.ordby_ar).getD ""))
            | _, _, _ => Run.ok (q2, none)
    else Run.ok (q2, none)
  | _, _ => Run.ok (q2, none)

/-- Source: `q2_sql_select_tabs_key_prm_mm`. -/
def q2_sql_select_tabs_key_prm_mm (db : Dbd) (fn : Driver) (q2 : Q2) : Run (Q2 × CStr) :=
  match q2.r_params with
  | none => Run.ok (q2, none)
  | some r_params =>
    if q2.many_tables = true ∧ q2.table ≠ none ∧ q2.uri_keys ≠ none
        ∧ q2.tab_relation = Q2_RL_MMREL then
      match q2_sql_key_conds q2 with
      | Run.fault e => Run.fault e
      | Run.ok none => Run.ok (q2, none)
      | Run.ok (some key_conds_s) =>
        let lst_uri_tab := (q2.uri_tables.getD []).getLast?
        let ca := q2_ischema_get_col_attrs db fn q2 lst_uri_tab
        match ca.2 with
        | none => Run.ok (ca.1, none)
        | some lst_uri_tab_col_attrs =>
          let pa := q2_ischema_get_pk_attrs db fn ca.1 lst_uri_tab
          match pa.2 with
          | none => Run.ok (pa.1, none)
          | some lst_uri_tab_pk_attrs =>
            if lst_uri_tab_col_attrs.length ≤ 0 then Run.ok (pa.1, none)
            else
              match conds_loop db pa.1 r_params lst_uri_tab_col_attrs none none with
              | Run.fault e => Run.fault e
              | Run.ok (conds_ar, ordby_ar) =>
                let conds_s : String := match conds_ar with
                  | none => ""
                  | some [] => ""
                  | some l => " AND " ++ String.intercalate " AND " l
                let ordby_s : String := match ordby_ar with
                  | none => ""
                  | some [] => ""
                  | some l => " ORDER BY " ++ apr_array_pstrcat l ","
                match pa.1.pk_attrs with
                | none => Run.fault Fault.null_deref
                | some pk_attrs =>
                  let select_what := q2_dbd_get_value (some pk_attrs) (pk_attrs.length - 1)
                    "column_name"
                  let lst_uri_tab_pk := q2_dbd_get_value (some lst_uri_tab_pk_attrs) 0
                    "column_name"
                  let sub_query := "SELECT " ++ fmt_s select_what ++ " FROM " ++ fmt_s pa.1.table
                    ++ " WHERE " ++ key_conds_s
                  Run.ok (pa.1, some ("SELECT * FROM " ++ fmt_s lst_uri_tab ++ " WHERE "
                    ++ fmt_s lst_uri_tab_pk ++ " IN (" ++ sub_query ++ ")" ++ conds_s ++ ordby_s))
    else Run.ok (q2, none)

/-- Tries the builders in order on the state left by the ones before; the
first statement that is not NULL is returned. -/
def first_sql : List (Q2 → Run (Q2 × CStr)) → Q2 → Run (Q2 × CStr)
  | [], q2 => Run.ok (q2, none)
  | b :: rest, q2 =>
    match b q2 with
    | Run.fault e => Run.fault e
    | Run.ok (q2a, some sql) => Run.ok (q2a, some sql)
    | Run.ok (q2a, none) => first_sql rest q2a

/-- Source: `q2_sql_select`. -/
def q2_sql_select (db : Dbd) (fn : Driver) (ext : Ext) (q2 : Q2) : Run (Q2 × CStr) :=
  first_sql
    [q2_sql_select_tab db ext, q2_sql_select_tab_key, q2_sql_select_tab_prm db ext,
     q2_sql_select_tab_key_prm db, q2_sql_select_tab_col, q2_sql_select_tab_col_prm db,
     q2_sql_select_tab_key_col, q2_sql_select_tab_key_col_prm, q2_sql_select_tabs_key_11,
     q2_sql_select_tabs_key_1m, q2_sql_select_tabs_key_mm, q2_sql_select_tabs_key_prm_11 db,
     q2_sql_select_tabs_key_prm_1m db, q2_sql_select_tabs_key_prm_mm db fn]
    q2

/-! ## SQL synthesizer: INSERT, UPDATE, DELETE -/

/-- The assignment `q2->r_params = p`. -/
def Q2.set_r_params (q : Q2) (p : Option AprTable) : Q2 := { q with r_params := p }

/-- The function `apr_table_setn` on `q2->r_params`, which is created when
it is still NULL; a NULL key is dereferenced. -/
def r_params_setn (q2 : Q2) (k : CStr) (v : CStr) : Run Q2 :=
  match k with
  | none => Run.fault Fault.null_deref
  | some key => Run.ok (q2.set_r_params (some (apr_table_set (q2.r_params.getD []) key v)))

/-- Source: `q2_sql_insert`, the first loop: the key of the URI becomes the
value of the first primary-key column unless that column is auto-increment. -/
def insert_uri_key : Q2 → List AprTable → Run Q2
  | q2, [] => Run.ok q2
  | q2, row :: rest =>
    match flag_p (apr_table_get row "is_primary_key") with
    | Run.fault e => Run.fault e
    | Run.ok false => insert_uri_key q2 rest
    | Run.ok true =>
      match flag_p (apr_table_get row "is_auto_increment") with
      | Run.fault e => Run.fault e
      | Run.ok true => Run.ok q2
      | Run.ok false =>
        match q2.uri_keys with
        | none => Run.ok q2
        | some [] => Run.ok q2
        | some (v :: _) => r_params_setn q2 (apr_table_get row "column_name") (some v)

/-- Source: `q2_sql_insert`, the inner loop of the second block: the keys of
the path tables that a primary-key column references. -/
def insert_parent_keys_row (row : AprTable) (referenced_table : CStr) :
    Q2 → List (Nat × String) → Run Q2
  | q2, [] => Run.ok q2
  | q2, (j, current_target) :: rest =>
    match strcmp_eq referenced_table (some current_target) with
    | Run.fault e => Run.fault e
    | Run.ok false => insert_parent_keys_row row referenced_table q2 rest
    | Run.ok true =>
      match q2.uri_keys with
      | none => Run.fault Fault.null_deref
      | some keys =>
        match apr_array_idx keys j with
        | Run.fault e => Run.fault e
        | Run.ok v =>
          match r_params_setn q2 (apr_table_get row "column_name") (some v) with
          | Run.fault e => Run.fault e
          | Run.ok q2a => insert_parent_keys_row row referenced_table q2a rest

/-- Source: `q2_sql_insert`, the outer loop of the second block. -/
def insert_parent_keys (tabs : List String) : Q2 → List AprTable → Run Q2
  | q2, [] => Run.ok q2
  | q2, row :: rest =>
    match flag_p (apr_table_get row "is_primary_key") with
    | Run.fault e => Run.fault e
    | Run.ok false => insert_parent_keys tabs q2 rest
    | Run.ok true =>
      match insert_parent_keys_row row (apr_table_get row "referenced_table") q2 tabs.enum with
      | Run.fault e => Run.fault e
      | Run.ok q2a => insert_parent_keys tabs q2a rest

/-- Source: `q2_sql_insert`, the third loop: the column names and the values;
the outer `none` means that the function returns NULL. -/
def insert_values (r_params : Option AprTable) :
    List AprTable → Run (Option (List String × List String))
  | [] => Run.ok (some ([], []))
  | row :: rest =>
    match apr_table_get row "column_name" with
    | none => Run.ok none
    | some k =>
      match flag_p (apr_table_get row "is_nullable") with
      | Run.fault e => Run.fault e
      | Run.ok is_nullable =>
        match flag_p (apr_table_get row "is_primary_key") with
        | Run.fault e => Run.fault e
        | Run.ok _ =>
          match flag_p (apr_table_get row "is_auto_increment") with
          | Run.fault e => Run.fault e
          | Run.ok is_auto_increment =>
            if !is_auto_increment && !is_nullable then
              match (match r_params with
                     | none => none
                     | some t => apr_table_get t k) with
              | none => Run.ok none
              | some v =>
                match insert_values r_params rest with
                | Run.fault e => Run.fault e
                | Run.ok none => Run.ok none
                | Run.ok (some r) => Run.ok (some (k :: r.1, v :: r.2))
            else
              match insert_values r_params rest with
              | Run.fault e => Run.fault e
              | Run.ok none => Run.ok none
              | Run.ok (some r) => Run.ok (some (k :: r.1, "default" :: r.2))

/-- Source: `q2_sql_insert`. -/
def q2_sql_insert (q2 : Q2) : Run (Q2 × CStr) :=
  match q2.pk_attrs with
  | none => Run.fault Fault.null_deref
  | some pk_attrs =>
    match q2.attributes with
    | none => Run.fault Fault.null_deref
    | some attrs =>
      match (if pk_attrs.length > 1 then Run.ok q2 else insert_uri_key q2 attrs) with
      | Run.fault e => Run.fault e
      | Run.ok q2a =>
        match q2a.uri_tables with
        | none => Run.fault Fault.null_deref
        | some tabs =>
          match (if tabs.length > 1 then insert_parent_keys tabs q2a attrs else Run.ok q2a) with
          | Run.fault e => Run.fault e
          | Run.ok q2b =>
            match insert_values q2b.r_params attrs with
            | Run.fault e => Run.fault e
            | Run.ok none => Run.ok (q2b, none)
            | Run.ok (some r) =>
              Run.ok (q2b, some ("INSERT INTO " ++ fmt_s q2b.table ++ " ("
                ++ apr_array_pstrcat r.1 "," ++ ") VALUES ("
                ++ (if attrs.length = 0 then "" else apr_array_pstrcat r.2 ",") ++ ")"))

/-- The outcome of one round of the first loop of `q2_sql_update`. -/
inductive PairStep where
  | skip
  | pair (s : String)
  | fail (q2 : Q2)

/-- Source: `q2_sql_update`, the body of the loop that builds the assignments. -/
def update_pair (db : Dbd) (q2 : Q2) (all : Bool) (row : AprTable) : Run PairStep :=
  match flag_p (apr_table_get row "is_primary_key") with
  | Run.fault e => Run.fault e
  | Run.ok true => Run.ok PairStep.skip
  | Run.ok false =>
    match flag_p (apr_table_get row "is_numeric") with
    | Run.fault e => Run.fault e
    | Run.ok is_numeric =>
      match apr_table_get row "column_name" with
      | none => Run.ok PairStep.skip
      | some col_name =>
        let emit : String → Run PairStep := fun col_value =>
          if is_numeric then Run.ok (PairStep.pair (col_name ++ "=" ++ col_value))
          else
            match q2_sql_encode_value db q2 row (some col_value) with
            | Run.fault e => Run.fault e
            | Run.ok enc => Run.ok (PairStep.pair (col_name ++ "=" ++ fmt_s enc))
        match (match q2.r_params with
               | none => none
               | some t => apr_table_get t col_name) with
        | some col_value => emit col_value
        | none =>
          if all then
            Run.ok (PairStep.fail (q2_log_error q2 2707 "q2_sql_update"
              ("'" ++ col_name ++ "' is mandatory")))
          else
            match q2.column with
            | none => Run.ok PairStep.skip
            | some column =>
              if column != col_name then Run.ok PairStep.skip
              else
                match q2.request_rawdata with
                | none =>
                  Run.ok (PairStep.fail (q2_log_error q2 2714 "q2_sql_update"
                    ("'" ++ col_name ++ "' has no valid value")))
                | some raw => emit raw

/-- Source: `q2_sql_update`, the loop that builds the assignments; `Sum.inl`
is the state after an error was recorded. -/
def update_pairs (db : Dbd) (q2 : Q2) (all : Bool) :
    List AprTable → Run (Q2 ⊕ List String)
  | [] => Run.ok (Sum.inr [])
  | row :: rest =>
    match update_pair db q2 all row with
    | Run.fault e => Run.fault e
    | Run.ok (PairStep.fail q2a) => Run.ok (Sum.inl q2a)
    | Run.ok PairStep.skip => update_pairs db q2 all rest
    | Run.ok (PairStep.pair s) =>
      match update_pairs db q2 all rest with
      | Run.fault e => Run.fault e
      | Run.ok (Sum.inl q2a) => Run.ok (Sum.inl q2a)
      | Run.ok (Sum.inr ps) => Run.ok (Sum.inr (s :: ps))

/-- Source: `q2_sql_update`, the loop that looks for the name of the
primary-key column: the last flagged attribute wins; the outer `none` means
that the function returns NULL. -/
def update_pk_name : List AprTable → CStr → Option CStr
  | [], pk_name => some pk_name
  | row :: rest, pk_name =>
    match apr_table_get row "is_primary_key" with
    | none => update_pk_name rest pk_name
    | some is_pk =>
      if c_uchar (atoi is_pk) = 0 then update_pk_name rest pk_name
      else
        match apr_table_get row "column_name" with
        | none => none
        | some n => update_pk_name rest (some n)

/-- Source: `q2_sql_update`. -/
def q2_sql_update (db : Dbd) (q2 : Q2) (all : Bool) : Run (Q2 × CStr) :=
  match q2.uri_keys with
  | none => Run.ok (q2_log_error q2 2673 "q2_sql_update" "No primary key in URI", none)
  | some uri_keys =>
    if all = true ∧ q2.r_params = none then
      Run.ok (q2_log_error q2 2677 "q2_sql_update" "No parameters in REQUEST", none)
    else if all = false ∧ q2.request_rawdata = none then
      Run.ok (q2_log_error q2 2681 "q2_sql_update" "No data in REQUEST", none)
    else
      let params_ok : Run Bool :=
        if all = true then
          match q2.attributes with
          | none => Run.fault Fault.null_deref
          | some attrs =>
            Run.ok (decide (((q2.r_params.getD []).length : Int) = (attrs.length : Int) - 1))
        else Run.ok true
      match params_ok with
      | Run.fault e => Run.fault e
      | Run.ok false =>
        Run.ok (q2_log_error q2 2687 "q2_sql_update" "Too few REQUEST parameters", none)
      | Run.ok true =>
        match q2.pk_attrs with
        | none => Run.fault Fault.null_deref
        | some pk_attrs =>
          if pk_attrs.length > 1 then
            Run.ok (q2_log_error q2 2692 "q2_sql_update"
              "UPDATE not allowed on a table with multiple PK", none)
          else
            match q2.attributes with
            | none => Run.fault Fault.null_deref
            | some attrs =>
              match update_pairs db q2 all attrs with
              | Run.fault e => Run.fault e
              | Run.ok (Sum.inl q2a) => Run.ok (q2a, none)
              | Run.ok (Sum.inr []) =>
                Run.ok (q2_log_error q2 2734 "q2_sql_update" "No request parameters found", none)
              | Run.ok (Sum.inr pairs_arr) =>
                if all = true ∧ (pairs_arr.length : Int) < (attrs.length : Int) - 1 then
                  Run.ok (q2_log_error q2 2738 "q2_sql_update" "Too few request parameters",
                    none)
                else
                  match update_pk_name attrs none with
                  | none => Run.ok (q2, none)
                  | some none =>
                    Run.ok (q2_log_error q2 2751 "q2_sql_update" "Table without primary key",
                      none)
                  | some (some pk_name) =>
                    match apr_array_idx uri_keys 0 with
                    | Run.fault e => Run.fault e
                    | Run.ok pk_value =>
                      Run.ok (q2, some ("UPDATE " ++ fmt_s q2.table ++ " SET "
                        ++ apr_array_pstrcat pairs_arr "," ++ " WHERE " ++ pk_name ++ "="
                        ++ pk_value))

/-- Source: `q2_sql_delete`, the inner loop for one attribute: `cval` and
`key_conds` are the variables of that name. -/
def delete_conds_row (cname : String) (ref_table : String) (uri_keys : List String)
    (tabs : Option (List String)) : List Nat → CStr → List String → Run (CStr × List String)
  | [], cval, key_conds => Run.ok (cval, key_conds)
  | j :: rest, cval, key_conds =>
    match tabs with
    | none => Run.fault Fault.null_deref
    | some ts =>
      match apr_array_idx ts j with
      | Run.fault e => Run.fault e
      | Run.ok target =>
        if target == ref_table then
          match cval with
          | some _ => delete_conds_row cname ref_table uri_keys tabs rest cval key_conds
          | none =>
            match apr_array_idx uri_keys j with
            | Run.fault e => Run.fault e
            | Run.ok v =>
              delete_conds_row cname ref_table uri_keys tabs rest (some v)
                (key_conds ++ ["(" ++ cname ++ "=" ++ v ++ ")"])
        else delete_conds_row cname ref_table uri_keys tabs rest cval key_conds

/-- Source: `q2_sql_delete`, the loop over the attributes; the outer `none`
means that the function returns NULL. -/
def delete_conds (uri_keys : List String) (tabs : Option (List String)) :
    List AprTable → CStr → List String → Run (Option (List String))
  | [], _, key_conds => Run.ok (some key_conds)
  | row :: rest, cval, key_conds =>
    match apr_table_get row "column_name" with
    | none => Run.ok none
    | some cname =>
      match apr_table_get row "referenced_table" with
      | none => delete_conds uri_keys tabs rest cval key_conds
      | some ref_table =>
        match delete_conds_row cname ref_table uri_keys tabs (List.range uri_keys.length)
            cval key_conds with
        | Run.fault e => Run.fault e
        | Run.ok r => delete_conds uri_keys tabs rest r.1 r.2

/-- Source: `q2_sql_delete`. -/
def q2_sql_delete (q2 : Q2) : Run (Q2 × CStr) :=
  match q2.uri_keys with
  | none => Run.ok (q2_log_error q2 2769 "q2_sql_delete" "No primary key in URI", none)
  | some uri_keys =>
    match q2.attributes with
    | none => Run.fault Fault.null_deref
    | some attrs =>
      match delete_conds uri_keys q2.uri_tables attrs none [] with
      | Run.fault e => Run.fault e
      | Run.ok none => Run.ok (q2, none)
      | Run.ok (some []) =>
        match q2.pk_attrs with
        | none => Run.fault Fault.null_deref
        | some pk_attrs =>
          if pk_attrs.length > 1 then
            Run.ok (q2_log_error q2 2797 "q2_sql_delete" "Table with multiple primary key",
              none)
          else
            match q2_dbd_get_value (some pk_attrs) 0 "column_name" with
            | none =>
              Run.ok (q2_log_error q2 2803 "q2_sql_delete" "Table without primary key", none)
            | some cname =>
              match apr_array_idx uri_keys 0 with
              | Run.fault e => Run.fault e
              | Run.ok cval =>
                Run.ok (q2, some ("DELETE FROM " ++ fmt_s q2.table ++ " WHERE " ++ cname ++ "="
                  ++ cval))
      | Run.ok (some key_conds) =>
        Run.ok (q2, some ("DELETE FROM " ++ fmt_s q2.table ++ " WHERE "
          ++ String.intercalate " AND " key_conds))

/-- The assignment `q2->table = t`. -/
def Q2.set_table (q : Q2) (t : CStr) : Q2 := { q with table := t }

/-- The assignment `q2->tab_relation = rel`. -/
def Q2.set_relation (q : Q2) (rel : Nat) : Q2 := { q with tab_relation := rel }

/-- The statements `q2->column = apr_pstrdup(...)` and `apr_array_pop(q2->uri_tables)`
of the single-table candidate. -/
def Q2.set_column_pop (q : Q2) (c : String) (tabs : List String) : Q2 :=
  { q with column := some c, uri_tables := some tabs.dropLast }

/-- Source: `q2_acquire`, lines 3075 to 3098: the four candidates in order.
The flag `tab_found` of the source is `q2->table != NULL` throughout. -/
def q2_acquire_target (db : Dbd) (fn : Driver) (q2 : Q2) : Run Q2 :=
  match q2_ischema_get_target_table db fn q2 Q2_RL_11REL with
  | Run.fault e => Run.fault e
  | Run.ok (q2a, some t) => Run.ok ((q2a.set_table (some t)).set_relation Q2_RL_11REL)
  | Run.ok (q2a, none) =>
    match q2_ischema_get_target_table db fn (q2a.set_table none) Q2_RL_1MREL with
    | Run.fault e => Run.fault e
    | Run.ok (q2b, some t) => Run.ok ((q2b.set_table (some t)).set_relation Q2_RL_1MREL)
    | Run.ok (q2b, none) =>
      match q2_ischema_get_target_table db fn (q2b.set_table none) Q2_RL_MMREL with
      | Run.fault e => Run.fault e
      | Run.ok (q2c, some t) => Run.ok ((q2c.set_table (some t)).set_relation Q2_RL_MMREL)
      | Run.ok (q2c, none) =>
        match q2_ischema_get_target_table db fn (q2c.set_table none) 0 with
        | Run.fault e => Run.fault e
        | Run.ok (q2d, none) => Run.ok (q2d.set_table none)
        | Run.ok (q2d, some t) =>
          match q2d.uri_tables with
          | none => Run.fault Fault.null_deref
          | some tabs =>
            if tabs.length > 1 then
              match apr_array_idx tabs 1 with
              | Run.fault e => Run.fault e
              | Run.ok c => Run.ok ((q2d.set_table (some t)).set_column_pop c tabs)
            else Run.ok (q2d.set_table (some t))

/-! ## Pagination tracker -/

/-- The part of a string before the first occurrence of a pattern
(`apr_strmatch` followed by `apr_pstrndup`), or `none` without occurrence. -/
def text_before (pat : List Char) : List Char → Option (List Char)
  | [] => if pat.isEmpty then some [] else none
  | c :: cs =>
    if pat.isPrefixOf (c :: cs) then some []
    else (text_before pat cs).map (fun r => c :: r)

/-- Source: `q2_paginate_results`; the return value is not used by the caller. -/
def q2_paginate_results (q2 : Q2) : Run Q2 :=
  if q2.pagination_ppg = 0 then Run.ok q2
  else
    match q2.sql, q2.results with
    | some _, some results =>
      if (results.length : Int) < q2.pagination_ppg then Run.ok q2
      else
        let next := q2.pagination_ppg + q2.next_page
        if next > q2.query_num_rows then Run.ok q2
        else
          match q2.request_uri with
          | none => Run.fault Fault.null_deref
          | some uri =>
            let parts : Run (String × CStr) :=
              if q2_in_string uri '?' then
                match q2_split (some uri) "?" with
                | Run.fault e => Run.fault e
                | Run.ok (some (path :: qstr :: _)) => Run.ok (path, some qstr)
                | Run.ok _ => Run.fault Fault.out_of_bounds
              else Run.ok (uri, none)
            match parts with
            | Run.fault e => Run.fault e
            | Run.ok (path, qstr) =>
              let new_path : String :=
                match text_before "/next/".data path.data with
                | none => path
                | some pre => String.mk pre
              Run.ok { q2 with next := some (new_path ++ "/next/" ++ fmt_d next
                ++ (match qstr with
                    | none => ""
                    | some q => "?" ++ q)) }
    | _, _ => Run.ok q2

/-! ## The entry point -/

/-- Source: `q2_initialized`. -/
def q2_initialized (q2 : Q2) : Bool :=
  q2.error == 0 && q2.log.isNone && q2.attributes.isNone && q2.sql.isNone
    && q2.results.isNone && q2.affected_rows == 0 && q2.last_insert_id.isNone

/-- Source: `q2_set_dbd`; the name of the driver is `db.name`. -/
def q2_set_dbd (db : Dbd) (q2 : Q2) : Q2 :=
  let t1 := if strncasecmp_eq db.name "mysql" 5 then Q2_DBD_MYSQL else q2.dbd_server_type
  let t2 := if strncasecmp_eq db.name "pgsql" 5 then Q2_DBD_PGSQL else t1
  let t3 := if strncasecmp_eq db.name "sqlite3" 7 then Q2_DBD_SQLT3 else t2
  let t4 := if strncasecmp_eq db.name "ODBC_DRIVER_NAME" 16 then Q2_DBD_MSSQL else t3
  { q2 with dbd_driver := true, dbd_handle := true, dbd_server_type := t4 }

/-- Source: `q2_set_method`. -/
def q2_set_method (q2 : Q2) (method : String) : Q2 :=
  let m1 := if method == "GET" then Q2_HT_METHOD_GET else q2.request_method
  let m2 := if method == "POST" then Q2_HT_METHOD_POST else m1
  let m3 := if method == "PUT" then Q2_HT_METHOD_PUT else m2
  let m4 := if method == "PATCH" then Q2_HT_METHOD_PATCH else m3
  let m5 := if method == "DELETE" then Q2_HT_METHOD_DELETE else m4
  { q2 with request_method_name := some method, request_method := m5 }

/-- Source: `q2_acquire`, lines 3001 to 3052: the function pointers that are
assigned for the server type; they stay NULL for any other value. -/
def q2_bind_driver (db : Dbd) (server_type : Nat) : Option Driver :=
  if server_type = Q2_DBD_MYSQL then some db.mysql
  else if server_type = Q2_DBD_PGSQL then some db.pgsql
  else if server_type = Q2_DBD_SQLT3 then some db.sqlt3
  else if server_type = Q2_DBD_MSSQL then some db.mssql
  else none

/-- Source: `q2_acquire`, lines 3183 to 3201: the statement is executed. -/
def q2_acquire_execute (db : Dbd) (fn : Driver) (q2 : Q2) (sql : String) : Run (Q2 × Int) :=
  let done : Q2 → Run (Q2 × Int) := fun q =>
    if q.error ≠ 0 then Run.ok (q2_log_error q 3197 "q2_acquire" (db.error q.error), 1)
    else Run.ok (q, 0)
  if q2.request_method = Q2_HT_METHOD_GET then
    let res := db.select sql
    let q2a : Q2 := { q2.called (DbCall.select sql) with results := res.rset, error := res.er }
    match q2_paginate_results q2a with
    | Run.fault e => Run.fault e
    | Run.ok q2b => done q2b
  else
    let res := db.query sql
    let q2a : Q2 := { q2.called (DbCall.query sql) with
      affected_rows := (if res.1 ≠ 0 then -1 else res.2), error := res.1 }
    if q2a.error = 0 ∧ q2a.request_method = Q2_HT_METHOD_POST then
      let r := q2_ischema_get_last_id fn q2a
      done { r.1 with last_insert_id := r.2 }
    else done q2a

/-- Source: `q2_acquire`, lines 3158 to 3201: the statement is synthesized for
the HTTP method and, when there is one, executed. -/
def q2_acquire_statement (db : Dbd) (fn : Driver) (ext : Ext) (q2 : Q2) : Run (Q2 × Int) :=
  let built : Option (Run (Q2 × CStr)) :=
    if q2.request_method = Q2_HT_METHOD_GET then some (q2_sql_select db fn ext q2)
    else if q2.request_method = Q2_HT_METHOD_POST then some (q2_sql_insert q2)
    else if q2.request_method = Q2_HT_METHOD_PUT then some (q2_sql_update db q2 true)
    else if q2.request_method = Q2_HT_METHOD_PATCH then some (q2_sql_update db q2 false)
    else if q2.request_method = Q2_HT_METHOD_DELETE then some (q2_sql_delete q2)
    else none
  match built with
  | none => Run.ok (q2_log_error q2 3176 "q2_acquire" "Invalid HTTP method", 1)
  | some (Run.fault e) => Run.fault e
  | some (Run.ok (q2a, none)) =>
    Run.ok (q2_log_error { q2a with sql := none } 3180 "q2_acquire" "SQL error", 1)
  | some (Run.ok (q2a, some sql)) => q2_acquire_execute db fn { q2a with sql := some sql } sql

/-- Source: `q2_acquire`, lines 3128 to 3157: the request parameters are
decoded and separated, and the column options are computed. -/
def q2_acquire_params (db : Dbd) (fn : Driver) (q2 : Q2) : Run Q2 :=
  let step1 : Run Q2 :=
    if q2.request_params = none ∧ q2.request_query ≠ none then
      match q2_args_to_table q2.request_query with
      | Run.fault e => Run.fault e
      | Run.ok r => Run.ok { q2 with request_params := r.1 }
    else Run.ok q2
  match step1 with
  | Run.fault e => Run.fault e
  | Run.ok q2a =>
    let step2 : Run Q2 :=
      if q2a.request_params = none ∧ q2a.request_rawdata ≠ none ∧ q2a.column = none then
        match q2_args_to_table q2a.request_rawdata with
        | Run.fault e => Run.fault e
        | Run.ok r => Run.ok { q2a with request_params := r.1 }
      else Run.ok q2a
    match step2 with
    | Run.fault e => Run.fault e
    | Run.ok q2b =>
      let step3 : Run Q2 :=
        match q2b.request_params with
        | none => Run.ok { q2b with r_params := none }
        | some _ =>
          match q2_request_parse_params db fn q2b with
          | Run.fault e => Run.fault e
          | Run.ok r => Run.ok { r.1 with r_params := r.2 }
      match step3 with
      | Run.fault e => Run.fault e
      | Run.ok q2c => q2_ischema_update_options_attr (q2_acquire_others q2c)

/-- Source: `q2_acquire`, lines 3103 to 3123: the attributes of the target
table are loaded and enriched; `Sum.inl` is the state of a failed request. -/
def q2_acquire_attrs (db : Dbd) (fn : Driver) (q2 : Q2) : Run (Q2 ⊕ Q2) :=
  let a := q2_ischema_get_col_attrs db fn q2 q2.table
  let q2a : Q2 := { a.1 with attributes := a.2 }
  if q2a.attributes = none then
    Run.ok (Sum.inl (q2_log_error q2a 3105 "q2_acquire" "q2_ischema_get_col_attrs() error"))
  else
    let b := q2_ischema_get_pk_attrs db fn q2a q2a.table
    let q2b : Q2 := { b.1 with pk_attrs := b.2 }
    if q2b.error ≠ 0 then
      Run.ok (Sum.inl (q2_log_error q2b 3110 "q2_acquire" "q2_ischema_get_pk_attrs() error"))
    else
      let c := q2_ischema_get_unsig_attrs db fn q2b q2b.table
      let q2c : Q2 := { c.1 with unsigned_attrs := c.2 }
      if q2c.error ≠ 0 then
        Run.ok (Sum.inl (q2_log_error q2c 3115 "q2_acquire"
          "q2_ischema_get_unsig_attrs() error"))
      else
        let d := q2_ischema_get_refs_attrs db fn q2c q2c.table
        let q2d : Q2 := { d.1 with refs_attrs := d.2 }
        if q2d.error ≠ 0 then
          Run.ok (Sum.inl (q2_log_error q2d 3120 "q2_acquire" "An error occurred"))
        else
          match q2_ischema_update_attrs db fn q2d with
          | Run.fault e => Run.fault e
          | Run.ok q2e => Run.ok (Sum.inr q2e)

/-- Source: `q2_acquire`, from line 3075 to the end: the target table is
resolved, its attributes are loaded, the statement is built and executed. -/
def q2_acquire_resolved (db : Dbd) (fn : Driver) (ext : Ext) (q2 : Q2) : Run (Q2 × Int) :=
  match q2_acquire_target db fn q2 with
  | Run.fault e => Run.fault e
  | Run.ok q2a =>
    if q2a.table = none then
      Run.ok (q2_log_error q2a 3100 "q2_acquire" "Target table not found", 1)
    else
      match q2_acquire_attrs db fn q2a with
      | Run.fault e => Run.fault e
      | Run.ok (Sum.inl q2b) => Run.ok (q2b, 1)
      | Run.ok (Sum.inr q2b) =>
        match q2_acquire_params db fn q2b with
        | Run.fault e => Run.fault e
        | Run.ok q2c => q2_acquire_statement db fn ext q2c

/-- Source: `q2_acquire`; the result is the final state and the return value. -/
def q2_acquire (db : Dbd) (ext : Ext) (q2 : Q2) : Run (Q2 × Int) :=
  if !q2_initialized q2 then Run.ok (q2_log_error q2 2992 "q2_acquire" "Q2 not initialized", 1)
  else if !q2.dbd_driver || !q2.dbd_handle || q2.dbd_server_type == 0 then
    Run.ok (q2_log_error q2 2998 "q2_acquire" "DBD error", 1)
  else
    match q2_bind_driver db q2.dbd_server_type with
    | none => Run.fault Fault.null_deref
    | some fn =>
      let q2v : Q2 := { q2.called DbCall.db_vers with dbd_server_version := fn.db_vers_fn.1 }
      let q2w : Q2 :=
        if q2v.dbd_server_version = none then
          if fn.db_vers_fn.2 ≠ 0 then
            q2_log_error q2v 3061 "q2_acquire" (db.error fn.db_vers_fn.2)
          else q2_log_error q2v 3063 "q2_acquire" "Versione db non trovata"
        else q2v
      match q2w.request_uri with
      | none => Run.fault Fault.null_deref
      | some uri =>
        match ext.uri_path uri with
        | none => Run.ok (q2_log_error q2w 3068 "q2_acquire" "Invalid URI", 1)
        | some path =>
          match q2_split path "/" with
          | Run.fault e => Run.fault e
          | Run.ok uri_arr =>
            match q2_uri_get_pages uri_arr with
            | Run.fault e => Run.fault e
            | Run.ok next_page =>
              q2_acquire_resolved db fn ext
                { q2w with next_page := next_page,
                           uri_tables := q2_uri_get_tabs uri_arr,
                           uri_keys := q2_uri_get_keys uri_arr }

/-! ## REST front end -/

/-- The constant `Q2_REST_ACCEPT_JSON`. -/
def Q2_REST_ACCEPT_JSON : String := "application/json"

/-- The constant `Q2_REST_CSET_UTF8`. -/
def Q2_REST_CSET_UTF8 : String := "charset=UTF-8"

/-- The constant `Q2_REST_ACCEPT_JSON_UTF8`. -/
def Q2_REST_ACCEPT_JSON_UTF8 : String := Q2_REST_ACCEPT_JSON ++ ";" ++ Q2_REST_CSET_UTF8

/-- Source: `q2_rest_valid_accept`, on the table `r->headers_in`.  The second
`strcmp` is used as a truth value: it holds when the strings differ. -/
def q2_rest_valid_accept (headers_in : AprTable) : Bool :=
  match apr_table_get headers_in "Accept" with
  | none => false
  | some accept => accept == Q2_REST_ACCEPT_JSON || accept != Q2_REST_ACCEPT_JSON_UTF8

/-! ## Example catalogs -/

/-- A table of an example schema: its columns, its primary-key columns and
its foreign keys (column, referenced table, referenced column). -/
structure ExTable where
  name : String
  cols : List String
  pk : List String
  fks : List (String × String × String)
  deriving DecidableEq, Repr

/-- A record set as `q2_dbd_select` returns it: NULL when there is no row. -/
def ex_rset (rows : Rset) : DbRes :=
  match rows with
  | [] => { rset := none, er := 0 }
  | _ => { rset := some rows, er := 0 }

/-- Looks a table up by name in an example schema. -/
def ex_find (schema : List ExTable) (tb : CStr) : Option ExTable :=
  schema.find? (fun t => some t.name == tb)

/-- The foreign-key rows of a table, as the `fk_attr` functions return them. -/
def ex_fk_rows (t : ExTable) : Rset :=
  t.fks.map (fun f =>
    [("column_name", some f.1), ("referenced_schema", some "db"),
     ("referenced_table", some f.2.1), ("referenced_column", some f.2.2)])

/-- A driver that answers the catalog questions from an example schema. -/
def ex_driver (schema : List ExTable) : Driver where
  tb_name_fn := fun tb =>
    match ex_find schema tb with
    | none => ex_rset []
    | some t => ex_rset [[("table_name", some t.name)]]
  cl_name_fn := fun tb cl =>
    match ex_find schema tb with
    | none => ex_rset []
    | some t => ex_rset ((t.cols.filter (fun c => some c == cl)).map
        (fun c => [("column_name", some c)]))
  cl_attr_fn := fun _ => ex_rset []
  pk_attr_fn := fun tb =>
    match ex_find schema tb with
    | none => ex_rset []
    | some t => ex_rset (t.pk.map (fun c => [("column_name", some c)]))
  fk_tabs_fn := fun tb =>
    ex_rset (schema.flatMap (fun t =>
      (t.fks.filter (fun f => some f.2.1 == tb)).map
        (fun _ => [("table_name", some t.name)])))
  fk_attr_fn := fun tb =>
    match ex_find schema tb with
    | none => ex_rset []
    | some t => ex_rset (ex_fk_rows t)
  un_attr_fn := fun _ => ex_rset []
  id_last_fn := ex_rset []
  db_vers_fn := (some "8.0", 0)

/-- A connection whose four dialects all answer from the same example schema. -/
def ex_dbd (schema : List ExTable) : Dbd where
  name := "mysql"
  mysql := ex_driver schema
  pgsql := ex_driver schema
  sqlt3 := ex_driver schema
  mssql := ex_driver schema
  error := fun _ => "database error"
  escape := fun s => s
  select := fun _ => ex_rset []
  query := fun _ => (0, 1)

/-! ## Definitions used by the statements -/

/-- The table a foreign-key row references. -/
def fk_ref (row : AprTable) : CStr := apr_table_get row "referenced_table"

/-- Number of foreign keys, among `fks`, that are not references to `table`
itself and that reference a table of the path. -/
def count_1m_refs (fks : Rset) (tabs : List String) (table : String) : Nat :=
  fks.countP (fun row =>
    match fk_ref row with
    | none => false
    | some r => r != table && tabs.contains r)

/-- The acceptance condition of the 1:many candidate as the specification
words it: every foreign key that is not a self-reference references one of the
other path tables, and there are as many of them as path tables but one. -/
def stated_1m_accepts (fks : Rset) (tabs : List String) (table : String) : Bool :=
  let nonself := fks.filter (fun row => fk_ref row != some table)
  nonself.all (fun row => tabs.any (fun t => t != table && fk_ref row == some t))
    && nonself.length == tabs.length - 1

/-- A shop schema: orders reference customers and products. -/
def ex_shop : List ExTable :=
  [ { name := "customers", cols := ["id", "name"], pk := ["id"], fks := [] },
    { name := "products", cols := ["id", "title"], pk := ["id"], fks := [] },
    { name := "orders", cols := ["id", "customer_id", "product_id"], pk := ["id"],
      fks := [("customer_id", "customers", "id"), ("product_id", "products", "id")] } ]

/-- A league schema: a transfer references the table of players twice and no
other table. -/
def ex_league : List ExTable :=
  [ { name := "teams", cols := ["id", "name"], pk := ["id"], fks := [] },
    { name := "players", cols := ["id", "name"], pk := ["id"], fks := [] },
    { name := "transfers", cols := ["id", "seller_id", "buyer_id"], pk := ["id"],
      fks := [("seller_id", "players", "id"), ("buyer_id", "players", "id")] } ]

/-- A library schema with the junction table `author_book`. -/
def ex_library : List ExTable :=
  [ { name := "authors", cols := ["id", "name"], pk := ["id"], fks := [] },
    { name := "books", cols := ["id", "title"], pk := ["id"], fks := [] },
    { name := "author_book", cols := ["author_id", "book_id"],
      pk := ["author_id", "book_id"],
      fks := [("author_id", "authors", "id"), ("book_id", "books", "id")] } ]

/-- A registry schema: the primary key of a passport is the pair of columns
that references its citizen (a 1:1 relation with a composite key); a visa has
the key columns (country, number) of which only `country` is a foreign key,
next to the foreign key `officer`. -/
def ex_registry : List ExTable :=
  [ { name := "citizen", cols := ["country", "number", "name"],
      pk := ["country", "number"], fks := [] },
    { name := "passport", cols := ["country", "number", "expiry"],
      pk := ["country", "number"],
      fks := [("country", "citizen", "country"), ("number", "citizen", "number")] },
    { name := "visa", cols := ["country", "number", "officer"],
      pk := ["country", "number"],
      fks := [("country", "citizen", "country"), ("officer", "citizen", "number")] } ]

/-- A call that executes a statement, as opposed to a catalog question. -/
def is_statement : DbCall → Bool
  | DbCall.select _ => true
  | DbCall.query _ => true
  | _ => false

/-- The request state without what error reporting and catalog questions
write: two states with the same core differ at most in `error`, in `log` and
in the catalog calls of `trace`. -/
def Q2.core (q : Q2) : Q2 :=
  { q with error := 0, log := none, trace := q.trace.filter is_statement }

/-- What the entry point needs to know of a state to tell whether a statement
was executed: the HTTP method and the statements of the trace. -/
def Q2.shell (q : Q2) : Nat × List DbCall :=
  (q.request_method, q.trace.filter is_statement)

/-- An attribute row as the enricher leaves it, for the examples: the name of
the column, whether it is a primary key, numeric, nullable, auto-increment,
and the table it references (`null` for none). -/
def ex_attr (name : String) (pk numeric nullable auto_inc : Bool) (ref : String) : AprTable :=
  [("column_name", some name),
   ("character_set_name", some (if numeric then "null" else "utf8")),
   ("is_primary_key", some (if pk then "1" else "0")),
   ("is_foreign_key", some (if ref == "null" then "0" else "1")),
   ("is_auto_increment", some (if auto_inc then "1" else "0")),
   ("is_nullable", some (if nullable then "1" else "0")),
   ("is_numeric", some (if numeric then "1" else "0")),
   ("is_date", some "0"),
   ("referenced_table", some ref)]

/-- A request on the table `books(title, id)`, whose primary key `id` is the
second column, with the key 5 in the URI. -/
def ex_books_pk_second : Q2 :=
  { uri_tables := some ["books"], uri_keys := some ["5"], table := some "books",
    dbd_server_type := Q2_DBD_MYSQL,
    attributes := some [ex_attr "title" false false false false "null",
                        ex_attr "id" true true false false "null"],
    pk_attrs := some [[("column_name", some "id")]] }

/-- A request on the table `books(id, title)`, whose primary key `id` is the
first column, with the key 5 in the URI. -/
def ex_books_pk_first : Q2 :=
  { uri_tables := some ["books"], uri_keys := some ["5"], table := some "books",
    dbd_server_type := Q2_DBD_MYSQL,
    attributes := some [ex_attr "id" true true false false "null",
                        ex_attr "title" false false false false "null"],
    pk_attrs := some [[("column_name", some "id")]] }

/-- A request on the junction table `author_book` reached by the path
authors/1/books/2. -/
def ex_author_book : Q2 :=
  { uri_tables := some ["authors", "books"], uri_keys := some ["1", "2"],
    table := some "author_book", tab_relation := Q2_RL_MMREL,
    dbd_server_type := Q2_DBD_MYSQL,
    attributes := some [ex_attr "author_id" true true false false "authors",
                        ex_attr "book_id" true true false false "books"],
    pk_attrs := some [[("column_name", some "author_id")],
                      [("column_name", some "book_id")]] }

/-- The value bound to a column: the request parameter of that name, if any. -/
def bound_value (q2 : Q2) (name : String) : CStr :=
  match q2.r_params with
  | none => none
  | some t => apr_table_get t name

/-- An attribute that is not part of the primary key and can be assigned:
its flags and its name are present. -/
def non_key_attr (row : AprTable) : Prop :=
  flag_p (apr_table_get row "is_primary_key") = Run.ok false ∧
  (∃ b, flag_p (apr_table_get row "is_numeric") = Run.ok b) ∧
  (∃ b, flag_p (apr_table_get row "is_date") = Run.ok b) ∧
  ∃ name, apr_table_get row "column_name" = some name

/-- The assignment `column=value` of an UPDATE statement for a bound column:
the value as it is for a numeric column, and the value encoded by
`q2_sql_encode_value` otherwise. -/
def is_assignment (db : Dbd) (q2 : Q2) (row : AprTable) (pair : String) : Prop :=
  ∃ name v, apr_table_get row "column_name" = some name ∧ bound_value q2 name = some v ∧
    ((flag_p (apr_table_get row "is_numeric") = Run.ok true ∧ pair = name ++ "=" ++ v) ∨
     (flag_p (apr_table_get row "is_numeric") = Run.ok false ∧
       ∃ lit, q2_sql_encode_value db q2 row (some v) = Run.ok (some lit) ∧
         pair = name ++ "=" ++ lit))

/-- A full update of `books(id, title)` at key 5 that binds the column `title`. -/
def ex_put_books : Q2 :=
  { ex_books_pk_first with r_params := some [("title", some "Dune")] }

/-- A full update of `books(id, title)` at key 5 that binds `title` and also
the key column `id`. -/
def ex_put_books_with_key : Q2 :=
  { ex_books_pk_first with r_params := some [("id", some "5"), ("title", some "Dune")] }

/-- The resolution as the specification words it: the candidates are
attempted in the given order, each on the state left by the ones before, and
the first result that is not NULL is accepted together with its relation. -/
def first_candidate (attempt : Q2 → Nat → Run (Q2 × CStr)) :
    List Nat → Q2 → Run (Q2 × Option (Nat × String))
  | [], q => Run.ok (q, none)
  | rel :: rest, q =>
    match attempt q rel with
    | Run.fault e => Run.fault e
    | Run.ok (qa, some t) => Run.ok (qa, some (rel, t))
    | Run.ok (qa, none) => first_candidate attempt rest (qa.set_table none)

/-- The fixed order of the candidates: 1:1, 1:many, many:many, single table. -/
def candidate_order : List Nat := [Q2_RL_11REL, Q2_RL_1MREL, Q2_RL_MMREL, 0]

/-- A connection for the examples of the entry point; the URI is taken as its own path. -/
def ex_ext : Ext where
  uri_path := fun uri => some (some uri)
  scan_result := fun sql limit =>
    match limit with
    | none => some sql
    | some l => some (sql ++ " " ++ l)

/-- An attribute row that holds the fields which `q2_sql_insert` reads. -/
def insert_attr_ok (row : AprTable) : Prop :=
  (∃ name, apr_table_get row "column_name" = some name) ∧
  (∃ b, flag_p (apr_table_get row "is_primary_key") = Run.ok b) ∧
  (∃ b, flag_p (apr_table_get row "is_nullable") = Run.ok b) ∧
  (∃ b, flag_p (apr_table_get row "is_auto_increment") = Run.ok b) ∧
  (∃ t, apr_table_get row "referenced_table" = some t)

/-- A column that is neither nullable nor auto-increment. -/
def mandatory (row : AprTable) : Prop :=
  flag_p (apr_table_get row "is_nullable") = Run.ok false ∧
  flag_p (apr_table_get row "is_auto_increment") = Run.ok false

/-- A POST on `books(id, title)` at key 5 that binds no parameter. -/
def ex_post_books : Q2 :=
  { ex_books_pk_first with request_method := Q2_HT_METHOD_POST }

/-- A row of the column-attribute question for a numeric column that is
neither nullable nor auto-increment, before enrichment. -/
def ex_column (name : String) : AprTable :=
  [("column_name", some name), ("character_set_name", some "null"),
   ("is_unsigned", some "0"), ("is_primary_key", some "0"), ("is_foreign_key", some "0"),
   ("is_auto_increment", some "0"), ("is_nullable", some "0"), ("is_numeric", some "1"),
   ("is_date", some "0"), ("column_options", some "null"),
   ("referenced_schema", some "null"), ("referenced_table", some "null"),
   ("referenced_column", some "null"), ("is_referenced_pk_multi", some "0"),
   ("referenced_pk", some "null")]

/-- The schema with the single table `books(id, pages)`. -/
def ex_books : List ExTable :=
  [ { name := "books", cols := ["id", "pages"], pk := ["id"], fks := [] } ]

/-- A driver for `ex_books` that also answers the column-attribute question. -/
def ex_books_driver : Driver :=
  { ex_driver ex_books with
    cl_attr_fn := fun tb =>
      if tb = some "books" then ex_rset [ex_column "id", ex_column "pages"] else ex_rset [] }

/-- A MySQL connection to `ex_books`. -/
def ex_books_dbd : Dbd :=
  { ex_dbd ex_books with mysql := ex_books_driver }

/-- The request `POST /api/v1/books/5` without parameters, as `q2_set_dbd` and
`q2_set_method` prepare it. -/
def ex_post_request : Q2 :=
  q2_set_method (q2_set_dbd ex_books_dbd { request_uri := some "/api/v1/books/5" }) "POST"

/-- The request `GET /api/v1/ghosts`, for a table that `ex_books` does not have. -/
def ex_get_ghosts : Q2 :=
  q2_set_method (q2_set_dbd ex_books_dbd { request_uri := some "/api/v1/ghosts" }) "GET"

/-- Number of foreign keys, among `fks`, that reference a table of the path. -/
def count_path_refs (fks : Rset) (tabs : List String) : Nat :=
  fks.countP (fun row =>
    match fk_ref row with
    | none => false
    | some r => tabs.contains r)

/-- What the Postgres many:many candidate tests on a row of the list of
tables with foreign keys: the catalog counts at least two foreign keys, the
table has at least as many foreign-key columns as the path has tables, and
exactly as many of them reference a path table. -/
def pg_accepts (fn : Driver) (tabs : List String) (row : AprTable) : Bool :=
  match apr_table_get row "count" with
  | none => false
  | some c =>
    decide (2 ≤ atoi c) &&
      match (fn.fk_attr_fn (apr_table_get row "name")).rset with
      | none => false
      | some fks => decide (tabs.length ≤ fks.length) && count_path_refs fks tabs == tabs.length

/-- The acceptance condition of the Postgres many:many candidate as the
specification words it: at least two foreign keys, and every path table is
referenced by one of them. -/
def stated_pg_accepts (fks : Rset) (tabs : List String) : Bool :=
  decide (2 ≤ fks.length) && tabs.all (fun t => fks.any (fun r => fk_ref r == some t))

/-- A row that the Postgres many:many candidate can examine without fault:
the count is present and, when it is at least two, the foreign keys of the
table are listed and each names the table it references. -/
def pg_row_ok (fn : Driver) (row : AprTable) : Prop :=
  ∃ c, apr_table_get row "count" = some c ∧
    (2 ≤ atoi c → ∃ fks, (fn.fk_attr_fn (apr_table_get row "name")).rset = some fks ∧
      ∀ r ∈ fks, fk_ref r ≠ none)

/-- The Postgres driver of an example schema: the list of tables with foreign
keys has the columns `name` and `count`. -/
def ex_pg_driver (schema : List ExTable) : Driver :=
  { ex_driver schema with
    fk_tabs_fn := fun _ =>
      ex_rset ((schema.filter (fun t => decide (0 < t.fks.length))).map
        (fun t => [("name", some t.name), ("count", some (fmt_d (t.fks.length : Int)))])) }

/-- A schema where `loans` covers the path members/books and references
`members` a second time. -/
def ex_lending : List ExTable :=
  [ { name := "members", cols := ["id", "name"], pk := ["id"], fks := [] },
    { name := "books", cols := ["id", "title"], pk := ["id"], fks := [] },
    { name := "loans", cols := ["id", "member_id", "book_id", "guarantor_id"], pk := ["id"],
      fks := [("member_id", "members", "id"), ("book_id", "books", "id"),
              ("guarantor_id", "members", "id")] } ]

/-- The multi-table candidates, in the order `q2_acquire` attempts them. -/
def multi_candidates : List Nat := [Q2_RL_11REL, Q2_RL_1MREL, Q2_RL_MMREL]

/-- A schema with the table `books(id, title)` alone. -/
def ex_titles : List ExTable :=
  [ { name := "books", cols := ["id", "title"], pk := ["id"], fks := [] } ]

/-- Every other element of a list, starting with the first. -/
def every_other {α : Type} : List α → List α
  | [] => []
  | [x] => [x]
  | x :: _ :: r => x :: every_other r

/-- The request `GET /api/v1/books/next/10`, a first page request with the
pagination cursor 10. -/
def ex_get_next : Q2 :=
  q2_set_method (q2_set_dbd ex_books_dbd { request_uri := some "/api/v1/books/next/10" }) "GET"

/-- The request `GET /api/v1/books/pages`: a table followed by the name of one
of its columns. -/
def ex_get_column : Q2 :=
  q2_set_method (q2_set_dbd ex_books_dbd { request_uri := some "/api/v1/books/pages" }) "GET"

/-- The characters that follow the first token of a separated list: every
further token preceded by the separator. -/
def rest_chars (s : Char) (toks : List (List Char)) : List Char :=
  toks.flatMap (fun t => s :: t)

/-- A token that `apr_strtok` returns unchanged: not empty and without the separator. -/
def clean_token (s : Char) (t : List Char) : Prop := t ≠ [] ∧ s ∉ t

/-- A value token of a filter: not empty, without a comma and without a colon. -/
def plain_token (v : String) : Prop := v.data ≠ [] ∧ ',' ∉ v.data ∧ ':' ∉ v.data

/-- The attribute row of a numeric column `pages` that is not a key. -/
def ex_pages : AprTable := ex_attr "pages" false true false false "null"

/-- A request on a MySQL connection, for the examples of the value parser. -/
def ex_mysql : Q2 := { dbd_server_type := Q2_DBD_MYSQL }

/-- The attribute row of a string column `title` with the character set utf8. -/
def ex_title : AprTable := ex_attr "title" false false false false "null"

/-- A value with every `*` replaced by `%`, as `q2_sql_encode_value` does
before it encodes. -/
def star_to_percent (v : String) : String :=
  String.mk (v.data.map (fun c => if c = '*' then '%' else c))

/-- The attribute row of a date column `issued`. -/
def ex_issued : AprTable :=
  [("column_name", some "issued"), ("character_set_name", some "null"),
   ("is_primary_key", some "0"), ("is_foreign_key", some "0"),
   ("is_auto_increment", some "0"), ("is_nullable", some "0"),
   ("is_numeric", some "0"), ("is_date", some "1"), ("referenced_table", some "null")]

/-- A request on a Postgres connection, for the examples of the value parser. -/
def ex_pgsql : Q2 := { dbd_server_type := Q2_DBD_PGSQL }

/-- Two keys that `apr_table_get` does not tell apart. -/
def same_key (a b : String) : Prop := a.data.map c_tolower = b.data.map c_tolower

/-- The value of a key in a table that may be NULL. -/
def param_value (rp : Option AprTable) (name : String) : CStr :=
  match rp with
  | none => none
  | some t => apr_table_get t name

/-- What the third loop of `q2_sql_insert` pushes for a column: the bound
value for a column that is neither nullable nor auto-increment, and the
keyword `default` for every other column. -/
def emits (rp : Option AprTable) (row : AprTable) (v : String) : Prop :=
  (mandatory row ∧ ∃ name, apr_table_get row "column_name" = some name ∧
    param_value rp name = some v) ∨
  (¬ mandatory row ∧ v = "default")

/-- The name of a column, for the column list of a statement. -/
def column_of (row : AprTable) : String := (apr_table_get row "column_name").getD ""

/-- A POST on `books(id, title)` at key 5, where `title` is nullable and the
request binds it to `Dune`. -/
def ex_post_nullable : Q2 :=
  { uri_tables := some ["books"], uri_keys := some ["5"], table := some "books",
    dbd_server_type := Q2_DBD_MYSQL, request_method := Q2_HT_METHOD_POST,
    attributes := some [ex_attr "id" true true false false "null",
                        ex_attr "title" false false true false "null"],
    pk_attrs := some [[("column_name", some "id")]],
    r_params := some [("title", some "Dune")] }

/-- A POST on the path customers/1/orders (a 1:many relation): `orders` has
the auto-increment key `id`, the foreign key `customer_id`, which is not part
of the key and must have a value, and the column `note`, which the request
binds. -/
def ex_post_order : Q2 :=
  { uri_tables := some ["customers", "orders"], uri_keys := some ["1"],
    table := some "orders", tab_relation := Q2_RL_1MREL,
    dbd_server_type := Q2_DBD_MYSQL, request_method := Q2_HT_METHOD_POST,
    attributes := some [ex_attr "id" true true false true "null",
                        ex_attr "customer_id" false true false false "customers",
                        ex_attr "note" false false true false "null"],
    pk_attrs := some [[("column_name", some "id")]],
    r_params := some [("note", some "gift")] }

/-- A POST on the path citizens/7/passports (a 1:1 relation): the key
`citizen_id` of `passports` is the foreign key to `citizens`; the request
binds the column `number`. -/
def ex_post_passport : Q2 :=
  { uri_tables := some ["citizens", "passports"], uri_keys := some ["7"],
    table := some "passports", tab_relation := Q2_RL_11REL,
    dbd_server_type := Q2_DBD_MYSQL, request_method := Q2_HT_METHOD_POST,
    attributes := some [ex_attr "citizen_id" true true false false "citizens",
                        ex_attr "number" false false false false "null"],
    pk_attrs := some [[("column_name", some "citizen_id")]],
    r_params := some [("number", some "X1")] }

/-- The request `PATCH /api/v1/books/5/title` with the body `Dune` on the
table `books(id, title, pages)`, without request parameters. -/
def ex_patch_title : Q2 :=
  { uri_tables := some ["books"], uri_keys := some ["5"], table := some "books",
    dbd_server_type := Q2_DBD_PGSQL,
    column := some "title", request_rawdata := some "Dune",
    attributes := some [ex_attr "id" true true false false "null",
                        ex_attr "title" false false false false "null",
                        ex_attr "pages" false true false false "null"],
    pk_attrs := some [[("column_name", some "id")]] }

/-- The request `PATCH /api/v1/books/5/title?pages=3` with the body `Dune`:
the query string binds the column `pages`. -/
def ex_patch_title_query : Q2 :=
  { ex_patch_title with r_params := some [("pages", some "3")] }

/-- A request on the table `stock(shop, item, qty)`, whose primary key is made
of the two columns `shop` and `item`, with the key 3 in the URI, the request
parameter `qty=1` and the body `7`. -/
def ex_stock : Q2 :=
  { uri_tables := some ["stock"], uri_keys := some ["3"], table := some "stock",
    dbd_server_type := Q2_DBD_MYSQL,
    r_params := some [("qty", some "1")], request_rawdata := some "7",
    attributes := some [ex_attr "shop" true true false false "null",
                        ex_attr "item" true true false false "null",
                        ex_attr "qty" false true false false "null"],
    pk_attrs := some [[("column_name", some "shop")], [("column_name", some "item")]] }

/-- The request URI `uri` is the path `path` alone, or the path followed by
`?` and a query string without a further `?`; `qstr` is the query string. -/
def paginate_uri (uri path : String) (qstr : CStr) : Prop :=
  (q2_in_string uri '?' = false ∧ path = uri ∧ qstr = none) ∨
  (∃ q, uri = path ++ "?" ++ q ∧ clean_token '?' path.data ∧ clean_token '?' q.data ∧
    qstr = some q)

/-- The query part of the `next` URI: `?<query>`, or nothing. -/
def query_suffix (qstr : CStr) : String :=
  match qstr with
  | none => ""
  | some q => "?" ++ q

/-- A scan of `books` with page size 10 at offset 0 that returned 10 rows,
the statement matching `total` rows. -/
def ex_page (total : Int) : Q2 :=
  { request_uri := some "/api/v1/books", sql := some "SELECT * FROM books LIMIT 10 OFFSET 0",
    results := some (List.replicate 10 [("id", some "1")]),
    pagination_ppg := 10, next_page := 0, query_num_rows := total }

/-- A scan of `books` with page size 10 at offset 10 whose URI carries a cursor
and a query string. -/
def ex_page_cursor : Q2 :=
  { request_uri := some "/api/v1/books/next/10?sort=title",
    sql := some "SELECT * FROM books LIMIT 10 OFFSET 10",
    results := some (List.replicate 10 [("id", some "1")]),
    pagination_ppg := 10, next_page := 10, query_num_rows := 25 }

/-- A scan `GET /api/v1/books` of `books(id, title)` with page size 10 at
offset 20, on the given server type. -/
def ex_scan (server : Nat) : Q2 :=
  { uri_tables := some ["books"], table := some "books", dbd_server_type := server,
    pagination_ppg := 10, next_page := 20,
    attributes := some [ex_attr "id" true true false false "null",
                        ex_attr "title" false false false false "null"] }

/-- A scan on MSSQL of a table `notes(title, body)` without primary key. -/
def ex_scan_no_pk : Q2 :=
  { uri_tables := some ["notes"], table := some "notes", dbd_server_type := Q2_DBD_MSSQL,
    pagination_ppg := 10, next_page := 0,
    attributes := some [ex_attr "title" false false false false "null",
                        ex_attr "body" false false false false "null"] }

/-- A sequence of `q2_log_error` reports on a request, each with its line, its
function and its message, in order. -/
def log_reports (q2 : Q2) (reports : List (Nat × String × String)) : Q2 :=
  reports.foldl (fun q r => q2_log_error q r.1 r.2.1 r.2.2) q2

/-- A scan `GET /api/v1/books` of `books(id, title)` without page size, at
offset 0, on the given server type. -/
def ex_scan_unpaged (server : Nat) : Q2 :=
  { uri_tables := some ["books"], table := some "books", dbd_server_type := server,
    pagination_ppg := 0, next_page := 0,
    attributes := some [ex_attr "id" true true false false "null",
                        ex_attr "title" false false false false "null"] }

/-- What follows the first token of a string: every further token preceded
by a gap of `g + 1` separators, and `trail` separators at the end. -/
def gap_chars (s : Char) (more : List (Nat × List Char)) (trail : Nat) : List Char :=
  more.flatMap (fun p => List.replicate (p.1 + 1) s ++ p.2) ++ List.replicate trail s

/-- A string laid out as its maximal runs of non-separator characters: `lead`
separators, the first run `t`, the further runs each after one or more
separators, and `trail` separators at the end. -/
def gapped (s : Char) (lead : Nat) (t : List Char) (more : List (Nat × List Char))
    (trail : Nat) : List Char :=
  List.replicate lead s ++ t ++ gap_chars s more trail

/-- The parameter table with the given keys and values, none of them NULL. -/
def param_table (t : List (String × String)) : AprTable :=
  t.map (fun e => (e.1, some e.2))

/-- A key or a value of the argument codec: not empty, without `&` and
without `=`. -/
def codec_token (x : String) : Prop := x.data ≠ [] ∧ '&' ∉ x.data ∧ '=' ∉ x.data

/-- An attribute that is a foreign key whose referenced primary key has a
single column: `is_foreign_key` is set, `is_referenced_pk_multi` is 0, and the
referenced schema, table and column are `sch`, `t` and `c`. -/
def fk_single (row : AprTable) (sch t c : String) : Prop :=
  (∃ fk, atoi_p (apr_table_get row "is_foreign_key") = Run.ok fk ∧ fk ≠ 0) ∧
  atoi_p (apr_table_get row "is_referenced_pk_multi") = Run.ok 0 ∧
  apr_table_get row "referenced_schema" = some sch ∧
  apr_table_get row "referenced_table" = some t ∧
  apr_table_get row "referenced_column" = some c

/-- An attribute that is not a foreign key. -/
def not_fk (row : AprTable) : Prop :=
  atoi_p (apr_table_get row "is_foreign_key") = Run.ok 0 ∧
  ∃ m, atoi_p (apr_table_get row "is_referenced_pk_multi") = Run.ok m

/-- A row of `q2_sqlt3_cl_attr` for a column that is not part of the primary
key, as `q2_dbd_select` returns it (SQL NULL reads `NULL`). -/
def ex_sqlt3_column (name : String) : AprTable :=
  [("column_name", some name), ("character_set_name", some "UTF-8"), ("is_unsigned", some "0"),
   ("is_primary_key", some "0"), ("is_foreign_key", some "0"),
   ("is_auto_increment", some "0"), ("is_nullable", some "0"), ("is_numeric", some "1"),
   ("is_date", some "0"), ("column_options", some "NULL"),
   ("referenced_schema", some "NULL"), ("referenced_table", some "NULL"),
   ("referenced_column", some "NULL"), ("is_referenced_pk_multi", some "0"),
   ("referenced_pk", some "NULL")]

/-- The row of `PRAGMA foreign_key_list(orders)` for the foreign key
`orders.customer_id` that references `customers.id`. -/
def ex_pragma_fk : AprTable :=
  [("id", some "0"), ("seq", some "0"), ("table", some "customers"),
   ("from", some "customer_id"), ("to", some "id"), ("on_update", some "NO ACTION"),
   ("on_delete", some "NO ACTION"), ("match", some "NONE")]

/-- The same foreign key as a row of the MySQL catalog. -/
def ex_mysql_fk : AprTable :=
  [("column_name", some "customer_id"), ("referenced_schema", some "shop"),
   ("referenced_table", some "customers"), ("referenced_column", some "id")]

/-- A request on `orders(id, customer_id)` after the attributes were loaded,
with the given foreign-key rows and server type; the primary key of `orders`
is `id`. -/
def ex_orders_loaded (server : Nat) (refs : Option Rset) : Q2 :=
  { dbd_server_type := server, table := some "orders", uri_tables := some ["orders"],
    attributes := some [ex_sqlt3_column "id", ex_sqlt3_column "customer_id"],
    pk_attrs := some [[("column_name", some "id")]],
    refs_attrs := refs }

/-- The catalog of the two tables `customers(id)` and `orders(id, customer_id)`. -/
def ex_orders_schema : List ExTable :=
  [ { name := "customers", cols := ["id"], pk := ["id"], fks := [] },
    { name := "orders", cols := ["id", "customer_id"], pk := ["id"],
      fks := [("customer_id", "customers", "id")] } ]

/-- The two enrichment steps of `q2_acquire` in order: `q2_ischema_update_attrs`
and then `q2_ischema_update_options_attr`. -/
def enrich_attrs (db : Dbd) (fn : Driver) (q2 : Q2) : Run Q2 :=
  match q2_ischema_update_attrs db fn q2 with
  | Run.fault e => Run.fault e
  | Run.ok q2a => q2_ischema_update_options_attr q2a

/-- The value of a key of the attribute number `i` in the state a run ends with. -/
def attr_value (r : Run Q2) (i : Nat) (key : String) : CStr :=
  match r with
  | Run.fault _ => none
  | Run.ok q => q2_dbd_get_value q.attributes i key

/-- The column `c` is named by a row of the list `names` (the primary-key,
unsigned or foreign-key attributes of the target). -/
def in_names (names : Option Rset) (c : String) : Prop :=
  ∃ rows, names = some rows ∧ ∃ n ∈ rows, apr_table_get n "column_name" = some c

/-- The row `f` is the last foreign-key row of `refs` that names the column `c`. -/
def last_ref (refs : Option Rset) (c : String) (f : AprTable) : Prop :=
  ∃ pre post, refs = some (pre ++ f :: post) ∧ apr_table_get f "column_name" = some c ∧
    ∀ g ∈ post, apr_table_get g "column_name" ≠ some c

/-- What enrichment makes of the attribute `row`, given the primary-key,
unsigned and foreign-key attributes of the target: the name is kept; the flags
of the lists that name the column are set, with the references of the
matching foreign-key row; an attribute named by no list, or without name, is
unchanged. -/
def enriched (pk uns refs : Option Rset) (row r : AprTable) : Prop :=
  apr_table_get r "column_name" = apr_table_get row "column_name" ∧
  (apr_table_get row "column_name" = none → r = row) ∧
  ∀ c, apr_table_get row "column_name" = some c →
    (in_names pk c → apr_table_get r "is_primary_key" = some "1") ∧
    (in_names uns c → apr_table_get r "is_unsigned" = some "1") ∧
    (∀ f, last_ref refs c f →
      apr_table_get r "is_foreign_key" = some "1" ∧
      apr_table_get r "referenced_schema" = apr_table_get f "referenced_schema" ∧
      apr_table_get r "referenced_table" = apr_table_get f "referenced_table" ∧
      apr_table_get r "referenced_column" = apr_table_get f "referenced_column") ∧
    (¬ in_names pk c → ¬ in_names uns c → ¬ in_names refs c → r = row)

/-! ## Theorems -/

theorem count_hits_pure {α : Type} (p : α → Bool) (hit : α → Run Bool) (l : List α)
    (h : ∀ x ∈ l, hit x = Run.ok (p x)) : count_hits hit l = Run.ok (l.countP p) := by
  induction l with
  | nil => rfl
  | cons x r ih =>
    have hx := h x (List.mem_cons_self x r)
    have hr := ih (fun y hy => h y (List.mem_cons_of_mem x hy))
    simp only [count_hits, hx, hr, List.countP_cons]
    cases p x <;> simp

theorem count_hits_ok {α : Type} (hit : α → Run Bool) (l : List α) (n : Nat)
    (h : count_hits hit l = Run.ok n) : ∀ x ∈ l, ∃ b, hit x = Run.ok b := by
  induction l generalizing n with
  | nil => intro x hx; cases hx
  | cons y r ih =>
    intro x hx
    rw [count_hits] at h
    cases hy : hit y with
    | fault e => rw [hy] at h; cases h
    | ok b =>
      rw [hy] at h
      cases hr : count_hits hit r with
      | fault e => rw [hr] at h; cases h
      | ok m =>
        rcases List.mem_cons.mp hx with rfl | hx'
        · exact ⟨b, hy⟩
        · exact ih m hr x hx'

theorem countP_nested_pairs {α β : Type} (xs : List α) (ys : List β) (p : α × β → Bool) :
    (nested_pairs xs ys).countP p = (xs.map (fun x => ys.countP (fun y => p (x, y)))).sum := by
  induction xs with
  | nil => rfl
  | cons x r ih =>
    simp only [nested_pairs, List.flatMap_cons, List.countP_append, List.map_cons, List.sum_cons] at ih ⊢
    rw [ih, List.countP_map]
    rfl

theorem countP_eq_nodup (tabs : List String) (hd : tabs.Nodup) (r : String) :
    tabs.countP (fun t => r == t) = if r ∈ tabs then 1 else 0 := by
  have h1 : tabs.countP (fun t => r == t) = tabs.count r := by
    rw [List.count]
    apply List.countP_congr
    intro x _
    rw [beq_iff_eq, beq_iff_eq]
    exact eq_comm
  rw [h1]
  split
  · next h => exact List.count_eq_one_of_mem hd h
  · next h => exact List.count_eq_zero_of_not_mem h

theorem sum_map_ite {α : Type} (l : List α) (q : α → Bool) :
    (l.map (fun x => if q x = true then 1 else 0)).sum = l.countP q := by
  induction l with
  | nil => rfl
  | cons x r ih =>
    simp only [List.map_cons, List.sum_cons, List.countP_cons, ih]
    cases q x <;> simp
    omega

theorem count_1m_run (rset : Rset) (tabs : List String) (table : String) (hd : tabs.Nodup)
    (hrt : ∀ row ∈ rset, fk_ref row ≠ none) :
    count_hits
      (fun p : AprTable × String =>
        match strcmp_eq (apr_table_get p.1 "referenced_table") (some table) with
        | Run.fault e => Run.fault e
        | Run.ok true => Run.ok false
        | Run.ok false => strcmp_eq (apr_table_get p.1 "referenced_table") (some p.2))
      (nested_pairs rset tabs) = Run.ok (count_1m_refs rset tabs table) := by
  rw [count_hits_pure (fun p : AprTable × String =>
      match fk_ref p.1 with
      | none => false
      | some r => r != table && r == p.2)]
  · rw [countP_nested_pairs, count_1m_refs, ← sum_map_ite]
    refine congrArg Run.ok (congrArg (List.sum (α := Nat)) (List.map_congr_left ?_))
    intro row _
    show List.countP (fun y => match fk_ref row with
      | none => false
      | some r => r != table && r == y) tabs = _
    cases h : fk_ref row with
    | none => simp
    | some r =>
      by_cases hr : r = table
      · subst hr; simp
      · have : (r != table) = true := by simp [hr]
        simp only [this, Bool.true_and]
        rw [countP_eq_nodup tabs hd r]
        simp
  · intro p hp
    have hrow : p.1 ∈ rset := by
      simp only [nested_pairs, List.mem_flatMap, List.mem_map] at hp
      obtain ⟨x, hx, y, _, rfl⟩ := hp
      exact hx
    have := hrt p.1 hrow
    cases h : fk_ref p.1 with
    | none => exact absurd h this
    | some r =>
      have h2 : apr_table_get p.1 "referenced_table" = some r := h
      rw [h2]
      by_cases hr : r = table
      · subst hr; simp [strcmp_eq]
      · have e1 : (r == table) = false := by simp [hr]
        have e2 : (r != table) = true := by simp [hr]
        simp only [strcmp_eq, e1, e2, Bool.true_and]

/-- C9 (amended): for a path of more than one distinct table whose last table
is `table`, the 1:many candidate accepts `table` exactly when the number of its
foreign keys that are not self-references and reference a path table equals
the number of path tables minus one. -/
theorem target_1m_accepts_by_count (db : Dbd) (fn : Driver) (q2 : Q2)
    (tabs : List String) (table : String)
    (hu : q2.uri_tables = some tabs) (hn : 1 < tabs.length) (hd : tabs.Nodup)
    (hl : tabs.getLast? = some table)
    (hrt : ∀ row ∈ (fn.fk_attr_fn (some table)).rset.getD [], fk_ref row ≠ none) :
    ∃ q2a, q2_ischema_get_target_table db fn q2 Q2_RL_1MREL =
      Run.ok (q2a,
        if count_1m_refs ((fn.fk_attr_fn (some table)).rset.getD []) tabs table
            = tabs.length - 1
        then some table else none) := by
  have hn1 : ¬ tabs.length ≤ 1 := by omega
  simp only [q2_ischema_get_target_table, hu, target_table_1m, hn1, if_false, hl]
  cases hres : (fn.fk_attr_fn (some table)).rset with
  | none =>
    have : ¬ (0 = tabs.length - 1) := by omega
    simp [count_1m_refs, this]
  | some rset =>
    rw [hres] at hrt
    simp only [Option.getD_some] at hrt ⊢
    rw [count_1m_run rset tabs table hd hrt]
    by_cases hc : count_1m_refs rset tabs table = tabs.length - 1
    · simp [hc]
    · simp [hc]

/-- Witness of `target_1m_accepts_by_count`: the path customers/orders. -/
theorem target_1m_accepts_by_count_witness :
    ∃ q2a, q2_ischema_get_target_table (ex_dbd ex_shop) (ex_driver ex_shop)
        { uri_tables := some ["customers", "orders"] } Q2_RL_1MREL =
      Run.ok (q2a,
        if count_1m_refs (((ex_driver ex_shop).fk_attr_fn (some "orders")).rset.getD [])
            ["customers", "orders"] "orders" = ["customers", "orders"].length - 1
        then some "orders" else none) :=
  target_1m_accepts_by_count (ex_dbd ex_shop) (ex_driver ex_shop)
    { uri_tables := some ["customers", "orders"] } ["customers", "orders"] "orders"
    rfl (by decide) (by decide) rfl (by decide)

/-- C9 as stated fails: on the path customers/orders the candidate accepts
`orders` although one of its foreign keys references `products`, which is not
on the path. -/
theorem target_1m_stated_fails :
    (∃ q2a, q2_ischema_get_target_table (ex_dbd ex_shop) (ex_driver ex_shop)
        { uri_tables := some ["customers", "orders"] } Q2_RL_1MREL
          = Run.ok (q2a, some "orders")) ∧
    stated_1m_accepts (((ex_driver ex_shop).fk_attr_fn (some "orders")).rset.getD [])
        ["customers", "orders"] "orders" = false :=
  ⟨⟨_, rfl⟩, by decide⟩

theorem mem_nested_pairs {α β : Type} (xs : List α) (ys : List β) (x : α) (y : β)
    (hx : x ∈ xs) (hy : y ∈ ys) : (x, y) ∈ nested_pairs xs ys := by
  simp only [nested_pairs, List.mem_flatMap, List.mem_map]
  exact ⟨x, hx, y, hy, rfl⟩

theorem count_refs_all (fks : Rset) (tabs : List String) (hd : tabs.Nodup) (count : Nat)
    (h : count_hits (fun p : AprTable × String =>
            strcmp_eq (apr_table_get p.1 "referenced_table") (some p.2))
          (nested_pairs fks tabs) = Run.ok count)
    (hc : count = fks.length) :
    ∀ row ∈ fks, ∃ t ∈ tabs, fk_ref row = some t := by
  cases tabs with
  | nil =>
    intro row hrow
    have h0 : nested_pairs fks ([] : List String) = [] := by
      simp [nested_pairs]
    rw [h0] at h
    simp only [count_hits] at h
    cases h
    have : fks = [] := List.length_eq_zero.mp hc.symm
    subst this
    cases hrow
  | cons t0 ts =>
    have hsome : ∀ row ∈ fks, fk_ref row ≠ none := by
      intro row hrow hnone
      obtain ⟨b, hb⟩ := count_hits_ok _ _ _ h (row, t0)
        (mem_nested_pairs fks (t0 :: ts) row t0 hrow (List.mem_cons_self _ _))
      have hnone2 : apr_table_get row "referenced_table" = none := hnone
      simp only [hnone2, strcmp_eq] at hb
      cases hb
    have hpure := count_hits_pure
      (fun p : AprTable × String =>
        match fk_ref p.1 with
        | none => false
        | some r => r == p.2)
      (fun p : AprTable × String =>
        strcmp_eq (apr_table_get p.1 "referenced_table") (some p.2))
      (nested_pairs fks (t0 :: ts))
      (by
        intro p hp
        have hrow : p.1 ∈ fks := by
          simp only [nested_pairs, List.mem_flatMap, List.mem_map] at hp
          obtain ⟨x, hx, y, _, rfl⟩ := hp
          exact hx
        cases hr : fk_ref p.1 with
        | none => exact absurd hr (hsome p.1 hrow)
        | some r =>
          have h2 : apr_table_get p.1 "referenced_table" = some r := hr
          simp only [h2, strcmp_eq, hr])
    rw [hpure] at h
    injection h with h
    rw [countP_nested_pairs] at h
    have hrow_eq : ∀ row : AprTable,
        List.countP (fun y => match fk_ref (row, y).1 with
          | none => false
          | some r => r == (row, y).2) (t0 :: ts)
        = if (match fk_ref row with
              | none => false
              | some r => (t0 :: ts).contains r) = true then 1 else 0 := by
      intro row
      show List.countP (fun y => match fk_ref row with
          | none => false
          | some r => r == y) (t0 :: ts) = _
      cases hr : fk_ref row with
      | none => simp
      | some r =>
        simp only []
        rw [countP_eq_nodup (t0 :: ts) hd r]
        simp
    rw [List.map_congr_left (fun row _ => hrow_eq row), sum_map_ite, hc] at h
    have hall := (List.countP_eq_length).mp h
    intro row hrow
    have := hall row hrow
    cases hr : fk_ref row with
    | none => rw [hr] at this; cases this
    | some r =>
      rw [hr] at this
      simp only [List.contains_eq_any_beq, List.any_eq_true, beq_iff_eq] at this
      obtain ⟨t, ht, hrt⟩ := this
      exact ⟨t, ht, by rw [hrt]⟩

theorem mm_loop_sound (db : Dbd) (fn : Driver) (tabs : List String) (hd : tabs.Nodup) :
    ∀ (rows : List AprTable) (q2 q2a : Q2) (J : String),
      target_table_mm_loop db fn tabs q2 rows = Run.ok (q2a, some J) →
      (∃ row ∈ rows, apr_table_get row "table_name" = some J) ∧
      ∃ fks, (fn.fk_attr_fn (some J)).rset = some fks ∧ fks.length = tabs.length ∧
        ∀ r ∈ fks, ∃ t ∈ tabs, fk_ref r = some t := by
  intro rows
  induction rows with
  | nil =>
    intro q2 q2a J h
    simp only [target_table_mm_loop] at h
    cases h
  | cons row rest ih =>
    intro q2 q2a J h
    rw [target_table_mm_loop] at h
    cases hres : (fn.fk_attr_fn (apr_table_get row "table_name")).rset with
    | none => rw [hres] at h; cases h
    | some rset_ =>
      rw [hres] at h
      simp only [] at h
      by_cases hlen : rset_.length = tabs.length
      · simp only [hlen, ne_eq, not_true_eq_false, if_false] at h
        cases hcount : count_hits (fun p : AprTable × String =>
            strcmp_eq (apr_table_get p.1 "referenced_table") (some p.2))
            (nested_pairs rset_ tabs) with
        | fault e => rw [hcount] at h; cases h
        | ok count =>
          rw [hcount] at h
          simp only [] at h
          by_cases hc : count = tabs.length
          · simp only [hc, if_true] at h
            injection h with h
            injection h with _ hJ
            refine ⟨⟨row, List.mem_cons_self _ _, hJ⟩, rset_, ?_, hlen, ?_⟩
            · rw [← hJ]; exact hres
            · exact count_refs_all rset_ tabs hd count hcount (hc.trans hlen.symm)
          · simp only [hc, if_false] at h
            obtain ⟨⟨r, hr, hr2⟩, rest2⟩ := ih _ _ _ h
            exact ⟨⟨r, List.mem_cons_of_mem _ hr, hr2⟩, rest2⟩
      · simp only [ne_eq, hlen, not_false_eq_true, if_true] at h
        obtain ⟨⟨r, hr, hr2⟩, rest2⟩ := ih _ _ _ h
        exact ⟨⟨r, List.mem_cons_of_mem _ hr, hr2⟩, rest2⟩

/-- C10 (amended): on a backend other than Postgres, a junction table `J`
selected by the many:many candidate for a path of distinct tables is one of
the tables listed as referencing the last path table, it has exactly as many
foreign-key columns as the path has tables, and every table they reference is
a path table. -/
theorem mm_junction_refs_path_tables (db : Dbd) (fn : Driver) (q2 q2a : Q2)
    (tabs : List String) (J : String)
    (hu : q2.uri_tables = some tabs) (hd : tabs.Nodup)
    (hpg : q2.dbd_server_type ≠ Q2_DBD_PGSQL)
    (h : q2_ischema_get_target_table db fn q2 Q2_RL_MMREL = Run.ok (q2a, some J)) :
    (∃ table rows, tabs.getLast? = some table ∧
        (fn.fk_tabs_fn (some table)).rset = some rows ∧
        ∃ row ∈ rows, apr_table_get row "table_name" = some J) ∧
    ∃ fks, (fn.fk_attr_fn (some J)).rset = some fks ∧ fks.length = tabs.length ∧
      ∀ r ∈ fks, ∃ t ∈ tabs, fk_ref r = some t := by
  simp only [q2_ischema_get_target_table, hu, target_table_mm] at h
  by_cases hn : tabs.length ≤ 1
  · simp only [hn, if_true] at h
    cases h
  · simp only [hn, if_false, hpg] at h
    cases hl : tabs.getLast? with
    | none => rw [hl] at h; cases h
    | some table =>
      rw [hl] at h
      simp only [] at h
      cases hres : (fn.fk_tabs_fn (some table)).rset with
      | none => rw [hres] at h; cases h
      | some rows =>
        rw [hres] at h
        obtain ⟨hrow, hfks⟩ := mm_loop_sound db fn tabs hd rows _ _ _ h
        exact ⟨⟨table, rows, rfl, hres, hrow⟩, hfks⟩

/-- Witness of `mm_junction_refs_path_tables`: the path authors/books. -/
theorem mm_junction_refs_path_tables_witness :
    (∃ table rows, ["authors", "books"].getLast? = some table ∧
        ((ex_driver ex_library).fk_tabs_fn (some table)).rset = some rows ∧
        ∃ row ∈ rows, apr_table_get row "table_name" = some "author_book") ∧
    ∃ fks, ((ex_driver ex_library).fk_attr_fn (some "author_book")).rset = some fks ∧
      fks.length = ["authors", "books"].length ∧
      ∀ r ∈ fks, ∃ t ∈ ["authors", "books"], fk_ref r = some t :=
  mm_junction_refs_path_tables (ex_dbd ex_library) (ex_driver ex_library)
    { uri_tables := some ["authors", "books"], dbd_server_type := Q2_DBD_MYSQL } _
    ["authors", "books"] "author_book" rfl (by decide) (by decide) rfl

/-- C10 as stated fails: for the path teams/players the candidate selects
`transfers`, whose two foreign keys both reference `players`; the path table
`teams` is referenced by none of them. -/
theorem mm_junction_stated_fails :
    (∃ q2a, q2_ischema_get_target_table (ex_dbd ex_league) (ex_driver ex_league)
        { uri_tables := some ["teams", "players"], dbd_server_type := Q2_DBD_MYSQL }
        Q2_RL_MMREL = Run.ok (q2a, some "transfers")) ∧
    ¬ (∀ t ∈ ["teams", "players"],
        ∃ r ∈ ((ex_driver ex_league).fk_attr_fn (some "transfers")).rset.getD [],
          fk_ref r = some t) :=
  ⟨⟨_, rfl⟩, by decide⟩

@[simp] theorem core_called (q : Q2) (c : DbCall) (h : is_statement c = false) :
    (q.called c).core = q.core := by
  simp only [Q2.core, Q2.called, List.filter_append, List.filter_cons, h, List.filter_nil,
    List.append_nil, Bool.false_eq_true, if_false]

@[simp] theorem core_log_error (q : Q2) (line : Nat) (func msg : String) :
    (q2_log_error q line func msg).core = q.core := rfl

@[simp] theorem core_log_if_er (db : Dbd) (q : Q2) (er : Int) (line : Nat) (func : String) :
    (log_if_er db q er line func).core = q.core := by
  unfold log_if_er
  split <;> rfl

theorem core_uri_tables {q q' : Q2} (h : q'.core = q.core) : q'.uri_tables = q.uri_tables := by
  have := congrArg Q2.uri_tables h
  exact this

theorem core_server_type {q q' : Q2} (h : q'.core = q.core) :
    q'.dbd_server_type = q.dbd_server_type := by
  have := congrArg Q2.dbd_server_type h
  exact this

theorem target_table_11_core (db : Dbd) (fn : Driver) (q q' : Q2) (tabs : List String)
    (r : CStr) (h : target_table_11 db fn q tabs = Run.ok (q', r)) : q'.core = q.core := by
  unfold target_table_11 at h
  try dsimp only at h
  repeat' split at h
  all_goals first
    | (cases h <;> simp [is_statement])

theorem target_table_1m_core (db : Dbd) (fn : Driver) (q q' : Q2) (tabs : List String)
    (r : CStr) (h : target_table_1m db fn q tabs = Run.ok (q', r)) : q'.core = q.core := by
  unfold target_table_1m at h
  try dsimp only at h
  repeat' split at h
  all_goals first
    | (cases h <;> simp [is_statement])

theorem target_table_mm_loop_core (db : Dbd) (fn : Driver) (tabs : List String) :
    ∀ (rows : List AprTable) (q q' : Q2) (r : CStr),
      target_table_mm_loop db fn tabs q rows = Run.ok (q', r) → q'.core = q.core := by
  intro rows
  induction rows with
  | nil =>
    intro q q' r h
    rw [target_table_mm_loop] at h
    cases h
    rfl
  | cons row rest ih =>
    intro q q' r h
    rw [target_table_mm_loop] at h
    try dsimp only at h
    repeat' split at h
    all_goals first
      | (cases h <;> simp [is_statement])
      | (have hh := ih _ _ _ h; simpa [is_statement] using hh)

theorem pgsql_mm_loop_core (db : Dbd) (fn : Driver) (ut : Option (List String)) :
    ∀ (rows : List AprTable) (q q' : Q2) (r : CStr),
      pgsql_mm_loop db fn ut q rows = Run.ok (q', r) → q'.core = q.core := by
  intro rows
  induction rows with
  | nil =>
    intro q q' r h
    rw [pgsql_mm_loop] at h
    cases h
    rfl
  | cons row rest ih =>
    intro q q' r h
    rw [pgsql_mm_loop] at h
    try dsimp only at h
    repeat' split at h
    all_goals first
      | (cases h <;> simp [is_statement])
      | (have hh := ih _ _ _ h; simpa [is_statement] using hh)

theorem target_table_mm_core (db : Dbd) (fn : Driver) (q q' : Q2) (tabs : List String)
    (r : CStr) (h : target_table_mm db fn q tabs = Run.ok (q', r)) : q'.core = q.core := by
  unfold target_table_mm at h
  split at h
  · cases h; rfl
  · split at h
    · unfold q2_ischema_pgsql_get_target_table_mm at h
      try dsimp only at h
      split at h
      · cases h; simp [is_statement]
      · have := pgsql_mm_loop_core db fn _ _ _ _ _ h
        simpa [is_statement] using this
    · dsimp only at h
      repeat' split at h
      all_goals first
        | (cases h <;> simp [is_statement])
        | (have hh := target_table_mm_loop_core db fn _ _ _ _ _ h; simpa [is_statement] using hh)

theorem target_table_single_core (db : Dbd) (fn : Driver) (q q' : Q2) (tabs : List String)
    (r : CStr) (h : target_table_single db fn q tabs = Run.ok (q', r)) : q'.core = q.core := by
  unfold target_table_single at h
  try dsimp only at h
  repeat' split at h
  all_goals first
    | (cases h <;> simp [is_statement])

theorem get_target_table_core (db : Dbd) (fn : Driver) (q q' : Q2) (rel : Nat)
    (r : CStr) (h : q2_ischema_get_target_table db fn q rel = Run.ok (q', r)) :
    q'.core = q.core := by
  unfold q2_ischema_get_target_table at h
  split at h
  · cases h; rfl
  · split at h
    · exact target_table_11_core db fn q q' _ r h
    · split at h
      · exact target_table_1m_core db fn q q' _ r h
      · split at h
        · exact target_table_mm_core db fn q q' _ r h
        · exact target_table_single_core db fn q q' _ r h

theorem gtt_11 (db : Dbd) (fn : Driver) (q : Q2) (tabs : List String)
    (h : q.uri_tables = some tabs) :
    q2_ischema_get_target_table db fn q Q2_RL_11REL = target_table_11 db fn q tabs := by
  simp only [q2_ischema_get_target_table, h, if_true]

theorem gtt_1m (db : Dbd) (fn : Driver) (q : Q2) (tabs : List String)
    (h : q.uri_tables = some tabs) :
    q2_ischema_get_target_table db fn q Q2_RL_1MREL = target_table_1m db fn q tabs := by
  simp only [q2_ischema_get_target_table, h]
  rfl

theorem gtt_mm (db : Dbd) (fn : Driver) (q : Q2) (tabs : List String)
    (h : q.uri_tables = some tabs) :
    q2_ischema_get_target_table db fn q Q2_RL_MMREL = target_table_mm db fn q tabs := by
  simp only [q2_ischema_get_target_table, h]
  rfl

theorem gtt_single (db : Dbd) (fn : Driver) (q : Q2) (tabs : List String)
    (h : q.uri_tables = some tabs) :
    q2_ischema_get_target_table db fn q 0 = target_table_single db fn q tabs := by
  simp only [q2_ischema_get_target_table, h]
  rfl

theorem getD_nil_cases {rs : Option Rset} (h : rs.getD [] = []) : rs = none ∨ rs = some [] := by
  cases rs with
  | none => exact Or.inl rfl
  | some l => right; simpa using h

theorem target_11_rejects_without_fk (db : Dbd) (fn : Driver) (q : Q2) (tabs : List String)
    (table : String) (hl : tabs.getLast? = some table)
    (hfk : (fn.fk_attr_fn (some table)).rset.getD [] = []) :
    ∃ q1, target_table_11 db fn q tabs = Run.ok (q1, none) := by
  unfold target_table_11
  split
  · exact ⟨_, rfl⟩
  · rw [hl]
    try dsimp only
    split
    · exact ⟨_, rfl⟩
    · split
      · exact ⟨_, rfl⟩
      · rcases getD_nil_cases hfk with h | h
        · rw [h]; exact ⟨_, rfl⟩
        · rw [h]; exact ⟨_, rfl⟩

theorem target_1m_rejects_without_fk (db : Dbd) (fn : Driver) (q : Q2) (tabs : List String)
    (table : String) (hl : tabs.getLast? = some table)
    (hfk : (fn.fk_attr_fn (some table)).rset.getD [] = []) :
    ∃ q1, target_table_1m db fn q tabs = Run.ok (q1, none) := by
  unfold target_table_1m
  split
  · exact ⟨_, rfl⟩
  · next hn =>
    rw [hl]
    try dsimp only
    rcases getD_nil_cases hfk with h | h
    · rw [h]; exact ⟨_, rfl⟩
    · rw [h]
      have h0 : nested_pairs ([] : Rset) tabs = [] := rfl
      have hne : (0 : Nat) ≠ tabs.length - 1 := by omega
      simp only [h0, count_hits, hne, ne_eq, not_false_eq_true, if_true]
      exact ⟨_, rfl⟩

theorem mm_loop_selects (db : Dbd) (fn : Driver) (A B J : String) (r1 r2 : AprTable)
    (hAB : A ≠ B)
    (hJ : (fn.fk_attr_fn (some J)).rset = some [r1, r2])
    (href : (fk_ref r1 = some A ∧ fk_ref r2 = some B) ∨
            (fk_ref r1 = some B ∧ fk_ref r2 = some A))
    (q : Q2) (row : AprTable) (rest : List AprTable)
    (hrow : apr_table_get row "table_name" = some J) :
    ∃ q1, target_table_mm_loop db fn [A, B] q (row :: rest) = Run.ok (q1, some J) := by
  have hBA : B ≠ A := fun h => hAB h.symm
  rw [target_table_mm_loop]
  try dsimp only
  rw [hrow, hJ]
  try dsimp only
  have hc : count_hits (fun p : AprTable × String =>
      strcmp_eq (apr_table_get p.1 "referenced_table") (some p.2))
      (nested_pairs [r1, r2] [A, B]) = Run.ok 2 := by
    rcases href with ⟨h1, h2⟩ | ⟨h1, h2⟩
    · have e1 : apr_table_get r1 "referenced_table" = some A := h1
      have e2 : apr_table_get r2 "referenced_table" = some B := h2
      simp [nested_pairs, count_hits, e1, e2, strcmp_eq, hAB, hBA]
    · have e1 : apr_table_get r1 "referenced_table" = some B := h1
      have e2 : apr_table_get r2 "referenced_table" = some A := h2
      simp [nested_pairs, count_hits, e1, e2, strcmp_eq, hAB, hBA]
  rw [hc]
  simp

/-- C7: on a backend other than Postgres, for a path of two different tables
`A` and `B` where `B` has no foreign keys, every table listed as referencing
`B` is `J`, and the foreign keys of `J` are one to `A` and one to `B`,
resolution selects `J` with the many-to-many relation. -/
theorem acquire_target_many_to_many (db : Dbd) (fn : Driver) (q2 : Q2) (A B J : String)
    (rows : List AprTable) (r1 r2 : AprTable)
    (hu : q2.uri_tables = some [A, B]) (hAB : A ≠ B)
    (hpg : q2.dbd_server_type ≠ Q2_DBD_PGSQL)
    (hB : (fn.fk_attr_fn (some B)).rset.getD [] = [])
    (hrefs : (fn.fk_tabs_fn (some B)).rset = some rows) (hne : rows ≠ [])
    (hrows : ∀ row ∈ rows, apr_table_get row "table_name" = some J)
    (hJ : (fn.fk_attr_fn (some J)).rset = some [r1, r2])
    (href : (fk_ref r1 = some A ∧ fk_ref r2 = some B) ∨
            (fk_ref r1 = some B ∧ fk_ref r2 = some A)) :
    ∃ q2a, q2_acquire_target db fn q2 = Run.ok q2a ∧ q2a.table = some J ∧
      q2a.tab_relation = Q2_RL_MMREL := by
  have hl : [A, B].getLast? = some B := rfl
  -- the 1:1 candidate
  obtain ⟨q1, h11⟩ := target_11_rejects_without_fk db fn q2 [A, B] B hl hB
  have g11 : q2_ischema_get_target_table db fn q2 Q2_RL_11REL = Run.ok (q1, none) := by
    rw [gtt_11 db fn q2 _ hu]
    exact h11
  have c1 := get_target_table_core db fn q2 q1 _ _ g11
  have hu1 : (q1.set_table none).uri_tables = some [A, B] := by
    show q1.uri_tables = _
    rw [core_uri_tables c1, hu]
  -- the 1:many candidate
  obtain ⟨q1m, h1m⟩ := target_1m_rejects_without_fk db fn (q1.set_table none) [A, B] B hl hB
  have g1m : q2_ischema_get_target_table db fn (q1.set_table none) Q2_RL_1MREL
      = Run.ok (q1m, none) := by
    rw [gtt_1m db fn _ _ hu1]
    exact h1m
  have c2 := get_target_table_core db fn _ q1m _ _ g1m
  have hu2 : (q1m.set_table none).uri_tables = some [A, B] := by
    show q1m.uri_tables = _
    rw [core_uri_tables c2]
    exact hu1
  have hs2 : (q1m.set_table none).dbd_server_type ≠ Q2_DBD_PGSQL := by
    show q1m.dbd_server_type ≠ _
    rw [core_server_type c2]
    show q1.dbd_server_type ≠ _
    rw [core_server_type c1]
    exact hpg
  -- the many:many candidate
  cases rows with
  | nil => exact absurd rfl hne
  | cons row rest =>
    obtain ⟨q3, hmm⟩ := mm_loop_selects db fn A B J r1 r2 hAB hJ href
      (log_if_er db ((q1m.set_table none).called (DbCall.fk_tabs (some B)))
        (fn.fk_tabs_fn (some B)).er 1512 "q2_ischema_get_target_table")
      row rest (hrows row (List.mem_cons_self _ _))
    have gmm : q2_ischema_get_target_table db fn (q1m.set_table none) Q2_RL_MMREL
        = Run.ok (q3, some J) := by
      rw [gtt_mm db fn _ _ hu2]
      unfold target_table_mm
      rw [if_neg (by simp), if_neg hs2]
      rw [hl]
      try dsimp only
      rw [hrefs]
      exact hmm
    refine ⟨(q3.set_table (some J)).set_relation Q2_RL_MMREL, ?_, rfl, rfl⟩
    unfold q2_acquire_target
    rw [g11]
    dsimp only
    rw [g1m]
    dsimp only
    rw [gmm]

/-- Witness of `acquire_target_many_to_many`: authors, books and the junction
table `author_book`. -/
theorem acquire_target_many_to_many_witness :
    ∃ q2a, q2_acquire_target (ex_dbd ex_library) (ex_driver ex_library)
        { uri_tables := some ["authors", "books"], uri_keys := some ["1", "2"],
          dbd_server_type := Q2_DBD_MYSQL } = Run.ok q2a ∧
      q2a.table = some "author_book" ∧ q2a.tab_relation = Q2_RL_MMREL :=
  acquire_target_many_to_many (ex_dbd ex_library) (ex_driver ex_library)
    { uri_tables := some ["authors", "books"], uri_keys := some ["1", "2"],
      dbd_server_type := Q2_DBD_MYSQL } "authors" "books" "author_book"
    [[("table_name", some "author_book")]]
    [("column_name", some "author_id"), ("referenced_schema", some "db"),
      ("referenced_table", some "authors"), ("referenced_column", some "id")]
    [("column_name", some "book_id"), ("referenced_schema", some "db"),
      ("referenced_table", some "books"), ("referenced_column", some "id")]
    rfl (by decide) (by decide) rfl rfl (by decide) (by decide) rfl (by decide)

/-- C8 (defect of the code): the comparison of the key names reads the
foreign-key row with the index of the outer loop.  The 1:1 candidate rejects
`passport`, whose primary key (country, number) is exactly its pair of foreign
keys to `citizen`, and accepts `visa`, whose primary key (country, number)
differs from its foreign-key columns (country, officer). -/
theorem target_11_composite_key_defect :
    (∃ q2a, q2_ischema_get_target_table (ex_dbd ex_registry) (ex_driver ex_registry)
        { uri_tables := some ["citizen", "passport"] } Q2_RL_11REL = Run.ok (q2a, none)) ∧
    (∃ q2a, q2_ischema_get_target_table (ex_dbd ex_registry) (ex_driver ex_registry)
        { uri_tables := some ["citizen", "visa"] } Q2_RL_11REL = Run.ok (q2a, some "visa")) :=
  ⟨⟨_, rfl⟩, ⟨_, rfl⟩⟩

/-- C1 (defect of the code): the single-table branch of `q2_sql_key_conds`
reads the attribute of index 0 in every round.  With the primary key in the
second column no name is ever assigned and the builder reads an uninitialised
pointer; with the primary key in the first column the statement is the one the
claim describes. -/
theorem select_tab_key_reads_first_attribute :
    q2_sql_select_tab_key ex_books_pk_second = Run.fault Fault.uninit_read ∧
    (∃ q2a, q2_sql_select_tab_key ex_books_pk_first
      = Run.ok (q2a, some "SELECT * FROM books WHERE (id=5)")) :=
  ⟨by decide, ⟨_, rfl⟩⟩

/-- C4 (defect of the code): `cval` is never reset, so only the first
foreign-key column that references a path table yields a condition.  For the
path authors/1/books/2 on the junction table the statement deletes every row
of author 1 instead of the single row (author 1, book 2). -/
theorem delete_keeps_first_condition_only :
    ∃ q2a, q2_sql_delete ex_author_book
      = Run.ok (q2a, some "DELETE FROM author_book WHERE (author_id=1)") :=
  ⟨_, rfl⟩

/-- C5 (defect of the code): `q2_sql_insert` copies the bound values into the
statement as they are, neither escaped nor quoted, whatever the type of the
column; the escape function of the driver is not an input of the function. -/
theorem insert_value_not_escaped :
    ∃ q2a, q2_sql_insert
        { ex_books_pk_first with r_params := some [("title", some "x'),('6','y")] }
      = Run.ok (q2a, some "INSERT INTO books (id,title) VALUES (5,x'),('6','y)") :=
  ⟨_, rfl⟩

theorem encode_value_ok (db : Dbd) (q2 : Q2) (row : AprTable) (v : String)
    (hn : ∃ b, flag_p (apr_table_get row "is_numeric") = Run.ok b)
    (hd : ∃ b, flag_p (apr_table_get row "is_date") = Run.ok b) :
    ∃ lit, q2_sql_encode_value db q2 row (some v) = Run.ok (some lit) := by
  obtain ⟨bn, hn⟩ := hn
  obtain ⟨bd, hd⟩ := hd
  unfold q2_sql_encode_value
  simp only [hn, hd]
  split <;> exact ⟨_, rfl⟩

theorem update_pair_key (db : Dbd) (q2 : Q2) (all : Bool) (row : AprTable)
    (h : flag_p (apr_table_get row "is_primary_key") = Run.ok true) :
    update_pair db q2 all row = Run.ok PairStep.skip := by
  unfold update_pair
  rw [h]

theorem update_pair_unbound (db : Dbd) (q2 : Q2) (row : AprTable) (name : String)
    (h : non_key_attr row) (hname : apr_table_get row "column_name" = some name)
    (hu : bound_value q2 name = none) :
    update_pair db q2 true row = Run.ok (PairStep.fail
      (q2_log_error q2 2707 "q2_sql_update" ("'" ++ name ++ "' is mandatory"))) := by
  obtain ⟨hpk, ⟨bn, hn⟩, _, _⟩ := h
  unfold update_pair
  unfold bound_value at hu
  simp only [hpk, hn, hname, hu, if_true]

theorem update_pair_bound (db : Dbd) (q2 : Q2) (all : Bool) (row : AprTable)
    (name v : String)
    (h : non_key_attr row) (hname : apr_table_get row "column_name" = some name)
    (hb : bound_value q2 name = some v) :
    ∃ pair, update_pair db q2 all row = Run.ok (PairStep.pair pair) ∧
      is_assignment db q2 row pair := by
  obtain ⟨hpk, ⟨bn, hn⟩, hd, _⟩ := h
  obtain ⟨lit, hlit⟩ := encode_value_ok db q2 row v ⟨bn, hn⟩ hd
  have hb2 := hb
  unfold bound_value at hb2
  unfold update_pair
  simp only [hpk, hn, hname, hb2]
  cases bn with
  | true =>
    refine ⟨name ++ "=" ++ v, by simp, name, v, hname, hb, Or.inl ⟨hn, rfl⟩⟩
  | false =>
    refine ⟨name ++ "=" ++ lit, by simp [hlit, fmt_s], name, v, hname, hb,
      Or.inr ⟨hn, lit, hlit, rfl⟩⟩

theorem log_error_error (q : Q2) (line : Nat) (func msg : String) :
    (q2_log_error q line func msg).error = 1 := rfl

theorem log_error_log (q : Q2) (line : Nat) (func msg : String) :
    (q2_log_error q line func msg).log ≠ none := by
  unfold q2_log_error
  cases q.log <;> simp

theorem update_pairs_unbound (db : Dbd) (q2 : Q2) :
    ∀ attrs : List AprTable,
      (∀ row ∈ attrs,
        flag_p (apr_table_get row "is_primary_key") = Run.ok true ∨ non_key_attr row) →
      (∃ row ∈ attrs, non_key_attr row ∧
        ∃ name, apr_table_get row "column_name" = some name ∧ bound_value q2 name = none) →
      ∃ q2a, update_pairs db q2 true attrs = Run.ok (Sum.inl q2a) ∧ q2a.error = 1 ∧
        q2a.log ≠ none := by
  intro attrs
  induction attrs with
  | nil =>
    intro _ h
    obtain ⟨row, hrow, _⟩ := h
    cases hrow
  | cons r rest ih =>
    intro hok hex
    have hrest := fun row (h : row ∈ rest) => hok row (List.mem_cons_of_mem _ h)
    rw [update_pairs]
    rcases hok r (List.mem_cons_self _ _) with hkey | hnk
    · rw [update_pair_key db q2 true r hkey]
      apply ih hrest
      obtain ⟨row, hrow, hnk, hun⟩ := hex
      rcases List.mem_cons.mp hrow with rfl | hin
      · rw [hnk.1] at hkey
        cases hkey
      · exact ⟨row, hin, hnk, hun⟩
    · obtain ⟨name, hname⟩ := hnk.2.2.2
      cases hb : bound_value q2 name with
      | none =>
        rw [update_pair_unbound db q2 r name hnk hname hb]
        exact ⟨_, rfl, log_error_error _ _ _ _, log_error_log _ _ _ _⟩
      | some v =>
        obtain ⟨pair, hpair, _⟩ := update_pair_bound db q2 true r name v hnk hname hb
        rw [hpair]
        have hex2 : ∃ row ∈ rest, non_key_attr row ∧
            ∃ name, apr_table_get row "column_name" = some name ∧
              bound_value q2 name = none := by
          obtain ⟨row, hrow, hnk2, name2, hname2, hun⟩ := hex
          rcases List.mem_cons.mp hrow with rfl | hin
          · rw [hname] at hname2
            injection hname2 with e
            rw [e, hun] at hb
            cases hb
          · exact ⟨row, hin, hnk2, name2, hname2, hun⟩
        obtain ⟨q2a, h1, h2, h3⟩ := ih hrest hex2
        rw [h1]
        exact ⟨q2a, rfl, h2, h3⟩

theorem update_pairs_bound (db : Dbd) (q2 : Q2) (all : Bool) :
    ∀ attrs : List AprTable,
      (∀ row ∈ attrs,
        flag_p (apr_table_get row "is_primary_key") = Run.ok true ∨ non_key_attr row) →
      (∀ row ∈ attrs, non_key_attr row →
        ∀ name, apr_table_get row "column_name" = some name → bound_value q2 name ≠ none) →
      ∃ pairs, update_pairs db q2 all attrs = Run.ok (Sum.inr pairs) ∧
        List.Forall₂ (is_assignment db q2)
          (attrs.filter (fun row =>
            decide (flag_p (apr_table_get row "is_primary_key") = Run.ok false)))
          pairs := by
  intro attrs
  induction attrs with
  | nil =>
    intro _ _
    exact ⟨[], rfl, List.Forall₂.nil⟩
  | cons r rest ih =>
    intro hok hb
    have hrest := fun row (h : row ∈ rest) => hok row (List.mem_cons_of_mem _ h)
    have hbrest := fun row (h : row ∈ rest) => hb row (List.mem_cons_of_mem _ h)
    obtain ⟨pairs, hp, hf⟩ := ih hrest hbrest
    rw [update_pairs]
    rcases hok r (List.mem_cons_self _ _) with hkey | hnk
    · rw [update_pair_key db q2 all r hkey]
      refine ⟨pairs, hp, ?_⟩
      rw [List.filter_cons_of_neg (by simp [hkey])]
      exact hf
    · obtain ⟨name, hname⟩ := hnk.2.2.2
      cases hbv : bound_value q2 name with
      | none => exact absurd hbv (hb r (List.mem_cons_self _ _) hnk name hname)
      | some v =>
        obtain ⟨pair, hpair, hasg⟩ := update_pair_bound db q2 all r name v hnk hname hbv
        rw [hpair, hp]
        refine ⟨pair :: pairs, rfl, ?_⟩
        rw [List.filter_cons_of_pos (by simp [hnk.1])]
        exact List.Forall₂.cons hasg hf

theorem update_pk_name_skip (attrs : List AprTable) (acc : CStr)
    (h : ∀ row ∈ attrs, non_key_attr row) : update_pk_name attrs acc = some acc := by
  induction attrs with
  | nil => rfl
  | cons r rest ih =>
    have hr := (h r (List.mem_cons_self _ _)).1
    rw [update_pk_name]
    cases hg : apr_table_get r "is_primary_key" with
    | none => rw [hg] at hr; cases hr
    | some s =>
      rw [hg] at hr
      simp only [flag_p, Run.ok.injEq, bne_eq_false_iff_eq] at hr
      simp only [hr, if_true]
      exact ih (fun row hrow => h row (List.mem_cons_of_mem _ hrow))

theorem update_pk_name_found (pre post : List AprTable) (pkrow : AprTable) (p : String)
    (hkey : flag_p (apr_table_get pkrow "is_primary_key") = Run.ok true)
    (hp : apr_table_get pkrow "column_name" = some p)
    (hnk : ∀ row ∈ pre ++ post, non_key_attr row) :
    update_pk_name (pre ++ pkrow :: post) none = some (some p) := by
  have hpre : ∀ row ∈ pre, non_key_attr row :=
    fun row h => hnk row (List.mem_append_left _ h)
  have hpost : ∀ row ∈ post, non_key_attr row :=
    fun row h => hnk row (List.mem_append_right _ h)
  induction pre with
  | nil =>
    rw [List.nil_append, update_pk_name]
    cases hg : apr_table_get pkrow "is_primary_key" with
    | none => rw [hg] at hkey; cases hkey
    | some s =>
      rw [hg] at hkey
      simp only [flag_p, Run.ok.injEq, bne_iff_ne, ne_eq] at hkey
      simp only [hkey, if_false, hp]
      exact update_pk_name_skip post _ hpost
  | cons r rest ih =>
    have hr := (hpre r (List.mem_cons_self _ _)).1
    rw [List.cons_append, update_pk_name]
    cases hg : apr_table_get r "is_primary_key" with
    | none => rw [hg] at hr; cases hr
    | some s =>
      rw [hg] at hr
      simp only [flag_p, Run.ok.injEq, bne_eq_false_iff_eq] at hr
      simp only [hr, if_true]
      apply ih
      · intro row hrow
        rcases List.mem_append.mp hrow with h | h
        · exact hnk row (List.mem_append_left _ (List.mem_cons_of_mem _ h))
        · exact hnk row (List.mem_append_right _ h)
      · exact fun row h => hpre row (List.mem_cons_of_mem _ h)

theorem filter_non_key (pre post : List AprTable) (pkrow : AprTable)
    (hkey : flag_p (apr_table_get pkrow "is_primary_key") = Run.ok true)
    (hnk : ∀ row ∈ pre ++ post, non_key_attr row) :
    (pre ++ pkrow :: post).filter (fun row =>
      decide (flag_p (apr_table_get row "is_primary_key") = Run.ok false)) = pre ++ post := by
  rw [List.filter_append, List.filter_cons_of_neg (by simp [hkey])]
  congr 1
  · apply List.filter_eq_self.mpr
    intro row hrow
    simp [(hnk row (List.mem_append_left _ hrow)).1]
  · apply List.filter_eq_self.mpr
    intro row hrow
    simp [(hnk row (List.mem_append_right _ hrow)).1]

/-- C3 (amended): for a full update on a table whose attributes are the
non-key columns `pre ++ post` (at least one) around a single primary-key
column `p`, with a key `k` in the URI: if some non-key column is not bound the
function yields no statement and records an error; if every non-key column is
bound and the bound parameters are as many as the non-key columns (so that
the key column is not among them), the statement is
`UPDATE t SET c1=v1,...,cN=vN WHERE p=k` with one assignment per non-key
column in attribute order. -/
theorem update_full_statement (db : Dbd) (q2 : Q2) (k : String) (ks : List String)
    (pre post : List AprTable) (pkrow : AprTable) (pkl : Rset) (p : String)
    (hk : q2.uri_keys = some (k :: ks))
    (ha : q2.attributes = some (pre ++ pkrow :: post))
    (hpkl : q2.pk_attrs = some pkl) (hpk1 : pkl.length ≤ 1)
    (hkey : flag_p (apr_table_get pkrow "is_primary_key") = Run.ok true)
    (hp : apr_table_get pkrow "column_name" = some p)
    (hnk : ∀ row ∈ pre ++ post, non_key_attr row)
    (hN : pre ++ post ≠ []) :
    ((∃ row ∈ pre ++ post, ∃ name, apr_table_get row "column_name" = some name ∧
          bound_value q2 name = none) →
      ∃ q2a, q2_sql_update db q2 true = Run.ok (q2a, none) ∧ q2a.error = 1 ∧
        q2a.log ≠ none) ∧
    ((∀ row ∈ pre ++ post, ∀ name, apr_table_get row "column_name" = some name →
          bound_value q2 name ≠ none) →
      (∃ rp, q2.r_params = some rp ∧ rp.length = (pre ++ post).length) →
      ∃ pairs, List.Forall₂ (is_assignment db q2) (pre ++ post) pairs ∧
        q2_sql_update db q2 true = Run.ok (q2, some ("UPDATE " ++ fmt_s q2.table ++ " SET "
          ++ String.intercalate "," pairs ++ " WHERE " ++ p ++ "=" ++ k))) := by
  have hok : ∀ row ∈ pre ++ pkrow :: post,
      flag_p (apr_table_get row "is_primary_key") = Run.ok true ∨ non_key_attr row := by
    intro row hrow
    rcases List.mem_append.mp hrow with h | h
    · exact Or.inr (hnk row (List.mem_append_left _ h))
    · rcases List.mem_cons.mp h with rfl | h2
      · exact Or.inl hkey
      · exact Or.inr (hnk row (List.mem_append_right _ h2))
  have hmem : ∀ row ∈ pre ++ post, row ∈ pre ++ pkrow :: post := by
    intro row hrow
    rcases List.mem_append.mp hrow with h | h
    · exact List.mem_append_left _ h
    · exact List.mem_append_right _ (List.mem_cons_of_mem _ h)
  have hpk2 : ¬ pkl.length > 1 := by omega
  have hlen : ((pre ++ pkrow :: post).length : Int) - 1 = ((pre ++ post).length : Int) := by
    simp only [List.length_append, List.length_cons]
    push_cast
    omega
  constructor
  · intro hex
    unfold q2_sql_update
    rw [hk]
    simp only []
    cases hrp : q2.r_params with
    | none =>
      simp only [and_self, if_true]
      exact ⟨_, rfl, log_error_error _ _ _ _, log_error_log _ _ _ _⟩
    | some rp =>
      simp only [reduceCtorEq, and_false, false_and, if_false, ha, if_true,
        Option.getD_some]
      by_cases hcnt : ((rp.length : Nat) : Int) = ((pre ++ pkrow :: post).length : Int) - 1
      · simp only [hcnt, decide_True, hpkl, hpk2, if_false]
        obtain ⟨row, hrow, name, hname, hun⟩ := hex
        obtain ⟨q2a, h1, h2, h3⟩ := update_pairs_unbound db q2 _ hok
          ⟨row, hmem row hrow, hnk row hrow, name, hname, hun⟩
        rw [h1]
        exact ⟨q2a, rfl, h2, h3⟩
      · simp only [hcnt, decide_False]
        exact ⟨_, rfl, log_error_error _ _ _ _, log_error_log _ _ _ _⟩
  · intro hb hcount
    obtain ⟨rp, hrp, hrplen⟩ := hcount
    obtain ⟨pairs, hpairs, hf⟩ := update_pairs_bound db q2 true _ hok
      (fun row hrow hnk2 name hname => by
        rcases List.mem_append.mp hrow with h | h
        · exact hb row (List.mem_append_left _ h) name hname
        · rcases List.mem_cons.mp h with rfl | h2
          · rw [hnk2.1] at hkey
            cases hkey
          · exact hb row (List.mem_append_right _ h2) name hname)
    rw [filter_non_key pre post pkrow hkey hnk] at hf
    refine ⟨pairs, hf, ?_⟩
    have hplen : pairs.length = (pre ++ post).length := (List.Forall₂.length_eq hf).symm
    have hpne : pairs ≠ [] := by
      intro h
      rw [h] at hplen
      exact hN (List.length_eq_zero.mp hplen.symm)
    have e3 : ((rp.length : Nat) : Int) = ((pre ++ pkrow :: post).length : Int) - 1 := by
      rw [hlen, hrplen]
    have e4 : ¬ (((pairs.length : Nat) : Int) < ((pre ++ pkrow :: post).length : Int) - 1) := by
      rw [hlen, hplen]
      simp
    unfold q2_sql_update
    rw [hk]
    simp only [hrp, reduceCtorEq, and_false, false_and, if_false, ha, true_and, if_true,
      Option.getD_some, e3, decide_True, hpkl, hpk2, hpairs]
    cases pairs with
    | nil => exact absurd rfl hpne
    | cons pr prs =>
      simp only [e4, if_false, update_pk_name_found pre post pkrow p hkey hp hnk,
        apr_array_idx, List.get?_cons_zero, apr_array_pstrcat]

/-- Witness of `update_full_statement`: a full update of `books(id, title)`
at key 5 with `title` bound. -/
theorem update_full_statement_witness :
    ∃ pairs, List.Forall₂ (is_assignment (ex_dbd []) ex_put_books)
        ([] ++ [ex_attr "title" false false false false "null"]) pairs ∧
      q2_sql_update (ex_dbd []) ex_put_books true
        = Run.ok (ex_put_books, some ("UPDATE " ++ fmt_s ex_put_books.table ++ " SET "
            ++ String.intercalate "," pairs ++ " WHERE " ++ "id" ++ "=" ++ "5")) :=
  (update_full_statement (ex_dbd []) ex_put_books "5" [] []
      [ex_attr "title" false false false false "null"]
      (ex_attr "id" true true false false "null") [[("column_name", some "id")]] "id"
      rfl rfl rfl (by decide) (by decide) (by decide)
      (by
        intro row hrow
        simp only [List.nil_append, List.mem_singleton] at hrow
        subst hrow
        exact ⟨by decide, ⟨false, by decide⟩, ⟨false, by decide⟩, ⟨"title", by decide⟩⟩)
      (by decide)).2
    (by
      intro row hrow name hname
      simp only [List.nil_append, List.mem_singleton] at hrow
      subst hrow
      have : name = "title" := by
        have h2 : apr_table_get (ex_attr "title" false false false false "null")
            "column_name" = some "title" := by decide
        rw [h2] at hname
        injection hname with e
        exact e.symm
      subst this
      decide)
    ⟨[("title", some "Dune")], rfl, rfl⟩

/-- C3 as stated fails: when the request binds the key column `id` next to
the only non-key column `title`, every non-key column is bound and yet the
function yields no statement. -/
theorem update_full_stated_fails :
    bound_value ex_put_books_with_key "title" = some "Dune" ∧
    ∃ q2a, q2_sql_update (ex_dbd []) ex_put_books_with_key true = Run.ok (q2a, none) :=
  ⟨by decide, ⟨_, rfl⟩⟩

theorem get_target_table_some_tabs (db : Dbd) (fn : Driver) (q q' : Q2) (rel : Nat)
    (t : String) (h : q2_ischema_get_target_table db fn q rel = Run.ok (q', some t)) :
    ∃ tabs, q'.uri_tables = some tabs := by
  have hc := core_uri_tables (get_target_table_core db fn q q' rel _ h)
  cases hu : q.uri_tables with
  | none =>
    unfold q2_ischema_get_target_table at h
    rw [hu] at h
    cases h
  | some tabs => exact ⟨tabs, by rw [hc, hu]⟩

theorem get_target_table_relation (db : Dbd) (fn : Driver) (q q' : Q2) (rel : Nat)
    (r : CStr) (h : q2_ischema_get_target_table db fn q rel = Run.ok (q', r)) :
    q'.tab_relation = q.tab_relation := by
  have := congrArg Q2.tab_relation (get_target_table_core db fn q q' rel r h)
  exact this

/-- C6: in `q2_acquire` the candidates 1:1, 1:many, many:many and single table
are attempted in this order; the target table is the table of the first
candidate that yields one, the recorded relation is that candidate's (0, the
initial value, for the single-table candidate), and the state is the one that
candidate left: no later candidate has logged an error or called the catalog.
When no candidate yields a table, `q2_acquire` returns 1 after reporting
`Target table not found`, which is the recorded message unless an earlier
report was latched. -/
theorem acquire_first_candidate_wins (db : Dbd) (fn : Driver) (ext : Ext) (q2 : Q2)
    (h0 : q2.tab_relation = 0) :
    (∀ qa rel t,
      first_candidate (q2_ischema_get_target_table db fn) candidate_order q2
        = Run.ok (qa, some (rel, t)) →
      ∃ qf, q2_acquire_target db fn q2 = Run.ok qf ∧ qf.table = some t ∧
        qf.tab_relation = rel ∧ qf.trace = qa.trace ∧ qf.error = qa.error ∧
        qf.log = qa.log) ∧
    (∀ qa,
      first_candidate (q2_ischema_get_target_table db fn) candidate_order q2
        = Run.ok (qa, none) →
      ∃ qf, q2_acquire_resolved db fn ext q2 = Run.ok (qf, 1) ∧ qf.error = 1 ∧
        qf.table = none ∧ qf.trace = qa.trace ∧
        qf.log = some (qa.log.getD
          { line := 3100, func := "q2_acquire", msg := "Target table not found" })) := by
  constructor
  · intro qa rel t h
    unfold candidate_order at h
    rw [first_candidate] at h
    unfold q2_acquire_target
    cases h11 : q2_ischema_get_target_table db fn q2 Q2_RL_11REL with
    | fault e => rw [h11] at h; cases h
    | ok p1 =>
      obtain ⟨q1, r1⟩ := p1
      rw [h11] at h
      cases r1 with
      | some t1 =>
        simp only [Run.ok.injEq, Prod.mk.injEq, Option.some.injEq] at h
        obtain ⟨rfl, rfl, rfl⟩ := h
        exact ⟨_, rfl, rfl, rfl, rfl, rfl, rfl⟩
      | none =>
        simp only [] at h ⊢
        rw [first_candidate] at h
        cases h1m : q2_ischema_get_target_table db fn (q1.set_table none) Q2_RL_1MREL with
        | fault e => rw [h1m] at h; cases h
        | ok p2 =>
          obtain ⟨q2b, r2⟩ := p2
          rw [h1m] at h
          cases r2 with
          | some t2 =>
            simp only [Run.ok.injEq, Prod.mk.injEq, Option.some.injEq] at h
            obtain ⟨rfl, rfl, rfl⟩ := h
            exact ⟨_, rfl, rfl, rfl, rfl, rfl, rfl⟩
          | none =>
            simp only [] at h ⊢
            rw [first_candidate] at h
            cases hmm : q2_ischema_get_target_table db fn (q2b.set_table none) Q2_RL_MMREL with
            | fault e => rw [hmm] at h; cases h
            | ok p3 =>
              obtain ⟨q2c, r3⟩ := p3
              rw [hmm] at h
              cases r3 with
              | some t3 =>
                simp only [Run.ok.injEq, Prod.mk.injEq, Option.some.injEq] at h
                obtain ⟨rfl, rfl, rfl⟩ := h
                exact ⟨_, rfl, rfl, rfl, rfl, rfl, rfl⟩
              | none =>
                simp only [] at h ⊢
                rw [first_candidate] at h
                cases hs : q2_ischema_get_target_table db fn (q2c.set_table none) 0 with
                | fault e => rw [hs] at h; cases h
                | ok p4 =>
                  obtain ⟨q2d, r4⟩ := p4
                  rw [hs] at h
                  cases r4 with
                  | none =>
                    simp only [first_candidate, Run.ok.injEq, Prod.mk.injEq, reduceCtorEq,
                      and_false] at h
                  | some t4 =>
                    simp only [Run.ok.injEq, Prod.mk.injEq, Option.some.injEq] at h
                    obtain ⟨rfl, rfl, rfl⟩ := h
                    have hrel : q2d.tab_relation = 0 := by
                      rw [get_target_table_relation db fn _ _ _ _ hs]
                      show q2c.tab_relation = 0
                      rw [get_target_table_relation db fn _ _ _ _ hmm]
                      show q2b.tab_relation = 0
                      rw [get_target_table_relation db fn _ _ _ _ h1m]
                      show q1.tab_relation = 0
                      rw [get_target_table_relation db fn _ _ _ _ h11]
                      exact h0
                    obtain ⟨tabs, htabs⟩ := get_target_table_some_tabs db fn _ _ _ _ hs
                    simp only [htabs]
                    by_cases hn : tabs.length > 1
                    · obtain ⟨c, hc⟩ : ∃ c, apr_array_idx tabs 1 = Run.ok c := by
                        match tabs, hn with
                        | _ :: c :: _, _ => exact ⟨c, rfl⟩
                      simp only [hn, if_true, hc]
                      exact ⟨_, rfl, rfl, hrel, rfl, rfl, rfl⟩
                    · simp only [hn, if_false]
                      exact ⟨_, rfl, rfl, hrel, rfl, rfl, rfl⟩
  · intro qa h
    unfold candidate_order at h
    rw [first_candidate] at h
    unfold q2_acquire_resolved q2_acquire_target
    cases h11 : q2_ischema_get_target_table db fn q2 Q2_RL_11REL with
    | fault e => rw [h11] at h; cases h
    | ok p1 =>
      obtain ⟨q1, r1⟩ := p1
      rw [h11] at h
      cases r1 with
      | some t1 => simp at h
      | none =>
        simp only [] at h ⊢
        rw [first_candidate] at h
        cases h1m : q2_ischema_get_target_table db fn (q1.set_table none) Q2_RL_1MREL with
        | fault e => rw [h1m] at h; cases h
        | ok p2 =>
          obtain ⟨q2b, r2⟩ := p2
          rw [h1m] at h
          cases r2 with
          | some t2 => simp at h
          | none =>
            simp only [] at h ⊢
            rw [first_candidate] at h
            cases hmm : q2_ischema_get_target_table db fn (q2b.set_table none) Q2_RL_MMREL with
            | fault e => rw [hmm] at h; cases h
            | ok p3 =>
              obtain ⟨q2c, r3⟩ := p3
              rw [hmm] at h
              cases r3 with
              | some t3 => simp at h
              | none =>
                simp only [] at h ⊢
                rw [first_candidate] at h
                cases hs : q2_ischema_get_target_table db fn (q2c.set_table none) 0 with
                | fault e => rw [hs] at h; cases h
                | ok p4 =>
                  obtain ⟨q2d, r4⟩ := p4
                  rw [hs] at h
                  cases r4 with
                  | some t4 => simp at h
                  | none =>
                    simp only [first_candidate, Run.ok.injEq, Prod.mk.injEq, and_true] at h
                    subst h
                    have ht : (q2d.set_table none).table = none := rfl
                    simp only [ht, if_true]
                    refine ⟨_, rfl, rfl, rfl, rfl, ?_⟩
                    show (match (q2d.set_table none).log with
                      | none => _
                      | some l => some l) = _
                    cases (q2d.set_table none).log <;> rfl

theorem insert_values_ok (rp : Option AprTable) :
    ∀ attrs : List AprTable, (∀ row ∈ attrs, insert_attr_ok row) →
      ∃ r, insert_values rp attrs = Run.ok r ∧
        (r = none ↔ ∃ row ∈ attrs, mandatory row ∧
          ∃ name, apr_table_get row "column_name" = some name ∧
            (match rp with
             | none => none
             | some t => apr_table_get t name) = none) := by
  intro attrs
  induction attrs with
  | nil =>
    intro _
    refine ⟨some ([], []), rfl, ?_⟩
    constructor
    · intro h; cases h
    · intro h; obtain ⟨row, hrow, _⟩ := h; cases hrow
  | cons r rest ih =>
    intro hok
    obtain ⟨⟨name, hname⟩, ⟨bp, hbp⟩, ⟨bn, hbn⟩, ⟨ba, hba⟩, _⟩ := hok r (List.mem_cons_self _ _)
    obtain ⟨rr, hrr, hiff⟩ := ih (fun row h => hok row (List.mem_cons_of_mem _ h))
    rw [insert_values]
    simp only [hname, hbp, hbn, hba]
    by_cases hm : (!ba && !bn) = true
    · simp only [hm, if_true]
      have hman : mandatory r := by
        simp only [Bool.and_eq_true, Bool.not_eq_true'] at hm
        exact ⟨by rw [hbn, hm.2], by rw [hba, hm.1]⟩
      cases hv : (match rp with
             | none => none
             | some t => apr_table_get t name) with
      | none =>
        refine ⟨none, rfl, ?_⟩
        constructor
        · intro _
          exact ⟨r, List.mem_cons_self _ _, hman, name, hname, hv⟩
        · intro _; rfl
      | some v =>
        simp only [hrr]
        cases rr with
        | none =>
          refine ⟨none, rfl, ?_⟩
          constructor
          · intro _
            obtain ⟨row, hrow, h2⟩ := hiff.mp rfl
            exact ⟨row, List.mem_cons_of_mem _ hrow, h2⟩
          · intro _; rfl
        | some pr =>
          refine ⟨_, rfl, ?_⟩
          constructor
          · intro h; cases h
          · intro h
            obtain ⟨row, hrow, hman2, name2, hname2, hun⟩ := h
            rcases List.mem_cons.mp hrow with rfl | hin
            · rw [hname] at hname2
              injection hname2 with e
              subst e
              rw [hv] at hun
              cases hun
            · have := hiff.mpr ⟨row, hin, hman2, name2, hname2, hun⟩
              cases this
    · simp only [hm]
      simp only [hrr]
      have hnot : ¬ mandatory r := by
        intro ⟨h1, h2⟩
        rw [hbn] at h1
        rw [hba] at h2
        injection h1 with h1
        injection h2 with h2
        subst h1
        subst h2
        exact hm rfl
      cases rr with
      | none =>
        refine ⟨none, rfl, ?_⟩
        constructor
        · intro _
          obtain ⟨row, hrow, h2⟩ := hiff.mp rfl
          exact ⟨row, List.mem_cons_of_mem _ hrow, h2⟩
        · intro _; rfl
      | some pr =>
        refine ⟨_, rfl, ?_⟩
        constructor
        · intro h; cases h
        · intro h
          obtain ⟨row, hrow, hman2, name2, hname2, hun⟩ := h
          rcases List.mem_cons.mp hrow with rfl | hin
          · exact absurd hman2 hnot
          · have := hiff.mpr ⟨row, hin, hman2, name2, hname2, hun⟩
            cases this

theorem insert_uri_key_frame :
    ∀ (attrs : List AprTable) (q : Q2), (∀ row ∈ attrs, insert_attr_ok row) →
      ∃ p, insert_uri_key q attrs = Run.ok (q.set_r_params p) := by
  intro attrs
  induction attrs with
  | nil => intro q _; exact ⟨q.r_params, rfl⟩
  | cons r rest ih =>
    intro q hok
    obtain ⟨⟨name, hname⟩, ⟨bp, hbp⟩, _, ⟨ba, hba⟩, _⟩ := hok r (List.mem_cons_self _ _)
    rw [insert_uri_key]
    simp only [hbp, hba, hname]
    cases bp with
    | false => exact ih q (fun row h => hok row (List.mem_cons_of_mem _ h))
    | true =>
      cases ba with
      | true => exact ⟨q.r_params, rfl⟩
      | false =>
        simp only []
        cases hk : q.uri_keys with
        | none => exact ⟨q.r_params, rfl⟩
        | some keys =>
          cases keys with
          | nil => exact ⟨q.r_params, rfl⟩
          | cons v vs => exact ⟨_, rfl⟩

theorem insert_parent_keys_row_frame (row : AprTable) (rt : String) (keys : List String)
    (hname : ∃ name, apr_table_get row "column_name" = some name) :
    ∀ (l : List (Nat × String)) (q : Q2), q.uri_keys = some keys →
      (∀ x ∈ l, x.1 < keys.length) →
      ∃ p, insert_parent_keys_row row (some rt) q l = Run.ok (q.set_r_params p) := by
  obtain ⟨name, hname⟩ := hname
  intro l
  induction l with
  | nil => intro q _ _; exact ⟨q.r_params, rfl⟩
  | cons x rest ih =>
    intro q hk hlt
    obtain ⟨j, tab⟩ := x
    have hrest := fun y (h : y ∈ rest) => hlt y (List.mem_cons_of_mem _ h)
    have hs : strcmp_eq (some rt) (some tab) = Run.ok (rt == tab) := rfl
    rw [insert_parent_keys_row, hs]
    cases he : (rt == tab) with
    | false => exact ih q hk hrest
    | true =>
      have hj : j < keys.length := hlt (j, tab) (List.mem_cons_self _ _)
      obtain ⟨v, hv⟩ : ∃ v, apr_array_idx keys j = Run.ok v := by
        unfold apr_array_idx
        cases h : keys.get? j with
        | none => exact absurd (List.get?_eq_none.mp h) (by omega)
        | some v => exact ⟨v, rfl⟩
      have hset : r_params_setn q (some name) (some v)
          = Run.ok (q.set_r_params (some (apr_table_set (q.r_params.getD []) name (some v)))) :=
        rfl
      dsimp only
      rw [hk]
      dsimp only
      rw [hv]
      dsimp only
      rw [hname, hset]
      dsimp only
      obtain ⟨p, hp⟩ := ih (q.set_r_params
        (some (apr_table_set (q.r_params.getD []) name (some v)))) hk hrest
      exact ⟨p, hp⟩

theorem insert_parent_keys_frame (tabs keys : List String) (hlen : tabs.length ≤ keys.length) :
    ∀ (attrs : List AprTable) (q : Q2), q.uri_keys = some keys →
      (∀ row ∈ attrs, insert_attr_ok row) →
      ∃ p, insert_parent_keys tabs q attrs = Run.ok (q.set_r_params p) := by
  intro attrs
  induction attrs with
  | nil => intro q _ _; exact ⟨q.r_params, rfl⟩
  | cons r rest ih =>
    intro q hk hok
    obtain ⟨hname, ⟨bp, hbp⟩, _, _, ⟨rt, hrt⟩⟩ := hok r (List.mem_cons_self _ _)
    have hrest := fun row (h : row ∈ rest) => hok row (List.mem_cons_of_mem _ h)
    rw [insert_parent_keys]
    simp only [hbp]
    cases bp with
    | false => exact ih q hk hrest
    | true =>
      simp only [hrt]
      obtain ⟨p, hp⟩ := insert_parent_keys_row_frame r rt keys hname tabs.enum q hk
        (fun x hx => Nat.lt_of_lt_of_le (List.fst_lt_of_mem_enum hx) hlen)
      rw [hp]
      obtain ⟨p2, hp2⟩ := ih (q.set_r_params p) hk hrest
      exact ⟨p2, hp2⟩

theorem shell_of_core {q q' : Q2} (h : q'.core = q.core) : q'.shell = q.shell := by
  have h1 := congrArg Q2.request_method h
  have h2 := congrArg Q2.trace h
  simp only [Q2.core] at h1 h2
  simp only [Q2.shell, h1, h2]

@[simp] theorem shell_called (q : Q2) (c : DbCall) (h : is_statement c = false) :
    (q.called c).shell = q.shell := by
  simp only [Q2.shell, Q2.called, List.filter_append, List.filter_cons, h, List.filter_nil,
    List.append_nil, Bool.false_eq_true, if_false]

@[simp] theorem shell_log_error (q : Q2) (line : Nat) (func msg : String) :
    (q2_log_error q line func msg).shell = q.shell := rfl

@[simp] theorem shell_log_if_er (db : Dbd) (q : Q2) (er : Int) (line : Nat) (func : String) :
    (log_if_er db q er line func).shell = q.shell := by
  unfold log_if_er
  split <;> rfl

@[simp] theorem shell_set_table (q : Q2) (t : CStr) : (q.set_table t).shell = q.shell := rfl

@[simp] theorem shell_set_relation (q : Q2) (r : Nat) : (q.set_relation r).shell = q.shell :=
  rfl

@[simp] theorem shell_set_column_pop (q : Q2) (c : String) (tabs : List String) :
    (q.set_column_pop c tabs).shell = q.shell := rfl

@[simp] theorem shell_set_r_params (q : Q2) (p : Option AprTable) :
    (q.set_r_params p).shell = q.shell := rfl

theorem get_target_table_shell (db : Dbd) (fn : Driver) (q q' : Q2) (rel : Nat) (r : CStr)
    (h : q2_ischema_get_target_table db fn q rel = Run.ok (q', r)) : q'.shell = q.shell :=
  shell_of_core (get_target_table_core db fn q q' rel r h)

theorem acquire_target_shell (db : Dbd) (fn : Driver) (q q' : Q2)
    (h : q2_acquire_target db fn q = Run.ok q') : q'.shell = q.shell := by
  unfold q2_acquire_target at h
  cases h11 : q2_ischema_get_target_table db fn q Q2_RL_11REL with
  | fault e => rw [h11] at h; cases h
  | ok p1 =>
    obtain ⟨q1, r1⟩ := p1
    have s1 := get_target_table_shell db fn _ _ _ _ h11
    rw [h11] at h
    cases r1 with
    | some t1 => cases h; simpa using s1
    | none =>
      simp only [] at h
      cases h1m : q2_ischema_get_target_table db fn (q1.set_table none) Q2_RL_1MREL with
      | fault e => rw [h1m] at h; cases h
      | ok p2 =>
        obtain ⟨q2b, r2⟩ := p2
        have s2 := get_target_table_shell db fn _ _ _ _ h1m
        rw [h1m] at h
        cases r2 with
        | some t2 => cases h; simpa [s1] using s2
        | none =>
          simp only [] at h
          cases hmm : q2_ischema_get_target_table db fn (q2b.set_table none) Q2_RL_MMREL with
          | fault e => rw [hmm] at h; cases h
          | ok p3 =>
            obtain ⟨q2c, r3⟩ := p3
            have s3 := get_target_table_shell db fn _ _ _ _ hmm
            rw [hmm] at h
            cases r3 with
            | some t3 => cases h; simpa [s1, s2] using s3
            | none =>
              simp only [] at h
              cases hs : q2_ischema_get_target_table db fn (q2c.set_table none) 0 with
              | fault e => rw [hs] at h; cases h
              | ok p4 =>
                obtain ⟨q2d, r4⟩ := p4
                have s4 := get_target_table_shell db fn _ _ _ _ hs
                have s : q2d.shell = q.shell := by simpa [s1, s2, s3] using s4
                rw [hs] at h
                cases r4 with
                | none => cases h; simpa using s
                | some t4 =>
                  simp only [] at h
                  repeat' split at h
                  all_goals first
                    | (cases h; done)
                    | (cases h; simpa using s)

theorem get_col_attrs_shell (db : Dbd) (fn : Driver) (q : Q2) (tab : CStr) :
    (q2_ischema_get_col_attrs db fn q tab).1.shell = q.shell := by
  unfold q2_ischema_get_col_attrs
  dsimp only
  split <;> simp [is_statement]

theorem get_pk_attrs_shell (db : Dbd) (fn : Driver) (q : Q2) (tab : CStr) :
    (q2_ischema_get_pk_attrs db fn q tab).1.shell = q.shell := by
  unfold q2_ischema_get_pk_attrs
  dsimp only
  split <;> simp [is_statement]

theorem get_unsig_attrs_shell (db : Dbd) (fn : Driver) (q : Q2) (tab : CStr) :
    (q2_ischema_get_unsig_attrs db fn q tab).1.shell = q.shell := by
  unfold q2_ischema_get_unsig_attrs
  split <;> simp [is_statement]

theorem get_refs_attrs_shell (db : Dbd) (fn : Driver) (q : Q2) (tab : CStr) :
    (q2_ischema_get_refs_attrs db fn q tab).1.shell = q.shell := by
  unfold q2_ischema_get_refs_attrs
  simp [is_statement]

theorem mark_refs_shell (db : Dbd) (fn : Driver) (c_name : String) (refs : List AprTable) :
    ∀ (q : Q2) (row : AprTable), (mark_refs db fn c_name q row refs).1.shell = q.shell := by
  induction refs with
  | nil => intro q row; rfl
  | cons r rest ih =>
    intro q row
    unfold mark_refs
    split
    · exact ih _ _
    · split
      · exact ih _ _
      · dsimp only
        split
        all_goals (rw [ih]; exact get_pk_attrs_shell db fn q _)

theorem update_attrs_loop_shell (db : Dbd) (fn : Driver) (attrs : List AprTable) :
    ∀ q : Q2, (update_attrs_loop db fn q attrs).1.shell = q.shell := by
  induction attrs with
  | nil => intro q; rfl
  | cons row rest ih =>
    intro q
    unfold update_attrs_loop
    split
    · exact ih q
    · dsimp only
      rw [ih]
      split
      · rfl
      · exact mark_refs_shell db fn _ _ _ _

theorem update_attrs_shell (db : Dbd) (fn : Driver) (q q' : Q2)
    (h : q2_ischema_update_attrs db fn q = Run.ok q') : q'.shell = q.shell := by
  unfold q2_ischema_update_attrs at h
  split at h
  · cases h
  · cases h
    exact update_attrs_loop_shell db fn _ q

theorem acquire_attrs_shell (db : Dbd) (fn : Driver) (q : Q2) (r : Q2 ⊕ Q2)
    (h : q2_acquire_attrs db fn q = Run.ok r) : Sum.elim Q2.shell Q2.shell r = q.shell := by
  let q2a : Q2 :=
    { (q2_ischema_get_col_attrs db fn q q.table).1 with
      attributes := (q2_ischema_get_col_attrs db fn q q.table).2 }
  have sa : q2a.shell = q.shell := get_col_attrs_shell db fn q q.table
  let q2b : Q2 :=
    { (q2_ischema_get_pk_attrs db fn q2a q2a.table).1 with
      pk_attrs := (q2_ischema_get_pk_attrs db fn q2a q2a.table).2 }
  have sb : q2b.shell = q.shell := (get_pk_attrs_shell db fn q2a q2a.table).trans sa
  let q2c : Q2 :=
    { (q2_ischema_get_unsig_attrs db fn q2b q2b.table).1 with
      unsigned_attrs := (q2_ischema_get_unsig_attrs db fn q2b q2b.table).2 }
  have sc : q2c.shell = q.shell := (get_unsig_attrs_shell db fn q2b q2b.table).trans sb
  let q2d : Q2 :=
    { (q2_ischema_get_refs_attrs db fn q2c q2c.table).1 with
      refs_attrs := (q2_ischema_get_refs_attrs db fn q2c q2c.table).2 }
  have sd : q2d.shell = q.shell := (get_refs_attrs_shell db fn q2c q2c.table).trans sc
  unfold q2_acquire_attrs at h
  dsimp only at h
  split at h
  · cases h; exact sa
  · split at h
    · cases h; exact sb
    · split at h
      · cases h; exact sc
      · split at h
        · cases h; exact sd
        · split at h
          · cases h
          · rename_i q2e he
            cases h
            exact (update_attrs_shell db fn q2d q2e he).trans sd

theorem parse_params_mm_loop_shell (db : Dbd) (fn : Driver) (rp : AprTable)
    (tabs : List String) :
    ∀ (q : Q2) (retv : AprTable) (r : Q2 × AprTable),
      parse_params_mm_loop db fn rp q retv tabs = Run.ok r → r.1.shell = q.shell := by
  induction tabs with
  | nil => intro q retv r h; cases h; rfl
  | cons t rest ih =>
    intro q retv r h
    unfold parse_params_mm_loop at h
    split at h
    · cases h
    · exact ih _ _ _ h
    · dsimp only at h
      split at h
      all_goals exact (ih _ _ _ h).trans (get_col_attrs_shell db fn q _)

theorem request_parse_params_shell (db : Dbd) (fn : Driver) (q : Q2)
    (r : Q2 × Option AprTable) (h : q2_request_parse_params db fn q = Run.ok r) :
    r.1.shell = q.shell := by
  unfold q2_request_parse_params at h
  split at h
  · dsimp only at h
    split at h
    · cases h; rfl
    · split at h
      · cases h; rfl
      · split at h
        · cases h; rfl
        · split at h
          · cases h
          · rename_i r0 hr
            cases h
            exact parse_params_mm_loop_shell db fn _ _ _ _ _ hr
  · cases h; rfl

theorem acquire_others_shell (q : Q2) : (q2_acquire_others q).shell = q.shell := by
  unfold q2_acquire_others
  split
  · split <;> rfl
  · rfl

theorem update_options_attr_shell (q q' : Q2)
    (h : q2_ischema_update_options_attr q = Run.ok q') : q'.shell = q.shell := by
  unfold q2_ischema_update_options_attr at h
  split at h
  · cases h; rfl
  · cases h; rfl
  · split at h
    · cases h
    · cases h; rfl

theorem acquire_params_shell (db : Dbd) (fn : Driver) (q q' : Q2)
    (h : q2_acquire_params db fn q = Run.ok q') : q'.shell = q.shell := by
  unfold q2_acquire_params at h
  dsimp only at h
  split at h
  · cases h
  · rename_i q2a h1
    have s1 : q2a.shell = q.shell := by
      split at h1
      · split at h1
        · cases h1
        · cases h1; rfl
      · cases h1; rfl
    split at h
    · cases h
    · rename_i q2b h2
      have s2 : q2b.shell = q2a.shell := by
        split at h2
        · split at h2
          · cases h2
          · cases h2; rfl
        · cases h2; rfl
      split at h
      · cases h
      · rename_i q2c h3
        have s3 : q2c.shell = q2b.shell := by
          split at h3
          · cases h3; rfl
          · split at h3
            · cases h3
            · rename_i r hr
              cases h3
              exact request_parse_params_shell db fn _ _ hr
        exact (update_options_attr_shell _ _ h).trans
          ((acquire_others_shell q2c).trans (s3.trans (s2.trans s1)))

theorem r_params_setn_shell (q q' : Q2) (k v : CStr)
    (h : r_params_setn q k v = Run.ok q') : q'.shell = q.shell := by
  unfold r_params_setn at h
  split at h
  · cases h
  · cases h; rfl

theorem insert_uri_key_shell (attrs : List AprTable) :
    ∀ q q' : Q2, insert_uri_key q attrs = Run.ok q' → q'.shell = q.shell := by
  induction attrs with
  | nil => intro q q' h; cases h; rfl
  | cons row rest ih =>
    intro q q' h
    unfold insert_uri_key at h
    repeat' split at h
    all_goals first
      | (cases h; done)
      | (cases h; rfl)
      | exact ih _ _ h
      | exact r_params_setn_shell _ _ _ _ h

theorem insert_parent_keys_row_shell (row : AprTable) (rt : CStr) (l : List (Nat × String)) :
    ∀ q q' : Q2, insert_parent_keys_row row rt q l = Run.ok q' → q'.shell = q.shell := by
  induction l with
  | nil => intro q q' h; cases h; rfl
  | cons p rest ih =>
    intro q q' h
    obtain ⟨j, t⟩ := p
    unfold insert_parent_keys_row at h
    split at h
    · cases h
    · exact ih _ _ h
    · split at h
      · cases h
      · split at h
        · cases h
        · split at h
          · cases h
          · rename_i q2a hs
            exact (ih _ _ h).trans (r_params_setn_shell _ _ _ _ hs)

theorem insert_parent_keys_shell (tabs : List String) (attrs : List AprTable) :
    ∀ q q' : Q2, insert_parent_keys tabs q attrs = Run.ok q' → q'.shell = q.shell := by
  induction attrs with
  | nil => intro q q' h; cases h; rfl
  | cons row rest ih =>
    intro q q' h
    unfold insert_parent_keys at h
    split at h
    · cases h
    · exact ih _ _ h
    · split at h
      · cases h
      · rename_i q2a hs
        exact (ih _ _ h).trans (insert_parent_keys_row_shell _ _ _ _ _ hs)

theorem sql_insert_shell (q q' : Q2) (r : CStr)
    (h : q2_sql_insert q = Run.ok (q', r)) : q'.shell = q.shell := by
  unfold q2_sql_insert at h
  split at h
  · cases h
  · split at h
    · cases h
    · split at h
      · cases h
      · rename_i q2a h1
        have s1 : q2a.shell = q.shell := by
          split at h1
          · cases h1; rfl
          · exact insert_uri_key_shell _ _ _ h1
        split at h
        · cases h
        · split at h
          · cases h
          · rename_i q2b h2
            have s2 : q2b.shell = q2a.shell := by
              split at h2
              · exact insert_parent_keys_shell _ _ _ _ h2
              · cases h2; rfl
            split at h
            · cases h
            · cases h; exact s2.trans s1
            · cases h; exact s2.trans s1

theorem get_last_id_sql (fn : Driver) (q : Q2) :
    (q2_ischema_get_last_id fn q).1.sql = q.sql := by
  unfold q2_ischema_get_last_id
  split
  · dsimp only
    split <;> rfl
  · rfl

theorem acquire_execute_sql (db : Dbd) (fn : Driver) (q qf : Q2) (sql : String) (rv : Int)
    (hm : q.request_method ≠ Q2_HT_METHOD_GET)
    (h : q2_acquire_execute db fn q sql = Run.ok (qf, rv)) : qf.sql = q.sql := by
  unfold q2_acquire_execute at h
  dsimp only at h
  rw [if_neg hm] at h
  repeat' split at h
  all_goals first
    | (cases h; rfl)
    | (cases h; exact get_last_id_sql fn _)

theorem acquire_statement_post (db : Dbd) (fn : Driver) (ext : Ext) (q qf : Q2) (rv : Int)
    (hm : q.request_method = Q2_HT_METHOD_POST)
    (h : q2_acquire_statement db fn ext q = Run.ok (qf, rv)) (hs : qf.sql = none) :
    rv = 1 ∧ qf.shell = q.shell := by
  unfold q2_acquire_statement at h
  have e1 : ¬ Q2_HT_METHOD_POST = Q2_HT_METHOD_GET := by decide
  rw [hm, if_neg e1, if_pos rfl] at h
  cases hi : q2_sql_insert q with
  | fault e => rw [hi] at h; cases h
  | ok p =>
    obtain ⟨q2a, r⟩ := p
    have s := sql_insert_shell q q2a r hi
    rw [hi] at h
    cases r with
    | none =>
      cases h
      exact ⟨rfl, s⟩
    | some sql =>
      have hm2 : q2a.request_method ≠ Q2_HT_METHOD_GET := by
        have := congrArg Prod.fst s
        simp only [Q2.shell] at this
        rw [this, hm]; decide
      have hq := acquire_execute_sql db fn { q2a with sql := some sql } qf sql rv hm2 h
      rw [hs] at hq
      cases hq

theorem acquire_resolved_post (db : Dbd) (fn : Driver) (ext : Ext) (q qf : Q2) (rv : Int)
    (hm : q.request_method = Q2_HT_METHOD_POST)
    (h : q2_acquire_resolved db fn ext q = Run.ok (qf, rv)) (hs : qf.sql = none) :
    rv = 1 ∧ qf.shell = q.shell := by
  unfold q2_acquire_resolved at h
  split at h
  · cases h
  · rename_i q2a ht
    have s1 := acquire_target_shell db fn q q2a ht
    split at h
    · cases h; exact ⟨rfl, s1⟩
    · split at h
      · cases h
      · rename_i q2b hb
        cases h
        exact ⟨rfl, (acquire_attrs_shell db fn q2a _ hb).trans s1⟩
      · rename_i q2b hb
        have s2 : q2b.shell = q.shell := (acquire_attrs_shell db fn q2a _ hb).trans s1
        split at h
        · cases h
        · rename_i q2c hc
          have s3 : q2c.shell = q.shell := (acquire_params_shell db fn q2b q2c hc).trans s2
          have hm3 : q2c.request_method = Q2_HT_METHOD_POST :=
            (congrArg Prod.fst s3).trans hm
          obtain ⟨h1, h2⟩ := acquire_statement_post db fn ext q2c qf rv hm3 h hs
          exact ⟨h1, h2.trans s3⟩

theorem acquire_post_no_statement (db : Dbd) (ext : Ext) (q qf : Q2) (rv : Int)
    (hm : q.request_method = Q2_HT_METHOD_POST)
    (h : q2_acquire db ext q = Run.ok (qf, rv)) (hs : qf.sql = none) :
    rv = 1 ∧ qf.trace.filter is_statement = q.trace.filter is_statement := by
  unfold q2_acquire at h
  split at h
  · cases h; exact ⟨rfl, rfl⟩
  · split at h
    · cases h; exact ⟨rfl, rfl⟩
    · split at h
      · cases h
      · rename_i fn hfn
        dsimp only at h
        have sv : ∀ q2w : Q2, q2w.shell = (q.called DbCall.db_vers).shell →
            q2w.shell = q.shell := fun q2w e => e.trans (shell_called q _ rfl)
        split at h
        · cases h
        · split at h
          · cases h
            refine ⟨rfl, ?_⟩
            refine congrArg Prod.snd (sv _ ?_)
            repeat' split
            all_goals rfl
          · split at h
            · cases h
            · split at h
              · cases h
              · obtain ⟨h1, h2⟩ := acquire_resolved_post db fn ext _ qf rv (by
                  show Q2.request_method _ = _
                  repeat' split
                  all_goals exact hm) h hs
                refine ⟨h1, ?_⟩
                refine (congrArg Prod.snd h2).trans (congrArg Prod.snd (sv _ ?_))
                repeat' split
                all_goals rfl

theorem insert_runs (q2 : Q2) (pkl : Rset) (attrs : List AprTable) (tabs : List String)
    (hpk : q2.pk_attrs = some pkl) (ha : q2.attributes = some attrs)
    (ht : q2.uri_tables = some tabs)
    (hrows : ∀ row ∈ attrs, insert_attr_ok row)
    (hkeys : 1 < tabs.length → ∃ keys, q2.uri_keys = some keys ∧ tabs.length ≤ keys.length) :
    ∃ p r, q2_sql_insert q2 = Run.ok (q2.set_r_params p, r) ∧
      (r = none ↔ ∃ row ∈ attrs, mandatory row ∧
        ∃ name, apr_table_get row "column_name" = some name ∧
          bound_value (q2.set_r_params p) name = none) := by
  obtain ⟨p1, hp1⟩ : ∃ p1, (if pkl.length > 1 then Run.ok q2 else insert_uri_key q2 attrs)
      = Run.ok (q2.set_r_params p1) := by
    split
    · exact ⟨q2.r_params, rfl⟩
    · exact insert_uri_key_frame attrs q2 hrows
  obtain ⟨p2, hp2⟩ : ∃ p2,
      (if tabs.length > 1 then insert_parent_keys tabs (q2.set_r_params p1) attrs
        else Run.ok (q2.set_r_params p1)) = Run.ok (q2.set_r_params p2) := by
    split
    · next hgt =>
      obtain ⟨keys, hk, hlen⟩ := hkeys hgt
      obtain ⟨p, hp⟩ := insert_parent_keys_frame tabs keys hlen attrs (q2.set_r_params p1)
        hk hrows
      exact ⟨p, hp⟩
    · exact ⟨p1, rfl⟩
  obtain ⟨r, hr, hiff⟩ := insert_values_ok p2 attrs hrows
  have ht1 : (q2.set_r_params p1).uri_tables = some tabs := ht
  have hrp : (q2.set_r_params p2).r_params = p2 := rfl
  unfold q2_sql_insert
  rw [hpk]
  dsimp only
  rw [ha]
  dsimp only
  rw [hp1]
  dsimp only
  rw [ht1]
  dsimp only
  rw [hp2]
  dsimp only
  rw [hrp, hr]
  cases r with
  | none =>
    refine ⟨p2, none, rfl, ?_⟩
    constructor
    · intro _; exact hiff.mp rfl
    · intro _; rfl
  | some pr =>
    refine ⟨p2, _, rfl, ?_⟩
    constructor
    · intro h; cases h
    · intro h
      have := hiff.mpr h
      cases this

/-- C2: on a state whose attribute rows hold the fields that INSERT reads (and
whose URI has a key for every path table when the path has more than one
table), `q2_sql_insert` ends without fault, changes nothing but the bound
parameters, and yields no statement exactly when some column that is neither
nullable nor auto-increment has no bound value after the keys of the URI were
bound; in that case the part of `q2_acquire` that follows (from line 3158)
returns 1 with the error flag set, no statement recorded, and without any
call to the database. For the whole of `q2_acquire`: a POST request that ends
with no statement recorded has returned 1 and has executed no statement, the
only calls to the database being the questions to the catalog. -/
theorem insert_mandatory_or_no_statement (db : Dbd) (fn : Driver) (ext : Ext) (q2 : Q2)
    (pkl : Rset) (attrs : List AprTable) (tabs : List String)
    (hpk : q2.pk_attrs = some pkl) (ha : q2.attributes = some attrs)
    (ht : q2.uri_tables = some tabs)
    (hrows : ∀ row ∈ attrs, insert_attr_ok row)
    (hkeys : 1 < tabs.length → ∃ keys, q2.uri_keys = some keys ∧ tabs.length ≤ keys.length) :
    ∃ p r, q2_sql_insert q2 = Run.ok (q2.set_r_params p, r) ∧
      (r = none ↔ ∃ row ∈ attrs, mandatory row ∧
        ∃ name, apr_table_get row "column_name" = some name ∧
          bound_value (q2.set_r_params p) name = none) ∧
      (q2.request_method = Q2_HT_METHOD_POST → r = none →
        ∃ qf, q2_acquire_statement db fn ext q2 = Run.ok (qf, 1) ∧ qf.error = 1 ∧
          qf.sql = none ∧ qf.trace = q2.trace) ∧
      (∀ (q0 qf : Q2) (rv : Int), q0.request_method = Q2_HT_METHOD_POST →
        q2_acquire db ext q0 = Run.ok (qf, rv) → qf.sql = none →
        rv = 1 ∧ qf.trace.filter is_statement = q0.trace.filter is_statement) := by
  obtain ⟨p, r, hrun, hiff⟩ := insert_runs q2 pkl attrs tabs hpk ha ht hrows hkeys
  refine ⟨p, r, hrun, hiff, ?_, acquire_post_no_statement db ext⟩
  intro hm hr
  subst hr
  unfold q2_acquire_statement
  simp only [hm, hrun, reduceCtorEq, if_false, if_true]
  exact ⟨_, rfl, rfl, rfl, rfl⟩

/-- Witness of `insert_mandatory_or_no_statement`: a POST on `books(id, title)`
at key 5 without parameters binds `id` from the URI, finds `title` unbound,
and is refused without a call to the database; the whole of `q2_acquire` on
`POST /api/v1/books/5` returns 1 with no statement recorded or executed. -/
theorem insert_mandatory_or_no_statement_witness :
    ex_post_books.request_method = Q2_HT_METHOD_POST ∧
    q2_sql_insert ex_post_books =
      Run.ok (ex_post_books.set_r_params (some [("id", some "5")]), none) ∧
    (∃ qf, q2_acquire_statement ex_books_dbd ex_books_driver ex_ext ex_post_books
        = Run.ok (qf, 1) ∧ qf.error = 1 ∧ qf.sql = none ∧ qf.trace = ex_post_books.trace) ∧
    (∃ qf, q2_acquire ex_books_dbd ex_ext ex_post_request = Run.ok (qf, 1) ∧
      qf.sql = none ∧ qf.trace.filter is_statement = []) := by
  have hrun0 : q2_sql_insert ex_post_books =
      Run.ok (ex_post_books.set_r_params (some [("id", some "5")]), none) := by decide
  obtain ⟨p, r, hrun, _, hblock, hall⟩ :=
    insert_mandatory_or_no_statement ex_books_dbd ex_books_driver ex_ext ex_post_books
      [[("column_name", some "id")]]
      [ex_attr "id" true true false false "null", ex_attr "title" false false false false "null"]
      ["books"] rfl rfl rfl
      (by
        intro row hrow
        simp only [List.mem_cons, List.mem_singleton, List.not_mem_nil, or_false] at hrow
        rcases hrow with rfl | rfl
        · exact ⟨⟨"id", rfl⟩, ⟨true, by decide⟩, ⟨false, by decide⟩, ⟨false, by decide⟩,
            ⟨"null", rfl⟩⟩
        · exact ⟨⟨"title", rfl⟩, ⟨false, by decide⟩, ⟨false, by decide⟩,
            ⟨false, by decide⟩, ⟨"null", rfl⟩⟩)
      (fun h => absurd h (by decide))
  have hr : r = none := by
    rw [hrun0] at hrun
    simp only [Run.ok.injEq, Prod.mk.injEq] at hrun
    exact hrun.2.symm
  obtain ⟨qf, hq, hsql⟩ : ∃ qf, q2_acquire ex_books_dbd ex_ext ex_post_request
      = Run.ok (qf, 1) ∧ qf.sql = none := ⟨_, rfl, rfl⟩
  exact ⟨rfl, hrun0, hblock rfl hr, qf, hq, hsql, (hall ex_post_request qf 1 rfl hq hsql).2⟩

/-- Witness of `acquire_first_candidate_wins`: on the path customers/1/orders
the 1:1 candidate yields nothing and the 1:many candidate yields `orders`; on
the path orders/1/customers no candidate yields a table and the recorded
message is `Target table not found`. -/
theorem acquire_first_candidate_wins_witness :
    (∃ qf, q2_acquire_target (ex_dbd ex_shop) (ex_driver ex_shop)
        { uri_tables := some ["customers", "orders"], uri_keys := some ["1"],
          dbd_server_type := Q2_DBD_MYSQL } = Run.ok qf ∧
      qf.table = some "orders" ∧ qf.tab_relation = Q2_RL_1MREL) ∧
    (∃ qf, q2_acquire_resolved (ex_dbd ex_shop) (ex_driver ex_shop) ex_ext
        { uri_tables := some ["orders", "customers"], uri_keys := some ["1"],
          dbd_server_type := Q2_DBD_MYSQL } = Run.ok (qf, 1) ∧
      qf.log = some { line := 3100, func := "q2_acquire", msg := "Target table not found" }) :=
  ⟨Exists.imp (fun _ h => ⟨h.1, h.2.1, h.2.2.1⟩)
    ((acquire_first_candidate_wins (ex_dbd ex_shop) (ex_driver ex_shop) ex_ext
      { uri_tables := some ["customers", "orders"], uri_keys := some ["1"],
        dbd_server_type := Q2_DBD_MYSQL } rfl).1 _ Q2_RL_1MREL "orders" rfl),
   Exists.imp (fun _ h => ⟨h.1, h.2.2.2.2⟩)
    ((acquire_first_candidate_wins (ex_dbd ex_shop) (ex_driver ex_shop) ex_ext
      { uri_tables := some ["orders", "customers"], uri_keys := some ["1"],
        dbd_server_type := Q2_DBD_MYSQL } rfl).2 _ rfl)⟩

/-- C6 as stated fails: for the request `GET /api/v1/ghosts` on a catalog
without a table `ghosts`, no candidate yields a table and `q2_acquire`
returns 1, but the message it leaves is `Invalid table name`, reported by the
single-table candidate before `Target table not found` could be recorded. -/
theorem acquire_not_found_stated_fails :
    (∃ qa, first_candidate (q2_ischema_get_target_table ex_books_dbd ex_books_driver)
        candidate_order { uri_tables := some ["ghosts"], dbd_server_type := Q2_DBD_MYSQL }
      = Run.ok (qa, none)) ∧
    (∃ qf, q2_acquire_resolved ex_books_dbd ex_books_driver ex_ext
        { uri_tables := some ["ghosts"], dbd_server_type := Q2_DBD_MYSQL } = Run.ok (qf, 1) ∧
      qf.table = none ∧ qf.log.map LogMsg.msg = some "Invalid table name") ∧
    (∃ qf, q2_acquire ex_books_dbd ex_ext ex_get_ghosts = Run.ok (qf, 1) ∧
      qf.uri_tables = some ["ghosts"] ∧ qf.table = none ∧
      qf.log.map LogMsg.msg = some "Invalid table name" ∧
      qf.log.map LogMsg.msg ≠ some "Target table not found") :=
  ⟨⟨_, rfl⟩, ⟨_, rfl, rfl, rfl⟩, ⟨_, rfl, rfl, rfl, rfl, by decide⟩⟩

theorem count_path_run (fks : Rset) (tabs : List String) (hd : tabs.Nodup)
    (hrt : ∀ row ∈ fks, fk_ref row ≠ none) :
    count_hits
      (fun p : AprTable × String =>
        strcmp_eq (apr_table_get p.1 "referenced_table") (some p.2))
      (nested_pairs fks tabs) = Run.ok (count_path_refs fks tabs) := by
  rw [count_hits_pure (fun p : AprTable × String =>
      match fk_ref p.1 with
      | none => false
      | some r => r == p.2)]
  · rw [countP_nested_pairs, count_path_refs, ← sum_map_ite]
    refine congrArg Run.ok (congrArg (List.sum (α := Nat)) (List.map_congr_left ?_))
    intro row _
    show List.countP (fun y => match fk_ref row with
      | none => false
      | some r => r == y) tabs = _
    cases h : fk_ref row with
    | none => simp
    | some r =>
      simp only []
      rw [countP_eq_nodup tabs hd r]
      simp
  · intro p hp
    have hrow : p.1 ∈ fks := by
      simp only [nested_pairs, List.mem_flatMap, List.mem_map] at hp
      obtain ⟨x, hx, y, _, rfl⟩ := hp
      exact hx
    have hne := hrt p.1 hrow
    cases h : fk_ref p.1 with
    | none => exact absurd h hne
    | some r =>
      have h2 : apr_table_get p.1 "referenced_table" = some r := h
      simp only [h2, strcmp_eq]

theorem pgsql_mm_loop_first (db : Dbd) (fn : Driver) (tabs : List String) (hd : tabs.Nodup) :
    ∀ (rows : List AprTable) (q2 : Q2), (∀ row ∈ rows, pg_row_ok fn row) →
      ∃ q2a, pgsql_mm_loop db fn (some tabs) q2 rows =
        Run.ok (q2a, match rows.find? (pg_accepts fn tabs) with
          | none => none
          | some row => apr_table_get row "name") := by
  intro rows
  induction rows with
  | nil => intro q2 _; exact ⟨q2, rfl⟩
  | cons row rest ih =>
    intro q2 hok
    obtain ⟨c, hc, hfk⟩ := hok row (List.mem_cons_self _ _)
    have hrest : ∀ r ∈ rest, pg_row_ok fn r := fun r hr => hok r (List.mem_cons_of_mem _ hr)
    rw [pgsql_mm_loop, hc]
    simp only [atoi_p]
    by_cases h2 : atoi c < 2
    · have hacc : pg_accepts fn tabs row = false := by
        have : ¬ 2 ≤ atoi c := by omega
        simp [pg_accepts, hc, this]
      simp only [h2, if_true, List.find?_cons, hacc]
      exact ih q2 hrest
    · obtain ⟨fks, hfks, href⟩ := hfk (by omega)
      simp only [h2, if_false, hfks]
      by_cases hlen : fks.length < tabs.length
      · have hacc : pg_accepts fn tabs row = false := by
          have : ¬ tabs.length ≤ fks.length := by omega
          simp [pg_accepts, hc, hfks, this]
        simp only [hlen, if_true, List.find?_cons, hacc]
        exact ih _ hrest
      · simp only [hlen, if_false, count_path_run fks tabs hd href]
        by_cases hcount : count_path_refs fks tabs = tabs.length
        · have hacc : pg_accepts fn tabs row = true := by
            have e1 : 2 ≤ atoi c := by omega
            have e2 : tabs.length ≤ fks.length := by omega
            simp [pg_accepts, hc, hfks, e1, e2, hcount]
          simp only [hcount, if_true, List.find?_cons, hacc]
          exact ⟨_, rfl⟩
        · have hacc : pg_accepts fn tabs row = false := by
            simp [pg_accepts, hc, hfks, hcount]
          simp only [hcount, if_false, List.find?_cons, hacc]
          exact ih _ hrest

/-- C11 (amended): on Postgres, for a path of distinct tables and a catalog
list whose rows can be examined, the many:many candidate returns the name of
the first listed table whose count is at least two, that has at least as many
foreign-key columns as the path has tables, and of whose foreign-key columns
exactly as many reference a path table; it returns NULL when no listed table
passes this test. -/
theorem pgsql_mm_first_accepted (db : Dbd) (fn : Driver) (q2 : Q2) (tabs : List String)
    (rows : Rset)
    (hu : q2.uri_tables = some tabs) (hd : tabs.Nodup)
    (hrows : (fn.fk_tabs_fn none).rset = some rows)
    (hok : ∀ row ∈ rows, pg_row_ok fn row) :
    ∃ q2a, q2_ischema_pgsql_get_target_table_mm db fn q2 =
      Run.ok (q2a, match rows.find? (pg_accepts fn tabs) with
        | none => none
        | some row => apr_table_get row "name") := by
  unfold q2_ischema_pgsql_get_target_table_mm
  simp only [hrows]
  have hu2 : (log_if_er db (q2.called (DbCall.fk_tabs none)) (fn.fk_tabs_fn none).er 1395
      "q2_ischema_pgsql_get_target_table_mm").uri_tables = some tabs := by
    unfold log_if_er
    split <;> exact hu
  rw [hu2]
  exact pgsql_mm_loop_first db fn tabs hd rows _ hok

/-- Witness of `pgsql_mm_first_accepted`: the path authors/books on the
library schema, where `author_book` is the only table with foreign keys. -/
theorem pgsql_mm_first_accepted_witness :
    ∃ q2a, q2_ischema_pgsql_get_target_table_mm (ex_dbd ex_library) (ex_pg_driver ex_library)
        { uri_tables := some ["authors", "books"], dbd_server_type := Q2_DBD_PGSQL } =
      Run.ok (q2a, some "author_book") :=
  pgsql_mm_first_accepted (ex_dbd ex_library) (ex_pg_driver ex_library)
    { uri_tables := some ["authors", "books"], dbd_server_type := Q2_DBD_PGSQL }
    ["authors", "books"] [[("name", some "author_book"), ("count", some "2")]]
    rfl (by decide) rfl
    (by
      intro row hrow
      simp only [List.mem_singleton] at hrow
      subst hrow
      refine ⟨"2", rfl, fun _ => ⟨_, rfl, ?_⟩⟩
      decide)

/-- C11 as stated fails in both directions. For the path teams/players the
candidate returns `transfers`, whose two foreign keys both reference `players`
and leave `teams` uncovered. For the path members/books it returns NULL
although the listed table `loans` has three foreign keys that cover both path
tables. -/
theorem pgsql_mm_stated_fails :
    ((∃ q2a, q2_ischema_pgsql_get_target_table_mm (ex_dbd ex_league) (ex_pg_driver ex_league)
        { uri_tables := some ["teams", "players"], dbd_server_type := Q2_DBD_PGSQL } =
        Run.ok (q2a, some "transfers")) ∧
      stated_pg_accepts (((ex_pg_driver ex_league).fk_attr_fn (some "transfers")).rset.getD [])
        ["teams", "players"] = false) ∧
    ((∃ q2a, q2_ischema_pgsql_get_target_table_mm (ex_dbd ex_lending) (ex_pg_driver ex_lending)
        { uri_tables := some ["members", "books"], dbd_server_type := Q2_DBD_PGSQL } =
        Run.ok (q2a, none)) ∧
      ((ex_pg_driver ex_lending).fk_tabs_fn none).rset =
        some [[("name", some "loans"), ("count", some "3")]] ∧
      stated_pg_accepts (((ex_pg_driver ex_lending).fk_attr_fn (some "loans")).rset.getD [])
        ["members", "books"] = true) :=
  ⟨⟨⟨_, rfl⟩, by decide⟩, ⟨_, rfl⟩, by decide, by decide⟩

theorem get_target_table_frame (db : Dbd) (fn : Driver) (q q' : Q2) (rel : Nat)
    (r : CStr) (h : q2_ischema_get_target_table db fn q rel = Run.ok (q', r)) :
    q'.uri_tables = q.uri_tables ∧ q'.column = q.column := by
  have hc := get_target_table_core db fn q q' rel r h
  have h1 := congrArg Q2.uri_tables hc
  have h2 := congrArg Q2.column hc
  exact ⟨h1, h2⟩

theorem acquire_target_after_multi (db : Dbd) (fn : Driver) (q2 qm : Q2)
    (hmulti : first_candidate (q2_ischema_get_target_table db fn) multi_candidates q2
      = Run.ok (qm, none)) :
    q2_acquire_target db fn q2 =
      (match q2_ischema_get_target_table db fn qm 0 with
        | Run.fault e => Run.fault e
        | Run.ok (q2d, none) => Run.ok (q2d.set_table none)
        | Run.ok (q2d, some t) =>
          match q2d.uri_tables with
          | none => Run.fault Fault.null_deref
          | some tabs =>
            if tabs.length > 1 then
              match apr_array_idx tabs 1 with
              | Run.fault e => Run.fault e
              | Run.ok c => Run.ok ((q2d.set_table (some t)).set_column_pop c tabs)
            else Run.ok (q2d.set_table (some t))) ∧
    qm.uri_tables = q2.uri_tables ∧ qm.column = q2.column ∧ qm.table = none := by
  unfold multi_candidates at hmulti
  rw [first_candidate] at hmulti
  unfold q2_acquire_target
  cases h11 : q2_ischema_get_target_table db fn q2 Q2_RL_11REL with
  | fault e => rw [h11] at hmulti; cases hmulti
  | ok p1 =>
    obtain ⟨q1, r1⟩ := p1
    rw [h11] at hmulti
    obtain ⟨u1, c1⟩ := get_target_table_frame db fn _ _ _ _ h11
    cases r1 with
    | some t1 => simp at hmulti
    | none =>
      simp only [] at hmulti ⊢
      rw [first_candidate] at hmulti
      cases h1m : q2_ischema_get_target_table db fn (q1.set_table none) Q2_RL_1MREL with
      | fault e => rw [h1m] at hmulti; cases hmulti
      | ok p2 =>
        obtain ⟨q2b, r2⟩ := p2
        rw [h1m] at hmulti
        obtain ⟨u2, c2⟩ := get_target_table_frame db fn _ _ _ _ h1m
        cases r2 with
        | some t2 => simp at hmulti
        | none =>
          simp only [] at hmulti ⊢
          rw [first_candidate] at hmulti
          cases hmm : q2_ischema_get_target_table db fn (q2b.set_table none) Q2_RL_MMREL with
          | fault e => rw [hmm] at hmulti; cases hmulti
          | ok p3 =>
            obtain ⟨q2c, r3⟩ := p3
            rw [hmm] at hmulti
            obtain ⟨u3, c3⟩ := get_target_table_frame db fn _ _ _ _ hmm
            cases r3 with
            | some t3 => simp at hmulti
            | none =>
              simp only [first_candidate, Run.ok.injEq, Prod.mk.injEq, and_true] at hmulti
              subst hmulti
              refine ⟨rfl, ?_, ?_, rfl⟩
              · exact u3.trans (u2.trans u1)
              · exact c3.trans (c2.trans c1)

/-- C12: when the three multi-table candidates yield nothing, the single-table
candidate decides. With one table in the list, the target is the name the
catalog reports for it and neither the column nor the list changes; when the
catalog has no such table, `q2_acquire` returns 1 with an error recorded. With
more than one element, a target is found exactly when the catalog knows the
first element as a table and the second as a column of it; the target is then
that table, the bare column is the second element, and `apr_array_pop` removes
the last element of the list, which is the second one only for a list of two. -/
theorem single_table_resolution (db : Dbd) (fn : Driver) (ext : Ext) (q2 qm : Q2)
    (tabs : List String) (hu : q2.uri_tables = some tabs)
    (hmulti : first_candidate (q2_ischema_get_target_table db fn) multi_candidates q2
      = Run.ok (qm, none)) :
    (∀ t, tabs = [t] →
      (∀ rset, (fn.tb_name_fn (some t)).rset = some rset →
        ∃ qf, q2_acquire_target db fn q2 = Run.ok qf ∧
          qf.table = q2_dbd_get_value (some rset) 0 "table_name" ∧
          qf.column = q2.column ∧ qf.uri_tables = some [t]) ∧
      ((fn.tb_name_fn (some t)).rset = none →
        ∃ qf, q2_acquire_resolved db fn ext q2 = Run.ok (qf, 1) ∧
          qf.table = none ∧ qf.error = 1 ∧ qf.log ≠ none)) ∧
    (∀ t c rest, tabs = t :: c :: rest →
      ∃ qf, q2_acquire_target db fn q2 = Run.ok qf ∧
        (qf.table ≠ none ↔
          ∃ rset tname, (fn.tb_name_fn (some t)).rset = some rset ∧
            q2_dbd_get_value (some rset) 0 "table_name" = some tname ∧
            (fn.cl_name_fn (some tname) (some c)).rset ≠ none) ∧
        (qf.table ≠ none →
          qf.table = q2_dbd_get_value (fn.tb_name_fn (some t)).rset 0 "table_name" ∧
          qf.column = some c ∧ qf.uri_tables = some (t :: c :: rest).dropLast)) := by
  obtain ⟨hrun, hmu, hmc, hmt⟩ := acquire_target_after_multi db fn q2 qm hmulti
  have hqu : qm.uri_tables = some tabs := hmu.trans hu
  rw [gtt_single db fn qm tabs hqu] at hrun
  constructor
  · intro t ht
    subst ht
    constructor
    · intro rset hrs
      simp only [target_table_single, List.length_singleton, le_refl, if_true, apr_array_idx,
        List.get?_cons_zero, hrs] at hrun
      cases hv : q2_dbd_get_value (some rset) 0 "table_name" with
      | none =>
        rw [hv] at hrun
        exact ⟨_, hrun, rfl, hmc, hqu⟩
      | some tname =>
        rw [hv] at hrun
        have hu2 : (qm.called (DbCall.tb_name (some t))).uri_tables = some [t] := hqu
        simp only [hu2, List.length_singleton, gt_iff_lt, lt_self_iff_false, if_false] at hrun
        exact ⟨_, hrun, rfl, hmc, hqu⟩
    · intro hrs
      simp only [target_table_single, List.length_singleton, le_refl, if_true, apr_array_idx,
        List.get?_cons_zero, hrs] at hrun
      unfold q2_acquire_resolved
      rw [hrun]
      simp only [Q2.set_table, if_true]
      refine ⟨_, rfl, rfl, rfl, ?_⟩
      simp only [q2_log_error]
      split <;> simp
  · intro t c rest ht
    subst ht
    have hlen : ¬ (t :: c :: rest).length ≤ 1 := by simp
    simp only [target_table_single, hlen, if_false] at hrun
    cases hrs : (fn.tb_name_fn (some t)).rset with
    | none =>
      rw [hrs] at hrun
      refine ⟨_, hrun, ?_, ?_⟩
      · constructor
        · intro h; exact absurd rfl h
        · rintro ⟨rset, tname, h1, _⟩; cases h1
      · intro h; exact absurd rfl h
    | some rset =>
      rw [hrs] at hrun
      simp only [] at hrun
      cases hv : q2_dbd_get_value (some rset) 0 "table_name" with
      | none =>
        rw [hv] at hrun
        cases hcl : (fn.cl_name_fn none (some c)).rset with
        | none =>
          rw [hcl] at hrun
          refine ⟨_, hrun, ?_, ?_⟩
          · constructor
            · intro h; exact absurd rfl h
            · rintro ⟨rset2, tname, h1, h2, _⟩
              cases h1
              rw [hv] at h2
              cases h2
          · intro h; exact absurd rfl h
        | some x =>
          rw [hcl] at hrun
          refine ⟨_, hrun, ?_, ?_⟩
          · constructor
            · intro h; exact absurd rfl h
            · rintro ⟨rset2, tname, h1, h2, _⟩
              cases h1
              rw [hv] at h2
              cases h2
          · intro h; exact absurd rfl h
      | some tname =>
        rw [hv] at hrun
        cases hcl : (fn.cl_name_fn (some tname) (some c)).rset with
        | none =>
          rw [hcl] at hrun
          refine ⟨_, hrun, ?_, ?_⟩
          · constructor
            · intro h; exact absurd rfl h
            · rintro ⟨rset2, tname2, h1, h2, h3⟩
              cases h1
              rw [hv] at h2
              cases h2
              exact absurd hcl h3
          · intro h; exact absurd rfl h
        | some x =>
          rw [hcl] at hrun
          have hu2 : ((qm.called (DbCall.tb_name (some t))).called
              (DbCall.cl_name (some tname) (some c))).uri_tables = some (t :: c :: rest) := hqu
          have hlen2 : (t :: c :: rest).length > 1 := by simp
          simp only [hu2, hlen2, if_true, apr_array_idx, List.get?_cons_succ,
            List.get?_cons_zero] at hrun
          refine ⟨_, hrun, ?_, ?_⟩
          · constructor
            · intro _
              exact ⟨rset, tname, rfl, hv, by rw [hcl]; simp⟩
            · intro _ h; cases h
          · intro _
            exact ⟨rfl, rfl, rfl⟩

/-- Witness of `single_table_resolution`: for the list books, title, notes on
a catalog with the table `books(id, title)` the target is `books` and the bare
column is `title`, but the element removed from the list is `notes`: the
column name `title` stays in the table list. -/
theorem single_table_resolution_witness :
    ∃ qf, q2_acquire_target (ex_dbd ex_titles) (ex_driver ex_titles)
        { uri_tables := some ["books", "title", "notes"], dbd_server_type := Q2_DBD_MYSQL }
        = Run.ok qf ∧
      qf.table = some "books" ∧ qf.column = some "title" ∧
      qf.uri_tables = some ["books", "title"] := by
  obtain ⟨qf, hrun, hiff, hres⟩ :=
    (single_table_resolution (ex_dbd ex_titles) (ex_driver ex_titles) ex_ext
      { uri_tables := some ["books", "title", "notes"], dbd_server_type := Q2_DBD_MYSQL } _
      ["books", "title", "notes"] rfl rfl).2 "books" "title" ["notes"] rfl
  have hne : qf.table ≠ none :=
    hiff.mpr ⟨[[("table_name", some "books")]], "books", rfl, rfl, by decide⟩
  obtain ⟨h1, h2, h3⟩ := hres hne
  exact ⟨qf, hrun, h1, h2, h3⟩

theorem every_other_cons {α : Type} (x : α) (r : List α) :
    every_other (x :: r) = x :: every_other r.tail := by
  cases r <;> rfl

theorem every_other_get {α : Type} (l : List α) :
    ∀ i, (every_other l).get? i = l.get? (2 * i) := by
  induction l using every_other.induct with
  | case1 => intro i; simp [every_other]
  | case2 x =>
    intro i
    cases i with
    | zero => rfl
    | succ n =>
      have : 2 * (n + 1) = (2 * n + 1) + 1 := by ring
      simp [every_other, this]
  | case3 x y r ih =>
    intro i
    cases i with
    | zero => rfl
    | succ n =>
      have : 2 * (n + 1) = (2 * n + 1) + 1 := by ring
      rw [every_other, List.get?_cons_succ, ih n, this, List.get?_cons_succ,
        List.get?_cons_succ]

theorem every_other_length {α : Type} (l : List α) :
    (every_other l).length = (l.length + 1) / 2 := by
  induction l using every_other.induct with
  | case1 => simp [every_other]
  | case2 x => simp [every_other]
  | case3 x y r ih =>
    rw [every_other, List.length_cons, ih]
    simp only [List.length_cons]
    omega

theorem uri_tabs_loop_parity (l : List String) :
    ∀ i, (i % 2 = 0 → 2 ≤ i → uri_tabs_loop i l =
            (every_other l).filter (fun s => !q2_is_integer (some s))) ∧
         (i % 2 = 1 → uri_tabs_loop i l =
            (every_other l.tail).filter (fun s => !q2_is_integer (some s))) := by
  induction l with
  | nil => intro i; exact ⟨fun _ _ => rfl, fun _ => rfl⟩
  | cons x r ih =>
    intro i
    constructor
    · intro he h2
      have hodd : (i + 1) % 2 = 1 := by omega
      have hne : ¬ (i - 1) % 2 = 0 := by omega
      rw [uri_tabs_loop, (ih (i + 1)).2 hodd, every_other_cons, List.filter_cons]
      cases q2_is_integer (some x) <;> simp [hne]
    · intro ho
      have hev : (i + 1) % 2 = 0 := by omega
      have h2 : 2 ≤ i + 1 := by omega
      have he : (i - 1) % 2 = 0 := by omega
      rw [uri_tabs_loop, (ih (i + 1)).1 hev h2]
      cases q2_is_integer (some x) <;> simp [he]

theorem uri_keys_loop_parity (l : List String) :
    ∀ i, (i % 2 = 1 → uri_keys_loop i l = every_other l) ∧
         (i % 2 = 0 → 2 ≤ i → uri_keys_loop i l = every_other l.tail) := by
  induction l with
  | nil => intro i; exact ⟨fun _ => rfl, fun _ _ => rfl⟩
  | cons x r ih =>
    intro i
    constructor
    · intro ho
      have hev : (i + 1) % 2 = 0 := by omega
      have h2 : 2 ≤ i + 1 := by omega
      have he : (i - 1) % 2 = 0 := by omega
      rw [uri_keys_loop, (ih (i + 1)).2 hev h2, every_other_cons]
      simp [he]
    · intro he h2
      have hodd : (i + 1) % 2 = 1 := by omega
      have hne : ¬ (i - 1) % 2 = 0 := by omega
      rw [uri_keys_loop, (ih (i + 1)).1 hodd]
      simp [hne]

theorem array_or_null_getD {α : Type} (l : List α) : (array_or_null l).getD [] = l := by
  cases l <;> rfl

theorem uri_get_tabs_eq (a : List String) (h : 3 ≤ a.length) :
    (q2_uri_get_tabs (some a)).getD [] =
      (every_other (a.drop 2)).filter (fun s => !q2_is_integer (some s)) := by
  have hlt : ¬ a.length < 3 := by omega
  simp only [q2_uri_get_tabs, hlt, if_false, array_or_null_getD]
  exact (uri_tabs_loop_parity (a.drop 2) 2).1 rfl (le_refl 2)

theorem uri_get_keys_eq (a : List String) (h : 3 ≤ a.length) :
    (q2_uri_get_keys (some a)).getD [] = every_other (a.drop 3) := by
  have hlt : ¬ a.length < 3 := by omega
  simp only [q2_uri_get_keys, hlt, if_false, array_or_null_getD]
  rw [(uri_keys_loop_parity (a.drop 2) 2).2 rfl (le_refl 2), List.tail_drop]

/-- C13: for fewer than three segments `q2_uri_get_tabs` and `q2_uri_get_keys`
return NULL. For three or more, the table list is the list of the segments at
positions 2, 4, 6, ... without those that `q2_is_integer` accepts, in order,
and the key list is the list of the segments at positions 3, 5, 7, ..., in
order. When no segment at a table position is an integer, table `i` is the
segment at position `2 + 2 i` and key `i` the segment right after it, and the
key list is as long as the table list when the number of segments is even
(the final segment is a key) and one element shorter when it is odd. -/
theorem uri_tabs_keys_positions (a : List String) :
    (a.length < 3 → q2_uri_get_tabs (some a) = none ∧ q2_uri_get_keys (some a) = none) ∧
    (3 ≤ a.length →
      (∃ E : List String, (∀ i, E.get? i = a.get? (2 + 2 * i)) ∧
        (q2_uri_get_tabs (some a)).getD [] = E.filter (fun s => !q2_is_integer (some s))) ∧
      (∀ i, ((q2_uri_get_keys (some a)).getD []).get? i = a.get? (3 + 2 * i)) ∧
      ((∀ i s, a.get? (2 + 2 * i) = some s → q2_is_integer (some s) = false) →
        (∀ i, ((q2_uri_get_tabs (some a)).getD []).get? i = a.get? (2 + 2 * i)) ∧
        (a.length % 2 = 0 →
          ((q2_uri_get_keys (some a)).getD []).length =
            ((q2_uri_get_tabs (some a)).getD []).length) ∧
        (a.length % 2 = 1 →
          ((q2_uri_get_keys (some a)).getD []).length + 1 =
            ((q2_uri_get_tabs (some a)).getD []).length))) := by
  constructor
  · intro h
    simp [q2_uri_get_tabs, q2_uri_get_keys, h]
  · intro h
    have hE : ∀ i, (every_other (a.drop 2)).get? i = a.get? (2 + 2 * i) := by
      intro i
      rw [every_other_get, List.get?_eq_getElem?, List.getElem?_drop, List.get?_eq_getElem?]
    have hK : ∀ i, (every_other (a.drop 3)).get? i = a.get? (3 + 2 * i) := by
      intro i
      rw [every_other_get, List.get?_eq_getElem?, List.getElem?_drop, List.get?_eq_getElem?]
    refine ⟨⟨_, hE, uri_get_tabs_eq a h⟩, ?_, ?_⟩
    · intro i
      rw [uri_get_keys_eq a h]
      exact hK i
    · intro hni
      have hfil : (every_other (a.drop 2)).filter (fun s => !q2_is_integer (some s))
          = every_other (a.drop 2) := by
        rw [List.filter_eq_self]
        intro s hs
        obtain ⟨i, hi⟩ := List.get?_of_mem hs
        rw [hE i] at hi
        simp [hni i s hi]
      rw [uri_get_tabs_eq a h, uri_get_keys_eq a h, hfil]
      refine ⟨hE, ?_, ?_⟩
      · intro hm
        rw [every_other_length, every_other_length, List.length_drop, List.length_drop]
        omega
      · intro hm
        rw [every_other_length, every_other_length, List.length_drop, List.length_drop]
        omega

/-- Witness of `uri_tabs_keys_positions`: the path /api/v1/authors/1/books. -/
theorem uri_tabs_keys_positions_witness :
    q2_uri_get_tabs (some ["api", "v1", "authors", "1", "books"]) = some ["authors", "books"] ∧
    q2_uri_get_keys (some ["api", "v1", "authors", "1", "books"]) = some ["1"] ∧
    ((q2_uri_get_keys (some ["api", "v1", "authors", "1", "books"])).getD []).length + 1 =
      ((q2_uri_get_tabs (some ["api", "v1", "authors", "1", "books"])).getD []).length :=
  ⟨by decide, by decide,
    (((uri_tabs_keys_positions ["api", "v1", "authors", "1", "books"]).2 (by decide)).2.2
      (by
        intro i s h
        match i, h with
        | 0, h => cases h; decide
        | 1, h => cases h; decide
        | n + 2, h =>
          have hlen : ["api", "v1", "authors", "1", "books"].length ≤ 2 + 2 * (n + 2) := by
            simp only [List.length_cons, List.length_nil]; omega
          rw [List.get?_eq_none.mpr hlen] at h
          cases h)).2.2 (by decide)⟩

/-- C14 fails on the code: `q2_uri_get_pages` returns 0 for every list of
segments, and the trailing `next/<n>` is read like any other pair of segments.
For /api/v1/books/next/10 the key list is [next]; for /api/v1/books/5/next/10
the table list holds `next` and the key list holds 10. The request
`GET /api/v1/books/next/10` ends with offset 0 and selects the row whose key
is the word `next`. -/
theorem uri_pages_cursor_ignored :
    (∀ a : List String, q2_uri_get_pages (some a) = Run.ok 0) ∧
    (q2_uri_get_tabs (some ["api", "v1", "books", "next", "10"]) = some ["books"] ∧
      q2_uri_get_keys (some ["api", "v1", "books", "next", "10"]) = some ["next"]) ∧
    (q2_uri_get_tabs (some ["api", "v1", "books", "5", "next", "10"])
        = some ["books", "next"] ∧
      q2_uri_get_keys (some ["api", "v1", "books", "5", "next", "10"]) = some ["5", "10"]) ∧
    (∃ qf, q2_acquire ex_books_dbd ex_ext ex_get_next = Run.ok (qf, 0) ∧
      qf.next_page = 0 ∧ qf.uri_tables = some ["books"] ∧ qf.uri_keys = some ["next"] ∧
      qf.sql = some "SELECT * FROM books WHERE (id='next')") := by
  refine ⟨?_, ⟨by decide, by decide⟩, ⟨by decide, by decide⟩, ⟨_, rfl, rfl, rfl, rfl, rfl⟩⟩
  intro a
  unfold q2_uri_get_pages
  dsimp only
  repeat' split
  all_goals first
    | rfl
    | (exfalso
       rename_i h5 _ _ _ _ hget
       have hlt : a.length - 2 < a.length := by omega
       rw [List.get?_eq_none] at hget
       omega)

theorem get_target_table_uri_keys (db : Dbd) (fn : Driver) (q q' : Q2) (rel : Nat)
    (r : CStr) (h : q2_ischema_get_target_table db fn q rel = Run.ok (q', r)) :
    q'.uri_keys = q.uri_keys := by
  have hc := get_target_table_core db fn q q' rel r h
  have h1 := congrArg Q2.uri_keys hc
  exact h1

theorem multi_none_uri_keys (db : Dbd) (fn : Driver) (q2 qm : Q2)
    (hmulti : first_candidate (q2_ischema_get_target_table db fn) multi_candidates q2
      = Run.ok (qm, none)) : qm.uri_keys = q2.uri_keys := by
  unfold multi_candidates at hmulti
  rw [first_candidate] at hmulti
  cases h11 : q2_ischema_get_target_table db fn q2 Q2_RL_11REL with
  | fault e => rw [h11] at hmulti; cases hmulti
  | ok p1 =>
    obtain ⟨q1, r1⟩ := p1
    rw [h11] at hmulti
    have k1 := get_target_table_uri_keys db fn _ _ _ _ h11
    cases r1 with
    | some t1 => simp at hmulti
    | none =>
      simp only [] at hmulti
      rw [first_candidate] at hmulti
      cases h1m : q2_ischema_get_target_table db fn (q1.set_table none) Q2_RL_1MREL with
      | fault e => rw [h1m] at hmulti; cases hmulti
      | ok p2 =>
        obtain ⟨q2b, r2⟩ := p2
        rw [h1m] at hmulti
        have k2 := get_target_table_uri_keys db fn _ _ _ _ h1m
        cases r2 with
        | some t2 => simp at hmulti
        | none =>
          simp only [] at hmulti
          rw [first_candidate] at hmulti
          cases hmm : q2_ischema_get_target_table db fn (q2b.set_table none) Q2_RL_MMREL with
          | fault e => rw [hmm] at hmulti; cases hmulti
          | ok p3 =>
            obtain ⟨q2c, r3⟩ := p3
            rw [hmm] at hmulti
            have k3 := get_target_table_uri_keys db fn _ _ _ _ hmm
            cases r3 with
            | some t3 => simp at hmulti
            | none =>
              simp only [first_candidate, Run.ok.injEq, Prod.mk.injEq, and_true] at hmulti
              subst hmulti
              exact k3.trans (k2.trans k1)

theorem uri_five_segments (p0 p1 t k c : String)
    (ht : q2_is_integer (some t) = false) (hc : q2_is_integer (some c) = false) :
    q2_uri_get_tabs (some [p0, p1, t, k, c]) = some [t, c] ∧
    q2_uri_get_keys (some [p0, p1, t, k, c]) = some [k] := by
  constructor
  · cases hk : q2_is_integer (some k) <;>
      simp [q2_uri_get_tabs, uri_tabs_loop, array_or_null, ht, hc, hk]
  · simp [q2_uri_get_keys, uri_keys_loop, array_or_null]

/-- C15 (amended): the bare column sits at a table position, after the key of
the table. For the segments prefix, prefix, table, key, column, with table and
column not integers, the lists read from the URI are [table, column] and
[key]; when no multi-table candidate yields a table and the catalog knows the
table and the column, resolution stores the column as the bare column, leaves
[table] as the table list and leaves the key list [key] untouched. -/
theorem bare_column_after_key (db : Dbd) (fn : Driver) (q2 qm : Q2)
    (p0 p1 t k c tname : String) (rset : Rset)
    (hu : q2.uri_tables = q2_uri_get_tabs (some [p0, p1, t, k, c]))
    (hk : q2.uri_keys = q2_uri_get_keys (some [p0, p1, t, k, c]))
    (ht : q2_is_integer (some t) = false) (hc : q2_is_integer (some c) = false)
    (hmulti : first_candidate (q2_ischema_get_target_table db fn) multi_candidates q2
      = Run.ok (qm, none))
    (hrs : (fn.tb_name_fn (some t)).rset = some rset)
    (hv : q2_dbd_get_value (some rset) 0 "table_name" = some tname)
    (hcl : (fn.cl_name_fn (some tname) (some c)).rset ≠ none) :
    ∃ qf, q2_acquire_target db fn q2 = Run.ok qf ∧ qf.table = some tname ∧
      qf.column = some c ∧ qf.uri_tables = some [t] ∧ qf.uri_keys = some [k] := by
  obtain ⟨htabs, hkeys⟩ := uri_five_segments p0 p1 t k c ht hc
  rw [htabs] at hu
  rw [hkeys] at hk
  obtain ⟨hrun, hmu, _, _⟩ := acquire_target_after_multi db fn q2 qm hmulti
  have hqk : qm.uri_keys = some [k] := (multi_none_uri_keys db fn q2 qm hmulti).trans hk
  have hqu : qm.uri_tables = some [t, c] := hmu.trans hu
  rw [gtt_single db fn qm [t, c] hqu] at hrun
  have hlen : ¬ [t, c].length ≤ 1 := by simp
  simp only [target_table_single, hlen, if_false, hrs, hv] at hrun
  cases hcl2 : (fn.cl_name_fn (some tname) (some c)).rset with
  | none => exact absurd hcl2 hcl
  | some x =>
    rw [hcl2] at hrun
    have hu2 : ((qm.called (DbCall.tb_name (some t))).called
        (DbCall.cl_name (some tname) (some c))).uri_tables = some [t, c] := hqu
    have hlen2 : [t, c].length > 1 := by simp
    simp only [hu2, hlen2, if_true, apr_array_idx, List.get?_cons_succ,
      List.get?_cons_zero] at hrun
    exact ⟨_, hrun, rfl, rfl, rfl, hqk⟩

/-- Witness of `bare_column_after_key`: the path /api/v1/books/5/pages. -/
theorem bare_column_after_key_witness :
    ∃ qf, q2_acquire_target ex_books_dbd ex_books_driver
        { uri_tables := some ["books", "pages"], uri_keys := some ["5"],
          dbd_server_type := Q2_DBD_MYSQL } = Run.ok qf ∧
      qf.table = some "books" ∧ qf.column = some "pages" ∧
      qf.uri_tables = some ["books"] ∧ qf.uri_keys = some ["5"] :=
  bare_column_after_key ex_books_dbd ex_books_driver
    { uri_tables := some ["books", "pages"], uri_keys := some ["5"],
      dbd_server_type := Q2_DBD_MYSQL } _
    "api" "v1" "books" "5" "pages" "books" [[("table_name", some "books")]]
    (by decide) (by decide) (by decide) (by decide) rfl rfl rfl (by decide)

/-- C15 as stated fails: for `GET /api/v1/books/pages`, where `pages` is a
column of `books`, the trailing segment is at a key position. It becomes the
only key, no bare column is stored, and the statement selects the row whose
key is the word `pages`. -/
theorem bare_column_stated_fails :
    q2_uri_get_tabs (some ["api", "v1", "books", "pages"]) = some ["books"] ∧
    q2_uri_get_keys (some ["api", "v1", "books", "pages"]) = some ["pages"] ∧
    (ex_books_driver.cl_name_fn (some "books") (some "pages")).rset ≠ none ∧
    ∃ qf, q2_acquire ex_books_dbd ex_ext ex_get_column = Run.ok (qf, 0) ∧
      qf.table = some "books" ∧ qf.column = none ∧ qf.uri_keys = some ["pages"] ∧
      qf.sql = some "SELECT * FROM books WHERE (id='pages')" :=
  ⟨by decide, by decide, by decide, _, rfl, rfl, rfl, rfl, rfl⟩

theorem takeWhile_clean (s : Char) (cs R : List Char) (hcs : s ∉ cs)
    (hR : R = [] ∨ ∃ R1, R = s :: R1) :
    (cs ++ R).takeWhile (fun d => !([s] : List Char).contains d) = cs ∧
    (cs ++ R).dropWhile (fun d => !([s] : List Char).contains d) = R := by
  induction cs with
  | nil =>
    rcases hR with rfl | ⟨R1, rfl⟩
    · exact ⟨rfl, rfl⟩
    · simp
  | cons c cs ih =>
    have hc : c ≠ s := fun h => hcs (h ▸ List.mem_cons_self _ _)
    have hcs2 : s ∉ cs := fun h => hcs (List.mem_cons_of_mem _ h)
    obtain ⟨h1, h2⟩ := ih hcs2
    have hp : (!([s] : List Char).contains c) = true := by simp [hc]
    constructor
    · rw [List.cons_append, List.takeWhile_cons, hp]
      simp only [if_true]
      rw [h1]
    · rw [List.cons_append, List.dropWhile_cons, hp]
      simp only [if_true]
      rw [h2]

theorem apr_strtok_clean (s : Char) (t R : List Char) (ht : clean_token s t)
    (hR : R = [] ∨ ∃ R1, R = s :: R1) :
    apr_strtok [s] (t ++ R) = some (t, R.drop 1) := by
  obtain ⟨hne, hs⟩ := ht
  cases t with
  | nil => exact absurd rfl hne
  | cons c cs =>
    have hc : c ≠ s := fun h => hs (h ▸ List.mem_cons_self _ _)
    have hcs : s ∉ cs := fun h => hs (List.mem_cons_of_mem _ h)
    obtain ⟨h1, h2⟩ := takeWhile_clean s cs R hcs hR
    have hp : ([s] : List Char).contains c = false := by simp [hc]
    unfold apr_strtok
    rw [List.cons_append, List.dropWhile_cons, hp]
    simp only [Bool.false_eq_true, if_false]
    rw [h1, h2]

theorem rest_chars_shape (s : Char) (toks : List (List Char)) :
    rest_chars s toks = [] ∨ ∃ R1, rest_chars s toks = s :: R1 := by
  cases toks with
  | nil => exact Or.inl rfl
  | cons t r => exact Or.inr ⟨t ++ rest_chars s r, by simp [rest_chars]⟩

theorem q2_split_loop_clean (s : Char) (toks : List (List Char)) :
    ∀ (fuel : Nat) (tok : List Char) (acc : List String),
      (∀ t ∈ toks, clean_token s t) →
      ((rest_chars s toks).drop 1).length + 1 ≤ fuel →
      q2_split_loop [s] fuel tok ((rest_chars s toks).drop 1) acc =
        Run.ok (acc ++ String.mk tok :: toks.map String.mk) := by
  induction toks with
  | nil =>
    intro fuel tok acc _ hf
    cases fuel with
    | zero => simp at hf
    | succ f => simp [rest_chars, q2_split_loop]
  | cons t r ih =>
    intro fuel tok acc hall hf
    have ht := hall t (List.mem_cons_self _ _)
    have hr : ∀ x ∈ r, clean_token s x := fun x hx => hall x (List.mem_cons_of_mem _ hx)
    have hshape : (rest_chars s (t :: r)).drop 1 = t ++ rest_chars s r := by
      simp [rest_chars]
    rw [hshape] at hf ⊢
    cases fuel with
    | zero => simp at hf
    | succ f =>
      obtain ⟨c, cs, hcs⟩ : ∃ c cs, t = c :: cs := by
        cases t with
        | nil => exact absurd rfl ht.1
        | cons c cs => exact ⟨c, cs, rfl⟩
      have hstr := apr_strtok_clean s t (rest_chars s r) ht (rest_chars_shape s r)
      have hf2 : ((rest_chars s r).drop 1).length + 1 ≤ f := by
        have h1 : (t ++ rest_chars s r).length = t.length + (rest_chars s r).length :=
          List.length_append _ _
        have h2 : 1 ≤ t.length := by rw [hcs]; simp
        have h3 : ((rest_chars s r).drop 1).length ≤ (rest_chars s r).length := by
          rw [List.length_drop]; omega
        omega
      have hnext := ih f t (acc ++ [String.mk tok]) hr hf2
      have hgoal : q2_split_loop [s] (f + 1) tok (c :: (cs ++ rest_chars s r)) acc =
          q2_split_loop [s] f t ((rest_chars s r).drop 1) (acc ++ [String.mk tok]) := by
        rw [q2_split_loop]
        rw [hcs, List.cons_append] at hstr
        simp only [hstr]
        rw [hcs]
      rw [hcs, List.cons_append, hgoal, ← hcs, hnext]
      simp

/-- The function `q2_split` on a first token followed by further tokens, each
preceded by the separator, returns the tokens. -/
theorem q2_split_clean (s : Char) (t : List Char) (toks : List (List Char))
    (ht : clean_token s t) (hall : ∀ x ∈ toks, clean_token s x) :
    q2_split (some (String.mk (t ++ rest_chars s toks))) (String.singleton s) =
      Run.ok (some (String.mk t :: toks.map String.mk)) := by
  have hstr := apr_strtok_clean s t (rest_chars s toks) ht (rest_chars_shape s toks)
  have hsep : (String.singleton s).data = [s] := rfl
  unfold q2_split
  simp only [hsep, hstr]
  rw [q2_split_loop_clean s toks _ t [] hall (le_refl _)]
  rfl

theorem apr_strtok_skip (s : Char) (X : List Char) :
    apr_strtok [s] (s :: X) = apr_strtok [s] X := by
  unfold apr_strtok
  rw [List.dropWhile_cons]
  simp

theorem q2_split_skip (s : Char) (X : List Char) :
    q2_split (some (String.mk (s :: X))) (String.singleton s) =
      q2_split (some (String.mk X)) (String.singleton s) := by
  have hsep : (String.singleton s).data = [s] := rfl
  unfold q2_split
  simp only [hsep, apr_strtok_skip]

theorem q2_split_one (s : Char) (a : String) (ha : clean_token s a.data) :
    q2_split (some a) (String.singleton s) = Run.ok (some [a]) := by
  have h := q2_split_clean s a.data [] ha (fun x hx => absurd hx (List.not_mem_nil x))
  simpa [rest_chars] using h

theorem q2_split_two (s : Char) (a b : String) (ha : clean_token s a.data)
    (hb : clean_token s b.data) :
    q2_split (some (a ++ String.singleton s ++ b)) (String.singleton s) =
      Run.ok (some [a, b]) := by
  have h := q2_split_clean s a.data [b.data] ha (by
    intro x hx
    simp only [List.mem_singleton] at hx
    rw [hx]; exact hb)
  have e : a ++ String.singleton s ++ b = String.mk (a.data ++ rest_chars s [b.data]) := by
    apply String.ext
    simp [rest_chars, String.singleton]
  rw [e, h]
  rfl

theorem q2_split_lead_one (s : Char) (b : String) (hb : clean_token s b.data) :
    q2_split (some (String.singleton s ++ b)) (String.singleton s) = Run.ok (some [b]) := by
  have e : String.singleton s ++ b = String.mk (s :: b.data) := by
    apply String.ext
    simp [String.singleton]
  rw [e, q2_split_skip]
  exact q2_split_one s b hb

theorem encode_value_flags (db : Dbd) (q2 : Q2) (row : AprTable) (v : String) (e : CStr)
    (h : q2_sql_encode_value db q2 row (some v) = Run.ok e) :
    ∃ bn bd, flag_p (apr_table_get row "is_numeric") = Run.ok bn ∧
      flag_p (apr_table_get row "is_date") = Run.ok bd := by
  unfold q2_sql_encode_value at h
  simp only [] at h
  cases hn : flag_p (apr_table_get row "is_numeric") with
  | fault x => rw [hn] at h; cases h
  | ok bn =>
    rw [hn] at h
    cases hd : flag_p (apr_table_get row "is_date") with
    | fault x => rw [hd] at h; cases h
    | ok bd => exact ⟨bn, bd, rfl, rfl⟩

theorem plain_comma {v : String} (h : plain_token v) : clean_token ',' v.data := ⟨h.1, h.2.1⟩

theorem plain_colon {v : String} (h : plain_token v) : clean_token ':' v.data := ⟨h.1, h.2.2⟩

theorem parse_value_filter (db : Dbd) (q2 : Q2) (attrs : AprTable) (c f v : String)
    (bn bd : Bool) (ob : Option (List String))
    (hn : flag_p (apr_table_get attrs "is_numeric") = Run.ok bn)
    (hd : flag_p (apr_table_get attrs "is_date") = Run.ok bd)
    (hf : clean_token ':' f.data) (hv : clean_token ':' v.data) :
    q2_sql_parse_value db q2 (some attrs) (some c) (some (f ++ ":" ++ v)) ob =
      parse_value_body db q2 attrs c
        (if !bn && !bd then apr_table_get attrs "character_set_name" else none)
        (some f) v ob := by
  have hs : q2_split (some (f ++ ":" ++ v)) ":" = Run.ok (some [f, v]) :=
    q2_split_two ':' f v hf hv
  unfold q2_sql_parse_value
  simp only [hn, hd, hs]

theorem parse_value_bare (db : Dbd) (q2 : Q2) (attrs : AprTable) (c v : String)
    (bn bd : Bool) (ob : Option (List String))
    (hn : flag_p (apr_table_get attrs "is_numeric") = Run.ok bn)
    (hd : flag_p (apr_table_get attrs "is_date") = Run.ok bd)
    (hv : clean_token ':' v.data) :
    q2_sql_parse_value db q2 (some attrs) (some c) (some v) ob =
      parse_value_body db q2 attrs c
        (if !bn && !bd then apr_table_get attrs "character_set_name" else none)
        none v ob := by
  have hs : q2_split (some v) ":" = Run.ok (some [v]) := q2_split_one ':' v hv
  unfold q2_sql_parse_value
  simp only [hn, hd, hs]

/-- C16: on a column `c`, for value tokens without comma or colon whose
encodings by `q2_sql_encode_value` are `efrom` and `eto`, the value
`r:<from>,<to>` yields `(c>=efrom) AND (c<=eto)`, the value `r:,<to>` yields
`(c<=eto)` and the value `r:<from>` yields `(c>=efrom)`; the ORDER BY list is
left as it was. -/
theorem range_predicates (db : Dbd) (q2 : Q2) (attrs : AprTable) (c sfrom sto efrom eto : String)
    (ob : Option (List String))
    (hfrom : plain_token sfrom) (hto : plain_token sto)
    (hef : q2_sql_encode_value db q2 attrs (some sfrom) = Run.ok (some efrom))
    (het : q2_sql_encode_value db q2 attrs (some sto) = Run.ok (some eto)) :
    q2_sql_parse_value db q2 (some attrs) (some c) (some ("r:" ++ sfrom ++ "," ++ sto)) ob =
      Run.ok (some ("(" ++ c ++ ">=" ++ efrom ++ ") AND (" ++ c ++ "<=" ++ eto ++ ")"), ob) ∧
    q2_sql_parse_value db q2 (some attrs) (some c) (some ("r:," ++ sto)) ob =
      Run.ok (some ("(" ++ c ++ "<=" ++ eto ++ ")"), ob) ∧
    q2_sql_parse_value db q2 (some attrs) (some c) (some ("r:" ++ sfrom)) ob =
      Run.ok (some ("(" ++ c ++ ">=" ++ efrom ++ ")"), ob) := by
  obtain ⟨bn, bd, hn, hd⟩ := encode_value_flags db q2 attrs sfrom _ hef
  have hr : clean_token ':' ("r" : String).data := by
    constructor
    · decide
    · decide
  have hob : order_by_filter "r" c ob = ob := by
    simp [order_by_filter, q2_in_string]
  have hin : q2_in_string "r" 'r' = true := by decide
  refine ⟨?_, ?_, ?_⟩
  · have hv : clean_token ':' (sfrom ++ "," ++ sto).data := by
      constructor
      · simp [hfrom.1]
      · simp only [String.data_append, List.mem_append, not_or]
        exact ⟨⟨hfrom.2.2, by decide⟩, hto.2.2⟩
    have e : "r:" ++ sfrom ++ "," ++ sto = "r" ++ ":" ++ (sfrom ++ "," ++ sto) := by
      apply String.ext; simp
    have hs : q2_split (some (sfrom ++ "," ++ sto)) "," = Run.ok (some [sfrom, sto]) :=
      q2_split_two ',' sfrom sto (plain_comma hfrom) (plain_comma hto)
    rw [e, parse_value_filter db q2 attrs c "r" _ bn bd ob hn hd hr hv]
    unfold parse_value_body
    simp only [hin, if_true, hs, hef, het, hob, fmt_s, Option.getD_some]
  · have hv : clean_token ':' ("," ++ sto).data := by
      constructor
      · simp
      · simp only [String.data_append, List.mem_append, not_or]
        exact ⟨by decide, hto.2.2⟩
    have e : "r:," ++ sto = "r" ++ ":" ++ ("," ++ sto) := by
      apply String.ext; simp
    have hs : q2_split (some ("," ++ sto)) "," = Run.ok (some [sto]) :=
      q2_split_lead_one ',' sto (plain_comma hto)
    have hhead : ("," ++ sto).data.head? = some ',' := by simp
    rw [e, parse_value_filter db q2 attrs c "r" _ bn bd ob hn hd hr hv]
    unfold parse_value_body
    simp only [hin, if_true, hs, het, hob, fmt_s, Option.getD_some, hhead]
  · have e : "r:" ++ sfrom = "r" ++ ":" ++ sfrom := by
      apply String.ext; simp
    have hs : q2_split (some sfrom) "," = Run.ok (some [sfrom]) :=
      q2_split_one ',' sfrom (plain_comma hfrom)
    have hhead : ¬ sfrom.data.head? = some ',' := by
      intro h
      obtain ⟨hne, hc, _⟩ := hfrom
      cases hd : sfrom.data with
      | nil => exact hne hd
      | cons x xs =>
        rw [hd] at h hc
        simp only [List.head?_cons, Option.some.injEq] at h
        exact hc (h ▸ List.mem_cons_self _ _)
    rw [e, parse_value_filter db q2 attrs c "r" _ bn bd ob hn hd hr (plain_colon hfrom)]
    unfold parse_value_body
    simp only [hin, if_true, hs, hef, hob, fmt_s, Option.getD_some, hhead, if_false]

/-- Witness of `range_predicates`: on the numeric column `pages` the value
`r:5,10` yields `(pages>=5) AND (pages<=10)`. -/
theorem range_predicates_witness :
    q2_sql_parse_value (ex_dbd ex_books) ex_mysql (some ex_pages) (some "pages")
        (some "r:5,10") none =
      Run.ok (some "(pages>=5) AND (pages<=10)", none) ∧
    q2_sql_parse_value (ex_dbd ex_books) ex_mysql (some ex_pages) (some "pages")
        (some "r:,10") none = Run.ok (some "(pages<=10)", none) ∧
    q2_sql_parse_value (ex_dbd ex_books) ex_mysql (some ex_pages) (some "pages")
        (some "r:5") none = Run.ok (some "(pages>=5)", none) :=
  range_predicates (ex_dbd ex_books) ex_mysql ex_pages "pages" "5" "10" "5" "10" none
    ⟨by decide, by decide, by decide⟩ ⟨by decide, by decide, by decide⟩ rfl rfl

theorem intercalate_go_data (s : String) (l : List String) :
    ∀ acc : String, (String.intercalate.go acc s l).data =
      acc.data ++ l.flatMap (fun a => s.data ++ a.data) := by
  induction l with
  | nil => intro acc; simp [String.intercalate.go]
  | cons a r ih =>
    intro acc
    rw [String.intercalate.go, ih]
    simp

theorem intercalate_data (s : Char) (a : String) (l : List String) :
    String.intercalate (String.singleton s) (a :: l) =
      String.mk (a.data ++ rest_chars s (l.map String.data)) := by
  apply String.ext
  rw [String.intercalate, intercalate_go_data]
  simp [rest_chars, String.singleton, List.flatMap_map]

theorem q2_split_many (s : Char) (a : String) (l : List String)
    (hall : ∀ x ∈ a :: l, clean_token s x.data) :
    q2_split (some (String.intercalate (String.singleton s) (a :: l))) (String.singleton s) =
      Run.ok (some (a :: l)) := by
  have h := q2_split_clean s a.data (l.map String.data) (hall a (List.mem_cons_self _ _)) (by
    intro x hx
    simp only [List.mem_map] at hx
    obtain ⟨y, hy, rfl⟩ := hx
    exact hall y (List.mem_cons_of_mem _ hy))
  have hid : List.map (String.mk ∘ String.data) l = l := by
    have hf : (String.mk ∘ String.data) = id := by
      funext x; rfl
    rw [hf, List.map_id]
  rw [intercalate_data, h]
  simp [hid]

theorem set_predicates_spec (db : Dbd) (q2 : Q2) (attrs : AprTable) (c : String) (cs : CStr)
    (hn : ∃ b, flag_p (apr_table_get attrs "is_numeric") = Run.ok b)
    (hd : ∃ b, flag_p (apr_table_get attrs "is_date") = Run.ok b) (toks : List String) :
    ∃ ps, set_predicates db q2 attrs c cs toks = Run.ok ps ∧
      List.Forall₂ (fun x p => ∃ e, q2_sql_encode_value db q2 attrs (some x) = Run.ok (some e) ∧
        p = value_predicate c cs (some e)) toks ps := by
  induction toks with
  | nil => exact ⟨[], rfl, List.Forall₂.nil⟩
  | cons x r ih =>
    obtain ⟨ps, hps, hall⟩ := ih
    obtain ⟨e, he⟩ := encode_value_ok db q2 attrs x hn hd
    refine ⟨value_predicate c cs (some e) :: ps, ?_, List.Forall₂.cons ⟨e, he, rfl⟩ hall⟩
    rw [set_predicates]
    simp only [he, hps]

/-- C17: on a column `c`, for `k >= 1` value tokens without comma or colon,
the value `s:v1,...,vk` yields the clauses of the tokens, in order, joined by
` OR ` and enclosed in parentheses. The clause of a token with encoding `e` is
`c IS NULL` when `q2_is_null_s` accepts `e`, else `(c=e)` on a numeric or date
column and `(c LIKE e)` on a column that is neither and has a character set.
The ORDER BY list is left as it was. -/
theorem set_predicates_or (db : Dbd) (q2 : Q2) (attrs : AprTable) (c v : String)
    (vs : List String) (bn bd : Bool) (ob : Option (List String))
    (hn : flag_p (apr_table_get attrs "is_numeric") = Run.ok bn)
    (hd : flag_p (apr_table_get attrs "is_date") = Run.ok bd)
    (hall : ∀ x ∈ v :: vs, plain_token x) :
    ∃ ps : List String,
      q2_sql_parse_value db q2 (some attrs) (some c)
          (some ("s:" ++ String.intercalate "," (v :: vs))) ob =
        Run.ok (some ("(" ++ String.intercalate " OR " ps ++ ")"), ob) ∧
      List.Forall₂ (fun x p =>
        ∃ e, q2_sql_encode_value db q2 attrs (some x) = Run.ok (some e) ∧
          (q2_is_null_s (some e) = true → p = c ++ " IS NULL") ∧
          (q2_is_null_s (some e) = false → (bn = true ∨ bd = true) →
            p = "(" ++ c ++ "=" ++ e ++ ")") ∧
          (q2_is_null_s (some e) = false → bn = false → bd = false →
            ∀ cs, apr_table_get attrs "character_set_name" = some cs →
              p = "(" ++ c ++ " LIKE " ++ e ++ ")")) (v :: vs) ps := by
  obtain ⟨ps, hps, hfor⟩ := set_predicates_spec db q2 attrs c
    (if !bn && !bd then apr_table_get attrs "character_set_name" else none)
    ⟨bn, hn⟩ ⟨bd, hd⟩ (v :: vs)
  refine ⟨ps, ?_, ?_⟩
  · have hs : clean_token ':' ("s" : String).data := ⟨by decide, by decide⟩
    have hob : order_by_filter "s" c ob = ob := by
      simp [order_by_filter, q2_in_string]
    have hinr : q2_in_string "s" 'r' = false := by decide
    have hins : q2_in_string "s" 's' = true := by decide
    have hsplit : q2_split (some (String.intercalate "," (v :: vs))) "," =
        Run.ok (some (v :: vs)) :=
      q2_split_many ',' v vs (fun x hx => plain_comma (hall x hx))
    have hv : clean_token ':' (String.intercalate "," (v :: vs)).data := by
      have e := intercalate_data ',' v vs
      have e2 : String.intercalate "," (v :: vs) =
          String.mk (v.data ++ rest_chars ',' (vs.map String.data)) := e
      rw [e2]
      constructor
      · have := (hall v (List.mem_cons_self _ _)).1
        simp [this]
      · simp only [List.mem_append, not_or, rest_chars, List.mem_flatMap, List.mem_map,
          not_exists, not_and]
        refine ⟨(hall v (List.mem_cons_self _ _)).2.2, ?_⟩
        rintro t ⟨x, hx, rfl⟩ hmem
        rcases List.mem_cons.mp hmem with h | h
        · exact absurd h (by decide)
        · exact (hall x (List.mem_cons_of_mem _ hx)).2.2 h
    have e : "s:" ++ String.intercalate "," (v :: vs) =
        "s" ++ ":" ++ String.intercalate "," (v :: vs) := by
      apply String.ext; simp
    have hne : ∃ p0 pr, ps = p0 :: pr := by
      cases hfor with
      | cons h1 h2 => exact ⟨_, _, rfl⟩
    obtain ⟨p0, pr, hp⟩ := hne
    rw [e, parse_value_filter db q2 attrs c "s" _ bn bd ob hn hd hs hv]
    unfold parse_value_body
    simp only [hinr, hins, if_true, hsplit, hps, hob, Bool.false_eq_true, if_false]
    rw [hp]
    simp only [q2_join, String.append_assoc]
  · refine List.Forall₂.imp ?_ hfor
    rintro x p ⟨e, he, hp⟩
    refine ⟨e, he, ?_, ?_, ?_⟩
    · intro hnull
      rw [hp, value_predicate, hnull]
      rfl
    · intro hnull hnd
      have hcs : (if (!bn && !bd) = true then apr_table_get attrs "character_set_name"
          else none) = none := by
        rcases hnd with h | h <;> simp [h]
      rw [hp, value_predicate, hnull, hcs]
      simp [fmt_s]
    · intro hnull hbn hbd cs hcs
      rw [hp, value_predicate, hnull, hbn, hbd]
      simp [hcs, fmt_s]

/-- Witness of `set_predicates_or`: on the numeric column `pages` the value
`s:1,2,3` yields `((pages=1) OR (pages=2) OR (pages=3))`. -/
theorem set_predicates_or_witness :
    q2_sql_parse_value (ex_dbd ex_books) ex_mysql (some ex_pages) (some "pages")
        (some "s:1,2,3") none =
      Run.ok (some "((pages=1) OR (pages=2) OR (pages=3))", none) := by
  obtain ⟨ps, hrun, hfor⟩ := set_predicates_or (ex_dbd ex_books) ex_mysql ex_pages "pages" "1"
    ["2", "3"] true false none (by decide) (by decide)
    (by
      intro x hx
      simp only [List.mem_cons, List.mem_singleton, List.not_mem_nil, or_false] at hx
      rcases hx with rfl | rfl | rfl <;> exact ⟨by decide, by decide, by decide⟩)
  have hps : ps = ["(pages=1)", "(pages=2)", "(pages=3)"] := by
    have henc : ∀ x e, x ∈ ["1", "2", "3"] →
        q2_sql_encode_value (ex_dbd ex_books) ex_mysql ex_pages (some x) = Run.ok (some e) →
        e = x ∧ q2_is_null_s (some e) = false := by
      intro x e hx he
      simp only [List.mem_cons, List.mem_singleton, List.not_mem_nil, or_false] at hx
      rcases hx with rfl | rfl | rfl
      all_goals
        have h0 : e = _ := (Option.some.inj (Run.ok.inj he)).symm
        subst h0
        exact ⟨by decide, by decide⟩
    match ps, hfor with
    | [p1, p2, p3], List.Forall₂.cons ⟨e1, h1, _, q1, _⟩ (List.Forall₂.cons ⟨e2, h2, _, q2, _⟩
        (List.Forall₂.cons ⟨e3, h3, _, q3, _⟩ List.Forall₂.nil)) =>
      obtain ⟨rfl, n1⟩ := henc "1" e1 (by simp) h1
      obtain ⟨rfl, n2⟩ := henc "2" e2 (by simp) h2
      obtain ⟨rfl, n3⟩ := henc "3" e3 (by simp) h3
      rw [q1 n1 (Or.inl rfl), q2 n2 (Or.inl rfl), q3 n3 (Or.inl rfl)]
      decide
  rw [hps] at hrun
  exact hrun

theorem q2_split_trailing (s : Char) (a : String) (ha : clean_token s a.data) :
    q2_split (some (a ++ String.singleton s)) (String.singleton s) = Run.ok (some [a]) := by
  have hstr := apr_strtok_clean s a.data [s] ha (Or.inr ⟨[], rfl⟩)
  have hsep : (String.singleton s).data = [s] := rfl
  unfold q2_split
  simp only [String.data_append, hsep, hstr, List.drop_one, List.tail_cons, List.length_nil,
    Nat.zero_add, q2_split_loop, List.nil_append]

/-- C18 (amended): a value that ends with its colon, such as `a:`, has a
single token for `q2_split`: it is read like the bare value before the colon.
No ORDER BY fragment is added and a WHERE predicate on the encoded value is
returned. -/
theorem trailing_colon_is_bare (db : Dbd) (q2 : Q2) (attrs : AprTable) (c f : String)
    (bn bd : Bool) (ob : Option (List String))
    (hn : flag_p (apr_table_get attrs "is_numeric") = Run.ok bn)
    (hd : flag_p (apr_table_get attrs "is_date") = Run.ok bd)
    (hf : clean_token ':' f.data) (hstar : f ≠ "*") :
    q2_sql_parse_value db q2 (some attrs) (some c) (some (f ++ ":")) ob =
      q2_sql_parse_value db q2 (some attrs) (some c) (some f) ob ∧
    ∃ e, q2_sql_encode_value db q2 attrs (some f) = Run.ok (some e) ∧
      q2_sql_parse_value db q2 (some attrs) (some c) (some (f ++ ":")) ob =
        Run.ok (some (value_predicate c
          (if !bn && !bd then apr_table_get attrs "character_set_name" else none) (some e)),
          ob) := by
  have hs1 : q2_split (some (f ++ ":")) ":" = Run.ok (some [f]) := q2_split_trailing ':' f hf
  have hs2 : q2_split (some f) ":" = Run.ok (some [f]) := q2_split_one ':' f hf
  have heq : q2_sql_parse_value db q2 (some attrs) (some c) (some (f ++ ":")) ob =
      q2_sql_parse_value db q2 (some attrs) (some c) (some f) ob := by
    unfold q2_sql_parse_value
    simp only [hn, hd, hs1, hs2]
  refine ⟨heq, ?_⟩
  obtain ⟨e, he⟩ := encode_value_ok db q2 attrs f ⟨bn, hn⟩ ⟨bd, hd⟩
  refine ⟨e, he, ?_⟩
  have hnot : ¬ (f.length = 1 ∧ f.data.head? = some '*') := by
    rintro ⟨hl, hh⟩
    apply hstar
    apply String.ext
    have hl2 : f.data.length = 1 := hl
    match hfd : f.data, hl2, hh with
    | [x], _, hh =>
      simp only [List.head?_cons, Option.some.injEq] at hh
      rw [hh]
  rw [heq, parse_value_bare db q2 attrs c f bn bd ob hn hd hf]
  unfold parse_value_body
  simp only [hnot, if_false, he]

/-- Witness of `trailing_colon_is_bare`: `a:` on the string column `title`. -/
theorem trailing_colon_is_bare_witness :
    q2_sql_parse_value (ex_dbd ex_books) ex_mysql (some ex_title) (some "title")
        (some "a:") none =
      q2_sql_parse_value (ex_dbd ex_books) ex_mysql (some ex_title) (some "title")
        (some "a") none :=
  (trailing_colon_is_bare (ex_dbd ex_books) ex_mysql ex_title "title" "a" false false none
    (by decide) (by decide) ⟨by decide, by decide⟩ (by decide)).1

/-- C18 as stated fails: for the value `a:` on the column `title` the ORDER BY
list stays empty and the predicate `(title LIKE _utf8'a')` is returned; the
ordering alone is what `a:*` gives. -/
theorem order_only_stated_fails :
    q2_sql_parse_value (ex_dbd ex_books) ex_mysql (some ex_title) (some "title")
        (some "a:") none = Run.ok (some "(title LIKE _utf8'a')", none) ∧
    q2_split (some "a:") ":" = Run.ok (some ["a"]) ∧
    q2_sql_parse_value (ex_dbd ex_books) ex_mysql (some ex_title) (some "title")
        (some "a:*") none = Run.ok (none, some ["title ASC"]) := by
  decide

theorem parse_value_star (db : Dbd) (q2 : Q2) (attrs : AprTable) (c f : String)
    (bn bd : Bool) (ob : Option (List String))
    (hn : flag_p (apr_table_get attrs "is_numeric") = Run.ok bn)
    (hd : flag_p (apr_table_get attrs "is_date") = Run.ok bd)
    (hf : clean_token ':' f.data)
    (hr : q2_in_string f 'r' = false) (hs : q2_in_string f 's' = false) :
    q2_sql_parse_value db q2 (some attrs) (some c) (some (f ++ ":" ++ "*")) ob =
      Run.ok (none, order_by_filter f c ob) := by
  have hv : clean_token ':' ("*" : String).data := ⟨by decide, by decide⟩
  have h1 : ("*" : String).length = 1 ∧ ("*" : String).data.head? = some '*' :=
    ⟨by decide, by decide⟩
  rw [parse_value_filter db q2 attrs c f "*" bn bd ob hn hd hf hv]
  unfold parse_value_body
  simp only [hr, hs, Bool.false_eq_true, if_false, h1, and_self, if_true]

/-- C19: on a column whose flags can be read, the bare value `*` yields no
predicate and leaves the ORDER BY list as it was; the values `a:*`, `d:*`,
`A:*` and `D:*` yield no predicate and append one fragment to the list:
`c ASC`, `c DESC`, `CAST(c AS UNSIGNED) ASC, c ASC` and
`CAST(c AS UNSIGNED) DESC, c DESC`. -/
theorem star_orders_only (db : Dbd) (q2 : Q2) (attrs : AprTable) (c : String)
    (bn bd : Bool) (ob : Option (List String))
    (hn : flag_p (apr_table_get attrs "is_numeric") = Run.ok bn)
    (hd : flag_p (apr_table_get attrs "is_date") = Run.ok bd) :
    q2_sql_parse_value db q2 (some attrs) (some c) (some "*") ob = Run.ok (none, ob) ∧
    q2_sql_parse_value db q2 (some attrs) (some c) (some "a:*") ob =
      Run.ok (none, some (ob.getD [] ++ [c ++ " ASC"])) ∧
    q2_sql_parse_value db q2 (some attrs) (some c) (some "d:*") ob =
      Run.ok (none, some (ob.getD [] ++ [c ++ " DESC"])) ∧
    q2_sql_parse_value db q2 (some attrs) (some c) (some "A:*") ob =
      Run.ok (none, some (ob.getD [] ++ ["CAST(" ++ c ++ " AS UNSIGNED) ASC, " ++ c ++ " ASC"])) ∧
    q2_sql_parse_value db q2 (some attrs) (some c) (some "D:*") ob =
      Run.ok (none,
        some (ob.getD [] ++ ["CAST(" ++ c ++ " AS UNSIGNED) DESC, " ++ c ++ " DESC"])) := by
  refine ⟨?_, ?_, ?_, ?_, ?_⟩
  · have hv : clean_token ':' ("*" : String).data := ⟨by decide, by decide⟩
    have h1 : ("*" : String).length = 1 ∧ ("*" : String).data.head? = some '*' :=
      ⟨by decide, by decide⟩
    rw [parse_value_bare db q2 attrs c "*" bn bd ob hn hd hv]
    unfold parse_value_body
    simp only [h1, and_self, if_true]
  · have h := parse_value_star db q2 attrs c "a" bn bd ob hn hd ⟨by decide, by decide⟩
      (by decide) (by decide)
    rw [show ("a:*" : String) = "a" ++ ":" ++ "*" from by decide, h]
    simp [order_by_filter, q2_in_string, push_new]
  · have h := parse_value_star db q2 attrs c "d" bn bd ob hn hd ⟨by decide, by decide⟩
      (by decide) (by decide)
    rw [show ("d:*" : String) = "d" ++ ":" ++ "*" from by decide, h]
    simp [order_by_filter, q2_in_string, push_new]
  · have h := parse_value_star db q2 attrs c "A" bn bd ob hn hd ⟨by decide, by decide⟩
      (by decide) (by decide)
    rw [show ("A:*" : String) = "A" ++ ":" ++ "*" from by decide, h]
    simp [order_by_filter, q2_in_string, push_new]
  · have h := parse_value_star db q2 attrs c "D" bn bd ob hn hd ⟨by decide, by decide⟩
      (by decide) (by decide)
    rw [show ("D:*" : String) = "D" ++ ":" ++ "*" from by decide, h]
    simp [order_by_filter, q2_in_string, push_new]

/-- Witness of `star_orders_only`: the column `title` with an ORDER BY list
that already holds `id ASC`. -/
theorem star_orders_only_witness :
    q2_sql_parse_value (ex_dbd ex_books) ex_mysql (some ex_title) (some "title")
        (some "*") (some ["id ASC"]) = Run.ok (none, some ["id ASC"]) ∧
    q2_sql_parse_value (ex_dbd ex_books) ex_mysql (some ex_title) (some "title")
        (some "D:*") (some ["id ASC"]) =
      Run.ok (none, some ["id ASC", "CAST(title AS UNSIGNED) DESC, title DESC"]) :=
  ⟨(star_orders_only (ex_dbd ex_books) ex_mysql ex_title "title" false false
      (some ["id ASC"]) (by decide) (by decide)).1,
   (star_orders_only (ex_dbd ex_books) ex_mysql ex_title "title" false false
      (some ["id ASC"]) (by decide) (by decide)).2.2.2.2⟩

theorem lower_star_eq (L T : List Char) (hT : ∀ t ∈ T, t ≠ '%' ∧ t ≠ '*') :
    ((L.map (fun c => if c = '*' then '%' else c)).map c_tolower == T) =
      (L.map c_tolower == T) := by
  induction L generalizing T with
  | nil => rfl
  | cons x r ih =>
    cases T with
    | nil => rfl
    | cons t ts =>
      have ht := hT t (List.mem_cons_self _ _)
      have hts : ∀ y ∈ ts, y ≠ '%' ∧ y ≠ '*' := fun y hy => hT y (List.mem_cons_of_mem _ hy)
      have hr := ih ts hts
      simp only [List.map_cons, List.cons_beq_cons] at hr ⊢
      rw [hr]
      by_cases hx : x = '*'
      · subst hx
        have e1 : c_tolower '%' = '%' := by decide
        have e2 : c_tolower '*' = '*' := by decide
        have n1 : ('%' == t) = false := by
          simp only [beq_eq_false_iff_ne, ne_eq]; exact fun h => ht.1 h.symm
        have n2 : ('*' == t) = false := by
          simp only [beq_eq_false_iff_ne, ne_eq]; exact fun h => ht.2 h.symm
        simp only [if_true, e1, e2, n1, n2]
      · simp only [hx, if_false]

theorem is_null_star (v : String) :
    q2_is_null_s (some (String.mk (v.data.map (fun c => if c = '*' then '%' else c)))) =
      q2_is_null_s (some v) := by
  have h1 := lower_star_eq (v.data.take 4) (("null" : String).data.take 4 |>.map c_tolower)
    (by decide)
  have h2 := lower_star_eq (v.data.take 4) (("NULL" : String).data.take 4 |>.map c_tolower)
    (by decide)
  simp only [q2_is_null_s, strncasecmp_eq, ← List.map_take]
  rw [h1, h2]

theorem is_null_quoted (pre x : String) (hpre : pre = "" ∨ ∃ cs, pre = "_" ++ cs) :
    q2_is_null_s (some (pre ++ "'" ++ x ++ "'")) = false := by
  have key : ∀ (c0 : Char) (rest : List Char), c_tolower c0 ≠ 'n' →
      q2_is_null_s (some (String.mk (c0 :: rest))) = false := by
    intro c0 rest hc
    have hne : (c_tolower c0 == 'n') = false := by
      simp only [beq_eq_false_iff_ne, ne_eq]; exact hc
    have t1 : (("null" : String).data.take 4).map c_tolower = ['n', 'u', 'l', 'l'] := by decide
    have t2 : (("NULL" : String).data.take 4).map c_tolower = ['n', 'u', 'l', 'l'] := by decide
    simp only [q2_is_null_s, strncasecmp_eq]
    rw [t1, t2]
    simp only [List.take_succ_cons, List.map_cons, List.cons_beq_cons, hne, Bool.false_and,
      Bool.or_self]
  rcases hpre with rfl | ⟨cs, rfl⟩
  · have e : "" ++ "'" ++ x ++ "'" = String.mk ('\'' :: (x.data ++ ['\''])) := by
      apply String.ext; simp
    rw [e]
    exact key _ _ (by decide)
  · have e : "_" ++ cs ++ "'" ++ x ++ "'" =
        String.mk ('_' :: (cs.data ++ '\'' :: (x.data ++ ['\'']))) := by
      apply String.ext; simp
    rw [e]
    exact key _ _ (by decide)

theorem paren_ne_is_null (c m : String) : "(" ++ m ++ ")" ≠ c ++ " IS NULL" := by
  intro h
  have h2 := congrArg (fun s => s.data.getLast?) h
  have e1 : ("(" ++ m ++ ")").data = ('(' :: m.data) ++ [')'] := by simp
  have e2 : (c ++ " IS NULL").data = (c.data ++ [' ', 'I', 'S', ' ', 'N', 'U', 'L']) ++ ['L'] := by
    simp
  simp only [e1, e2, List.getLast?_concat] at h2
  exact absurd h2 (by decide)

theorem encode_non_numeric (db : Dbd) (q2 : Q2) (attrs : AprTable) (v : String) (bd : Bool)
    (hn : flag_p (apr_table_get attrs "is_numeric") = Run.ok false)
    (hd : flag_p (apr_table_get attrs "is_date") = Run.ok bd) :
    (q2_is_null_s (some v) = true →
      q2_sql_encode_value db q2 attrs (some v) =
        Run.ok (some (String.mk (v.data.map (fun c => if c = '*' then '%' else c))))) ∧
    (q2_is_null_s (some v) = false →
      ∃ e, q2_sql_encode_value db q2 attrs (some v) = Run.ok (some e) ∧
        q2_is_null_s (some e) = false) := by
  have hstar := is_null_star v
  constructor
  · intro h
    rw [h] at hstar
    unfold q2_sql_encode_value
    simp only [hn, hd, hstar, Bool.false_or, if_true]
  · intro h
    rw [h] at hstar
    unfold q2_sql_encode_value
    simp only [hn, hd, hstar, Bool.false_or, Bool.false_eq_true, if_false]
    refine ⟨_, rfl, ?_⟩
    apply is_null_quoted
    split
    · split
      · exact Or.inl rfl
      · exact Or.inr ⟨_, rfl⟩
    · exact Or.inl rfl

/-- C20 on the code: for a bare value `v` other than `*` on a non-numeric
column `c`, a predicate is returned and the ORDER BY list is left as it was;
the predicate is `c IS NULL` exactly when `q2_is_null_s` accepts `v`, which is
when the first four characters of `v` read `null` in any letter case, whatever
follows them; otherwise it is `(c LIKE e)` or `(c=e)` for the encoding `e` of
`v`. -/
theorem bare_null_prefix (db : Dbd) (q2 : Q2) (attrs : AprTable) (c v : String) (bd : Bool)
    (ob : Option (List String))
    (hn : flag_p (apr_table_get attrs "is_numeric") = Run.ok false)
    (hd : flag_p (apr_table_get attrs "is_date") = Run.ok bd)
    (hv : clean_token ':' v.data) (hstar : v ≠ "*") :
    ∃ p, q2_sql_parse_value db q2 (some attrs) (some c) (some v) ob = Run.ok (some p, ob) ∧
      (p = c ++ " IS NULL" ↔ q2_is_null_s (some v) = true) ∧
      (q2_is_null_s (some v) = true ↔
        (v.data.take 4).map c_tolower = ['n', 'u', 'l', 'l']) ∧
      (q2_is_null_s (some v) = false →
        ∃ e, q2_sql_encode_value db q2 attrs (some v) = Run.ok (some e) ∧
          (p = "(" ++ c ++ " LIKE " ++ e ++ ")" ∨ p = "(" ++ c ++ "=" ++ e ++ ")")) := by
  obtain ⟨henc1, henc2⟩ := encode_non_numeric db q2 attrs v bd hn hd
  have hnot : ¬ (v.length = 1 ∧ v.data.head? = some '*') := by
    rintro ⟨hl, hh⟩
    apply hstar
    apply String.ext
    have hl2 : v.data.length = 1 := hl
    match hfd : v.data, hl2, hh with
    | [x], _, hh =>
      simp only [List.head?_cons, Option.some.injEq] at hh
      rw [hh]
  have hprefix : q2_is_null_s (some v) = true ↔
      (v.data.take 4).map c_tolower = ['n', 'u', 'l', 'l'] := by
    have t1 : (("null" : String).data.take 4).map c_tolower = ['n', 'u', 'l', 'l'] := by decide
    have t2 : (("NULL" : String).data.take 4).map c_tolower = ['n', 'u', 'l', 'l'] := by decide
    simp only [q2_is_null_s, strncasecmp_eq]
    rw [t1, t2]
    simp
  rw [parse_value_bare db q2 attrs c v false bd ob hn hd hv]
  generalize (if (!false && !bd) = true then apr_table_get attrs "character_set_name"
    else none) = cs
  unfold parse_value_body
  simp only [hnot, if_false]
  cases hnull : q2_is_null_s (some v) with
  | true =>
    have he := henc1 hnull
    have hstar2 := is_null_star v
    rw [hnull] at hstar2 hprefix
    rw [he]
    refine ⟨_, rfl, ?_, hprefix, ?_⟩
    · simp only [value_predicate, hstar2, if_true]
    · intro h; cases h
  | false =>
    obtain ⟨e, he, hne⟩ := henc2 hnull
    rw [hnull] at hprefix
    rw [he]
    refine ⟨_, rfl, ?_, hprefix, ?_⟩
    · simp only [value_predicate, hne, Bool.false_eq_true, if_false, iff_false]
      cases cs with
      | none =>
        simp only [Option.isSome_none, Bool.false_eq_true, if_false]
        rw [show "(" ++ c ++ "=" ++ fmt_s (some e) ++ ")"
            = "(" ++ (c ++ "=" ++ fmt_s (some e)) ++ ")" from by
          simp only [String.append_assoc]]
        exact paren_ne_is_null c _
      | some x =>
        simp only [Option.isSome_some, if_true]
        rw [show "(" ++ c ++ " LIKE " ++ fmt_s (some e) ++ ")"
            = "(" ++ (c ++ " LIKE " ++ fmt_s (some e)) ++ ")" from by
          simp only [String.append_assoc]]
        exact paren_ne_is_null c _
    · intro _
      refine ⟨e, rfl, ?_⟩
      simp only [value_predicate, hne, Bool.false_eq_true, if_false, fmt_s, Option.getD_some]
      cases cs with
      | none => exact Or.inr (by simp)
      | some x => exact Or.inl (by simp)

/-- Witness of `bare_null_prefix`: the search for the word `nullable` in the
string column `title` becomes the predicate `title IS NULL`. -/
theorem bare_null_prefix_witness :
    q2_sql_parse_value (ex_dbd ex_books) ex_mysql (some ex_title) (some "title")
        (some "nullable") none = Run.ok (some "title IS NULL", none) := by
  obtain ⟨p, hrun, hiff, _, _⟩ := bare_null_prefix (ex_dbd ex_books) ex_mysql ex_title "title"
    "nullable" false none (by decide) (by decide) ⟨by decide, by decide⟩ (by decide)
  have hp : p = "title" ++ " IS NULL" := hiff.mpr (by decide)
  rw [hp] at hrun
  exact hrun

theorem not_star_value (v : String) (hstar : v ≠ "*") :
    ¬ (v.length = 1 ∧ v.data.head? = some '*') := by
  rintro ⟨hl, hh⟩
  apply hstar
  apply String.ext
  have hl2 : v.data.length = 1 := hl
  match hfd : v.data, hl2, hh with
  | [x], _, hh =>
    simp only [List.head?_cons, Option.some.injEq] at hh
    rw [hh]

/-- C21: for a bare value `v` other than `*` that `q2_is_null_s` does not
take for NULL, with `w` being `v` with every `*` replaced by `%`: on a numeric
column the predicate is `(c=w)`; on a date column it is `(c='escape(w)')`; on
a column that is neither and has a character set `cs` it is
`(c LIKE _cs'escape(w)')` on MySQL and `(c LIKE 'escape(w)')` elsewhere. The
ORDER BY list is left as it was. -/
theorem bare_value_predicate (db : Dbd) (q2 : Q2) (attrs : AprTable) (c v : String)
    (bn bd : Bool) (ob : Option (List String))
    (hn : flag_p (apr_table_get attrs "is_numeric") = Run.ok bn)
    (hd : flag_p (apr_table_get attrs "is_date") = Run.ok bd)
    (hv : clean_token ':' v.data) (hstar : v ≠ "*")
    (hnull : q2_is_null_s (some v) = false) :
    (bn = true →
      q2_sql_parse_value db q2 (some attrs) (some c) (some v) ob =
        Run.ok (some ("(" ++ c ++ "=" ++ star_to_percent v ++ ")"), ob)) ∧
    (bn = false → bd = true →
      q2_sql_parse_value db q2 (some attrs) (some c) (some v) ob =
        Run.ok (some ("(" ++ c ++ "='" ++ db.escape (star_to_percent v) ++ "')"), ob)) ∧
    (bn = false → bd = false → ∀ cs, apr_table_get attrs "character_set_name" = some cs →
      q2_sql_parse_value db q2 (some attrs) (some c) (some v) ob =
        Run.ok (some ("(" ++ c ++ " LIKE "
          ++ (if q2.dbd_server_type = Q2_DBD_MYSQL then "_" ++ cs else "")
          ++ "'" ++ db.escape (star_to_percent v) ++ "')"), ob)) := by
  have hnot := not_star_value v hstar
  have hs : q2_is_null_s (some (star_to_percent v)) = false := by
    rw [star_to_percent, is_null_star, hnull]
  have hs2 : q2_is_null_s
      (some (String.mk (v.data.map (fun c => if c = '*' then '%' else c)))) = false := hs
  refine ⟨?_, ?_, ?_⟩
  · intro hbn
    subst hbn
    rw [parse_value_bare db q2 attrs c v true bd ob hn hd hv]
    unfold parse_value_body
    simp only [hnot, if_false]
    unfold q2_sql_encode_value
    simp only [hn, hd, Bool.true_or, if_true, Bool.not_true, Bool.false_and,
      Bool.false_eq_true, if_false, value_predicate, hs2, Option.isSome_none, fmt_s,
      Option.getD_some, star_to_percent]
  · intro hbn hbd
    subst hbn; subst hbd
    rw [parse_value_bare db q2 attrs c v false true ob hn hd hv]
    unfold parse_value_body
    simp only [hnot, if_false]
    unfold q2_sql_encode_value
    have hq := is_null_quoted "" (db.escape (star_to_percent v)) (Or.inl rfl)
    simp only [star_to_percent] at hq
    simp only [hn, hd, Bool.false_or, hs2, Bool.false_eq_true, if_false, Bool.not_true,
      Bool.and_false, Bool.not_false, ite_self, value_predicate, hq,
      Option.isSome_none, fmt_s, Option.getD_some, star_to_percent]
    simp only [Run.ok.injEq, Prod.mk.injEq, Option.some.injEq, and_true]
    apply String.ext
    simp
  · intro hbn hbd cs hcs
    subst hbn; subst hbd
    rw [parse_value_bare db q2 attrs c v false false ob hn hd hv]
    unfold parse_value_body
    simp only [hnot, if_false]
    unfold q2_sql_encode_value
    have hq := is_null_quoted (if q2.dbd_server_type = Q2_DBD_MYSQL then "_" ++ cs else "")
      (db.escape (star_to_percent v)) (by
        split
        · exact Or.inr ⟨cs, rfl⟩
        · exact Or.inl rfl)
    simp only [star_to_percent] at hq
    simp only [hn, hd, Bool.false_or, hs2, Bool.false_eq_true, if_false, Bool.not_false,
      Bool.and_self, if_true, hcs, value_predicate, hq, Option.isSome_some, fmt_s,
      Option.getD_some, star_to_percent]
    simp only [Run.ok.injEq, Prod.mk.injEq, Option.some.injEq, and_true]
    apply String.ext
    simp

/-- Witness of `bare_value_predicate`: the value 12 on the numeric column
`pages`, a day on the date column `issued` on Postgres, and `Dun*` on the
string column `title` on MySQL. -/
theorem bare_value_predicate_witness :
    q2_sql_parse_value (ex_dbd ex_books) ex_mysql (some ex_pages) (some "pages")
        (some "12") none = Run.ok (some "(pages=12)", none) ∧
    q2_sql_parse_value (ex_dbd ex_books) ex_pgsql (some ex_issued) (some "issued")
        (some "2020-01-31") none = Run.ok (some "(issued='2020-01-31')", none) ∧
    q2_sql_parse_value (ex_dbd ex_books) ex_mysql (some ex_title) (some "title")
        (some "Dun*") none = Run.ok (some "(title LIKE _utf8'Dun%')", none) :=
  ⟨(bare_value_predicate (ex_dbd ex_books) ex_mysql ex_pages "pages" "12" true false none
      (by decide) (by decide) ⟨by decide, by decide⟩ (by decide) (by decide)).1 rfl,
   (bare_value_predicate (ex_dbd ex_books) ex_pgsql ex_issued "issued" "2020-01-31" false true
      none (by decide) (by decide) ⟨by decide, by decide⟩ (by decide) (by decide)).2.1 rfl rfl,
   (bare_value_predicate (ex_dbd ex_books) ex_mysql ex_title "title" "Dun*" false false none
      (by decide) (by decide) ⟨by decide, by decide⟩ (by decide) (by decide)).2.2 rfl rfl
      "utf8" (by decide)⟩

theorem strcasecmp_eq_iff (a b : String) : strcasecmp_eq a b = true ↔ same_key a b := by
  unfold strcasecmp_eq same_key
  exact beq_iff_eq

theorem same_key_refl (a : String) : same_key a a := rfl

theorem same_key_symm {a b : String} (h : same_key a b) : same_key b a := Eq.symm h

theorem same_key_trans {a b c : String} (h1 : same_key a b) (h2 : same_key b c) :
    same_key a c := Eq.trans h1 h2

theorem strcasecmp_eq_false_iff (a b : String) :
    strcasecmp_eq a b = false ↔ ¬ same_key a b := by
  rw [← strcasecmp_eq_iff]
  cases strcasecmp_eq a b <;> simp

theorem table_get_unset_other (t : AprTable) (k n : String) (h : ¬ same_key k n) :
    apr_table_get (apr_table_unset t k) n = apr_table_get t n := by
  induction t with
  | nil => rfl
  | cons e r ih =>
    obtain ⟨k0, v0⟩ := e
    unfold apr_table_unset at ih ⊢
    rw [List.filter_cons]
    by_cases h0 : strcasecmp_eq k0 k = true
    · have hn : strcasecmp_eq k0 n = false := by
        rw [strcasecmp_eq_false_iff]
        intro h1
        exact h (same_key_trans (same_key_symm ((strcasecmp_eq_iff _ _).mp h0)) h1)
      simp only [h0, Bool.not_true, Bool.false_eq_true, if_false, apr_table_get, hn]
      exact ih
    · have h0f : strcasecmp_eq k0 k = false := by
        cases hh : strcasecmp_eq k0 k
        · rfl
        · exact absurd hh h0
      simp only [h0f, Bool.not_false, if_true, apr_table_get]
      rw [ih]

theorem table_get_set_same (t : AprTable) (k : String) (v : CStr) :
    apr_table_get (apr_table_set t k v) k = v := by
  induction t with
  | nil =>
    have : strcasecmp_eq k k = true := (strcasecmp_eq_iff k k).mpr rfl
    simp [apr_table_set, apr_table_get, this]
  | cons e r ih =>
    obtain ⟨k0, v0⟩ := e
    rw [apr_table_set]
    by_cases h0 : strcasecmp_eq k0 k = true
    · simp only [h0, if_true, apr_table_get]
    · have h0f : strcasecmp_eq k0 k = false := by
        cases hh : strcasecmp_eq k0 k
        · rfl
        · exact absurd hh h0
      simp only [h0f, Bool.false_eq_true, if_false, apr_table_get]
      exact ih

theorem table_get_set_other (t : AprTable) (k n : String) (v : CStr) (h : ¬ same_key k n) :
    apr_table_get (apr_table_set t k v) n = apr_table_get t n := by
  induction t with
  | nil =>
    have : strcasecmp_eq k n = false := (strcasecmp_eq_false_iff k n).mpr h
    simp [apr_table_set, apr_table_get, this]
  | cons e r ih =>
    obtain ⟨k0, v0⟩ := e
    rw [apr_table_set]
    by_cases h0 : strcasecmp_eq k0 k = true
    · have hn : strcasecmp_eq k0 n = false := by
        rw [strcasecmp_eq_false_iff]
        intro h1
        exact h (same_key_trans (same_key_symm ((strcasecmp_eq_iff _ _).mp h0)) h1)
      simp only [h0, if_true, apr_table_get, hn, Bool.false_eq_true, if_false]
      exact table_get_unset_other r k n h
    · have h0f : strcasecmp_eq k0 k = false := by
        cases hh : strcasecmp_eq k0 k
        · rfl
        · exact absurd hh h0
      simp only [h0f, Bool.false_eq_true, if_false, apr_table_get]
      rw [ih]

theorem param_value_set_same (rp : Option AprTable) (k : String) (v : CStr) :
    param_value (some (apr_table_set (rp.getD []) k v)) k = v :=
  table_get_set_same _ k v

theorem param_value_set_other (rp : Option AprTable) (k n : String) (v : CStr)
    (h : ¬ same_key k n) :
    param_value (some (apr_table_set (rp.getD []) k v)) n = param_value rp n := by
  unfold param_value
  simp only []
  rw [table_get_set_other _ k n v h]
  cases rp <;> rfl

theorem insert_values_emits (rp : Option AprTable) :
    ∀ (attrs : List AprTable) (cols vals : List String),
      (∀ row ∈ attrs, insert_attr_ok row) →
      insert_values rp attrs = Run.ok (some (cols, vals)) →
      cols = attrs.map column_of ∧ List.Forall₂ (emits rp) attrs vals := by
  intro attrs
  induction attrs with
  | nil =>
    intro cols vals _ h
    simp only [insert_values, Run.ok.injEq, Option.some.injEq, Prod.mk.injEq] at h
    obtain ⟨rfl, rfl⟩ := h
    exact ⟨rfl, List.Forall₂.nil⟩
  | cons r rest ih =>
    intro cols vals hok h
    obtain ⟨⟨name, hname⟩, ⟨bp, hbp⟩, ⟨bn, hbn⟩, ⟨ba, hba⟩, _⟩ := hok r (List.mem_cons_self _ _)
    have hrest : ∀ row ∈ rest, insert_attr_ok row :=
      fun row hr => hok row (List.mem_cons_of_mem _ hr)
    have hcol : column_of r = name := by simp [column_of, hname]
    rw [insert_values] at h
    simp only [hname, hbp, hbn, hba] at h
    by_cases hm : (!ba && !bn) = true
    · simp only [hm, if_true] at h
      have hman : mandatory r := by
        simp only [Bool.and_eq_true, Bool.not_eq_true'] at hm
        exact ⟨by rw [hbn, hm.2], by rw [hba, hm.1]⟩
      cases hv : (match rp with
             | none => none
             | some t => apr_table_get t name) with
      | none => rw [hv] at h; cases h
      | some v =>
        rw [hv] at h
        simp only [] at h
        cases hr : insert_values rp rest with
        | fault e => rw [hr] at h; cases h
        | ok rr =>
          rw [hr] at h
          cases rr with
          | none => cases h
          | some pr =>
            obtain ⟨c2, v2⟩ := pr
            simp only [Run.ok.injEq, Option.some.injEq, Prod.mk.injEq] at h
            obtain ⟨rfl, rfl⟩ := h
            obtain ⟨hc, hf⟩ := ih c2 v2 hrest hr
            refine ⟨by rw [List.map_cons, hcol, hc], List.Forall₂.cons ?_ hf⟩
            exact Or.inl ⟨hman, name, hname, hv⟩
    · simp only [hm] at h
      have hnot : ¬ mandatory r := by
        intro ⟨h1, h2⟩
        rw [hbn] at h1
        rw [hba] at h2
        injection h1 with h1
        injection h2 with h2
        subst h1
        subst h2
        exact hm rfl
      cases hr : insert_values rp rest with
      | fault e => rw [hr] at h; cases h
      | ok rr =>
        rw [hr] at h
        cases rr with
        | none => cases h
        | some pr =>
          obtain ⟨c2, v2⟩ := pr
          simp only [Bool.false_eq_true, if_false, Run.ok.injEq, Option.some.injEq,
            Prod.mk.injEq] at h
          obtain ⟨rfl, rfl⟩ := h
          obtain ⟨hc, hf⟩ := ih c2 v2 hrest hr
          refine ⟨by rw [List.map_cons, hcol, hc], List.Forall₂.cons ?_ hf⟩
          exact Or.inr ⟨hnot, rfl⟩

theorem insert_uri_key_first (q : Q2) (pre post : List AprTable) (prow : AprTable)
    (hpre : ∀ row ∈ pre, flag_p (apr_table_get row "is_primary_key") = Run.ok false)
    (hp : flag_p (apr_table_get prow "is_primary_key") = Run.ok true) :
    (flag_p (apr_table_get prow "is_auto_increment") = Run.ok true →
      insert_uri_key q (pre ++ prow :: post) = Run.ok q) ∧
    (flag_p (apr_table_get prow "is_auto_increment") = Run.ok false →
      ∀ k ks name, q.uri_keys = some (k :: ks) →
        apr_table_get prow "column_name" = some name →
        insert_uri_key q (pre ++ prow :: post) =
          Run.ok (q.set_r_params (some (apr_table_set (q.r_params.getD []) name (some k))))) := by
  induction pre with
  | nil =>
    constructor
    · intro ha
      simp only [List.nil_append, insert_uri_key, hp, ha]
    · intro ha k ks name hk hname
      simp only [List.nil_append, insert_uri_key, hp, ha, hk, hname, r_params_setn]
  | cons r rest ih =>
    have hr := hpre r (List.mem_cons_self _ _)
    obtain ⟨ih1, ih2⟩ := ih (fun row h => hpre row (List.mem_cons_of_mem _ h))
    constructor
    · intro ha
      rw [List.cons_append, insert_uri_key]
      simp only [hr]
      exact ih1 ha
    · intro ha k ks name hk hname
      rw [List.cons_append, insert_uri_key]
      simp only [hr]
      exact ih2 ha k ks name hk hname

theorem forall2_at {α β : Type} (R : α → β → Prop) (pre post : List α) (x : α) :
    ∀ l : List β, List.Forall₂ R (pre ++ x :: post) l →
      ∃ v, l.get? pre.length = some v ∧ R x v := by
  induction pre with
  | nil =>
    intro l h
    cases h with
    | cons h1 _ => exact ⟨_, rfl, h1⟩
  | cons a r ih =>
    intro l h
    cases h with
    | cons _ h2 =>
      obtain ⟨v, hv, hr⟩ := ih _ h2
      exact ⟨v, hv, hr⟩

theorem r_params_setn_params (q q' : Q2) (k v : CStr)
    (h : r_params_setn q k v = Run.ok q') : ∃ p, q' = q.set_r_params p := by
  unfold r_params_setn at h
  split at h
  · cases h
  · cases h; exact ⟨_, rfl⟩

theorem insert_uri_key_params (attrs : List AprTable) :
    ∀ q q' : Q2, insert_uri_key q attrs = Run.ok q' → ∃ p, q' = q.set_r_params p := by
  induction attrs with
  | nil => intro q q' h; cases h; exact ⟨q.r_params, rfl⟩
  | cons row rest ih =>
    intro q q' h
    unfold insert_uri_key at h
    repeat' split at h
    all_goals first
      | (cases h; done)
      | (cases h; exact ⟨q.r_params, rfl⟩)
      | exact ih _ _ h
      | exact r_params_setn_params _ _ _ _ h

theorem insert_parent_keys_row_params (row : AprTable) (rt : CStr)
    (l : List (Nat × String)) :
    ∀ q q' : Q2, insert_parent_keys_row row rt q l = Run.ok q' →
      ∃ p, q' = q.set_r_params p := by
  induction l with
  | nil => intro q q' h; cases h; exact ⟨q.r_params, rfl⟩
  | cons x rest ih =>
    intro q q' h
    obtain ⟨j, t⟩ := x
    unfold insert_parent_keys_row at h
    split at h
    · cases h
    · exact ih _ _ h
    · split at h
      · cases h
      · split at h
        · cases h
        · split at h
          · cases h
          · rename_i q2a hs
            obtain ⟨p1, rfl⟩ := r_params_setn_params _ _ _ _ hs
            obtain ⟨p2, hp2⟩ := ih _ _ h
            exact ⟨p2, hp2⟩

theorem insert_parent_keys_params (tabs : List String) (attrs : List AprTable) :
    ∀ q q' : Q2, insert_parent_keys tabs q attrs = Run.ok q' →
      ∃ p, q' = q.set_r_params p := by
  induction attrs with
  | nil => intro q q' h; cases h; exact ⟨q.r_params, rfl⟩
  | cons row rest ih =>
    intro q q' h
    unfold insert_parent_keys at h
    split at h
    · cases h
    · exact ih _ _ h
    · split at h
      · cases h
      · rename_i q2a hs
        obtain ⟨p1, rfl⟩ := insert_parent_keys_row_params _ _ _ _ _ hs
        obtain ⟨p2, hp2⟩ := ih _ _ h
        exact ⟨p2, hp2⟩

/-- The shape of what `q2_sql_insert` returns: the state differs from the
initial one in the bound parameters only, and a statement lists the columns
in attribute order with one value per column. -/
theorem sql_insert_shape (q2 qb : Q2) (attrs : List AprTable) (r : CStr)
    (ha : q2.attributes = some attrs) (hrows : ∀ row ∈ attrs, insert_attr_ok row)
    (h : q2_sql_insert q2 = Run.ok (qb, r)) :
    ∃ p, qb = q2.set_r_params p ∧
      ∀ sql, r = some sql → ∃ vals,
        sql = "INSERT INTO " ++ fmt_s q2.table ++ " ("
          ++ String.intercalate "," (attrs.map column_of) ++ ") VALUES ("
          ++ String.intercalate "," vals ++ ")" ∧
        List.Forall₂ (emits p) attrs vals := by
  unfold q2_sql_insert at h
  split at h
  · cases h
  · rw [ha] at h
    dsimp only at h
    split at h
    · cases h
    · rename_i q2a h1
      obtain ⟨p1, rfl⟩ : ∃ p, q2a = q2.set_r_params p := by
        split at h1
        · cases h1; exact ⟨q2.r_params, rfl⟩
        · exact insert_uri_key_params _ _ _ h1
      split at h
      · cases h
      · split at h
        · cases h
        · rename_i q2b h2
          obtain ⟨p2, rfl⟩ : ∃ p, q2b = q2.set_r_params p := by
            split at h2
            · obtain ⟨p, hp⟩ := insert_parent_keys_params _ _ _ _ h2
              exact ⟨p, hp⟩
            · cases h2; exact ⟨p1, rfl⟩
          have hrp : (q2.set_r_params p2).r_params = p2 := rfl
          rw [hrp] at h
          split at h
          · cases h
          · cases h
            exact ⟨p2, rfl, fun sql hs => by cases hs⟩
          · rename_i pr hv
            obtain ⟨cols, vals⟩ := pr
            obtain ⟨hc, hf⟩ := insert_values_emits p2 attrs cols vals hrows hv
            cases h
            refine ⟨p2, rfl, ?_⟩
            intro sql hs
            cases hs
            refine ⟨vals, ?_, hf⟩
            subst hc
            have htab : (q2.set_r_params p2).table = q2.table := rfl
            rw [htab]
            by_cases hz : attrs.length = 0
            · have : attrs = [] := List.length_eq_zero.mp hz
              subst this
              cases hf
              rfl
            · simp only [hz, if_false, apr_array_pstrcat]

/-- C24 on the code: a statement that `q2_sql_insert` yields is
`INSERT INTO <target> (<columns>) VALUES (<values>)` with the columns of the
target in attribute order and one value per column in the same order. The
value of a column that is neither nullable nor auto-increment is its bound
value; the value of a nullable or auto-increment column is the keyword
`default`, also when the column has a bound value. -/
theorem insert_statement_columns (q2 qb : Q2) (attrs : List AprTable) (sql : String)
    (ha : q2.attributes = some attrs) (hrows : ∀ row ∈ attrs, insert_attr_ok row)
    (h : q2_sql_insert q2 = Run.ok (qb, some sql)) :
    ∃ vals,
      sql = "INSERT INTO " ++ fmt_s q2.table ++ " ("
        ++ String.intercalate "," (attrs.map column_of) ++ ") VALUES ("
        ++ String.intercalate "," vals ++ ")" ∧
      List.Forall₂ (fun row v =>
        (mandatory row → ∃ name, apr_table_get row "column_name" = some name ∧
          bound_value qb name = some v) ∧
        (¬ mandatory row → v = "default")) attrs vals := by
  obtain ⟨p, rfl, hsql⟩ := sql_insert_shape q2 qb attrs (some sql) ha hrows h
  obtain ⟨vals, hs, hf⟩ := hsql sql rfl
  refine ⟨vals, hs, List.Forall₂.imp ?_ hf⟩
  intro row v hem
  rcases hem with ⟨hm, name, hname, hv⟩ | ⟨hnm, hv⟩
  · exact ⟨fun _ => ⟨name, hname, hv⟩, fun hn => absurd hm hn⟩
  · exact ⟨fun hm => absurd hm hnm, fun _ => hv⟩

/-- Witness of `insert_statement_columns`: the nullable column `title` is
bound to `Dune` and the statement inserts the keyword `default` for it. -/
theorem insert_statement_columns_witness :
    q2_sql_insert ex_post_nullable =
      Run.ok (ex_post_nullable.set_r_params (some [("title", some "Dune"), ("id", some "5")]),
        some "INSERT INTO books (id,title) VALUES (5,default)") ∧
    ∃ vals, vals.get? 1 = some "default" ∧
      "INSERT INTO books (id,title) VALUES (5,default)" =
        "INSERT INTO books (id,title) VALUES (" ++ String.intercalate "," vals ++ ")" := by
  have hrun : q2_sql_insert ex_post_nullable =
      Run.ok (ex_post_nullable.set_r_params (some [("title", some "Dune"), ("id", some "5")]),
        some "INSERT INTO books (id,title) VALUES (5,default)") := by decide
  refine ⟨hrun, ?_⟩
  obtain ⟨vals, hs, hf⟩ := insert_statement_columns ex_post_nullable _
    [ex_attr "id" true true false false "null", ex_attr "title" false false true false "null"]
    _ rfl
    (by
      intro row hrow
      simp only [List.mem_cons, List.mem_singleton, List.not_mem_nil, or_false] at hrow
      rcases hrow with rfl | rfl
      · exact ⟨⟨"id", rfl⟩, ⟨true, by decide⟩, ⟨false, by decide⟩, ⟨false, by decide⟩,
          ⟨"null", rfl⟩⟩
      · exact ⟨⟨"title", rfl⟩, ⟨false, by decide⟩, ⟨true, by decide⟩, ⟨false, by decide⟩,
          ⟨"null", rfl⟩⟩)
    hrun
  refine ⟨vals, ?_, hs⟩
  match vals, hf with
  | [v1, v2], List.Forall₂.cons _ (List.Forall₂.cons h2 List.Forall₂.nil) =>
    have hnm : ¬ mandatory (ex_attr "title" false false true false "null") := by
      intro hm
      exact absurd hm.1 (by decide)
    rw [h2.2 hnm]
    rfl

theorem sql_insert_single (q2 qb : Q2) (pkl : Rset) (attrs : List AprTable) (t : String)
    (hpk : q2.pk_attrs = some pkl) (ha : q2.attributes = some attrs)
    (hrows : ∀ row ∈ attrs, insert_attr_ok row)
    (hfirst : (if pkl.length > 1 then Run.ok q2 else insert_uri_key q2 attrs) = Run.ok qb)
    (ht : qb.uri_tables = some [t]) :
    ∃ r, q2_sql_insert q2 = Run.ok (qb, r) := by
  obtain ⟨rv, hrv, _⟩ := insert_values_ok qb.r_params attrs hrows
  unfold q2_sql_insert
  rw [hpk]
  dsimp only
  rw [ha]
  dsimp only
  rw [hfirst]
  dsimp only
  rw [ht]
  dsimp only
  rw [if_neg (by simp)]
  dsimp only
  rw [hrv]
  cases rv with
  | none => exact ⟨_, rfl⟩
  | some pr => exact ⟨_, rfl⟩

/-- C22: for a POST on a single-table path with the key `k`, where `prow` is
the first attribute flagged as primary key. When the target has no more than
one primary-key column and `prow` is not auto-increment, `k` is bound to it,
and in a statement that is yielded the value at the position of `prow` is `k`
(for a key column that is not nullable). When `prow` is auto-increment, or
the target has more than one primary-key column, the bound parameters are
left as they were. -/
theorem insert_key_from_uri (q2 : Q2) (pkl : Rset) (pre post : List AprTable)
    (prow : AprTable) (t k p : String) (ks : List String)
    (hpk : q2.pk_attrs = some pkl) (ha : q2.attributes = some (pre ++ prow :: post))
    (ht : q2.uri_tables = some [t]) (hk : q2.uri_keys = some (k :: ks))
    (hrows : ∀ row ∈ pre ++ prow :: post, insert_attr_ok row)
    (hpre : ∀ row ∈ pre, flag_p (apr_table_get row "is_primary_key") = Run.ok false)
    (hp : flag_p (apr_table_get prow "is_primary_key") = Run.ok true)
    (hname : apr_table_get prow "column_name" = some p) :
    (pkl.length ≤ 1 → flag_p (apr_table_get prow "is_auto_increment") = Run.ok false →
      ∃ qb r, q2_sql_insert q2 = Run.ok (qb, r) ∧
        qb = q2.set_r_params (some (apr_table_set (q2.r_params.getD []) p (some k))) ∧
        bound_value qb p = some k ∧
        (flag_p (apr_table_get prow "is_nullable") = Run.ok false →
          ∀ sql, r = some sql → ∃ vals,
            sql = "INSERT INTO " ++ fmt_s q2.table ++ " ("
              ++ String.intercalate "," ((pre ++ prow :: post).map column_of) ++ ") VALUES ("
              ++ String.intercalate "," vals ++ ")" ∧
            vals.length = (pre ++ prow :: post).length ∧
            vals.get? pre.length = some k)) ∧
    (pkl.length ≤ 1 → flag_p (apr_table_get prow "is_auto_increment") = Run.ok true →
      ∃ r, q2_sql_insert q2 = Run.ok (q2, r)) ∧
    (1 < pkl.length → ∃ r, q2_sql_insert q2 = Run.ok (q2, r)) := by
  obtain ⟨hauto, hset⟩ := insert_uri_key_first q2 pre post prow hpre hp
  refine ⟨?_, ?_, ?_⟩
  · intro hlen hna
    have hfirst : (if pkl.length > 1 then Run.ok q2
        else insert_uri_key q2 (pre ++ prow :: post)) =
        Run.ok (q2.set_r_params (some (apr_table_set (q2.r_params.getD []) p (some k)))) := by
      rw [if_neg (by omega)]
      exact hset hna k ks p hk hname
    obtain ⟨r, hr⟩ := sql_insert_single q2 _ pkl _ t hpk ha hrows hfirst ht
    have hb : bound_value (q2.set_r_params
        (some (apr_table_set (q2.r_params.getD []) p (some k)))) p = some k :=
      table_get_set_same _ p (some k)
    refine ⟨_, r, hr, rfl, hb, ?_⟩
    intro hnn sql hsql
    subst hsql
    obtain ⟨p2, hp2, hshape⟩ := sql_insert_shape q2 _ _ _ ha hrows hr
    obtain ⟨vals, hs, hf⟩ := hshape _ rfl
    have hp2' : p2 = some (apr_table_set (q2.r_params.getD []) p (some k)) := by
      have := congrArg Q2.r_params hp2
      exact this.symm
    subst hp2'
    refine ⟨vals, hs, hf.length_eq.symm, ?_⟩
    obtain ⟨v, hv, hem⟩ := forall2_at _ pre post prow vals hf
    rcases hem with ⟨_, name, hname2, hval⟩ | ⟨hnm, _⟩
    · rw [hname] at hname2
      injection hname2 with e
      subst e
      have hval2 : param_value (some (apr_table_set (q2.r_params.getD []) p (some k))) p
          = some k := table_get_set_same _ p (some k)
      rw [hval2] at hval
      injection hval with e
      rw [hv, e]
    · exact absurd ⟨hnn, hna⟩ hnm
  · intro hlen ha2
    have hfirst : (if pkl.length > 1 then Run.ok q2
        else insert_uri_key q2 (pre ++ prow :: post)) = Run.ok q2 := by
      rw [if_neg (by omega)]
      exact hauto ha2
    exact sql_insert_single q2 q2 pkl _ t hpk ha hrows hfirst ht
  · intro hlen
    have hfirst : (if pkl.length > 1 then Run.ok q2
        else insert_uri_key q2 (pre ++ prow :: post)) = Run.ok q2 := by
      rw [if_pos hlen]
    exact sql_insert_single q2 q2 pkl _ t hpk ha hrows hfirst ht

/-- Witness of `insert_key_from_uri`: a POST on `books(id, title)` at key 5
that binds `title`. -/
theorem insert_key_from_uri_witness :
    ∃ qb r, q2_sql_insert ex_post_nullable = Run.ok (qb, r) ∧
      qb = ex_post_nullable.set_r_params
        (some (apr_table_set [("title", some "Dune")] "id" (some "5"))) ∧
      bound_value qb "id" = some "5" :=
  Exists.imp (fun _ h => Exists.imp (fun _ h2 => ⟨h2.1, h2.2.1, h2.2.2.1⟩) h)
    ((insert_key_from_uri ex_post_nullable [[("column_name", some "id")]] []
      [ex_attr "title" false false true false "null"]
      (ex_attr "id" true true false false "null") "books" "5" "id" [] rfl rfl rfl rfl
      (by
        intro row hrow
        simp only [List.nil_append, List.mem_cons, List.mem_singleton, List.not_mem_nil,
          or_false] at hrow
        rcases hrow with rfl | rfl
        · exact ⟨⟨"id", rfl⟩, ⟨true, by decide⟩, ⟨false, by decide⟩, ⟨false, by decide⟩,
            ⟨"null", rfl⟩⟩
        · exact ⟨⟨"title", rfl⟩, ⟨false, by decide⟩, ⟨true, by decide⟩, ⟨false, by decide⟩,
            ⟨"null", rfl⟩⟩)
      (fun row h => absurd h (List.not_mem_nil row)) (by decide) rfl).1
      (by decide) (by decide))

theorem parent_keys_row_bound (row : AprTable) (rt name : String) (keys : List String)
    (hname : apr_table_get row "column_name" = some name) :
    ∀ (l : List (Nat × String)) (q : Q2), q.uri_keys = some keys →
      (∀ x ∈ l, x.2 = rt → x.1 < keys.length) →
      ∃ p, insert_parent_keys_row row (some rt) q l = Run.ok (q.set_r_params p) ∧
        (∀ n, ¬ same_key name n → param_value p n = param_value q.r_params n) ∧
        ((∀ x ∈ l, x.2 ≠ rt) → p = q.r_params) ∧
        (∀ j v, (j, rt) ∈ l → (∀ j', (j', rt) ∈ l → j' = j) → keys.get? j = some v →
          param_value p name = some v) := by
  intro l
  induction l with
  | nil =>
    intro q _ _
    refine ⟨q.r_params, rfl, fun _ _ => rfl, fun _ => rfl, ?_⟩
    intro j v hj
    cases hj
  | cons x rest ih =>
    intro q hk hlt
    obtain ⟨j0, tab⟩ := x
    have hrest : ∀ y ∈ rest, y.2 = rt → y.1 < keys.length :=
      fun y h => hlt y (List.mem_cons_of_mem _ h)
    have hs : strcmp_eq (some rt) (some tab) = Run.ok (rt == tab) := rfl
    rw [insert_parent_keys_row, hs]
    by_cases he : rt = tab
    · subst he
      have hj0 : j0 < keys.length := hlt (j0, rt) (List.mem_cons_self _ _) rfl
      obtain ⟨v0, hv0⟩ : ∃ v, keys.get? j0 = some v := by
        cases h : keys.get? j0 with
        | none => exact absurd (List.get?_eq_none.mp h) (by omega)
        | some v => exact ⟨v, rfl⟩
      have hidx : apr_array_idx keys j0 = Run.ok v0 := by
        unfold apr_array_idx
        rw [hv0]
      have hset : r_params_setn q (some name) (some v0)
          = Run.ok (q.set_r_params (some (apr_table_set (q.r_params.getD []) name (some v0)))) :=
        rfl
      simp only [beq_self_eq_true, hk, hidx, hname, hset]
      obtain ⟨p, hp, hother, hnone, hsome⟩ := ih (q.set_r_params
        (some (apr_table_set (q.r_params.getD []) name (some v0)))) hk hrest
      refine ⟨p, hp, ?_, ?_, ?_⟩
      · intro n hn
        rw [hother n hn]
        exact param_value_set_other q.r_params name n (some v0) hn
      · intro hall
        exact absurd rfl (hall (j0, rt) (List.mem_cons_self _ _))
      · intro j v hj huniq hv
        have hjj : j0 = j := huniq j0 (List.mem_cons_self _ _)
        subst hjj
        rw [hv0] at hv
        injection hv with hv
        subst hv
        by_cases hin : ∃ j', (j', rt) ∈ rest
        · obtain ⟨j', hj'⟩ := hin
          have e : j' = j0 := huniq j' (List.mem_cons_of_mem _ hj')
          subst e
          exact hsome j' v0 hj' (fun j2 h2 => huniq j2 (List.mem_cons_of_mem _ h2))
            (by rw [hv0])
        · have hall : ∀ x ∈ rest, x.2 ≠ rt := by
            intro x hx hx2
            apply hin
            refine ⟨x.1, ?_⟩
            rw [← hx2]
            exact hx
          rw [hnone hall]
          exact param_value_set_same q.r_params name (some v0)
    · have hne : (rt == tab) = false := by simp [he]
      simp only [hne]
      obtain ⟨p, hp, hother, hnone, hsome⟩ := ih q hk hrest
      refine ⟨p, hp, hother, ?_, ?_⟩
      · intro hall
        exact hnone (fun y hy => hall y (List.mem_cons_of_mem _ hy))
      · intro j v hj huniq hv
        have hj2 : (j, rt) ∈ rest := by
          rcases List.mem_cons.mp hj with h | h
          · injection h with _ h2
            exact absurd h2 he
          · exact h
        exact hsome j v hj2 (fun j' h' => huniq j' (List.mem_cons_of_mem _ h')) hv

theorem enum_unique (tabs : List String) (hd : tabs.Nodup) (j j' : Nat) (t : String)
    (h1 : (j, t) ∈ tabs.enum) (h2 : (j', t) ∈ tabs.enum) : j' = j := by
  have e1 := List.mk_mem_enum_iff_getElem?.mp h1
  have e2 := List.mk_mem_enum_iff_getElem?.mp h2
  have hlt : j' < tabs.length := List.fst_lt_of_mem_enum h2
  exact List.getElem?_inj hlt hd (e2.trans e1.symm)

theorem parent_keys_bound (tabs keys : List String) (hd : tabs.Nodup) :
    ∀ (attrs : List AprTable) (q : Q2), q.uri_keys = some keys →
      (∀ row ∈ attrs, insert_attr_ok row) →
      List.Pairwise (fun a b => ∀ na nb, apr_table_get a "column_name" = some na →
        apr_table_get b "column_name" = some nb → ¬ same_key na nb) attrs →
      (∀ row ∈ attrs, flag_p (apr_table_get row "is_primary_key") = Run.ok true →
        ∀ j t, tabs.get? j = some t → apr_table_get row "referenced_table" = some t →
          j < keys.length) →
      ∃ pf, insert_parent_keys tabs q attrs = Run.ok (q.set_r_params pf) ∧
        (∀ row ∈ attrs, flag_p (apr_table_get row "is_primary_key") = Run.ok true →
          ∀ j t v name, tabs.get? j = some t →
            apr_table_get row "referenced_table" = some t → keys.get? j = some v →
            apr_table_get row "column_name" = some name → param_value pf name = some v) ∧
        (∀ n, (∀ row ∈ attrs, flag_p (apr_table_get row "is_primary_key") = Run.ok true →
            ∀ name, apr_table_get row "column_name" = some name → ¬ same_key name n) →
          param_value pf n = param_value q.r_params n) := by
  intro attrs
  induction attrs with
  | nil =>
    intro q _ _ _ _
    exact ⟨q.r_params, rfl, fun row h => absurd h (List.not_mem_nil row), fun _ _ => rfl⟩
  | cons r rest ih =>
    intro q hk hok hpw hidx
    obtain ⟨⟨name, hname⟩, ⟨bp, hbp⟩, _, _, ⟨rt, hrt⟩⟩ := hok r (List.mem_cons_self _ _)
    have hrest : ∀ row ∈ rest, insert_attr_ok row :=
      fun row h => hok row (List.mem_cons_of_mem _ h)
    have hpw2 := (List.pairwise_cons.mp hpw).2
    have hpw1 := (List.pairwise_cons.mp hpw).1
    have hidx2 : ∀ row ∈ rest, flag_p (apr_table_get row "is_primary_key") = Run.ok true →
        ∀ j t, tabs.get? j = some t → apr_table_get row "referenced_table" = some t →
          j < keys.length := fun row h => hidx row (List.mem_cons_of_mem _ h)
    rw [insert_parent_keys]
    simp only [hbp]
    cases bp with
    | false =>
      obtain ⟨pf, hpf, hb, hu⟩ := ih q hk hrest hpw2 hidx2
      refine ⟨pf, hpf, ?_, ?_⟩
      · intro row hrow hpk
        rcases List.mem_cons.mp hrow with rfl | hin
        · rw [hbp] at hpk; cases hpk
        · exact hb row hin hpk
      · intro n hn
        exact hu n (fun row hrow => hn row (List.mem_cons_of_mem _ hrow))
    | true =>
      simp only [hrt]
      obtain ⟨p1, hp1, hother, hnone, hsome⟩ := parent_keys_row_bound r rt name keys hname
        tabs.enum q hk (by
          intro x hx hx2
          have hg : tabs.get? x.1 = some x.2 := by
            rw [List.get?_eq_getElem?]
            exact List.mem_enum_iff_getElem?.mp hx
          exact hidx r (List.mem_cons_self _ _) hbp x.1 x.2 hg (by rw [hrt, hx2]))
      rw [hp1]
      obtain ⟨pf, hpf, hb, hu⟩ := ih (q.set_r_params p1) hk hrest hpw2 hidx2
      have hkeep : param_value pf name = param_value p1 name := by
        apply hu
        intro row hrow _ nm hnm
        exact fun hs => hpw1 row hrow name nm hname hnm (same_key_symm hs)
      refine ⟨pf, hpf, ?_, ?_⟩
      · intro row hrow hpk j t v nm hj hreft hv hnm
        rcases List.mem_cons.mp hrow with rfl | hin
        · rw [hname] at hnm
          injection hnm with e
          subst e
          rw [hrt] at hreft
          injection hreft with e
          subst e
          rw [hkeep]
          have hmem : (j, rt) ∈ tabs.enum := by
            rw [List.get?_eq_getElem?] at hj
            exact List.mk_mem_enum_iff_getElem?.mpr hj
          exact hsome j v hmem (fun j' h' => enum_unique tabs hd j j' rt hmem h') hv
        · exact hb row hin hpk j t v nm hj hreft hv hnm
      · intro n hn
        have h1 : param_value pf n = param_value p1 n :=
          hu n (fun row hrow => hn row (List.mem_cons_of_mem _ hrow))
        rw [h1]
        exact hother n (hn r (List.mem_cons_self _ _) hbp name hname)

theorem insert_uri_key_other :
    ∀ (attrs : List AprTable) (q : Q2), (∀ row ∈ attrs, insert_attr_ok row) →
      ∃ p, insert_uri_key q attrs = Run.ok (q.set_r_params p) ∧
        ∀ n, (∀ row ∈ attrs, flag_p (apr_table_get row "is_primary_key") = Run.ok true →
            ∀ name, apr_table_get row "column_name" = some name → ¬ same_key name n) →
          param_value p n = param_value q.r_params n := by
  intro attrs
  induction attrs with
  | nil => intro q _; exact ⟨q.r_params, rfl, fun _ _ => rfl⟩
  | cons r rest ih =>
    intro q hok
    obtain ⟨⟨name, hname⟩, ⟨bp, hbp⟩, _, ⟨ba, hba⟩, _⟩ := hok r (List.mem_cons_self _ _)
    rw [insert_uri_key]
    simp only [hbp, hba, hname]
    cases bp with
    | false =>
      obtain ⟨p, hp, hu⟩ := ih q (fun row h => hok row (List.mem_cons_of_mem _ h))
      exact ⟨p, hp, fun n hn => hu n (fun row hrow => hn row (List.mem_cons_of_mem _ hrow))⟩
    | true =>
      cases ba with
      | true => exact ⟨q.r_params, rfl, fun _ _ => rfl⟩
      | false =>
        simp only []
        cases hk : q.uri_keys with
        | none => exact ⟨q.r_params, rfl, fun _ _ => rfl⟩
        | some keys =>
          cases keys with
          | nil => exact ⟨q.r_params, rfl, fun _ _ => rfl⟩
          | cons v vs =>
            refine ⟨_, rfl, ?_⟩
            intro n hn
            exact param_value_set_other q.r_params name n (some v)
              (hn r (List.mem_cons_self _ _) hbp name hname)

theorem forall2_imp_mem {α β : Type} (R S : α → β → Prop) :
    ∀ (l : List α) (l2 : List β), List.Forall₂ R l l2 →
      (∀ a b, a ∈ l → R a b → S a b) → List.Forall₂ S l l2 := by
  intro l l2 h
  induction h with
  | nil => intro _; exact List.Forall₂.nil
  | cons hab _ ih =>
    intro himp
    exact List.Forall₂.cons (himp _ _ (List.mem_cons_self _ _) hab)
      (ih (fun a b ha hr => himp a b (List.mem_cons_of_mem _ ha) hr))

/-- C23 (amended): for a POST on a path of more than one table, every column
of the target that is flagged as primary key and references a table of the
path is bound to the URI key aligned with that table, and in a statement that
is yielded that key is the value of the column when the column is neither
nullable nor auto-increment. A column that is not flagged as primary key is
left as the request bound it: a foreign key outside the primary key gets no
value from the URI. -/
theorem insert_parent_keys_into_pk (q2 : Q2) (pkl : Rset) (attrs : List AprTable)
    (tabs keys : List String)
    (hpk : q2.pk_attrs = some pkl) (ha : q2.attributes = some attrs)
    (ht : q2.uri_tables = some tabs) (hmulti : 1 < tabs.length)
    (hk : q2.uri_keys = some keys) (hd : tabs.Nodup)
    (hrows : ∀ row ∈ attrs, insert_attr_ok row)
    (hpw : List.Pairwise (fun a b => ∀ na nb, apr_table_get a "column_name" = some na →
      apr_table_get b "column_name" = some nb → ¬ same_key na nb) attrs)
    (hidx : ∀ row ∈ attrs, flag_p (apr_table_get row "is_primary_key") = Run.ok true →
      ∀ j t, tabs.get? j = some t → apr_table_get row "referenced_table" = some t →
        j < keys.length) :
    ∃ qb r, q2_sql_insert q2 = Run.ok (qb, r) ∧
      (∀ row ∈ attrs, flag_p (apr_table_get row "is_primary_key") = Run.ok true →
        ∀ j t k name, tabs.get? j = some t →
          apr_table_get row "referenced_table" = some t → keys.get? j = some k →
          apr_table_get row "column_name" = some name → bound_value qb name = some k) ∧
      (∀ row ∈ attrs, flag_p (apr_table_get row "is_primary_key") = Run.ok false →
        ∀ name, apr_table_get row "column_name" = some name →
          bound_value qb name = bound_value q2 name) ∧
      (∀ sql, r = some sql → ∃ vals,
        sql = "INSERT INTO " ++ fmt_s q2.table ++ " ("
          ++ String.intercalate "," (attrs.map column_of) ++ ") VALUES ("
          ++ String.intercalate "," vals ++ ")" ∧
        List.Forall₂ (fun row v =>
          flag_p (apr_table_get row "is_primary_key") = Run.ok true → mandatory row →
          ∀ j t k, tabs.get? j = some t → apr_table_get row "referenced_table" = some t →
            keys.get? j = some k → v = k) attrs vals) := by
  obtain ⟨p1, hp1, hu1⟩ : ∃ p1,
      (if pkl.length > 1 then Run.ok q2 else insert_uri_key q2 attrs)
        = Run.ok (q2.set_r_params p1) ∧
      ∀ n, (∀ row ∈ attrs, flag_p (apr_table_get row "is_primary_key") = Run.ok true →
          ∀ name, apr_table_get row "column_name" = some name → ¬ same_key name n) →
        param_value p1 n = param_value q2.r_params n := by
    split
    · exact ⟨q2.r_params, rfl, fun _ _ => rfl⟩
    · exact insert_uri_key_other attrs q2 hrows
  obtain ⟨pf, hpf0, hb, hu⟩ := parent_keys_bound tabs keys hd attrs (q2.set_r_params p1) hk
    hrows hpw hidx
  have hpf : insert_parent_keys tabs (q2.set_r_params p1) attrs
      = Run.ok (q2.set_r_params pf) := hpf0
  obtain ⟨rv, hrv, _⟩ := insert_values_ok pf attrs hrows
  have hrun : ∃ r, q2_sql_insert q2 = Run.ok (q2.set_r_params pf, r) := by
    have ht1 : (q2.set_r_params p1).uri_tables = some tabs := ht
    have hrp : (q2.set_r_params pf).r_params = pf := rfl
    unfold q2_sql_insert
    rw [hpk]
    dsimp only
    rw [ha]
    dsimp only
    rw [hp1]
    dsimp only
    rw [ht1]
    dsimp only
    rw [if_pos hmulti, hpf]
    dsimp only
    rw [hrp, hrv]
    cases rv with
    | none => exact ⟨_, rfl⟩
    | some pr => exact ⟨_, rfl⟩
  obtain ⟨r, hr⟩ := hrun
  have hdistinct : ∀ row ∈ attrs, ∀ row2 ∈ attrs,
      flag_p (apr_table_get row "is_primary_key") = Run.ok false →
      flag_p (apr_table_get row2 "is_primary_key") = Run.ok true →
      ∀ n n2, apr_table_get row "column_name" = some n →
        apr_table_get row2 "column_name" = some n2 → ¬ same_key n2 n := by
    intro row hrow row2 hrow2 hf1 hf2 n n2 hn hn2 hs
    have hne : row2 ≠ row := by
      intro e
      subst e
      rw [hf1] at hf2
      cases hf2
    have hsym : Symmetric (fun a b : AprTable =>
        ∀ na nb, apr_table_get a "column_name" = some na →
          apr_table_get b "column_name" = some nb → ¬ same_key na nb) :=
      fun a b h na nb h1 h2 hs2 => h nb na h2 h1 (same_key_symm hs2)
    exact (List.Pairwise.forall hsym hpw hrow2 hrow hne) n2 n hn2 hn hs
  refine ⟨_, r, hr, ?_, ?_, ?_⟩
  · intro row hrow hpkr j t k name hj hreft hkj hname
    exact hb row hrow hpkr j t k name hj hreft hkj hname
  · intro row hrow hnpk name hname
    have h1 : param_value pf name = param_value p1 name :=
      hu name (fun row2 hrow2 hpk2 n2 hn2 =>
        hdistinct row hrow row2 hrow2 hnpk hpk2 name n2 hname hn2)
    have h2 : param_value p1 name = param_value q2.r_params name :=
      hu1 name (fun row2 hrow2 hpk2 n2 hn2 =>
        hdistinct row hrow row2 hrow2 hnpk hpk2 name n2 hname hn2)
    exact h1.trans h2
  · intro sql hsql
    subst hsql
    obtain ⟨p2, hp2, hshape⟩ := sql_insert_shape q2 _ _ _ ha hrows hr
    obtain ⟨vals, hs, hf⟩ := hshape _ rfl
    have hp2' : p2 = pf := by
      have := congrArg Q2.r_params hp2
      exact this.symm
    subst hp2'
    refine ⟨vals, hs, ?_⟩
    refine forall2_imp_mem _ _ attrs vals hf ?_
    intro row v hrow hem hpkr hman j t k hj hreft hkj
    rcases hem with ⟨_, name, hname, hval⟩ | ⟨hnm, _⟩
    · have hbk := hb row hrow hpkr j t k name hj hreft hkj hname
      rw [hbk] at hval
      injection hval with e
      exact e.symm
    · exact absurd hman hnm

/-- Witness of `insert_parent_keys_into_pk`: on the path citizens/7/passports
the key column `citizen_id`, which references `citizens`, is bound to 7. -/
theorem insert_parent_keys_into_pk_witness :
    ∃ qb r, q2_sql_insert ex_post_passport = Run.ok (qb, r) ∧
      bound_value qb "citizen_id" = some "7" := by
  obtain ⟨qb, r, hrun, hb, _, _⟩ := insert_parent_keys_into_pk ex_post_passport
    [[("column_name", some "citizen_id")]]
    [ex_attr "citizen_id" true true false false "citizens",
     ex_attr "number" false false false false "null"]
    ["citizens", "passports"] ["7"] rfl rfl rfl (by decide) rfl (by decide)
    (by
      intro row hrow
      simp only [List.mem_cons, List.mem_singleton, List.not_mem_nil, or_false] at hrow
      rcases hrow with rfl | rfl
      · exact ⟨⟨"citizen_id", rfl⟩, ⟨true, by decide⟩, ⟨false, by decide⟩,
          ⟨false, by decide⟩, ⟨"citizens", rfl⟩⟩
      · exact ⟨⟨"number", rfl⟩, ⟨false, by decide⟩, ⟨false, by decide⟩, ⟨false, by decide⟩,
          ⟨"null", rfl⟩⟩)
    (by
      rw [List.pairwise_pair]
      intro na nb h1 h2
      have e1 : na = "citizen_id" := (Option.some.inj h1).symm
      have e2 : nb = "number" := (Option.some.inj h2).symm
      subst e1; subst e2
      unfold same_key
      decide)
    (by
      intro row hrow hpk j t hj href
      simp only [List.mem_cons, List.mem_singleton, List.not_mem_nil, or_false] at hrow
      rcases hrow with rfl | rfl
      · have e : t = "citizens" := (Option.some.inj href).symm
        subst e
        match j, hj with
        | 0, _ => decide
        | 1, hj => exact absurd hj (by decide)
        | n + 2, hj => exact absurd hj (by simp)
      · exact absurd hpk (by decide))
  exact ⟨qb, r, hrun, hb _ (List.mem_cons_self _ _) (by decide) 0 "citizens" "7" "citizen_id"
    rfl rfl rfl rfl⟩

/-- C23 as stated fails: on the path customers/1/orders the foreign key
`customer_id` of `orders` references the path table `customers` but is not
part of the primary key; `q2_sql_insert` binds nothing to it, and since the
column must have a value no statement is yielded. -/
theorem insert_parent_keys_stated_fails :
    apr_table_get (ex_attr "customer_id" false true false false "customers")
      "referenced_table" = some "customers" ∧
    ∃ qb, q2_sql_insert ex_post_order = Run.ok (qb, none) ∧
      bound_value qb "customer_id" = none ∧ qb.r_params = some [("note", some "gift")] :=
  ⟨by decide, _, rfl, rfl, rfl⟩

theorem update_pk_name_kept (pkrow : AprTable) (p : String)
    (hp : apr_table_get pkrow "column_name" = some p) :
    ∀ attrs : List AprTable, (∀ row ∈ attrs, row ≠ pkrow → non_key_attr row) →
      update_pk_name attrs (some p) = some (some p) := by
  intro attrs
  induction attrs with
  | nil => intro _; rfl
  | cons r rest ih =>
    intro h
    have hrest := ih (fun row hrow => h row (List.mem_cons_of_mem _ hrow))
    rw [update_pk_name]
    by_cases e : r = pkrow
    · subst e
      cases hg : apr_table_get r "is_primary_key" with
      | none => exact hrest
      | some s =>
        simp only [hp]
        split
        · exact hrest
        · exact hrest
    · have hr := (h r (List.mem_cons_self _ _) e).1
      cases hg : apr_table_get r "is_primary_key" with
      | none => rw [hg] at hr; cases hr
      | some s =>
        rw [hg] at hr
        simp only [flag_p, Run.ok.injEq, bne_eq_false_iff_eq] at hr
        simp only [hr, if_true]
        exact hrest

theorem update_pk_name_member (pkrow : AprTable) (p : String)
    (hkey : flag_p (apr_table_get pkrow "is_primary_key") = Run.ok true)
    (hp : apr_table_get pkrow "column_name" = some p) :
    ∀ attrs : List AprTable, pkrow ∈ attrs →
      (∀ row ∈ attrs, row ≠ pkrow → non_key_attr row) →
      update_pk_name attrs none = some (some p) := by
  intro attrs
  induction attrs with
  | nil => intro h; cases h
  | cons r rest ih =>
    intro hin h
    have hrest := fun row (hrow : row ∈ rest) => h row (List.mem_cons_of_mem _ hrow)
    rw [update_pk_name]
    by_cases e : r = pkrow
    · subst e
      cases hg : apr_table_get r "is_primary_key" with
      | none => rw [hg] at hkey; cases hkey
      | some s =>
        rw [hg] at hkey
        simp only [flag_p, Run.ok.injEq, bne_iff_ne, ne_eq] at hkey
        simp only [hkey, if_false, hp]
        exact update_pk_name_kept r p hp rest hrest
    · have hr := (h r (List.mem_cons_self _ _) e).1
      cases hg : apr_table_get r "is_primary_key" with
      | none => rw [hg] at hr; cases hr
      | some s =>
        rw [hg] at hr
        simp only [flag_p, Run.ok.injEq, bne_eq_false_iff_eq] at hr
        simp only [hr, if_true]
        rcases List.mem_cons.mp hin with h1 | h1
        · exact absurd h1.symm e
        · exact ih h1 hrest

theorem update_pair_other (db : Dbd) (q2 : Q2) (row : AprTable) (name col : String)
    (h : non_key_attr row) (hname : apr_table_get row "column_name" = some name)
    (hu : bound_value q2 name = none) (hc : q2.column = some col) (hne : name ≠ col) :
    update_pair db q2 false row = Run.ok PairStep.skip := by
  obtain ⟨hpk, ⟨bn, hn⟩, _, _⟩ := h
  unfold update_pair
  unfold bound_value at hu
  have e : (col != name) = true := by
    simp only [bne_iff_ne, ne_eq]
    exact fun e => hne e.symm
  simp only [hpk, hn, hname, hu, hc, e, if_true, Bool.false_eq_true, if_false]

theorem update_pair_body (db : Dbd) (q2 : Q2) (row : AprTable) (col b : String)
    (h : non_key_attr row) (hname : apr_table_get row "column_name" = some col)
    (hu : bound_value q2 col = none) (hc : q2.column = some col)
    (hraw : q2.request_rawdata = some b) :
    ∃ v, ((flag_p (apr_table_get row "is_numeric") = Run.ok true ∧ v = b) ∨
        (flag_p (apr_table_get row "is_numeric") = Run.ok false ∧
          q2_sql_encode_value db q2 row (some b) = Run.ok (some v))) ∧
      update_pair db q2 false row = Run.ok (PairStep.pair (col ++ "=" ++ v)) := by
  obtain ⟨hpk, ⟨bn, hn⟩, hd, _⟩ := h
  obtain ⟨lit, hlit⟩ := encode_value_ok db q2 row b ⟨bn, hn⟩ hd
  unfold update_pair
  unfold bound_value at hu
  have e : (col != col) = false := by simp
  simp only [hpk, hn, hname, hu, hc, e, hraw, Bool.false_eq_true, if_false]
  cases bn with
  | true => exact ⟨b, Or.inl ⟨rfl, rfl⟩, by simp⟩
  | false => exact ⟨lit, Or.inr ⟨rfl, hlit⟩, by simp [hlit, fmt_s]⟩

theorem update_pairs_none (db : Dbd) (q2 : Q2) (col : String) (hc : q2.column = some col) :
    ∀ attrs : List AprTable,
      (∀ row ∈ attrs, flag_p (apr_table_get row "is_primary_key") = Run.ok true ∨
        (non_key_attr row ∧ apr_table_get row "column_name" ≠ some col)) →
      (∀ row ∈ attrs, non_key_attr row →
        ∀ name, apr_table_get row "column_name" = some name → bound_value q2 name = none) →
      update_pairs db q2 false attrs = Run.ok (Sum.inr []) := by
  intro attrs
  induction attrs with
  | nil => intro _ _; rfl
  | cons r rest ih =>
    intro hok hu
    have hrest := ih (fun row h => hok row (List.mem_cons_of_mem _ h))
      (fun row h => hu row (List.mem_cons_of_mem _ h))
    rw [update_pairs]
    rcases hok r (List.mem_cons_self _ _) with hkey | ⟨hnk, hne⟩
    · rw [update_pair_key db q2 false r hkey]
      exact hrest
    · obtain ⟨name, hname⟩ := hnk.2.2.2
      rw [update_pair_other db q2 r name col hnk hname
        (hu r (List.mem_cons_self _ _) hnk name hname) hc
        (fun e => hne (by rw [hname, e]))]
      exact hrest

theorem update_pairs_one (db : Dbd) (q2 : Q2) (col b : String) (crow : AprTable)
    (hc : q2.column = some col) (hraw : q2.request_rawdata = some b)
    (hcnk : non_key_attr crow) (hcname : apr_table_get crow "column_name" = some col) :
    ∀ attrs : List AprTable, attrs.Nodup → crow ∈ attrs →
      (∀ row ∈ attrs, flag_p (apr_table_get row "is_primary_key") = Run.ok true ∨
        non_key_attr row) →
      (∀ row ∈ attrs, apr_table_get row "column_name" = some col → row = crow) →
      (∀ row ∈ attrs, non_key_attr row →
        ∀ name, apr_table_get row "column_name" = some name → bound_value q2 name = none) →
      ∃ v, ((flag_p (apr_table_get crow "is_numeric") = Run.ok true ∧ v = b) ∨
          (flag_p (apr_table_get crow "is_numeric") = Run.ok false ∧
            q2_sql_encode_value db q2 crow (some b) = Run.ok (some v))) ∧
        update_pairs db q2 false attrs = Run.ok (Sum.inr [col ++ "=" ++ v]) := by
  intro attrs
  induction attrs with
  | nil => intro _ h; cases h
  | cons r rest ih =>
    intro hnd hin hok huniq hu
    have hndr := (List.nodup_cons.mp hnd).2
    have hokr := fun row (h : row ∈ rest) => hok row (List.mem_cons_of_mem _ h)
    have huniqr := fun row (h : row ∈ rest) => huniq row (List.mem_cons_of_mem _ h)
    have hur := fun row (h : row ∈ rest) => hu row (List.mem_cons_of_mem _ h)
    rw [update_pairs]
    by_cases e : r = crow
    · subst e
      obtain ⟨v, hv, hpair⟩ := update_pair_body db q2 r col b hcnk hcname
        (hu r (List.mem_cons_self _ _) hcnk col hcname) hc hraw
      have hnone := update_pairs_none db q2 col hc rest
        (fun row hrow => by
          rcases hokr row hrow with h1 | h1
          · exact Or.inl h1
          · refine Or.inr ⟨h1, fun hn => ?_⟩
            have := huniqr row hrow hn
            rw [this] at hrow
            exact (List.nodup_cons.mp hnd).1 hrow) hur
      rw [hpair, hnone]
      exact ⟨v, hv, rfl⟩
    · have hin2 : crow ∈ rest := by
        rcases List.mem_cons.mp hin with h1 | h1
        · exact absurd h1.symm e
        · exact h1
      obtain ⟨v, hv, hrun⟩ := ih hndr hin2 hokr huniqr hur
      refine ⟨v, hv, ?_⟩
      rcases hok r (List.mem_cons_self _ _) with hkey | hnk
      · rw [update_pair_key db q2 false r hkey]
        exact hrun
      · obtain ⟨name, hname⟩ := hnk.2.2.2
        rw [update_pair_other db q2 r name col hnk hname
          (hu r (List.mem_cons_self _ _) hnk name hname) hc
          (fun e2 => e (huniq r (List.mem_cons_self _ _) (by rw [hname, e2])))]
        exact hrun

/-- C25 (amended): for a partial update with a key `k` in the URI, a raw
body `b`, a bare column `col` naming the non-key column `crow` of the target,
a single primary-key column `p`, and no request parameter bound to a non-key
column, `q2_sql_update` yields `UPDATE t SET col=v WHERE p=k` with exactly one
assignment: `v` is the body as it is for a numeric column and the body
encoded by `q2_sql_encode_value` otherwise. -/
theorem patch_single_assignment (db : Dbd) (q2 : Q2) (k : String) (ks : List String)
    (b col p : String) (attrs : List AprTable) (pkrow crow : AprTable) (pkl : Rset)
    (hk : q2.uri_keys = some (k :: ks))
    (hraw : q2.request_rawdata = some b)
    (hc : q2.column = some col)
    (ha : q2.attributes = some attrs)
    (hpkl : q2.pk_attrs = some pkl) (hpk1 : pkl.length ≤ 1)
    (hnd : attrs.Nodup)
    (hpin : pkrow ∈ attrs)
    (hkey : flag_p (apr_table_get pkrow "is_primary_key") = Run.ok true)
    (hp : apr_table_get pkrow "column_name" = some p)
    (hnk : ∀ row ∈ attrs, row ≠ pkrow → non_key_attr row)
    (hcin : crow ∈ attrs)
    (hcnk : non_key_attr crow)
    (hcname : apr_table_get crow "column_name" = some col)
    (huniq : ∀ row ∈ attrs, apr_table_get row "column_name" = some col → row = crow)
    (hu : ∀ row ∈ attrs, non_key_attr row →
      ∀ name, apr_table_get row "column_name" = some name → bound_value q2 name = none) :
    ∃ v, ((flag_p (apr_table_get crow "is_numeric") = Run.ok true ∧ v = b) ∨
        (flag_p (apr_table_get crow "is_numeric") = Run.ok false ∧
          q2_sql_encode_value db q2 crow (some b) = Run.ok (some v))) ∧
      q2_sql_update db q2 false = Run.ok (q2, some ("UPDATE " ++ fmt_s q2.table ++ " SET "
        ++ col ++ "=" ++ v ++ " WHERE " ++ p ++ "=" ++ k)) := by
  have hok : ∀ row ∈ attrs,
      flag_p (apr_table_get row "is_primary_key") = Run.ok true ∨ non_key_attr row := by
    intro row hrow
    by_cases e : row = pkrow
    · exact Or.inl (e ▸ hkey)
    · exact Or.inr (hnk row hrow e)
  obtain ⟨v, hv, hpairs⟩ := update_pairs_one db q2 col b crow hc hraw hcnk hcname attrs hnd
    hcin hok huniq hu
  refine ⟨v, hv, ?_⟩
  have hpk2 : ¬ pkl.length > 1 := by omega
  unfold q2_sql_update
  rw [hk]
  simp only [hraw, ha, hpkl, hpk2, hpairs, reduceCtorEq, and_false, false_and, if_false,
    Bool.false_eq_true, update_pk_name_member pkrow p hkey hp attrs hpin hnk,
    apr_array_idx, List.get?_cons_zero, apr_array_pstrcat]
  simp only [Run.ok.injEq, Prod.mk.injEq, Option.some.injEq, true_and]
  have e1 : String.intercalate "," [col ++ "=" ++ v] = col ++ "=" ++ v := by
    simp [String.intercalate, String.intercalate.go]
  rw [e1]
  simp only [String.append_assoc]

/-- Witness of `patch_single_assignment`: `PATCH /api/v1/books/5/title` with
the body `Dune` on Postgres. -/
theorem patch_single_assignment_witness :
    q2_sql_update (ex_dbd ex_books) ex_patch_title false =
      Run.ok (ex_patch_title, some "UPDATE books SET title='Dune' WHERE id=5") := by
  obtain ⟨v, hv, h⟩ := patch_single_assignment (ex_dbd ex_books) ex_patch_title "5" []
    "Dune" "title" "id"
    [ex_attr "id" true true false false "null", ex_attr "title" false false false false "null",
      ex_attr "pages" false true false false "null"]
    (ex_attr "id" true true false false "null") (ex_attr "title" false false false false "null")
    [[("column_name", some "id")]] rfl rfl rfl rfl rfl (by decide) (by decide) (by decide)
    (by decide) rfl
    (by
      intro row hrow hne
      simp only [List.mem_cons, List.mem_singleton, List.not_mem_nil, or_false] at hrow
      rcases hrow with rfl | rfl | rfl
      · exact absurd rfl hne
      · exact ⟨by decide, ⟨false, by decide⟩, ⟨false, by decide⟩, ⟨"title", rfl⟩⟩
      · exact ⟨by decide, ⟨true, by decide⟩, ⟨false, by decide⟩, ⟨"pages", rfl⟩⟩)
    (by decide)
    ⟨by decide, ⟨false, by decide⟩, ⟨false, by decide⟩, ⟨"title", rfl⟩⟩
    rfl
    (by
      intro row hrow hname
      simp only [List.mem_cons, List.mem_singleton, List.not_mem_nil, or_false] at hrow
      rcases hrow with rfl | rfl | rfl
      · exact absurd hname (by decide)
      · rfl
      · exact absurd hname (by decide))
    (fun _ _ _ _ _ => rfl)
  rcases hv with ⟨hn, _⟩ | ⟨_, he⟩
  · exact absurd hn (by decide)
  · have e : q2_sql_encode_value (ex_dbd ex_books) ex_patch_title
        (ex_attr "title" false false false false "null") (some "Dune")
        = Run.ok (some "'Dune'") := by decide
    rw [e] at he
    cases he
    exact h

/-- C25 as stated fails: on `PATCH /api/v1/books/5/title?pages=3` with the
body `Dune` the query string binds the column `pages`, and the SET clause
holds two assignments, in attribute order. -/
theorem patch_stated_fails :
    ex_patch_title_query.column = some "title" ∧
    ex_patch_title_query.request_rawdata = some "Dune" ∧
    q2_sql_update (ex_dbd ex_books) ex_patch_title_query false =
      Run.ok (ex_patch_title_query,
        some "UPDATE books SET title='Dune',pages=3 WHERE id=5") :=
  ⟨rfl, rfl, by decide⟩

theorem delete_conds_row_none (cname ref_table : String) (uri_keys tabs : List String)
    (href : ∀ t ∈ tabs, t ≠ ref_table) (cval : CStr) (key_conds : List String) :
    ∀ js : List Nat, (∀ j ∈ js, j < tabs.length) →
      delete_conds_row cname ref_table uri_keys (some tabs) js cval key_conds
        = Run.ok (cval, key_conds) := by
  intro js
  induction js with
  | nil => intro _; rfl
  | cons j rest ih =>
    intro hj
    have hlt := hj j (List.mem_cons_self _ _)
    simp only [delete_conds_row, apr_array_idx]
    cases hg : tabs.get? j with
    | none => exact absurd (List.get?_eq_none.mp hg) (by omega)
    | some target =>
      have hne : (target == ref_table) = false := by
        simp only [beq_eq_false_iff_ne, ne_eq]
        exact href target (List.get?_mem hg)
      simp only [hne, Bool.false_eq_true, if_false]
      exact ih (fun j2 h2 => hj j2 (List.mem_cons_of_mem _ h2))

theorem delete_conds_none (uri_keys tabs : List String) (hlen : uri_keys.length ≤ tabs.length)
    (cval : CStr) (key_conds : List String) :
    ∀ attrs : List AprTable,
      (∀ row ∈ attrs, ∃ name, apr_table_get row "column_name" = some name) →
      (∀ row ∈ attrs, ∀ t ∈ tabs, apr_table_get row "referenced_table" ≠ some t) →
      delete_conds uri_keys (some tabs) attrs cval key_conds = Run.ok (some key_conds) := by
  intro attrs
  induction attrs with
  | nil => intro _ _; rfl
  | cons r rest ih =>
    intro hn href
    have hrest := ih (fun row h => hn row (List.mem_cons_of_mem _ h))
      (fun row h => href row (List.mem_cons_of_mem _ h))
    obtain ⟨name, hname⟩ := hn r (List.mem_cons_self _ _)
    rw [delete_conds]
    simp only [hname]
    cases hr : apr_table_get r "referenced_table" with
    | none => exact hrest
    | some ref_table =>
      simp only []
      rw [delete_conds_row_none name ref_table uri_keys tabs
        (fun t ht e => href r (List.mem_cons_self _ _) t ht (by rw [hr, e])) cval key_conds
        (List.range uri_keys.length)
        (fun j hj => Nat.lt_of_lt_of_le (List.mem_range.mp hj) hlen)]
      exact hrest

/-- C26: for a target table whose primary key has more than one column
(attributes loaded), `q2_sql_update` yields no statement and records an error
in both modes; and `q2_sql_delete` yields no statement and records an error
whenever no column of the target references a table of the path (every
attribute having a name, and the path holding at least as many tables as
keys). -/
theorem composite_key_rejected (db : Dbd) (q2 : Q2) (pkl : Rset) (attrs : List AprTable)
    (hpk : q2.pk_attrs = some pkl) (hmulti : 1 < pkl.length)
    (ha : q2.attributes = some attrs) :
    (∀ all, ∃ q2a, q2_sql_update db q2 all = Run.ok (q2a, none) ∧ q2a.error = 1 ∧
      q2a.log ≠ none) ∧
    (∀ tabs, q2.uri_tables = some tabs →
      (∀ keys, q2.uri_keys = some keys → keys.length ≤ tabs.length) →
      (∀ row ∈ attrs, ∃ name, apr_table_get row "column_name" = some name) →
      (∀ row ∈ attrs, ∀ t ∈ tabs, apr_table_get row "referenced_table" ≠ some t) →
      ∃ q2a, q2_sql_delete q2 = Run.ok (q2a, none) ∧ q2a.error = 1 ∧ q2a.log ≠ none) := by
  have hgt : pkl.length > 1 := hmulti
  constructor
  · intro all
    unfold q2_sql_update
    cases hk : q2.uri_keys with
    | none => exact ⟨_, rfl, log_error_error _ _ _ _, log_error_log _ _ _ _⟩
    | some keys =>
      simp only []
      split
      · exact ⟨_, rfl, log_error_error _ _ _ _, log_error_log _ _ _ _⟩
      · split
        · exact ⟨_, rfl, log_error_error _ _ _ _, log_error_log _ _ _ _⟩
        · simp only [ha, hpk, hgt, if_true]
          cases all with
          | true =>
            simp only [if_true]
            split
            · rename_i h
              cases h
            · exact ⟨_, rfl, log_error_error _ _ _ _, log_error_log _ _ _ _⟩
            · exact ⟨_, rfl, log_error_error _ _ _ _, log_error_log _ _ _ _⟩
          | false =>
            simp only [Bool.false_eq_true, if_false]
            exact ⟨_, rfl, log_error_error _ _ _ _, log_error_log _ _ _ _⟩
  · intro tabs ht hlen hn href
    unfold q2_sql_delete
    cases hk : q2.uri_keys with
    | none => exact ⟨_, rfl, log_error_error _ _ _ _, log_error_log _ _ _ _⟩
    | some keys =>
      simp only [ha, ht, delete_conds_none keys tabs (hlen keys hk) none [] attrs hn href,
        hpk, hgt, if_true]
      exact ⟨_, rfl, log_error_error _ _ _ _, log_error_log _ _ _ _⟩

/-- Witness of `composite_key_rejected`: the table `stock` with the primary
key `(shop, item)`; the full update and the partial update record
`UPDATE not allowed on a table with multiple PK`, the deletion records
`Table with multiple primary key`. -/
theorem composite_key_rejected_witness :
    (∀ all, ∃ q2a, q2_sql_update (ex_dbd []) ex_stock all = Run.ok (q2a, none) ∧
      q2a.error = 1 ∧ q2a.log ≠ none) ∧
    (∃ q2a, q2_sql_delete ex_stock = Run.ok (q2a, none) ∧ q2a.error = 1 ∧ q2a.log ≠ none) ∧
    (∃ q2a, q2_sql_update (ex_dbd []) ex_stock false = Run.ok (q2a, none) ∧
      q2a.log.map (fun l => l.msg) = some "UPDATE not allowed on a table with multiple PK") ∧
    (∃ q2a, q2_sql_delete ex_stock = Run.ok (q2a, none) ∧
      q2a.log.map (fun l => l.msg) = some "Table with multiple primary key") := by
  have h := composite_key_rejected (ex_dbd []) ex_stock
    [[("column_name", some "shop")], [("column_name", some "item")]]
    [ex_attr "shop" true true false false "null", ex_attr "item" true true false false "null",
      ex_attr "qty" false true false false "null"] rfl (by decide) rfl
  refine ⟨h.1, h.2 ["stock"] rfl ?_ ?_ ?_, ⟨_, rfl, rfl⟩, ⟨_, rfl, rfl⟩⟩
  · intro keys hk
    cases hk
    decide
  · intro row hrow
    simp only [List.mem_cons, List.mem_singleton, List.not_mem_nil, or_false] at hrow
    rcases hrow with rfl | rfl | rfl
    · exact ⟨"shop", rfl⟩
    · exact ⟨"item", rfl⟩
    · exact ⟨"qty", rfl⟩
  · decide

theorem text_before_none (pat : List Char) (hpat : pat ≠ []) :
    ∀ l : List Char, ¬ pat <:+: l → text_before pat l = none := by
  intro l
  induction l with
  | nil =>
    intro _
    cases pat with
    | nil => exact absurd rfl hpat
    | cons p ps => rfl
  | cons c cs ih =>
    intro h
    rw [text_before]
    have h1 : pat.isPrefixOf (c :: cs) = false := by
      cases hh : pat.isPrefixOf (c :: cs) with
      | false => rfl
      | true => exact absurd (List.IsPrefix.isInfix (List.isPrefixOf_iff_prefix.mp hh)) h
    have h2 : ¬ pat <:+: cs := fun hi => h (List.IsInfix.trans hi (List.infix_cons (List.infix_refl cs)))
    simp only [h1, Bool.false_eq_true, if_false, ih h2, Option.map_none']

theorem text_before_first (pat rest : List Char) (hpat : pat ≠ []) :
    ∀ pre : List Char, ¬ pat <:+: pre ++ pat.dropLast →
      text_before pat (pre ++ pat ++ rest) = some pre := by
  intro pre
  induction pre with
  | nil =>
    intro _
    cases pat with
    | nil => exact absurd rfl hpat
    | cons p ps =>
      have h1 : (p :: ps).isPrefixOf (p :: ps ++ rest) = true :=
        List.isPrefixOf_iff_prefix.mpr (List.prefix_append _ _)
      simp only [List.nil_append, List.cons_append] at h1 ⊢
      rw [text_before]
      simp only [h1, if_true]
  | cons c cs ih =>
    intro h
    have h2 : ¬ pat <:+: cs ++ pat.dropLast := fun hi =>
      h (List.IsInfix.trans hi (List.infix_cons (List.infix_refl _)))
    have h1 : pat.isPrefixOf (c :: (cs ++ pat ++ rest)) = false := by
      cases hh : pat.isPrefixOf (c :: (cs ++ pat ++ rest)) with
      | false => rfl
      | true =>
        exfalso
        apply h
        have hp := List.isPrefixOf_iff_prefix.mp hh
        have hsplit : c :: (cs ++ pat ++ rest)
            = (c :: cs ++ pat.dropLast) ++ (pat.getLast hpat :: rest) := by
          have e := List.dropLast_append_getLast hpat
          conv_lhs => rw [← e]
          simp
        have hq : (c :: cs ++ pat.dropLast) <+: c :: (cs ++ pat ++ rest) := by
          rw [hsplit]
          exact List.prefix_append _ _
        have hlen : pat.length ≤ (c :: cs ++ pat.dropLast).length := by
          simp only [List.cons_append, List.length_cons, List.length_append,
            List.length_dropLast]
          have : 0 < pat.length := List.length_pos.mpr hpat
          omega
        exact List.IsPrefix.isInfix (List.prefix_of_prefix_length_le hp hq hlen)
    simp only [List.cons_append]
    rw [text_before]
    have e := ih h2
    simp only [List.append_assoc] at e h1 ⊢
    simp only [h1, Bool.false_eq_true, if_false, e, Option.map_some']

theorem paginate_sets (q2 : Q2) (s : String) (rs : Rset) (uri path : String) (qstr : CStr)
    (hs : q2.sql = some s) (hr : q2.results = some rs) (hu : q2.request_uri = some uri)
    (hparts : paginate_uri uri path qstr)
    (hp : q2.pagination_ppg ≠ 0) (hrows : q2.pagination_ppg ≤ (rs.length : Int))
    (hnext : q2.pagination_ppg + q2.next_page ≤ q2.query_num_rows) :
    q2_paginate_results q2 = Run.ok { q2 with next := some (
      (match text_before "/next/".data path.data with
       | none => path
       | some pre => String.mk pre)
      ++ "/next/" ++ fmt_d (q2.pagination_ppg + q2.next_page) ++ query_suffix qstr) } := by
  have h1 : ¬ ((rs.length : Int) < q2.pagination_ppg) := by omega
  have h2 : ¬ (q2.pagination_ppg + q2.next_page > q2.query_num_rows) := by omega
  unfold q2_paginate_results
  simp only [hp, hs, hr, h1, h2, hu, if_false]
  rcases hparts with ⟨hq, rfl, rfl⟩ | ⟨q, rfl, hpath, hquery, rfl⟩
  · simp only [hq, Bool.false_eq_true, if_false, query_suffix]
  · have hin : q2_in_string (path ++ "?" ++ q) '?' = true := by
      simp [q2_in_string]
    have hsp : q2_split (some (path ++ "?" ++ q)) "?" = Run.ok (some [path, q]) :=
      q2_split_two '?' path q hpath hquery
    simp only [hin, if_true, hsp, query_suffix]

theorem paginate_unset (q2 : Q2)
    (h : q2.pagination_ppg = 0 ∨ q2.sql = none ∨ q2.results = none ∨
      (∃ rs, q2.results = some rs ∧ (rs.length : Int) < q2.pagination_ppg) ∨
      q2.query_num_rows < q2.pagination_ppg + q2.next_page) :
    q2_paginate_results q2 = Run.ok q2 := by
  unfold q2_paginate_results
  by_cases hp : q2.pagination_ppg = 0
  · simp only [hp, if_true]
  · simp only [hp, if_false]
    cases hs : q2.sql with
    | none => rfl
    | some s =>
      cases hr : q2.results with
      | none => rfl
      | some rs =>
        simp only []
        by_cases h1 : (rs.length : Int) < q2.pagination_ppg
        · simp only [h1, if_true]
        · by_cases h2 : q2.pagination_ppg + q2.next_page > q2.query_num_rows
          · simp only [h1, h2, if_true, if_false]
          · exfalso
            rcases h with h | h | h | ⟨rs2, h, h3⟩ | h
            · exact hp h
            · rw [hs] at h; cases h
            · rw [hr] at h; cases h
            · rw [hr] at h
              cases h
              exact h1 h3
            · exact h2 h

/-- C27 (what the code does): on a request whose URI is a path, or a path
with a query string, `q2_paginate_results` sets `next` when the page size p
is not 0, a statement and a result set with at least p rows are present and
offset + p is at most the number of matching rows, so also when offset + p
equals that number and no row remains; in every other case it leaves the
request as it is. -/
theorem paginate_next_condition (q2 : Q2) (uri path : String) (qstr : CStr)
    (hu : q2.request_uri = some uri) (hparts : paginate_uri uri path qstr) :
    (q2.pagination_ppg ≠ 0 → q2.sql ≠ none →
      (∃ rs, q2.results = some rs ∧ q2.pagination_ppg ≤ (rs.length : Int)) →
      q2.next_page + q2.pagination_ppg ≤ q2.query_num_rows →
      ∃ n, q2_paginate_results q2 = Run.ok { q2 with next := some n }) ∧
    (q2.pagination_ppg = 0 ∨ q2.sql = none ∨ q2.results = none ∨
        (∃ rs, q2.results = some rs ∧ (rs.length : Int) < q2.pagination_ppg) ∨
        q2.query_num_rows < q2.next_page + q2.pagination_ppg →
      q2_paginate_results q2 = Run.ok q2) := by
  constructor
  · intro hp hs hr hn
    obtain ⟨rs, hr, hrows⟩ := hr
    rcases Option.eq_none_or_eq_some q2.sql with hsql | ⟨s, hsql⟩
    · exact absurd hsql hs
    exact ⟨_, paginate_sets q2 s rs uri path qstr hsql hr hu hparts hp hrows (by omega)⟩
  · intro h
    apply paginate_unset
    rcases h with h | h | h | h | h
    · exact Or.inl h
    · exact Or.inr (Or.inl h)
    · exact Or.inr (Or.inr (Or.inl h))
    · exact Or.inr (Or.inr (Or.inr (Or.inl h)))
    · exact Or.inr (Or.inr (Or.inr (Or.inr (by omega))))

/-- Witness of `paginate_next_condition`: with page size 10 at offset 0 and a
full page, a statement matching exactly 10 rows still gets a `next` URI,
and a statement matching 9 rows gets none. -/
theorem paginate_next_condition_witness :
    (∃ n, q2_paginate_results (ex_page 10) = Run.ok { ex_page 10 with next := some n }) ∧
    q2_paginate_results (ex_page 9) = Run.ok (ex_page 9) :=
  ⟨(paginate_next_condition (ex_page 10) "/api/v1/books" "/api/v1/books" none rfl
      (Or.inl ⟨by decide, rfl, rfl⟩)).1 (by decide) (by decide)
      ⟨List.replicate 10 [("id", some "1")], rfl, by decide⟩ (by decide),
   (paginate_next_condition (ex_page 9) "/api/v1/books" "/api/v1/books" none rfl
      (Or.inl ⟨by decide, rfl, rfl⟩)).2 (Or.inr (Or.inr (Or.inr (Or.inr (by decide)))))⟩

/-- C27, the boundary: page size 10, offset 0, a result set of 10 rows and a
statement that matches exactly 10 rows, so that no row remains beyond the
page; `q2_paginate_results` sets `next` to `/api/v1/books/next/10`. -/
theorem paginate_boundary_sets_next :
    (ex_page 10).next_page + (ex_page 10).pagination_ppg = (ex_page 10).query_num_rows ∧
    q2_paginate_results (ex_page 10)
      = Run.ok { ex_page 10 with next := some "/api/v1/books/next/10" } :=
  ⟨by decide, by decide⟩

/-- C28: when `q2_paginate_results` sets `next` (page size not 0, a
statement, a full result set, offset + page size within the number of rows) on
a URI made of the path `path` and an optional query string, the value is the
path, cut before the first `/next/` when it has one, followed by
`/next/<offset + page size>` and by `?<query>` when there is a query string:
a path without `/next/` is kept whole, and of a path `pre/next/rest` only
`pre` is kept, so that the old cursor is replaced. -/
theorem next_cursor_value (q2 : Q2) (s : String) (rs : Rset) (uri path : String) (qstr : CStr)
    (hs : q2.sql = some s) (hr : q2.results = some rs) (hu : q2.request_uri = some uri)
    (hparts : paginate_uri uri path qstr)
    (hp : q2.pagination_ppg ≠ 0) (hrows : q2.pagination_ppg ≤ (rs.length : Int))
    (hnext : q2.next_page + q2.pagination_ppg ≤ q2.query_num_rows) :
    (¬ "/next/".data <:+: path.data →
      q2_paginate_results q2 = Run.ok { q2 with next := some (path ++ "/next/"
        ++ fmt_d (q2.next_page + q2.pagination_ppg) ++ query_suffix qstr) }) ∧
    (∀ pre rest : String, path = pre ++ "/next/" ++ rest →
      ¬ "/next/".data <:+: pre.data ++ "/next".data →
      q2_paginate_results q2 = Run.ok { q2 with next := some (pre ++ "/next/"
        ++ fmt_d (q2.next_page + q2.pagination_ppg) ++ query_suffix qstr) }) := by
  have hrun := paginate_sets q2 s rs uri path qstr hs hr hu hparts hp hrows (by omega)
  have hadd : q2.pagination_ppg + q2.next_page = q2.next_page + q2.pagination_ppg :=
    Int.add_comm _ _
  rw [hadd] at hrun
  have hpat : "/next/".data ≠ [] := by decide
  constructor
  · intro hno
    rw [hrun, text_before_none "/next/".data hpat path.data hno]
  · intro pre rest hpath hfirst
    have hd : path.data = pre.data ++ "/next/".data ++ rest.data := by
      rw [hpath]
      simp
    have hdl : "/next/".data.dropLast = "/next".data := by decide
    rw [hrun, hd, text_before_first "/next/".data rest.data hpat pre.data (by rw [hdl]; exact hfirst)]

/-- Witness of `next_cursor_value`: page size 10 at offset 0 with 25 matching
rows gives `/api/v1/books/next/10`; and on `/api/v1/books/next/10?sort=title`
at offset 10 the cursor is replaced: `/api/v1/books/next/20?sort=title`. -/
theorem next_cursor_value_witness :
    q2_paginate_results (ex_page 25)
      = Run.ok { ex_page 25 with next := some "/api/v1/books/next/10" } ∧
    q2_paginate_results ex_page_cursor
      = Run.ok { ex_page_cursor with next := some "/api/v1/books/next/20?sort=title" } :=
  ⟨(next_cursor_value (ex_page 25) "SELECT * FROM books LIMIT 10 OFFSET 0"
      (List.replicate 10 [("id", some "1")]) "/api/v1/books" "/api/v1/books" none rfl rfl rfl
      (Or.inl ⟨by decide, rfl, rfl⟩) (by decide) (by decide) (by decide)).1 (by decide),
   (next_cursor_value ex_page_cursor "SELECT * FROM books LIMIT 10 OFFSET 10"
      (List.replicate 10 [("id", some "1")]) "/api/v1/books/next/10?sort=title"
      "/api/v1/books/next/10" (some "sort=title") rfl rfl rfl
      (Or.inr ⟨"sort=title", by decide, ⟨by decide, by decide⟩, ⟨by decide, by decide⟩, rfl⟩)
      (by decide) (by decide) (by decide)).2 "/api/v1/books" "10" (by decide) (by decide)⟩

theorem last_pk_name_none :
    ∀ (attrs : List AprTable) (acc : CStr),
      (∀ row ∈ attrs, flag_p (apr_table_get row "is_primary_key") = Run.ok false) →
      last_pk_name attrs acc = Run.ok acc := by
  intro attrs
  induction attrs with
  | nil => intro _ _; rfl
  | cons r rest ih =>
    intro acc h
    rw [last_pk_name, h r (List.mem_cons_self _ _)]
    exact ih acc (fun row hrow => h row (List.mem_cons_of_mem _ hrow))

theorem last_pk_name_spec :
    ∀ (attrs : List AprTable) (acc : CStr),
      (∀ row ∈ attrs, flag_p (apr_table_get row "is_primary_key") = Run.ok false ∨
        (flag_p (apr_table_get row "is_primary_key") = Run.ok true ∧
          ∃ name, apr_table_get row "column_name" = some name)) →
      (last_pk_name attrs acc = Run.ok acc ∧
        ∀ row ∈ attrs, flag_p (apr_table_get row "is_primary_key") = Run.ok false) ∨
      (∃ row ∈ attrs, ∃ pk, flag_p (apr_table_get row "is_primary_key") = Run.ok true ∧
        apr_table_get row "column_name" = some pk ∧
        last_pk_name attrs acc = Run.ok (some pk)) := by
  intro attrs
  induction attrs with
  | nil =>
    intro acc _
    exact Or.inl ⟨rfl, fun row h => absurd h (List.not_mem_nil row)⟩
  | cons r rest ih =>
    intro acc h
    have hrest := fun row (hrow : row ∈ rest) => h row (List.mem_cons_of_mem _ hrow)
    rw [last_pk_name]
    rcases h r (List.mem_cons_self _ _) with hf | ⟨ht, name, hname⟩
    · rw [hf]
      rcases ih acc hrest with ⟨h1, h2⟩ | ⟨row, hrow, pk, h1, h2, h3⟩
      · refine Or.inl ⟨h1, fun row hrow => ?_⟩
        rcases List.mem_cons.mp hrow with rfl | hin
        · exact hf
        · exact h2 row hin
      · exact Or.inr ⟨row, List.mem_cons_of_mem _ hrow, pk, h1, h2, h3⟩
    · rw [ht]
      simp only [hname]
      rcases ih (some name) hrest with ⟨h1, _⟩ | ⟨row, hrow, pk, h1, h2, h3⟩
      · exact Or.inr ⟨r, List.mem_cons_self _ _, name, ht, hname, h1⟩
      · exact Or.inr ⟨row, List.mem_cons_of_mem _ hrow, pk, h1, h2, h3⟩

theorem log_error_first (q : Q2) (line : Nat) (func msg : String) (h : q.log = none) :
    (q2_log_error q line func msg).log.map (fun l => l.msg) = some msg := by
  unfold q2_log_error
  simp only [h]
  rfl

/-- C29: with a page size s > 0 and the offset n, the pagination clause
computed for the table scans is `LIMIT s OFFSET n` on Postgres and SQLite,
`LIMIT n,s` on MySQL and `ORDER BY pk OFFSET n ROWS FETCH NEXT s ROWS ONLY` on
MSSQL, with pk the name of an attribute flagged as primary key; on MSSQL
without a flagged attribute there is no clause, the error flag is set and,
unless an error was recorded before, the message is `Primary key not found`.
Both builders, `q2_sql_select_tab` and `q2_sql_select_tab_prm`, yield no
statement in that case, and otherwise hand the clause over to the statement. -/
theorem pagination_clause (db : Dbd) (ext : Ext) (q2 : Q2) (hs : 0 < q2.pagination_ppg) :
    (∀ line func, (q2.dbd_server_type = Q2_DBD_PGSQL ∨ q2.dbd_server_type = Q2_DBD_SQLT3) →
      scan_limit q2 line func = Run.ok (q2, some (some ("LIMIT " ++ fmt_d q2.pagination_ppg
        ++ " OFFSET " ++ fmt_d q2.next_page)))) ∧
    (∀ line func, q2.dbd_server_type = Q2_DBD_MYSQL →
      scan_limit q2 line func = Run.ok (q2, some (some ("LIMIT " ++ fmt_d q2.next_page
        ++ "," ++ fmt_d q2.pagination_ppg)))) ∧
    (∀ line func attrs, q2.dbd_server_type = Q2_DBD_MSSQL → q2.attributes = some attrs →
      (∀ row ∈ attrs, flag_p (apr_table_get row "is_primary_key") = Run.ok false ∨
        (flag_p (apr_table_get row "is_primary_key") = Run.ok true ∧
          ∃ name, apr_table_get row "column_name" = some name)) →
      (∃ row ∈ attrs, flag_p (apr_table_get row "is_primary_key") = Run.ok true) →
      ∃ row ∈ attrs, ∃ pk, flag_p (apr_table_get row "is_primary_key") = Run.ok true ∧
        apr_table_get row "column_name" = some pk ∧
        scan_limit q2 line func = Run.ok (q2, some (some ("ORDER BY " ++ pk ++ " OFFSET "
          ++ fmt_d q2.next_page ++ " ROWS FETCH NEXT " ++ fmt_d q2.pagination_ppg
          ++ " ROWS ONLY")))) ∧
    (∀ line func attrs, q2.dbd_server_type = Q2_DBD_MSSQL → q2.attributes = some attrs →
      (∀ row ∈ attrs, flag_p (apr_table_get row "is_primary_key") = Run.ok false) →
      scan_limit q2 line func
        = Run.ok (q2_log_error q2 line func "Primary key not found", none) ∧
      (q2_log_error q2 line func "Primary key not found").error = 1 ∧
      (q2.log = none → (q2_log_error q2 line func "Primary key not found").log.map
        (fun l => l.msg) = some "Primary key not found")) ∧
    (q2.n_tables = some 1 ∧ q2.uri_keys = none ∧ q2.table ≠ none ∧ q2.column = none
        ∧ q2.r_params = none →
      (∀ q2e, scan_limit q2 2047 "q2_sql_select_tab" = Run.ok (q2e, none) →
        q2_sql_select_tab db ext q2 = Run.ok (q2e, none)) ∧
      (∀ clause, scan_limit q2 2047 "q2_sql_select_tab" = Run.ok (q2, some clause) →
        ∃ q2b, q2_sql_select_tab db ext q2
          = Run.ok (q2b, ext.scan_result ("SELECT * FROM " ++ fmt_s q2.table) clause))) ∧
    (∀ rp attrs cr, q2.r_params = some rp →
      q2.n_tables = some 1 ∧ q2.table ≠ none ∧ q2.column = none ∧ q2.uri_keys = none →
      q2.attributes = some attrs → conds_loop db q2 rp attrs none none = Run.ok cr →
      (∀ q2e, scan_limit q2 2237 "q2_sql_select_tab_prm" = Run.ok (q2e, none) →
        q2_sql_select_tab_prm db ext q2 = Run.ok (q2e, none)) ∧
      (∀ clause, scan_limit q2 2237 "q2_sql_select_tab_prm" = Run.ok (q2, some clause) →
        ∃ q2b sql, q2_sql_select_tab_prm db ext q2
          = Run.ok (q2b, ext.scan_result sql clause))) := by
  have hne : q2.pagination_ppg ≠ 0 := by omega
  refine ⟨?_, ?_, ?_, ?_, ?_, ?_⟩
  · intro line func h
    unfold scan_limit
    rcases h with h | h
    · have e1 : ¬ (Q2_DBD_PGSQL = Q2_DBD_MSSQL) := by decide
      have e2 : ¬ (Q2_DBD_PGSQL = Q2_DBD_MYSQL) := by decide
      simp only [h, e1, e2, if_true, if_false, false_and, true_or]
    · have e1 : ¬ (Q2_DBD_SQLT3 = Q2_DBD_MSSQL) := by decide
      have e2 : ¬ (Q2_DBD_SQLT3 = Q2_DBD_MYSQL) := by decide
      simp only [h, e1, e2, if_true, if_false, false_and, or_true]
  · intro line func h
    have e1 : ¬ (Q2_DBD_MYSQL = Q2_DBD_MSSQL) := by decide
    have e2 : ¬ (Q2_DBD_MYSQL = Q2_DBD_PGSQL ∨ Q2_DBD_MYSQL = Q2_DBD_SQLT3) := by decide
    unfold scan_limit
    simp only [h, e1, e2, hne, if_true, if_false, true_and, ne_eq, not_false_eq_true]
  · intro line func attrs h ha hrows hex
    have e2 : ¬ (Q2_DBD_MSSQL = Q2_DBD_PGSQL ∨ Q2_DBD_MSSQL = Q2_DBD_SQLT3) := by decide
    have e3 : ¬ (Q2_DBD_MSSQL = Q2_DBD_MYSQL) := by decide
    rcases last_pk_name_spec attrs none hrows with ⟨_, hno⟩ | ⟨row, hrow, pk, h4, h5, h6⟩
    · obtain ⟨row, hrow, hflag⟩ := hex
      rw [hno row hrow] at hflag
      cases hflag
    · refine ⟨row, hrow, pk, h4, h5, ?_⟩
      unfold scan_limit
      simp only [h, ha, h6, e2, e3, if_true, if_false, false_and]
  · intro line func attrs h ha hno
    refine ⟨?_, log_error_error _ _ _ _, log_error_first q2 line func _⟩
    unfold scan_limit
    simp only [h, ha, last_pk_name_none attrs none hno, if_true]
  · intro hg
    constructor
    · intro q2e he
      unfold q2_sql_select_tab
      rw [if_pos hg, he]
    · intro clause he
      unfold q2_sql_select_tab
      rw [if_pos hg, he]
      exact ⟨_, rfl⟩
  · intro rp attrs cr hrp hg ha hc
    constructor
    · intro q2e he
      unfold q2_sql_select_tab_prm
      simp only [hrp, ha, hc, he]
      rw [if_pos hg]
    · intro clause he
      unfold q2_sql_select_tab_prm
      simp only [hrp, ha, hc, he]
      rw [if_pos hg]
      exact ⟨_, _, rfl⟩

/-- Witness of `pagination_clause`: page size 10 at offset 20 on
`books(id, title)` gives `LIMIT 10 OFFSET 20` on Postgres, `LIMIT 20,10` on
MySQL and `ORDER BY id OFFSET 20 ROWS FETCH NEXT 10 ROWS ONLY` on MSSQL; on
MSSQL the table `notes` without primary key gives no clause and the message
`Primary key not found`. -/
theorem pagination_clause_witness :
    scan_limit (ex_scan Q2_DBD_PGSQL) 2047 "q2_sql_select_tab"
      = Run.ok (ex_scan Q2_DBD_PGSQL, some (some "LIMIT 10 OFFSET 20")) ∧
    scan_limit (ex_scan Q2_DBD_MYSQL) 2047 "q2_sql_select_tab"
      = Run.ok (ex_scan Q2_DBD_MYSQL, some (some "LIMIT 20,10")) ∧
    scan_limit (ex_scan Q2_DBD_MSSQL) 2047 "q2_sql_select_tab"
      = Run.ok (ex_scan Q2_DBD_MSSQL,
          some (some "ORDER BY id OFFSET 20 ROWS FETCH NEXT 10 ROWS ONLY")) ∧
    (∃ q2e, q2_sql_select_tab (ex_dbd []) ex_ext ex_scan_no_pk = Run.ok (q2e, none) ∧
      q2e.error = 1 ∧ q2e.log.map (fun l => l.msg) = some "Primary key not found") := by
  have hpg := (pagination_clause (ex_dbd []) ex_ext (ex_scan Q2_DBD_PGSQL) (by decide)).1
    2047 "q2_sql_select_tab" (Or.inl rfl)
  have hmy := (pagination_clause (ex_dbd []) ex_ext (ex_scan Q2_DBD_MYSQL) (by decide)).2.1
    2047 "q2_sql_select_tab" rfl
  have hno := pagination_clause (ex_dbd []) ex_ext ex_scan_no_pk (by decide)
  have hscan := hno.2.2.2.1 2047 "q2_sql_select_tab" _ rfl rfl (by decide)
  refine ⟨hpg, hmy, by decide, _, (hno.2.2.2.2.1 (by decide)).1 _ hscan.1, hscan.2.1,
    hscan.2.2 rfl⟩

theorem log_reports_kept :
    ∀ (rs : List (Nat × String × String)) (q : Q2) (l : LogMsg),
      q.log = some l → q.error = 1 →
      (log_reports q rs).log = some l ∧ (log_reports q rs).error = 1 := by
  intro rs
  induction rs with
  | nil => intro q l h he; exact ⟨h, he⟩
  | cons r rest ih =>
    intro q l h he
    have h1 : (q2_log_error q r.1 r.2.1 r.2.2).log = some l := by
      unfold q2_log_error
      simp only [h]
    exact ih (q2_log_error q r.1 r.2.1 r.2.2) l h1 rfl

/-- C30: after a sequence of at least one `q2_log_error` report the error
flag is set; on a request without recorded message the message is that of
the first report, whatever follows; and a message recorded before is never
replaced. -/
theorem error_latched (q2 : Q2) (r : Nat × String × String)
    (rs : List (Nat × String × String)) :
    (log_reports q2 (r :: rs)).error = 1 ∧
    (q2.log = none →
      (log_reports q2 (r :: rs)).log = some { line := r.1, func := r.2.1, msg := r.2.2 }) ∧
    (∀ l, q2.log = some l → (log_reports q2 (r :: rs)).log = some l) := by
  have hstep : log_reports q2 (r :: rs) = log_reports (q2_log_error q2 r.1 r.2.1 r.2.2) rs :=
    rfl
  rw [hstep]
  refine ⟨?_, ?_, ?_⟩
  · cases hl : q2.log with
    | none =>
      exact (log_reports_kept rs _ { line := r.1, func := r.2.1, msg := r.2.2 }
        (by unfold q2_log_error; simp only [hl]) rfl).2
    | some l =>
      exact (log_reports_kept rs _ l (by unfold q2_log_error; simp only [hl]) rfl).2
  · intro hl
    exact (log_reports_kept rs _ { line := r.1, func := r.2.1, msg := r.2.2 }
      (by unfold q2_log_error; simp only [hl]) rfl).1
  · intro l hl
    exact (log_reports_kept rs _ l (by unfold q2_log_error; simp only [hl]) rfl).1

/-- Witness of `error_latched`: on a fresh request the report
`No primary key in URI` followed by `An error occurred` leaves the first
message, also when the first report was made before the sequence starts. -/
theorem error_latched_witness :
    (log_reports {} [(2769, "q2_sql_delete", "No primary key in URI"),
      (3120, "q2_acquire", "An error occurred")]).log
      = some { line := 2769, func := "q2_sql_delete", msg := "No primary key in URI" } ∧
    (log_reports (q2_log_error {} 2769 "q2_sql_delete" "No primary key in URI")
      [(3120, "q2_acquire", "An error occurred")]).log
      = some { line := 2769, func := "q2_sql_delete", msg := "No primary key in URI" } :=
  ⟨(error_latched {} (2769, "q2_sql_delete", "No primary key in URI")
      [(3120, "q2_acquire", "An error occurred")]).2.1 rfl,
   (error_latched (q2_log_error {} 2769 "q2_sql_delete" "No primary key in URI")
      (3120, "q2_acquire", "An error occurred") []).2.2 _ rfl⟩

/-- C36 (what the code does): without page size (page size 0) the pagination
clause of the table scans is empty on MySQL only; on Postgres and SQLite it is
`LIMIT 0 OFFSET n`, and on MSSQL `ORDER BY pk OFFSET n ROWS FETCH NEXT 0 ROWS
ONLY` for a table with a flagged primary-key column, while a table without one
gets no statement at all. -/
theorem unpaged_clause (q2 : Q2) (line : Nat) (func : String)
    (hs : q2.pagination_ppg = 0) :
    (q2.dbd_server_type = Q2_DBD_MYSQL → scan_limit q2 line func = Run.ok (q2, some none)) ∧
    (q2.dbd_server_type = Q2_DBD_PGSQL ∨ q2.dbd_server_type = Q2_DBD_SQLT3 →
      scan_limit q2 line func
        = Run.ok (q2, some (some ("LIMIT 0 OFFSET " ++ fmt_d q2.next_page)))) ∧
    (∀ attrs, q2.dbd_server_type = Q2_DBD_MSSQL → q2.attributes = some attrs →
      (∀ row ∈ attrs, flag_p (apr_table_get row "is_primary_key") = Run.ok false ∨
        (flag_p (apr_table_get row "is_primary_key") = Run.ok true ∧
          ∃ name, apr_table_get row "column_name" = some name)) →
      ((∃ row ∈ attrs, flag_p (apr_table_get row "is_primary_key") = Run.ok true) →
        ∃ pk, scan_limit q2 line func = Run.ok (q2, some (some ("ORDER BY " ++ pk
          ++ " OFFSET " ++ fmt_d q2.next_page ++ " ROWS FETCH NEXT 0 ROWS ONLY")))) ∧
      ((∀ row ∈ attrs, flag_p (apr_table_get row "is_primary_key") = Run.ok false) →
        scan_limit q2 line func
          = Run.ok (q2_log_error q2 line func "Primary key not found", none))) := by
  have hz : fmt_d 0 = "0" := by decide
  have el : ∀ x : String, "LIMIT " ++ "0" ++ " OFFSET " ++ x = "LIMIT 0 OFFSET " ++ x := by
    intro x
    rw [show "LIMIT 0 OFFSET " = "LIMIT " ++ "0" ++ " OFFSET " from by decide]
  have em : ∀ y : String, y ++ " ROWS FETCH NEXT " ++ "0" ++ " ROWS ONLY"
      = y ++ " ROWS FETCH NEXT 0 ROWS ONLY" := by
    intro y
    rw [show " ROWS FETCH NEXT 0 ROWS ONLY" = " ROWS FETCH NEXT " ++ "0" ++ " ROWS ONLY"
      from by decide]
    simp only [String.append_assoc]
  refine ⟨?_, ?_, ?_⟩
  · intro h
    have e1 : ¬ (Q2_DBD_MYSQL = Q2_DBD_MSSQL) := by decide
    have e2 : ¬ (Q2_DBD_MYSQL = Q2_DBD_PGSQL ∨ Q2_DBD_MYSQL = Q2_DBD_SQLT3) := by decide
    unfold scan_limit
    simp only [h, e1, e2, hs, if_false, ne_eq, not_true_eq_false, and_false]
  · intro h
    unfold scan_limit
    rcases h with h | h
    · have e1 : ¬ (Q2_DBD_PGSQL = Q2_DBD_MSSQL) := by decide
      have e2 : ¬ (Q2_DBD_PGSQL = Q2_DBD_MYSQL) := by decide
      simp only [h, e1, e2, hs, hz, if_true, if_false, false_and, true_or, el]
    · have e1 : ¬ (Q2_DBD_SQLT3 = Q2_DBD_MSSQL) := by decide
      have e2 : ¬ (Q2_DBD_SQLT3 = Q2_DBD_MYSQL) := by decide
      simp only [h, e1, e2, hs, hz, if_true, if_false, false_and, or_true, el]
  · intro attrs h ha hrows
    have e2 : ¬ (Q2_DBD_MSSQL = Q2_DBD_PGSQL ∨ Q2_DBD_MSSQL = Q2_DBD_SQLT3) := by decide
    have e3 : ¬ (Q2_DBD_MSSQL = Q2_DBD_MYSQL) := by decide
    constructor
    · intro hex
      rcases last_pk_name_spec attrs none hrows with ⟨_, hno⟩ | ⟨row, hrow, pk, h4, h5, h6⟩
      · obtain ⟨row, hrow, hflag⟩ := hex
        rw [hno row hrow] at hflag
        cases hflag
      · refine ⟨pk, ?_⟩
        unfold scan_limit
        simp only [h, ha, h6, e2, e3, hs, hz, if_true, if_false, false_and, em]
    · intro hno
      unfold scan_limit
      simp only [h, ha, last_pk_name_none attrs none hno, if_true]

/-- Witness of `unpaged_clause`: without page size the scan of
`books(id, title)` gets no clause on MySQL, `LIMIT 0 OFFSET 0` on Postgres and
on SQLite. -/
theorem unpaged_clause_witness :
    scan_limit (ex_scan_unpaged Q2_DBD_MYSQL) 2047 "q2_sql_select_tab"
      = Run.ok (ex_scan_unpaged Q2_DBD_MYSQL, some none) ∧
    scan_limit (ex_scan_unpaged Q2_DBD_PGSQL) 2047 "q2_sql_select_tab"
      = Run.ok (ex_scan_unpaged Q2_DBD_PGSQL, some (some "LIMIT 0 OFFSET 0")) ∧
    scan_limit (ex_scan_unpaged Q2_DBD_SQLT3) 2047 "q2_sql_select_tab"
      = Run.ok (ex_scan_unpaged Q2_DBD_SQLT3, some (some "LIMIT 0 OFFSET 0")) :=
  ⟨(unpaged_clause (ex_scan_unpaged Q2_DBD_MYSQL) 2047 "q2_sql_select_tab" rfl).1 rfl,
   (unpaged_clause (ex_scan_unpaged Q2_DBD_PGSQL) 2047 "q2_sql_select_tab" rfl).2.1
     (Or.inl rfl),
   (unpaged_clause (ex_scan_unpaged Q2_DBD_SQLT3) 2047 "q2_sql_select_tab" rfl).2.1
     (Or.inr rfl)⟩

/-- C36, the failing scan: `GET /api/v1/books` on Postgres without page size;
`q2_sql_select_tab` hands the clause `LIMIT 0 OFFSET 0` to the statement, which
then selects no row. -/
theorem unpaged_scan_limit_zero :
    ∃ q2b, q2_sql_select_tab (ex_dbd []) ex_ext (ex_scan_unpaged Q2_DBD_PGSQL)
      = Run.ok (q2b, some "SELECT * FROM books LIMIT 0 OFFSET 0") :=
  ⟨_, rfl⟩

/-- C39 (what the code does): `q2_rest_valid_accept` accepts a request exactly
when the Accept header is present and differs from
`application/json;charset=UTF-8`. -/
theorem accept_header_check (headers_in : AprTable) :
    q2_rest_valid_accept headers_in = true ↔
      ∃ a, apr_table_get headers_in "Accept" = some a ∧
        a ≠ "application/json;charset=UTF-8" := by
  have hc : Q2_REST_ACCEPT_JSON_UTF8 = "application/json;charset=UTF-8" := by decide
  have hj : Q2_REST_ACCEPT_JSON ≠ "application/json;charset=UTF-8" := by decide
  unfold q2_rest_valid_accept
  cases hg : apr_table_get headers_in "Accept" with
  | none => simp
  | some a =>
    simp only [hc, Bool.or_eq_true, beq_iff_eq, bne_iff_ne, ne_eq, Option.some.injEq,
      exists_eq_left']
    constructor
    · rintro (h | h)
      · rw [h]; exact hj
      · exact h
    · intro h
      exact Or.inr h

/-- C39, failing inputs: the Accept value `text/html` is accepted, and the
value `application/json;charset=UTF-8` is rejected. -/
theorem accept_header_inverted :
    q2_rest_valid_accept [("Accept", some "text/html")] = true ∧
    q2_rest_valid_accept [("Accept", some "application/json;charset=UTF-8")] = false ∧
    q2_rest_valid_accept [("Accept", some "application/json")] = true ∧
    q2_rest_valid_accept [("Content-Type", some "application/json")] = false := by
  decide

theorem apr_strtok_skips (s : Char) (X : List Char) :
    ∀ n : Nat, apr_strtok [s] (List.replicate n s ++ X) = apr_strtok [s] X := by
  intro n
  induction n with
  | zero => rfl
  | succ n ih =>
    rw [List.replicate_succ, List.cons_append, apr_strtok_skip, ih]

theorem apr_strtok_seps (s : Char) (n : Nat) : apr_strtok [s] (List.replicate n s) = none := by
  have h := apr_strtok_skips s [] n
  rw [List.append_nil] at h
  rw [h]
  rfl

theorem gap_chars_shape (s : Char) (more : List (Nat × List Char)) (trail : Nat) :
    gap_chars s more trail = [] ∨ ∃ R1, gap_chars s more trail = s :: R1 := by
  cases more with
  | nil =>
    cases trail with
    | zero => exact Or.inl rfl
    | succ n => exact Or.inr ⟨List.replicate n s, by simp [gap_chars, List.replicate_succ]⟩
  | cons p r =>
    exact Or.inr ⟨List.replicate p.1 s ++ p.2 ++ gap_chars s r trail, by
      simp [gap_chars, List.replicate_succ]⟩

theorem gap_chars_cons (s : Char) (g : Nat) (t : List Char) (r : List (Nat × List Char))
    (trail : Nat) :
    (gap_chars s ((g, t) :: r) trail).drop 1 = List.replicate g s ++ (t ++ gap_chars s r trail) := by
  simp [gap_chars, List.replicate_succ]

theorem q2_split_loop_gapped (s : Char) (trail : Nat) :
    ∀ (more : List (Nat × List Char)) (fuel : Nat) (tok : List Char) (acc : List String),
      (∀ p ∈ more, clean_token s p.2) →
      ((gap_chars s more trail).drop 1).length + 1 ≤ fuel →
      q2_split_loop [s] fuel tok ((gap_chars s more trail).drop 1) acc =
        if trail ≤ 1 then Run.ok (acc ++ String.mk tok :: more.map (fun p => String.mk p.2))
        else Run.fault Fault.diverges := by
  intro more
  induction more with
  | nil =>
    intro fuel tok acc _ hf
    cases fuel with
    | zero => simp at hf
    | succ f =>
      have hd : (gap_chars s [] trail).drop 1 = List.replicate (trail - 1) s := by
        simp [gap_chars]
      rw [hd]
      by_cases ht : trail ≤ 1
      · have h0 : trail - 1 = 0 := by omega
        rw [h0, if_pos ht]
        simp [q2_split_loop]
      · obtain ⟨m, hm⟩ : ∃ m, trail - 1 = m + 1 := ⟨trail - 2, by omega⟩
        rw [hm, if_neg ht, List.replicate_succ, q2_split_loop]
        have hn : apr_strtok [s] (s :: List.replicate m s) = none := by
          rw [← List.replicate_succ]
          exact apr_strtok_seps s (m + 1)
        simp only [hn]
  | cons p r ih =>
    intro fuel tok acc hall hf
    obtain ⟨g, t⟩ := p
    have ht : clean_token s t := hall (g, t) (List.mem_cons_self _ _)
    have hr : ∀ x ∈ r, clean_token s x.2 := fun x hx => hall x (List.mem_cons_of_mem _ hx)
    rw [gap_chars_cons] at hf ⊢
    cases fuel with
    | zero => simp at hf
    | succ f =>
      have hstr : apr_strtok [s] (List.replicate g s ++ (t ++ gap_chars s r trail))
          = some (t, (gap_chars s r trail).drop 1) := by
        rw [apr_strtok_skips]
        exact apr_strtok_clean s t _ ht (gap_chars_shape s r trail)
      have hf2 : ((gap_chars s r trail).drop 1).length + 1 ≤ f := by
        have h1 : 1 ≤ t.length := List.length_pos.mpr ht.1
        have h3 : ((gap_chars s r trail).drop 1).length ≤ (gap_chars s r trail).length := by
          rw [List.length_drop]; omega
        simp only [List.length_append, List.length_replicate] at hf
        omega
      have hnext := ih f t (acc ++ [String.mk tok]) hr hf2
      cases hL : List.replicate g s ++ (t ++ gap_chars s r trail) with
      | nil =>
        exfalso
        have hlen := congrArg List.length hL
        have h1 : 1 ≤ t.length := List.length_pos.mpr ht.1
        simp only [List.length_append, List.length_replicate, List.length_nil] at hlen
        omega
      | cons c cs =>
        rw [hL] at hstr
        rw [q2_split_loop]
        simp only [hstr]
        rw [hnext]
        split <;> simp

theorem q2_split_gapped (s : Char) (lead : Nat) (t : List Char)
    (more : List (Nat × List Char)) (trail : Nat)
    (ht : clean_token s t) (hall : ∀ p ∈ more, clean_token s p.2) :
    q2_split (some (String.mk (gapped s lead t more trail))) (String.singleton s) =
      if trail ≤ 1 then Run.ok (some (String.mk t :: more.map (fun p => String.mk p.2)))
      else Run.fault Fault.diverges := by
  have hstr : apr_strtok [s] (gapped s lead t more trail)
      = some (t, (gap_chars s more trail).drop 1) := by
    unfold gapped
    rw [List.append_assoc, apr_strtok_skips]
    exact apr_strtok_clean s t _ ht (gap_chars_shape s more trail)
  have hsep : (String.singleton s).data = [s] := rfl
  unfold q2_split
  simp only [hsep, hstr]
  rw [q2_split_loop_gapped s trail more _ t [] hall (le_refl _)]
  by_cases htr : trail ≤ 1
  · simp only [htr, if_true, List.nil_append]
  · simp only [htr, if_false]

theorem gapped_cover (s : Char) :
    ∀ l : List Char, (∃ c ∈ l, c ≠ s) →
      ∃ lead t more trail, clean_token s t ∧ (∀ p ∈ more, clean_token s p.2) ∧
        l = gapped s lead t more trail := by
  intro l
  induction l with
  | nil =>
    rintro ⟨c, hc, _⟩
    cases hc
  | cons x xs ih =>
    intro _
    by_cases hxs : ∃ c ∈ xs, c ≠ s
    · obtain ⟨lead, t, more, trail, ht, hall, hl⟩ := ih hxs
      by_cases hx : x = s
      · refine ⟨lead + 1, t, more, trail, ht, hall, ?_⟩
        rw [hl, hx]
        simp [gapped, List.replicate_succ]
      · cases lead with
        | zero =>
          refine ⟨0, x :: t, more, trail, ⟨List.cons_ne_nil _ _, ?_⟩, hall, ?_⟩
          · intro hmem
            rcases List.mem_cons.mp hmem with h | h
            · exact hx h.symm
            · exact ht.2 h
          · rw [hl]
            simp [gapped]
        | succ n =>
          refine ⟨0, [x], (n, t) :: more, trail, ⟨List.cons_ne_nil _ _, ?_⟩, ?_, ?_⟩
          · intro hmem
            rcases List.mem_cons.mp hmem with h | h
            · exact hx h.symm
            · cases h
          · intro p hp
            rcases List.mem_cons.mp hp with rfl | h
            · exact ht
            · exact hall p h
          · rw [hl]
            simp [gapped, gap_chars, List.replicate_succ]
    · have hall : ∀ c ∈ xs, c = s := by
        intro c hc
        by_contra hne
        exact hxs ⟨c, hc, hne⟩
      have hx : x ≠ s := by
        rename_i hex
        obtain ⟨c, hc, hne⟩ := hex
        rcases List.mem_cons.mp hc with h | h
        · rw [← h]; exact hne
        · exact absurd (hall c h) hne
      refine ⟨0, [x], [], xs.length, ⟨List.cons_ne_nil _ _, ?_⟩, ?_, ?_⟩
      · intro hmem
        rcases List.mem_cons.mp hmem with h | h
        · exact hx h.symm
        · cases h
      · intro p hp
        cases hp
      · have hrep : xs = List.replicate xs.length s := List.eq_replicate_iff.mpr ⟨rfl, hall⟩
        simp only [gapped, gap_chars, List.replicate_zero, List.nil_append, List.flatMap_nil,
          List.singleton_append]
        rw [← hrep]

/-- C38 (what the code does): a string with at least one non-separator
character is laid out as `lead` separators, a first run `t`, further runs each
after one or more separators, and `trail` separators at the end, all runs
non-empty and free of the separator. With at most one separator at the end
`q2_split` returns exactly the runs, in order; with two or more separators at
the end it never returns. -/
theorem split_maximal_runs (s : Char) (v : String) (h : ∃ c ∈ v.data, c ≠ s) :
    ∃ lead t more trail, clean_token s t ∧ (∀ p ∈ more, clean_token s p.2) ∧
      v.data = gapped s lead t more trail ∧
      (trail ≤ 1 → q2_split (some v) (String.singleton s)
        = Run.ok (some (String.mk t :: more.map (fun p => String.mk p.2)))) ∧
      (2 ≤ trail → q2_split (some v) (String.singleton s) = Run.fault Fault.diverges) := by
  obtain ⟨lead, t, more, trail, ht, hall, hl⟩ := gapped_cover s v.data h
  have hv : v = String.mk (gapped s lead t more trail) := by
    apply String.ext
    exact hl
  have hrun := q2_split_gapped s lead t more trail ht hall
  rw [← hv] at hrun
  refine ⟨lead, t, more, trail, ht, hall, hl, ?_, ?_⟩
  · intro htr
    rw [hrun, if_pos htr]
  · intro htr
    rw [hrun, if_neg (by omega)]

/-- Witness of `split_maximal_runs`: the string `,,a,,b,` with the separator
`,` is two leading separators, the runs `a` and `b` two separators apart, and
one separator at the end; `q2_split` returns `a` and `b`. -/
theorem split_maximal_runs_witness :
    (∃ lead t more trail, clean_token ',' t ∧ (∀ p ∈ more, clean_token ',' p.2) ∧
      ",,a,,b,".data = gapped ',' lead t more trail ∧
      (trail ≤ 1 → q2_split (some ",,a,,b,") (String.singleton ',')
        = Run.ok (some (String.mk t :: more.map (fun p => String.mk p.2)))) ∧
      (2 ≤ trail → q2_split (some ",,a,,b,") (String.singleton ',')
        = Run.fault Fault.diverges)) ∧
    ",,a,,b,".data = gapped ',' 2 ['a'] [(1, ['b'])] 1 ∧
    q2_split (some ",,a,,b,") "," = Run.ok (some ["a", "b"]) :=
  ⟨split_maximal_runs ',' ",,a,,b," ⟨'a', by decide, by decide⟩, by decide, by decide⟩

/-- C38, failing inputs: on `a,,` with the separator `,`, and on the query
string `x=1&&` with the separator `&`, `q2_split` does not terminate. -/
theorem split_trailing_separators_diverge :
    (∃ c ∈ "a,,".data, c ≠ ',') ∧
    q2_split (some "a,,") "," = Run.fault Fault.diverges ∧
    q2_split (some "x=1&&") "&" = Run.fault Fault.diverges :=
  ⟨⟨'a', by decide, by decide⟩, by decide, by decide⟩

theorem table_set_fresh (k : String) (v : CStr) :
    ∀ t : AprTable, (∀ e ∈ t, ¬ same_key e.1 k) → apr_table_set t k v = t ++ [(k, v)] := by
  intro t
  induction t with
  | nil => intro _; rfl
  | cons e r ih =>
    intro h
    obtain ⟨k0, v0⟩ := e
    have h0 : strcasecmp_eq k0 k = false :=
      (strcasecmp_eq_false_iff k0 k).mpr (h (k0, v0) (List.mem_cons_self _ _))
    rw [apr_table_set]
    simp only [h0, Bool.false_eq_true, if_false, List.cons_append]
    rw [ih (fun e he => h e (List.mem_cons_of_mem _ he))]

theorem codec_item_clean (e : String × String) (hk : codec_token e.1) (hv : codec_token e.2) :
    clean_token '&' (e.1 ++ "=" ++ e.2).data := by
  constructor
  · intro h
    apply hk.1
    have := congrArg List.length h
    simp only [String.data_append, List.length_append, List.length_nil] at this
    exact List.length_eq_zero.mp (by omega)
  · intro h
    simp only [String.data_append, List.mem_append] at h
    rcases h with (h | h) | h
    · exact hk.2.1 h
    · exact absurd h (by decide)
    · exact hv.2.1 h

theorem args_to_table_loop_codec :
    ∀ (rest : List (String × String)) (tab : Option AprTable),
      (∀ e ∈ rest, codec_token e.1 ∧ codec_token e.2) →
      rest.Pairwise (fun a b => ¬ same_key a.1 b.1) →
      (∀ e ∈ rest, ∀ x ∈ tab.getD [], ¬ same_key x.1 e.1) →
      args_to_table_loop tab (rest.map (fun e => e.1 ++ "=" ++ e.2)) =
        Run.ok (if rest = [] then tab else some (tab.getD [] ++ param_table rest), 0) := by
  intro rest
  induction rest with
  | nil => intro tab _ _ _; rfl
  | cons e r ih =>
    intro tab hc hp hf
    obtain ⟨hk, hv⟩ := hc e (List.mem_cons_self _ _)
    have hsp : q2_split (some (e.1 ++ "=" ++ e.2)) "=" = Run.ok (some [e.1, e.2]) :=
      q2_split_two '=' e.1 e.2 ⟨hk.1, hk.2.2⟩ ⟨hv.1, hv.2.2⟩
    have hset : apr_table_set (tab.getD []) e.1 (some e.2) = tab.getD [] ++ [(e.1, some e.2)] :=
      table_set_fresh e.1 (some e.2) _ (fun x hx => hf e (List.mem_cons_self _ _) x hx)
    rw [List.map_cons, args_to_table_loop]
    simp only [hsp, hset]
    rw [ih (some (tab.getD [] ++ [(e.1, some e.2)]))
      (fun x hx => hc x (List.mem_cons_of_mem _ hx)) (List.Pairwise.of_cons hp)
      (by
        intro x hx y hy
        simp only [Option.getD_some, List.mem_append, List.mem_singleton] at hy
        rcases hy with hy | rfl
        · exact hf x (List.mem_cons_of_mem _ hx) y hy
        · exact List.rel_of_pairwise_cons hp hx)]
    simp only [reduceCtorEq, if_false, Option.getD_some, Run.ok.injEq, Prod.mk.injEq,
      and_true]
    cases r with
    | nil => simp [param_table]
    | cons e2 r2 => simp [param_table]

/-- C40 (amended): for every non-empty parameter table whose keys differ
pairwise even when the case of letters is ignored, and whose keys and values
are non-empty and contain neither `&` nor `=`, `q2_table_to_args` yields a
string on which `q2_args_to_table` succeeds (return value 0) with exactly the
entries of the table, in order. -/
theorem args_round_trip (t : List (String × String)) (hne : t ≠ [])
    (hkeys : t.Pairwise (fun a b => ¬ same_key a.1 b.1))
    (htok : ∀ e ∈ t, codec_token e.1 ∧ codec_token e.2) :
    ∃ args, q2_table_to_args (some (param_table t)) = some args ∧
      q2_args_to_table (some args) = Run.ok (some (param_table t), 0) := by
  obtain ⟨e, r, rfl⟩ : ∃ e r, t = e :: r := by
    cases t with
    | nil => exact absurd rfl hne
    | cons e r => exact ⟨e, r, rfl⟩
  have hitems : (param_table (e :: r)).map (fun x => x.1 ++ "=" ++ fmt_s x.2)
      = (e :: r).map (fun x => x.1 ++ "=" ++ x.2) := by
    simp [param_table, fmt_s]
  have hclean : ∀ x ∈ (e.1 ++ "=" ++ e.2) :: r.map (fun x => x.1 ++ "=" ++ x.2),
      clean_token '&' x.data := by
    intro x hx
    rcases List.mem_cons.mp hx with rfl | hx
    · exact codec_item_clean e (htok e (List.mem_cons_self _ _)).1
        (htok e (List.mem_cons_self _ _)).2
    · obtain ⟨y, hy, rfl⟩ := List.mem_map.mp hx
      exact codec_item_clean y (htok y (List.mem_cons_of_mem _ hy)).1
        (htok y (List.mem_cons_of_mem _ hy)).2
  have hsplit := q2_split_many '&' (e.1 ++ "=" ++ e.2) (r.map (fun x => x.1 ++ "=" ++ x.2))
    hclean
  refine ⟨String.intercalate "&" ((e :: r).map (fun x => x.1 ++ "=" ++ x.2)), ?_, ?_⟩
  · unfold q2_table_to_args
    simp only [hitems]
    simp [q2_join]
  · have hlen : ¬ (String.intercalate "&" ((e :: r).map (fun x => x.1 ++ "=" ++ x.2))).length
        ≤ 0 := by
      have h1 := (hclean _ (List.mem_cons_self _ _)).1
      have h2 : (String.intercalate "&" ((e :: r).map (fun x => x.1 ++ "=" ++ x.2))).data
          = (e.1 ++ "=" ++ e.2).data
            ++ rest_chars '&' ((r.map (fun x => x.1 ++ "=" ++ x.2)).map String.data) := by
        have h3 := intercalate_data '&' (e.1 ++ "=" ++ e.2) (r.map (fun x => x.1 ++ "=" ++ x.2))
        exact congrArg String.data h3
      intro hle
      have h4 : (String.intercalate "&" ((e :: r).map (fun x => x.1 ++ "=" ++ x.2))).data.length
          = 0 := Nat.le_zero.mp hle
      rw [h2, List.length_append] at h4
      exact h1 (List.length_eq_zero.mp (by omega))
    have hloop := args_to_table_loop_codec (e :: r) none htok hkeys
      (fun _ _ x hx => absurd hx (List.not_mem_nil x))
    unfold q2_args_to_table
    simp only [hlen, if_false]
    rw [List.map_cons]
    have hs2 : q2_split (some (String.intercalate "&"
        ((e.1 ++ "=" ++ e.2) :: r.map (fun x => x.1 ++ "=" ++ x.2)))) "&"
        = Run.ok (some ((e.1 ++ "=" ++ e.2) :: r.map (fun x => x.1 ++ "=" ++ x.2))) := hsplit
    simp only [hs2]
    rw [List.map_cons] at hloop
    simp only [List.length_cons, Nat.le_zero_eq, Nat.add_one_ne_zero, if_false, hloop,
      reduceCtorEq, Option.getD_none, List.nil_append]

/-- Witness of `args_round_trip`: the table `title=Dune, pages=412` is encoded
as `title=Dune&pages=412` and decoded to itself. -/
theorem args_round_trip_witness :
    ∃ args, q2_table_to_args (some (param_table [("title", "Dune"), ("pages", "412")]))
        = some args ∧
      q2_args_to_table (some args)
        = Run.ok (some (param_table [("title", "Dune"), ("pages", "412")]), 0) :=
  args_round_trip [("title", "Dune"), ("pages", "412")] (by decide)
    (by
      refine List.Pairwise.cons ?_ (List.Pairwise.cons ?_ List.Pairwise.nil)
      · intro b hb
        simp only [List.mem_singleton] at hb
        rw [hb]
        unfold same_key
        decide
      · intro b hb
        cases hb)
    (by
      intro e he
      simp only [List.mem_cons, List.mem_singleton, List.not_mem_nil, or_false] at he
      rcases he with rfl | rfl
      · exact ⟨⟨by decide, by decide, by decide⟩, ⟨by decide, by decide, by decide⟩⟩
      · exact ⟨⟨by decide, by decide, by decide⟩, ⟨by decide, by decide, by decide⟩⟩)

/-- C40 as stated fails: the keys `id` and `ID` are distinct, yet the table
`id=1, ID=2` is encoded as `id=1&ID=2` and decoded to the single entry
`id=2`, because `apr_table_set` compares keys without regard to case. -/
theorem args_round_trip_stated_fails :
    ("id" : String) ≠ "ID" ∧
    q2_table_to_args (some (param_table [("id", "1"), ("ID", "2")])) = some "id=1&ID=2" ∧
    q2_args_to_table (some "id=1&ID=2") = Run.ok (some [("id", some "2")], 0) := by
  decide

theorem map_rows_forall2 (f : AprTable → Run AprTable) :
    ∀ (l : List AprTable), (∀ row ∈ l, ∃ r, f row = Run.ok r) →
      ∃ rs, map_rows f l = Run.ok rs ∧ List.Forall₂ (fun row r => f row = Run.ok r) l rs := by
  intro l
  induction l with
  | nil => intro _; exact ⟨[], rfl, List.Forall₂.nil⟩
  | cons a rest ih =>
    intro h
    obtain ⟨r, hr⟩ := h a (List.mem_cons_self _ _)
    obtain ⟨rs, hrs, hf⟩ := ih (fun row hrow => h row (List.mem_cons_of_mem _ hrow))
    refine ⟨r :: rs, ?_, List.Forall₂.cons hr hf⟩
    rw [map_rows]
    simp only [hr, hrs]

theorem options_row_not_fk (q2 : Q2) (row : AprTable) (h : not_fk row) :
    update_options_row q2 row = Run.ok row := by
  obtain ⟨hfk, m, hm⟩ := h
  unfold update_options_row
  simp only [hfk, hm]
  cases ho : (match q2.r_others with
      | none => false
      | some o => decide (o.length > 0)) <;>
    simp [all_true, ho]

theorem options_row_fk_single (q2 : Q2) (row : AprTable) (sch t c : String)
    (h : fk_single row sch t c) :
    (sch ≠ "null" → t ≠ "null" → c ≠ "null" →
      update_options_row q2 row
        = Run.ok (apr_table_set row "column_options" (some ("/" ++ t ++ "/" ++ c)))) ∧
    (sch = "null" ∨ t = "null" ∨ c = "null" → update_options_row q2 row = Run.ok row) := by
  obtain ⟨⟨fk, hfk, hne⟩, hm, hs, ht, hc⟩ := h
  have hd : decide (fk ≠ 0) = true := decide_eq_true hne
  constructor
  · intro h1 h2 h3
    have b1 : (sch != "null") = true := bne_iff_ne.mpr h1
    have b2 : (t != "null") = true := bne_iff_ne.mpr h2
    have b3 : (c != "null") = true := bne_iff_ne.mpr h3
    unfold update_options_row
    simp only [hfk, hm, hs, ht, hc]
    cases ho : (match q2.r_others with
        | none => false
        | some o => decide (o.length > 0)) <;>
      simp [all_true, hd, strcmp_ne, b1, b2, b3]
  · intro hnull
    have hb : (sch != "null") = false ∨ (t != "null") = false ∨ (c != "null") = false := by
      rcases hnull with h1 | h1 | h1
      · exact Or.inl (by rw [h1]; decide)
      · exact Or.inr (Or.inl (by rw [h1]; decide))
      · exact Or.inr (Or.inr (by rw [h1]; decide))
    unfold update_options_row
    simp only [hfk, hm, hs, ht, hc]
    cases ho : (match q2.r_others with
        | none => false
        | some o => decide (o.length > 0)) <;>
      cases b1 : (sch != "null") <;> cases b2 : (t != "null") <;> cases b3 : (c != "null") <;>
      simp [all_true, hd, strcmp_ne, b1, b2, b3] <;>
      simp [b1, b2, b3] at hb

/-- C33 (what the code does): when every attribute is either not a foreign
key or a foreign key with a single-column referenced key,
`q2_ischema_update_options_attr` returns the attributes row by row: an
attribute that is not a foreign key is unchanged; a foreign key whose
referenced schema, table and column all differ from the text `null` gets
`column_options` equal to `/referenced_table/referenced_column`; and a foreign
key whose referenced schema (or table, or column) reads `null`, as every
foreign key of SQLite does, is left unchanged. -/
theorem column_options_of_reference (q2 : Q2) (attrs : List AprTable)
    (ha : q2.attributes = some attrs) (hne : attrs ≠ [])
    (hrows : ∀ row ∈ attrs, not_fk row ∨ ∃ sch t c, fk_single row sch t c) :
    ∃ rows, q2_ischema_update_options_attr q2 = Run.ok { q2 with attributes := some rows } ∧
      List.Forall₂ (fun row r =>
        (not_fk row → r = row) ∧
        (∀ sch t c, fk_single row sch t c →
          (sch ≠ "null" → t ≠ "null" → c ≠ "null" →
            r = apr_table_set row "column_options" (some ("/" ++ t ++ "/" ++ c)) ∧
            apr_table_get r "column_options" = some ("/" ++ t ++ "/" ++ c)) ∧
          (sch = "null" ∨ t = "null" ∨ c = "null" → r = row))) attrs rows := by
  have hok : ∀ row ∈ attrs, ∃ r, update_options_row q2 row = Run.ok r := by
    intro row hrow
    rcases hrows row hrow with h | ⟨sch, t, c, h⟩
    · exact ⟨row, options_row_not_fk q2 row h⟩
    · by_cases hn : sch = "null" ∨ t = "null" ∨ c = "null"
      · exact ⟨row, (options_row_fk_single q2 row sch t c h).2 hn⟩
      · simp only [not_or] at hn
        exact ⟨_, (options_row_fk_single q2 row sch t c h).1 hn.1 hn.2.1 hn.2.2⟩
  obtain ⟨rows, hrun, hf⟩ := map_rows_forall2 (update_options_row q2) attrs hok
  refine ⟨rows, ?_, ?_⟩
  · unfold q2_ischema_update_options_attr
    rw [ha]
    cases attrs with
    | nil => exact absurd rfl hne
    | cons a rest => simp only [hrun]
  · refine List.Forall₂.imp ?_ hf
    intro row r hr
    constructor
    · intro h
      rw [options_row_not_fk q2 row h] at hr
      cases hr
      rfl
    · intro sch t c h
      constructor
      · intro h1 h2 h3
        rw [(options_row_fk_single q2 row sch t c h).1 h1 h2 h3] at hr
        cases hr
        exact ⟨rfl, table_get_set_same _ _ _⟩
      · intro hn
        rw [(options_row_fk_single q2 row sch t c h).2 hn] at hr
        cases hr
        rfl

/-- Witness of `column_options_of_reference`: the attributes `id` (no foreign
key) and `customer_id`, a foreign key to `shop.customers.id`; the first is
unchanged and the second gets the options `/customers/id`. -/
theorem column_options_of_reference_witness :
    ∃ rows, q2_ischema_update_options_attr
        { attributes := some [ex_sqlt3_column "id",
            apr_table_set (apr_table_set (apr_table_set (apr_table_set
              (ex_sqlt3_column "customer_id") "is_foreign_key" (some "1"))
              "referenced_schema" (some "shop")) "referenced_table" (some "customers"))
              "referenced_column" (some "id")] }
        = Run.ok { attributes := some rows } ∧
      rows.map (fun r => apr_table_get r "column_options")
        = [some "NULL", some "/customers/id"] := by
  obtain ⟨rows, hrun, hf⟩ := column_options_of_reference
    { attributes := some [ex_sqlt3_column "id",
        apr_table_set (apr_table_set (apr_table_set (apr_table_set
          (ex_sqlt3_column "customer_id") "is_foreign_key" (some "1"))
          "referenced_schema" (some "shop")) "referenced_table" (some "customers"))
          "referenced_column" (some "id")] }
    _ rfl (by decide)
    (by
      intro row hrow
      simp only [List.mem_cons, List.mem_singleton, List.not_mem_nil, or_false] at hrow
      rcases hrow with rfl | rfl
      · exact Or.inl ⟨by decide, 0, by decide⟩
      · exact Or.inr ⟨"shop", "customers", "id", ⟨1, by decide, by decide⟩, by decide,
          by decide, by decide, by decide⟩)
  refine ⟨rows, hrun, ?_⟩
  cases hf with
  | cons h1 hrest =>
    cases hrest with
    | cons h2 hnil =>
      cases hnil
      have e1 := h1.1 ⟨by decide, 0, by decide⟩
      have e2 := ((h2.2 "shop" "customers" "id" ⟨⟨1, by decide, by decide⟩, by decide,
        by decide, by decide, by decide⟩).1 (by decide) (by decide) (by decide)).2
      rw [e1]
      simp only [List.map_cons, List.map_nil, e2]
      decide

/-- C33, the failing backend: on SQLite the rows of `q2_sqlt3_fk_attr` carry
the referenced schema `null`; after both enrichment steps the attribute
`customer_id` of `orders` is a foreign key to `customers.id` with a
single-column referenced key, and its `column_options` is still what the
catalog gave. With the foreign-key row of MySQL the same attribute gets
`/customers/id`. -/
theorem sqlite_reference_without_options :
    (q2_sqlt3_fk_attr { rset := some [ex_pragma_fk], er := 0 }).rset
      = some [[("column_name", some "customer_id"), ("is_foreign_key", some "1"),
               ("referenced_schema", some "null"), ("referenced_table", some "customers"),
               ("referenced_column", some "id")]] ∧
    (let r := enrich_attrs (ex_dbd ex_orders_schema) (ex_driver ex_orders_schema)
        (ex_orders_loaded Q2_DBD_SQLT3
          (q2_sqlt3_fk_attr { rset := some [ex_pragma_fk], er := 0 }).rset)
     attr_value r 1 "is_foreign_key" = some "1" ∧
     attr_value r 1 "referenced_table" = some "customers" ∧
     attr_value r 1 "referenced_column" = some "id" ∧
     attr_value r 1 "referenced_pk" = some "id" ∧
     attr_value r 1 "is_referenced_pk_multi" = some "0" ∧
     attr_value r 1 "column_options" = some "NULL") ∧
    attr_value (enrich_attrs (ex_dbd ex_orders_schema) (ex_driver ex_orders_schema)
      (ex_orders_loaded Q2_DBD_MYSQL (some [ex_mysql_fk]))) 1 "column_options"
      = some "/customers/id" := by
  decide

theorem mark_fold_get_other (c_name flag k : String) (h : ¬ same_key flag k) :
    ∀ (rows : List AprTable) (acc : AprTable),
      apr_table_get (rows.foldl
        (fun acc r =>
          match apr_table_get r "column_name" with
          | none => acc
          | some n => if c_name == n then apr_table_set acc flag (some "1") else acc)
        acc) k = apr_table_get acc k := by
  intro rows
  induction rows with
  | nil => intro acc; rfl
  | cons r rest ih =>
    intro acc
    rw [List.foldl_cons, ih]
    cases apr_table_get r "column_name" with
    | none => rfl
    | some n =>
      simp only []
      split
      · exact table_get_set_other _ _ _ _ h
      · rfl

theorem mark_matching_get_other (names : Option Rset) (c_name flag k : String)
    (row : AprTable) (h : ¬ same_key flag k) :
    apr_table_get (mark_matching names c_name flag row) k = apr_table_get row k := by
  unfold mark_matching
  cases names with
  | none => rfl
  | some rows => exact mark_fold_get_other c_name flag k h rows row

theorem mark_fold_hit (c_name flag : String) :
    ∀ (rows : List AprTable) (acc : AprTable),
      (apr_table_get acc flag = some "1" ∨
        ∃ n ∈ rows, apr_table_get n "column_name" = some c_name) →
      apr_table_get (rows.foldl
        (fun acc r =>
          match apr_table_get r "column_name" with
          | none => acc
          | some n => if c_name == n then apr_table_set acc flag (some "1") else acc)
        acc) flag = some "1" := by
  intro rows
  induction rows with
  | nil =>
    intro acc h
    rcases h with h | ⟨n, hn, _⟩
    · exact h
    · cases hn
  | cons r rest ih =>
    intro acc h
    rw [List.foldl_cons]
    apply ih
    cases hr : apr_table_get r "column_name" with
    | none =>
      simp only []
      rcases h with h | ⟨n, hn, hname⟩
      · exact Or.inl h
      · rcases List.mem_cons.mp hn with rfl | hin
        · rw [hr] at hname; cases hname
        · exact Or.inr ⟨n, hin, hname⟩
    | some m =>
      simp only []
      by_cases hm : c_name = m
      · simp only [hm, beq_self_eq_true, if_true]
        exact Or.inl (table_get_set_same _ _ _)
      · have hb : (c_name == m) = false := beq_eq_false_iff_ne.mpr hm
        simp only [hb, Bool.false_eq_true, if_false]
        rcases h with h | ⟨n, hn, hname⟩
        · exact Or.inl h
        · rcases List.mem_cons.mp hn with rfl | hin
          · rw [hr] at hname
            injection hname with e
            exact absurd e.symm hm
          · exact Or.inr ⟨n, hin, hname⟩

theorem mark_matching_hit (names : Option Rset) (c_name flag : String) (row : AprTable)
    (h : in_names names c_name) :
    apr_table_get (mark_matching names c_name flag row) flag = some "1" := by
  obtain ⟨rows, hrows, hex⟩ := h
  unfold mark_matching
  rw [hrows]
  exact mark_fold_hit c_name flag rows row (Or.inr hex)

theorem mark_fold_miss (c_name flag : String) :
    ∀ (rows : List AprTable) (acc : AprTable),
      (∀ n ∈ rows, apr_table_get n "column_name" ≠ some c_name) →
      rows.foldl
        (fun acc r =>
          match apr_table_get r "column_name" with
          | none => acc
          | some n => if c_name == n then apr_table_set acc flag (some "1") else acc)
        acc = acc := by
  intro rows
  induction rows with
  | nil => intro acc _; rfl
  | cons r rest ih =>
    intro acc h
    rw [List.foldl_cons]
    have hr := h r (List.mem_cons_self _ _)
    have hstep : (match apr_table_get r "column_name" with
        | none => acc
        | some n => if c_name == n then apr_table_set acc flag (some "1") else acc) = acc := by
      cases hg : apr_table_get r "column_name" with
      | none => rfl
      | some m =>
        have hm : c_name ≠ m := fun e => hr (by rw [hg, e])
        have hb : (c_name == m) = false := beq_eq_false_iff_ne.mpr hm
        simp only [hb, Bool.false_eq_true, if_false]
    rw [hstep]
    exact ih acc (fun n hn => h n (List.mem_cons_of_mem _ hn))

theorem mark_matching_miss (names : Option Rset) (c_name flag : String) (row : AprTable)
    (h : ¬ in_names names c_name) :
    mark_matching names c_name flag row = row := by
  unfold mark_matching
  cases names with
  | none => rfl
  | some rows =>
    apply mark_fold_miss
    intro n hn hname
    exact h ⟨rows, rfl, n, hn, hname⟩

theorem get_pk_attrs_lists (db : Dbd) (fn : Driver) (q : Q2) (tab : CStr) :
    (q2_ischema_get_pk_attrs db fn q tab).1.pk_attrs = q.pk_attrs ∧
    (q2_ischema_get_pk_attrs db fn q tab).1.unsigned_attrs = q.unsigned_attrs ∧
    (q2_ischema_get_pk_attrs db fn q tab).1.refs_attrs = q.refs_attrs := by
  unfold q2_ischema_get_pk_attrs
  dsimp only
  split <;> exact ⟨rfl, rfl, rfl⟩

theorem mark_refs_lists (db : Dbd) (fn : Driver) (c_name : String) (refs : List AprTable) :
    ∀ (q : Q2) (row : AprTable),
      (mark_refs db fn c_name q row refs).1.pk_attrs = q.pk_attrs ∧
      (mark_refs db fn c_name q row refs).1.unsigned_attrs = q.unsigned_attrs ∧
      (mark_refs db fn c_name q row refs).1.refs_attrs = q.refs_attrs := by
  induction refs with
  | nil => intro q row; exact ⟨rfl, rfl, rfl⟩
  | cons r rest ih =>
    intro q row
    unfold mark_refs
    split
    · exact ih _ _
    · split
      · exact ih _ _
      · dsimp only
        have hl := get_pk_attrs_lists db fn q (apr_table_get r "referenced_table")
        split
        all_goals
          (obtain ⟨h1, h2, h3⟩ := ih (q2_ischema_get_pk_attrs db fn q
              (apr_table_get r "referenced_table")).1 _
           exact ⟨h1.trans hl.1, h2.trans hl.2.1, h3.trans hl.2.2⟩)

theorem mark_refs_miss (db : Dbd) (fn : Driver) (c_name : String) (refs : List AprTable) :
    (∀ g ∈ refs, apr_table_get g "column_name" ≠ some c_name) →
    ∀ (q : Q2) (row : AprTable), mark_refs db fn c_name q row refs = (q, row) := by
  induction refs with
  | nil => intro _ q row; rfl
  | cons r rest ih =>
    intro h q row
    have hrest := ih (fun g hg => h g (List.mem_cons_of_mem _ hg))
    have hr := h r (List.mem_cons_self _ _)
    unfold mark_refs
    cases hg : apr_table_get r "column_name" with
    | none => exact hrest q row
    | some n =>
      have hn : c_name ≠ n := fun e => hr (by rw [hg, e])
      have hb : (c_name != n) = true := bne_iff_ne.mpr hn
      simp only [hb, if_true]
      exact hrest q row

theorem mark_refs_get_other (db : Dbd) (fn : Driver) (c_name k : String)
    (h1 : ¬ same_key "is_foreign_key" k) (h2 : ¬ same_key "referenced_schema" k)
    (h3 : ¬ same_key "referenced_table" k) (h4 : ¬ same_key "referenced_column" k)
    (h5 : ¬ same_key "referenced_pk" k) (h6 : ¬ same_key "is_referenced_pk_multi" k)
    (refs : List AprTable) :
    ∀ (q : Q2) (row : AprTable),
      apr_table_get (mark_refs db fn c_name q row refs).2 k = apr_table_get row k := by
  induction refs with
  | nil => intro q row; rfl
  | cons r rest ih =>
    intro q row
    unfold mark_refs
    split
    · exact ih _ _
    · split
      · exact ih _ _
      · dsimp only
        split
        all_goals
          (rw [ih]
           simp only [table_get_set_other _ _ _ _ h1, table_get_set_other _ _ _ _ h2,
             table_get_set_other _ _ _ _ h3, table_get_set_other _ _ _ _ h4,
             table_get_set_other _ _ _ _ h5, table_get_set_other _ _ _ _ h6])

theorem mark_refs_last (db : Dbd) (fn : Driver) (c_name : String) (f : AprTable)
    (post : List AprTable) (hf : apr_table_get f "column_name" = some c_name)
    (hpost : ∀ g ∈ post, apr_table_get g "column_name" ≠ some c_name) :
    ∀ (pre : List AprTable) (q : Q2) (row : AprTable),
      apr_table_get (mark_refs db fn c_name q row (pre ++ f :: post)).2 "is_foreign_key"
        = some "1" ∧
      apr_table_get (mark_refs db fn c_name q row (pre ++ f :: post)).2 "referenced_schema"
        = apr_table_get f "referenced_schema" ∧
      apr_table_get (mark_refs db fn c_name q row (pre ++ f :: post)).2 "referenced_table"
        = apr_table_get f "referenced_table" ∧
      apr_table_get (mark_refs db fn c_name q row (pre ++ f :: post)).2 "referenced_column"
        = apr_table_get f "referenced_column" := by
  have k12 : ¬ same_key "referenced_schema" "is_foreign_key" := by unfold same_key; decide
  have k13 : ¬ same_key "referenced_table" "is_foreign_key" := by unfold same_key; decide
  have k14 : ¬ same_key "referenced_column" "is_foreign_key" := by unfold same_key; decide
  have k15 : ¬ same_key "referenced_pk" "is_foreign_key" := by unfold same_key; decide
  have k16 : ¬ same_key "is_referenced_pk_multi" "is_foreign_key" := by
    unfold same_key; decide
  have k23 : ¬ same_key "referenced_table" "referenced_schema" := by unfold same_key; decide
  have k24 : ¬ same_key "referenced_column" "referenced_schema" := by unfold same_key; decide
  have k25 : ¬ same_key "referenced_pk" "referenced_schema" := by unfold same_key; decide
  have k26 : ¬ same_key "is_referenced_pk_multi" "referenced_schema" := by
    unfold same_key; decide
  have k34 : ¬ same_key "referenced_column" "referenced_table" := by unfold same_key; decide
  have k35 : ¬ same_key "referenced_pk" "referenced_table" := by unfold same_key; decide
  have k36 : ¬ same_key "is_referenced_pk_multi" "referenced_table" := by
    unfold same_key; decide
  have k45 : ¬ same_key "referenced_pk" "referenced_column" := by unfold same_key; decide
  have k46 : ¬ same_key "is_referenced_pk_multi" "referenced_column" := by
    unfold same_key; decide
  intro pre
  induction pre with
  | nil =>
    intro q row
    rw [List.nil_append]
    unfold mark_refs
    have hb : (c_name != c_name) = false := by simp
    simp only [hf, hb, Bool.false_eq_true, if_false]
    split
    all_goals
      (rw [mark_refs_miss db fn c_name post hpost]
       simp only [table_get_set_other _ _ _ _ k12, table_get_set_other _ _ _ _ k13,
         table_get_set_other _ _ _ _ k14, table_get_set_other _ _ _ _ k15,
         table_get_set_other _ _ _ _ k16, table_get_set_other _ _ _ _ k23,
         table_get_set_other _ _ _ _ k24, table_get_set_other _ _ _ _ k25,
         table_get_set_other _ _ _ _ k26, table_get_set_other _ _ _ _ k34,
         table_get_set_other _ _ _ _ k35, table_get_set_other _ _ _ _ k36,
         table_get_set_other _ _ _ _ k45, table_get_set_other _ _ _ _ k46,
         table_get_set_same, and_self])
  | cons p pre ih =>
    intro q row
    rw [List.cons_append]
    unfold mark_refs
    split
    · exact ih _ _
    · split
      · exact ih _ _
      · dsimp only
        split
        all_goals exact ih _ _

theorem enriched_no_name (pk uns refs : Option Rset) (row : AprTable)
    (h : apr_table_get row "column_name" = none) : enriched pk uns refs row row := by
  refine ⟨rfl, fun _ => rfl, ?_⟩
  intro c hc
  rw [h] at hc
  cases hc

theorem enriched_step (db : Dbd) (fn : Driver) (q : Q2) (row : AprTable) (c : String)
    (hc : apr_table_get row "column_name" = some c) :
    enriched q.pk_attrs q.unsigned_attrs q.refs_attrs row
      (match q.refs_attrs with
        | none => (q, mark_matching q.unsigned_attrs c "is_unsigned"
            (mark_matching q.pk_attrs c "is_primary_key" row))
        | some refs => mark_refs db fn c q
            (mark_matching q.unsigned_attrs c "is_unsigned"
              (mark_matching q.pk_attrs c "is_primary_key" row)) refs).2 := by
  have n1 : ¬ same_key "is_primary_key" "column_name" := by unfold same_key; decide
  have n2 : ¬ same_key "is_unsigned" "column_name" := by unfold same_key; decide
  have n3 : ¬ same_key "is_foreign_key" "column_name" := by unfold same_key; decide
  have n4 : ¬ same_key "referenced_schema" "column_name" := by unfold same_key; decide
  have n5 : ¬ same_key "referenced_table" "column_name" := by unfold same_key; decide
  have n6 : ¬ same_key "referenced_column" "column_name" := by unfold same_key; decide
  have n7 : ¬ same_key "referenced_pk" "column_name" := by unfold same_key; decide
  have n8 : ¬ same_key "is_referenced_pk_multi" "column_name" := by unfold same_key; decide
  have p2 : ¬ same_key "is_unsigned" "is_primary_key" := by unfold same_key; decide
  have p3 : ¬ same_key "is_foreign_key" "is_primary_key" := by unfold same_key; decide
  have p4 : ¬ same_key "referenced_schema" "is_primary_key" := by unfold same_key; decide
  have p5 : ¬ same_key "referenced_table" "is_primary_key" := by unfold same_key; decide
  have p6 : ¬ same_key "referenced_column" "is_primary_key" := by unfold same_key; decide
  have p7 : ¬ same_key "referenced_pk" "is_primary_key" := by unfold same_key; decide
  have p8 : ¬ same_key "is_referenced_pk_multi" "is_primary_key" := by unfold same_key; decide
  have u3 : ¬ same_key "is_foreign_key" "is_unsigned" := by unfold same_key; decide
  have u4 : ¬ same_key "referenced_schema" "is_unsigned" := by unfold same_key; decide
  have u5 : ¬ same_key "referenced_table" "is_unsigned" := by unfold same_key; decide
  have u6 : ¬ same_key "referenced_column" "is_unsigned" := by unfold same_key; decide
  have u7 : ¬ same_key "referenced_pk" "is_unsigned" := by unfold same_key; decide
  have u8 : ¬ same_key "is_referenced_pk_multi" "is_unsigned" := by unfold same_key; decide
  have hother : ∀ k, ¬ same_key "is_foreign_key" k → ¬ same_key "referenced_schema" k →
      ¬ same_key "referenced_table" k → ¬ same_key "referenced_column" k →
      ¬ same_key "referenced_pk" k → ¬ same_key "is_referenced_pk_multi" k →
      ∀ r0 : AprTable,
      apr_table_get (match q.refs_attrs with
        | none => (q, r0)
        | some refs => mark_refs db fn c q r0 refs).2 k = apr_table_get r0 k := by
    intro k h1 h2 h3 h4 h5 h6 r0
    cases q.refs_attrs with
    | none => rfl
    | some refs => exact mark_refs_get_other db fn c k h1 h2 h3 h4 h5 h6 refs q r0
  refine ⟨?_, ?_, ?_⟩
  · rw [hother "column_name" n3 n4 n5 n6 n7 n8, mark_matching_get_other _ _ _ _ _ n2,
      mark_matching_get_other _ _ _ _ _ n1]
  · intro h
    rw [hc] at h
    cases h
  · intro c2 hc2
    rw [hc] at hc2
    injection hc2 with e
    subst e
    refine ⟨?_, ?_, ?_, ?_⟩
    · intro hpk
      rw [hother "is_primary_key" p3 p4 p5 p6 p7 p8, mark_matching_get_other _ _ _ _ _ p2]
      exact mark_matching_hit _ _ _ _ hpk
    · intro huns
      rw [hother "is_unsigned" u3 u4 u5 u6 u7 u8]
      exact mark_matching_hit _ _ _ _ huns
    · intro f hlast
      obtain ⟨pre, post, hrefs, hf, hpost⟩ := hlast
      rw [hrefs]
      exact mark_refs_last db fn c f post hf hpost pre q _
    · intro h1 h2 h3
      rw [mark_matching_miss _ _ _ _ h1, mark_matching_miss _ _ _ _ h2]
      cases hr : q.refs_attrs with
      | none => rfl
      | some refs =>
        simp only []
        rw [mark_refs_miss db fn c refs (fun g hg hname => h3 ⟨refs, hr, g, hg, hname⟩)]

theorem refs_step_lists (db : Dbd) (fn : Driver) (c : String) (q : Q2) (r0 : AprTable) :
    (match q.refs_attrs with
      | none => (q, r0)
      | some refs => mark_refs db fn c q r0 refs).1.pk_attrs = q.pk_attrs ∧
    (match q.refs_attrs with
      | none => (q, r0)
      | some refs => mark_refs db fn c q r0 refs).1.unsigned_attrs = q.unsigned_attrs ∧
    (match q.refs_attrs with
      | none => (q, r0)
      | some refs => mark_refs db fn c q r0 refs).1.refs_attrs = q.refs_attrs := by
  rcases hr : q.refs_attrs with _ | refs
  · exact ⟨rfl, rfl, hr⟩
  · have h := mark_refs_lists db fn c refs q r0
    exact ⟨h.1, h.2.1, h.2.2.trans hr⟩

theorem update_attrs_loop_lists (db : Dbd) (fn : Driver) (attrs : List AprTable) :
    ∀ q : Q2,
      (update_attrs_loop db fn q attrs).1.pk_attrs = q.pk_attrs ∧
      (update_attrs_loop db fn q attrs).1.unsigned_attrs = q.unsigned_attrs ∧
      (update_attrs_loop db fn q attrs).1.refs_attrs = q.refs_attrs := by
  induction attrs with
  | nil => intro q; exact ⟨rfl, rfl, rfl⟩
  | cons row rest ih =>
    intro q
    unfold update_attrs_loop
    split
    · exact ih q
    · rename_i c _
      dsimp only
      have hl := refs_step_lists db fn c q
        (mark_matching q.unsigned_attrs c "is_unsigned"
          (mark_matching q.pk_attrs c "is_primary_key" row))
      obtain ⟨h1, h2, h3⟩ := ih (match q.refs_attrs with
        | none => (q, mark_matching q.unsigned_attrs c "is_unsigned"
            (mark_matching q.pk_attrs c "is_primary_key" row))
        | some refs => mark_refs db fn c q
            (mark_matching q.unsigned_attrs c "is_unsigned"
              (mark_matching q.pk_attrs c "is_primary_key" row)) refs).1
      exact ⟨h1.trans hl.1, h2.trans hl.2.1, h3.trans hl.2.2⟩

theorem update_attrs_loop_enriched (db : Dbd) (fn : Driver) (attrs : List AprTable) :
    ∀ q : Q2, List.Forall₂ (enriched q.pk_attrs q.unsigned_attrs q.refs_attrs) attrs
      (update_attrs_loop db fn q attrs).2 := by
  induction attrs with
  | nil => intro q; exact List.Forall₂.nil
  | cons row rest ih =>
    intro q
    unfold update_attrs_loop
    cases hc : apr_table_get row "column_name" with
    | none => exact List.Forall₂.cons (enriched_no_name _ _ _ row hc) (ih q)
    | some c =>
      dsimp only
      have hstep := enriched_step db fn q row c hc
      have hl := refs_step_lists db fn c q
        (mark_matching q.unsigned_attrs c "is_unsigned"
          (mark_matching q.pk_attrs c "is_primary_key" row))
      have hrest := ih (match q.refs_attrs with
          | none => (q, mark_matching q.unsigned_attrs c "is_unsigned"
              (mark_matching q.pk_attrs c "is_primary_key" row))
          | some refs => mark_refs db fn c q
              (mark_matching q.unsigned_attrs c "is_unsigned"
                (mark_matching q.pk_attrs c "is_primary_key" row)) refs).1
      rw [hl.1, hl.2.1, hl.2.2] at hrest
      exact List.Forall₂.cons hstep hrest

/-- C32: `q2_ischema_update_attrs` returns, and the attribute list it leaves
is related to the one before row by row (same length and order): the column
name is kept; an attribute named by the primary-key list has `is_primary_key`
1, one named by the unsigned list has `is_unsigned` 1, one named by the
foreign-key list has `is_foreign_key` 1 and the referenced schema, table and
column of the (last) foreign-key row of that name; an attribute named by none
of the three lists, or without name, is unchanged. -/
theorem update_attrs_enriches (db : Dbd) (fn : Driver) (q2 : Q2) (attrs : List AprTable)
    (ha : q2.attributes = some attrs) :
    ∃ q2a rows, q2_ischema_update_attrs db fn q2 = Run.ok q2a ∧
      q2a.attributes = some rows ∧ rows.length = attrs.length ∧
      q2a.pk_attrs = q2.pk_attrs ∧ q2a.unsigned_attrs = q2.unsigned_attrs ∧
      q2a.refs_attrs = q2.refs_attrs ∧
      List.Forall₂ (enriched q2.pk_attrs q2.unsigned_attrs q2.refs_attrs) attrs rows := by
  have hf := update_attrs_loop_enriched db fn attrs q2
  have hl := update_attrs_loop_lists db fn attrs q2
  refine ⟨{ (update_attrs_loop db fn q2 attrs).1 with
      attributes := some (update_attrs_loop db fn q2 attrs).2 },
    (update_attrs_loop db fn q2 attrs).2, ?_, rfl, (List.Forall₂.length_eq hf).symm,
    hl.1, hl.2.1, hl.2.2, hf⟩
  unfold q2_ischema_update_attrs
  rw [ha]

/-- Witness of `update_attrs_enriches`: the table `orders(id, customer_id)`
with the primary key `id` and the foreign key `customer_id` to
`shop.customers.id`. -/
theorem update_attrs_enriches_witness :
    (∃ q2a rows, q2_ischema_update_attrs (ex_dbd ex_orders_schema)
        (ex_driver ex_orders_schema) (ex_orders_loaded Q2_DBD_MYSQL (some [ex_mysql_fk]))
        = Run.ok q2a ∧
      q2a.attributes = some rows ∧ rows.length = 2 ∧
      q2a.pk_attrs = some [[("column_name", some "id")]] ∧ q2a.unsigned_attrs = none ∧
      q2a.refs_attrs = some [ex_mysql_fk] ∧
      List.Forall₂ (enriched (some [[("column_name", some "id")]]) none (some [ex_mysql_fk]))
        [ex_sqlt3_column "id", ex_sqlt3_column "customer_id"] rows) ∧
    (let r := q2_ischema_update_attrs (ex_dbd ex_orders_schema) (ex_driver ex_orders_schema)
        (ex_orders_loaded Q2_DBD_MYSQL (some [ex_mysql_fk]))
     attr_value r 0 "is_primary_key" = some "1" ∧
     attr_value r 0 "is_foreign_key" = some "0" ∧
     attr_value r 1 "is_primary_key" = some "0" ∧
     attr_value r 1 "is_foreign_key" = some "1" ∧
     attr_value r 1 "referenced_schema" = some "shop" ∧
     attr_value r 1 "referenced_table" = some "customers" ∧
     attr_value r 1 "referenced_column" = some "id") :=
  ⟨update_attrs_enriches (ex_dbd ex_orders_schema) (ex_driver ex_orders_schema)
    (ex_orders_loaded Q2_DBD_MYSQL (some [ex_mysql_fk]))
    [ex_sqlt3_column "id", ex_sqlt3_column "customer_id"] rfl, by decide⟩

end LibQ2
